import Mathlib

/-!
# ReShade OpenGL runtime: effect compiler and texture upload helpers

A shallow embedding of parts of `source/Runtimes/GLRuntime.cpp`:

* `GLEffectCompiler::FixName`, `VisitType`, `VisitTypeClass`, `PrintCast`
  (type lowering and cast insertion),
* `GLEffectCompiler::VisitUniform` (uniform layout),
* `FlipBC1Block` .. `FlipBC5Block` and `FlipImageData` (vertical image flip),
* `GLRuntime::OnInit`, `OnFramebufferAttachment`, `OnDrawCall` and `DetectDepthSource`
  (depth source detection),
* `GLEffectCompiler::VisitTechniquePass` (render targets and viewport of a pass),
* `GLEffectCompiler::VisitShaderParameter` and `FixNameWithSemantic` (stage interface),
* `GLEffectCompiler::Visit` for `Literal`, `Constructor`, `Binary`, `Swizzle`, `Assignment`
  and `Intrinsic` (expression lowering),
* `GLEffectCompiler::VisitTechniquePassShader` (the source text of a stage),
* `GLEffectCompiler::VisitTexture`, `VisitSampler`, `VisitTechnique` and `Compile`
  (the objects registered with the runtime),
* the end of `GLEffectCompiler::Visit` for `Call` and the loop of `Compile` over the
  functions (function dependencies),
* `GLRuntime::Screenshot` (the flip of the read-back image).

Strings are Lean strings, `std::to_string` on an unsigned value is `toString` on
`Nat`.  Byte buffers are lists of natural numbers below 256; a pointer into a
buffer is the part of the buffer that starts at the pointed-to byte.  `size_t`
and `unsigned` quantities of the uniform layout are natural numbers (the layout
of an effect stays far below the word size).  A read the C++ code would perform
outside an array, or through a null pointer, makes the embedded function return
`none`.  A `GLfloat` counter of the depth-source heuristic is an IEEE 754 binary32
number and every operation on it is rounded to single precision; a `float` of a
literal or of the shader text is the rational number it stands for.  The hash table of
the depth sources is the list of its entries in the order of iteration.  A sub-expression of an expression node is given by
its type and by the text the visitor appends for it.
-/

namespace ReShade

/-! ## Data model -/

/-- The base classes `FX::Nodes::Type::Class` named by the runtime. -/
inductive TypeClass where
  | Void | Bool | Int | Uint | Float | Sampler2D | Struct | String
  deriving DecidableEq, Repr

/-- The qualifiers `FX::Nodes::Type::Qualifier` named by the runtime. -/
inductive Qualifier where
  | Linear | NoPerspective | Centroid | NoInterpolation | InOut | In | Out | Uniform | Const
  deriving DecidableEq, Repr

/-- The part of a `FX::Nodes::Struct` node that type lowering reads. -/
structure StructDef where
  Name : String
  Namespace : String
  deriving DecidableEq, Repr

/-- Modelled from the spec: `FX::Nodes::Type` is declared in `FX/ParserNodes.hpp`,
which is not part of the sources at hand.  The fields are in the order of the
aggregate initialiser used by `PrintCast`; the qualifier bitset is the list of
the qualifiers that are set (the bitset `0` is the empty list); `Definition` is
a possibly null pointer to the struct declaration. -/
structure FXType where
  BaseClass : TypeClass
  Qualifiers : List Qualifier
  Rows : Nat
  Cols : Nat
  ArrayLength : Nat
  Definition : Option StructDef
  deriving DecidableEq, Repr

namespace FXType

/-- Modelled from the spec: `Type::HasQualifier`, membership in the qualifier bitset. -/
def HasQualifier (t : FXType) (q : Qualifier) : Bool := decide (q ∈ t.Qualifiers)

/-- Modelled from the spec: `Type::IsMatrix`; "matrix types have both rows>1 and cols>1". -/
def IsMatrix (t : FXType) : Bool := decide (1 < t.Rows) && decide (1 < t.Cols)

/-- Modelled from the spec: `Type::IsVector`; more than one row and not a matrix. -/
def IsVector (t : FXType) : Bool := decide (1 < t.Rows) && !t.IsMatrix

/-- Modelled from the spec: `Type::IsArray`; "arrays have length ≥0 (0 = unsized)",
the compiler tests `ArrayLength != 0`. -/
def IsArray (t : FXType) : Bool := decide (t.ArrayLength ≠ 0)

/-- A struct-class type points to its declaration (the pointer that
`VisitTypeClass` dereferences is not null). -/
def WellFormed (t : FXType) : Prop := t.BaseClass = TypeClass.Struct → t.Definition ≠ none

instance (t : FXType) : Decidable t.WellFormed := by
  unfold WellFormed; exact inferInstance

end FXType

/-! ## Name lowering -/

/-- The function `boost::replace_all_copy` for a search text of two characters `a b`:
scanning from the left, every occurrence of `a b` is replaced by `rep` and the
scan continues behind the replaced occurrence. -/
def replaceAllChars (a b : Char) (rep : List Char) : List Char → List Char
  | [] => []
  | [c] => [c]
  | c :: d :: rest =>
    if c = a ∧ d = b then rep ++ replaceAllChars a b rep rest
    else c :: replaceAllChars a b rep (d :: rest)

/-- The call `boost::replace_all_copy(s, "ab", rep)` on strings. -/
def replace_all_copy (s : String) (a b : Char) (rep : String) : String :=
  String.mk (replaceAllChars a b rep.data s.data)

/-- The names compared with `name ==` in `FixName`, in source order. -/
def denyList : List String :=
  ["common", "partition", "input", "ouput", "active", "filter", "superp",
   "invariant", "lowp", "mediump", "highp", "precision", "patch", "subroutine",
   "abs", "sign", "all", "any", "sin", "sinh", "cos", "cosh", "tan", "tanh", "asin",
   "acos", "atan", "exp", "exp2", "log", "log2", "sqrt", "inversesqrt", "ceil",
   "floor", "fract", "trunc", "round", "radians", "degrees", "length", "normalize",
   "transpose", "determinant", "intBitsToFloat", "uintBitsToFloat", "floatBitsToInt",
   "floatBitsToUint", "matrixCompMult", "not", "lessThan", "greaterThan",
   "lessThanEqual", "greaterThanEqual", "equal", "notEqual", "dot", "cross",
   "distance", "pow", "modf", "frexp", "ldexp", "min", "max", "step", "reflect",
   "texture", "textureOffset", "fma", "mix", "clamp", "smoothstep", "refract",
   "faceforward", "textureLod", "textureLodOffset", "texelFetch", "main"]

/-- The function `GLEffectCompiler::FixName`. -/
def FixName (name ns : String) : String :=
  let res := replace_all_copy ns ':' ':' "_NS"
  let res := if "gl_".data.isPrefixOf name.data || decide (name ∈ denyList) then res ++ "_" else res
  res ++ replace_all_copy name '_' '_' "_US"

/-- Specification of the escape of a run of `k` underscores ("double-underscore sequences
are escaped"): `_US` for every two underscores of the run, and a single underscore for
the one left over in a run of odd length. -/
def specEscapeRun (k : Nat) : List Char :=
  (List.replicate (k / 2) ['_', 'U', 'S']).flatten ++ List.replicate (k % 2) '_'

/-- Specification of the escaped text behind a run of `k` underscores: every maximal run
of underscores is replaced by its escape, every other character is kept. -/
def specEscapeFrom (k : Nat) : List Char → List Char
  | [] => specEscapeRun k
  | c :: rest =>
    if c = '_' then specEscapeFrom (k + 1) rest
    else specEscapeRun k ++ c :: specEscapeFrom 0 rest

/-- Specification of the escaped form of a text. -/
def specEscape (l : List Char) : List Char := specEscapeFrom 0 l

/-! ## Type lowering -/

/-- The function `GLEffectCompiler::VisitTypeClass`: appends the target-language
name of the type to `output`.  A struct-class type with a null `Definition`
gives `none`. -/
def VisitTypeClass (output : String) (type : FXType) : Option String :=
  match type.BaseClass with
  | TypeClass.Void => some (output ++ "void")
  | TypeClass.Bool =>
    if type.IsMatrix then some (output ++ ("mat" ++ toString type.Rows ++ "x" ++ toString type.Cols))
    else if type.IsVector then some (output ++ ("bvec" ++ toString type.Rows))
    else some (output ++ "bool")
  | TypeClass.Int =>
    if type.IsMatrix then some (output ++ ("mat" ++ toString type.Rows ++ "x" ++ toString type.Cols))
    else if type.IsVector then some (output ++ ("ivec" ++ toString type.Rows))
    else some (output ++ "int")
  | TypeClass.Uint =>
    if type.IsMatrix then some (output ++ ("mat" ++ toString type.Rows ++ "x" ++ toString type.Cols))
    else if type.IsVector then some (output ++ ("uvec" ++ toString type.Rows))
    else some (output ++ "uint")
  | TypeClass.Float =>
    if type.IsMatrix then some (output ++ ("mat" ++ toString type.Rows ++ "x" ++ toString type.Cols))
    else if type.IsVector then some (output ++ ("vec" ++ toString type.Rows))
    else some (output ++ "float")
  | TypeClass.Sampler2D => some (output ++ "sampler2D")
  | TypeClass.Struct =>
    match type.Definition with
    | some d => some (output ++ FixName d.Name d.Namespace)
    | none => none
  | TypeClass.String => some output

/-- The function `GLEffectCompiler::VisitType`: the qualifier keywords, then the
type name. -/
def VisitType (output : String) (type : FXType) : Option String :=
  let output := if type.HasQualifier Qualifier.Linear then output ++ "smooth " else output
  let output := if type.HasQualifier Qualifier.NoPerspective then output ++ "noperspective " else output
  let output := if type.HasQualifier Qualifier.Centroid then output ++ "centroid " else output
  let output := if type.HasQualifier Qualifier.NoInterpolation then output ++ "flat " else output
  let output :=
    if type.HasQualifier Qualifier.InOut then output ++ "inout "
    else if type.HasQualifier Qualifier.In then output ++ "in "
    else if type.HasQualifier Qualifier.Out then output ++ "out "
    else if type.HasQualifier Qualifier.Uniform then output ++ "uniform "
    else output
  let output := if type.HasQualifier Qualifier.Const then output ++ "const " else output
  VisitTypeClass output type

/-! ## Cast insertion -/

/-- The local array `const char subscript[4]` of `PrintCast`. -/
def subscript : List Char := ['x', 'y', 'z', 'w']

/-- A loop `for (i = lo; i < hi; ++i) code += subscript[idx i]`, given the list of
the values `i` takes; a read outside `subscript` gives `none`. -/
def appendSubscripts (idx : Nat → Nat) : List Nat → String → Option String
  | [], code => some code
  | i :: is, code =>
    match subscript[idx i]? with
    | none => none
    | some c => appendSubscripts idx is (code.push c)

/-- The function `GLEffectCompiler::PrintCast`: the text to put before and behind an
expression of type `from_` to make it an expression of type `to_`. -/
def PrintCast (from_ to_ : FXType) : Option (String × String) :=
  let wrap : Option (String × String) :=
    if from_.BaseClass ≠ to_.BaseClass ∧ !(from_.IsMatrix && to_.IsMatrix) then
      let type : FXType := ⟨to_.BaseClass, [], from_.Rows, from_.Cols, 0, to_.Definition⟩
      match VisitType "" type with
      | none => none
      | some first => some (first.push '(', "".push ')')
    else some ("", "")
  match wrap with
  | none => none
  | some (first, second) =>
    if 0 < from_.Rows ∧ from_.Rows < to_.Rows then
      let second := second.push '.'
      match appendSubscripts (fun i => i) (List.range' 0 from_.Rows) second with
      | none => none
      | some second =>
        match appendSubscripts (fun _ => from_.Rows - 1)
            (List.range' from_.Rows (to_.Rows - from_.Rows)) second with
        | none => none
        | some second => some (first, second)
    else if to_.Rows < from_.Rows then
      let second := second.push '.'
      match appendSubscripts (fun i => i) (List.range' 0 to_.Rows) second with
      | none => none
      | some second => some (first, second)
    else some (first, second)

/-! ## Uniform layout -/

/-- The values of `Uniform::Type` that `VisitUniform` assigns. -/
inductive UniformType where
  | Bool | Int | Uint | Float
  deriving DecidableEq, Repr

/-- Modelled from the spec: the runtime's `Uniform` record is declared in `Runtime.hpp`,
which is not part of the sources at hand: "name, base type, rows/cols/element-count,
computed storage size in bytes, computed byte offset into a shared backing buffer".
`BaseType` is `none` when `VisitUniform` leaves it at its initial value. -/
structure Uniform where
  Name : String
  BaseType : Option UniformType
  Rows : Nat
  Columns : Nat
  Elements : Nat
  StorageSize : Nat
  StorageOffset : Nat
  deriving DecidableEq, Repr

/-- The part of a `FX::Nodes::Variable` node that `VisitUniform` reads for the layout. -/
structure Variable where
  Name : String
  Namespace : String
  Type_ : FXType
  deriving DecidableEq, Repr

/-- The state the uniform layout works on: the compiler's cursor `_currentGlobalSize`
and the runtime's table of constants, in the order of the `AddConstant` calls. -/
structure UniformLayout where
  _currentGlobalSize : Nat
  Constants : List Uniform
  deriving DecidableEq, Repr

/-- The function `GLEffectCompiler::VisitUniform`, lines 2202-2231 and 2249: the new
`Uniform` record, its storage size, the move of the cursor, the offset, and the
registration with the runtime.  (The declaration text of lines 2190-2200 and the
fill of the backing store of lines 2235-2247 do not take part in the layout.) -/
def VisitUniform (node : Variable) (st : UniformLayout) : UniformLayout :=
  let Rows := node.Type_.Rows
  let Columns := node.Type_.Cols
  let Elements := node.Type_.ArrayLength
  let StorageSize := Rows * Columns * max 1 Elements
  let sized : Option UniformType × Nat :=
    match node.Type_.BaseClass with
    | TypeClass.Bool => (some UniformType.Bool, StorageSize * 4)
    | TypeClass.Int => (some UniformType.Int, StorageSize * 4)
    | TypeClass.Uint => (some UniformType.Uint, StorageSize * 4)
    | TypeClass.Float => (some UniformType.Float, StorageSize * 4)
    | _ => (none, StorageSize)
  let BaseType := sized.1
  let StorageSize := sized.2
  let alignment := 16 - (st._currentGlobalSize % 16)
  let _currentGlobalSize := st._currentGlobalSize +
    (if alignment < StorageSize ∧ (alignment ≠ 16 ∨ StorageSize ≤ 16)
      then StorageSize + alignment else StorageSize)
  let StorageOffset := _currentGlobalSize - StorageSize
  { _currentGlobalSize := _currentGlobalSize,
    Constants := st.Constants ++
      [⟨node.Name, BaseType, Rows, Columns, Elements, StorageSize, StorageOffset⟩] }

/-- The uniform loop of `GLEffectCompiler::Compile` on a sequence of plain uniform
declarations, from the empty layout (`_currentGlobalSize(0)`, no constants). -/
def layoutUniforms (nodes : List Variable) : UniformLayout :=
  nodes.foldl (fun st node => VisitUniform node st) ⟨0, []⟩

/-- A scalar `float` uniform declaration. -/
def floatUniform (name : String) : Variable :=
  ⟨name, "", ⟨TypeClass.Float, [Qualifier.Uniform], 1, 1, 0, none⟩⟩

/-- A `float4` uniform declaration (a float vector of four rows). -/
def float4Uniform (name : String) : Variable :=
  ⟨name, "", ⟨TypeClass.Float, [Qualifier.Uniform], 4, 1, 0, none⟩⟩

/-- A uniform declaration of struct type: no rows, no columns. -/
def structUniform (name : String) : Variable :=
  ⟨name, "", ⟨TypeClass.Struct, [Qualifier.Uniform], 0, 0, 0, some ⟨"S", ""⟩⟩⟩

/-! ## Vertical flip of texture data -/

/-- Modelled from the spec: the enumeration `Texture::PixelFormat` is declared in
`Runtime.hpp`, which is not part of the sources at hand; these are the values that
`LiteralToFormat` assigns to a texture. -/
inductive PixelFormat where
  | Unknown | R8 | R16F | R32F | RG8 | RG16 | RG16F | RG32F | RGBA8 | RGBA16 | RGBA16F
  | RGBA32F | DXT1 | DXT3 | DXT5 | LATC1 | LATC2
  deriving DecidableEq, Repr

/-- The part of the runtime's `Texture` record that `FlipImageData` reads. -/
structure Texture where
  Width : Nat
  Height : Nat
  Format : PixelFormat
  deriving DecidableEq, Repr

/-- The statement `std::swap(block[i], block[j])`. -/
def swapBytes (block : List Nat) (i j : Nat) : List Nat :=
  (block.set i (block.getD j 0)).set j (block.getD i 0)

/-- A call `f(data + off)` of a routine that works in place behind a pointer: the bytes
in front of the pointer stay, the rest is what `f` leaves. -/
def atOffset (f : List Nat → List Nat) (off : Nat) (data : List Nat) : List Nat :=
  data.take off ++ f (data.drop off)

/-- The call `std::memcpy(data + off, src, src.length)`. -/
def memcpy (data : List Nat) (off : Nat) (src : List Nat) : List Nat :=
  data.take off ++ src ++ data.drop (off + src.length)

/-- The function `FlipBC1Block`. -/
def FlipBC1Block (block : List Nat) : List Nat :=
  let block := swapBytes block 4 7
  swapBytes block 5 6

/-- The function `FlipBC2Block`. -/
def FlipBC2Block (block : List Nat) : List Nat :=
  let block := swapBytes block 0 6
  let block := swapBytes block 1 7
  let block := swapBytes block 2 4
  let block := swapBytes block 3 5
  atOffset FlipBC1Block 8 block

/-- The function `FlipBC4Block`; `static_cast<unsigned char>` is the remainder modulo 256. -/
def FlipBC4Block (block : List Nat) : List Nat :=
  let line_0_1 := block.getD 2 0 + 256 * (block.getD 3 0 + 256 * block.getD 4 0)
  let line_2_3 := block.getD 5 0 + 256 * (block.getD 6 0 + 256 * block.getD 7 0)
  let line_1_0 := ((line_0_1 &&& 0x000FFF) <<< 12) ||| ((line_0_1 &&& 0xFFF000) >>> 12)
  let line_3_2 := ((line_2_3 &&& 0x000FFF) <<< 12) ||| ((line_2_3 &&& 0xFFF000) >>> 12)
  let block := block.set 2 ((line_3_2 &&& 0xFF) % 256)
  let block := block.set 3 (((line_3_2 &&& 0xFF00) >>> 8) % 256)
  let block := block.set 4 (((line_3_2 &&& 0xFF0000) >>> 16) % 256)
  let block := block.set 5 ((line_1_0 &&& 0xFF) % 256)
  let block := block.set 6 (((line_1_0 &&& 0xFF00) >>> 8) % 256)
  block.set 7 (((line_1_0 &&& 0xFF0000) >>> 16) % 256)

/-- The function `FlipBC3Block`. -/
def FlipBC3Block (block : List Nat) : List Nat :=
  let block := FlipBC4Block block
  atOffset FlipBC1Block 8 block

/-- The function `FlipBC5Block`. -/
def FlipBC5Block (block : List Nat) : List Nat :=
  let block := FlipBC4Block block
  atOffset FlipBC4Block 8 block

/-- The format switch of `FlipImageData`: `blocksize`, `compressed` and `compressedFunc`
(`none` is the null pointer); `none` for the formats that take the `default: return`. -/
def flipParameters : PixelFormat → Option (Nat × Bool × Option (List Nat → List Nat))
  | PixelFormat.R8 => some (1, false, none)
  | PixelFormat.RG8 => some (2, false, none)
  | PixelFormat.R32F => some (4, false, none)
  | PixelFormat.RGBA8 => some (4, false, none)
  | PixelFormat.RGBA16 => some (8, false, none)
  | PixelFormat.RGBA16F => some (8, false, none)
  | PixelFormat.RGBA32F => some (16, false, none)
  | PixelFormat.DXT1 => some (8, true, some FlipBC1Block)
  | PixelFormat.DXT3 => some (16, true, some FlipBC2Block)
  | PixelFormat.DXT5 => some (16, true, some FlipBC3Block)
  | PixelFormat.LATC1 => some (8, true, some FlipBC4Block)
  | PixelFormat.LATC2 => some (16, true, some FlipBC5Block)
  | _ => none

/-- The compressed branch of `FlipImageData` for `w` by `h` blocks: for `y = 0 .. h-1` the
block row at `dataLine = data + stride * (h - 1 - y)` is visited, and in it
`compressedFunc(dataLine + x)` is called for `x = 0, blocksize, ..` below `stride`,
that is for `x = k * blocksize` with `k = 0 .. w-1`. -/
def flipCompressed (compressedFunc : List Nat → List Nat) (blocksize w h : Nat)
    (data : List Nat) : List Nat :=
  let stride := w * blocksize
  (List.range h).foldl (fun data y =>
    let dataLine := stride * (h - 1 - y)
    (List.range w).foldl (fun data k =>
      atOffset compressedFunc (dataLine + k * blocksize) data) data) data

/-- The uncompressed branch of `FlipImageData`: for `y = 0, 1, ..` while `2 * y < h`,
the lines `y` and `h - 1 - y` are exchanged through `templine`. -/
def flipLines (blocksize w h : Nat) (data : List Nat) : List Nat :=
  let stride := w * blocksize
  (List.range ((h + 1) / 2)).foldl (fun data y =>
    let line1 := stride * y
    let line2 := stride * (h - 1 - y)
    let templine := (data.drop line1).take stride
    let data := memcpy data line1 ((data.drop line2).take stride)
    memcpy data line2 templine) data

/-- The function `FlipImageData`. -/
def FlipImageData (texture : Texture) (data : List Nat) : List Nat :=
  match flipParameters texture.Format with
  | none => data
  | some (blocksize, compressed, compressedFunc) =>
    if compressed then
      match compressedFunc with
      | some func => flipCompressed func blocksize ((texture.Width + 3) / 4)
          ((texture.Height + 3) / 4) data
      | none => data
    else
      flipLines blocksize texture.Width texture.Height data

/-- What the image-level proofs use of a per-block routine `f` for blocks of `bs` bytes:
it changes nothing behind its block, keeps the block length, is an involution on
blocks of bytes, and leaves bytes. -/
structure BlockFlip (bs : Nat) (f : List Nat → List Nat) : Prop where
  append : ∀ p q : List Nat, p.length = bs → f (p ++ q) = f p ++ q
  length_eq : ∀ p : List Nat, p.length = bs → (f p).length = bs
  involutive : ∀ p : List Nat, p.length = bs → (∀ b ∈ p, b < 256) → f (f p) = p
  bytes : ∀ p : List Nat, p.length = bs → (∀ b ∈ p, b < 256) → ∀ b ∈ f p, b < 256

/-! ## Single-precision arithmetic

A `GLfloat` is an IEEE 754 binary32 number: a rational number with a significand of 24
bits and an exponent from -126 to 127, an infinity or a NaN; every operation gives the
value of this kind nearest to the exact result, ties going to the even significand.
The two zeros are one value here: where the program divides by zero, the divisor is
the conversion of an unsigned count, which is never the negative zero, and no other
operation of the depth-source heuristic tells the zeros apart. -/

/-- The type `GLfloat`. -/
inductive GLfloat where
  | finite (value : ℚ)
  | infinity (negative : Bool)
  | nan
  deriving DecidableEq

/-- The power `2^e` of two. -/
def pow2 (e : Int) : ℚ :=
  if 0 ≤ e then ((2 ^ e.toNat : Nat) : ℚ) else 1 / ((2 ^ (-e).toNat : Nat) : ℚ)

/-- The number of halvings that take `n` below 2, which is `⌊log2 n⌋` for `0 < n ≤ fuel`. -/
def log2Fuel : Nat → Nat → Nat
  | 0, _ => 0
  | fuel + 1, n => if n < 2 then 0 else log2Fuel fuel (n / 2) + 1

/-- The exponent `⌊log2 |q|⌋` of a rational number `q ≠ 0`: the difference of the
exponents of numerator and denominator, or one less. -/
def floorLog2 (q : ℚ) : Int :=
  let e : Int := (log2Fuel q.num.natAbs q.num.natAbs : Int) - (log2Fuel q.den q.den : Int)
  if pow2 e ≤ |q| then e else e - 1

/-- The exponent of the binary32 numbers around `q`: `⌊log2 |q|⌋`, and -126 in the
subnormal range. -/
def GLfloat.exponent (q : ℚ) : Int :=
  if q = 0 then -126 else max (floorLog2 q) (-126)

/-- The integer nearest to `x`, the even one of the two where `x` is half-way. -/
def roundEven (x : ℚ) : Int :=
  if x - ⌊x⌋ < 1 / 2 then ⌊x⌋
  else if x - ⌊x⌋ > 1 / 2 then ⌊x⌋ + 1
  else if ⌊x⌋ % 2 = 0 then ⌊x⌋ else ⌊x⌋ + 1

/-- The multiple of `2^(e - 23)` nearest to `q`, where `e` is the exponent of `q`: the
rounding to 24 significant bits before the range of the exponent is looked at. -/
def GLfloat.roundValue (q : ℚ) : ℚ :=
  roundEven (q / pow2 (GLfloat.exponent q - 23)) * pow2 (GLfloat.exponent q - 23)

/-- The `GLfloat` nearest to `q`: an infinity where the rounded value is `2^128` or
more. -/
def GLfloat.round (q : ℚ) : GLfloat :=
  if (2 : ℚ) ^ 128 ≤ |GLfloat.roundValue q| then GLfloat.infinity (decide (q < 0))
  else GLfloat.finite (GLfloat.roundValue q)

/-- The conversion `static_cast<GLfloat>(n)` of an unsigned integer. -/
def GLfloat.ofNat (n : Nat) : GLfloat := GLfloat.round n

/-- The negation `-a`. -/
def GLfloat.neg : GLfloat → GLfloat
  | GLfloat.finite a => GLfloat.finite (-a)
  | GLfloat.infinity s => GLfloat.infinity (!s)
  | GLfloat.nan => GLfloat.nan

/-- The sum `a + b`. -/
def GLfloat.add : GLfloat → GLfloat → GLfloat
  | GLfloat.finite a, GLfloat.finite b => GLfloat.round (a + b)
  | GLfloat.finite _, GLfloat.infinity t => GLfloat.infinity t
  | GLfloat.infinity s, GLfloat.finite _ => GLfloat.infinity s
  | GLfloat.infinity s, GLfloat.infinity t => if s = t then GLfloat.infinity s else GLfloat.nan
  | GLfloat.nan, _ => GLfloat.nan
  | _, GLfloat.nan => GLfloat.nan

/-- The difference `a - b`. -/
def GLfloat.sub (a b : GLfloat) : GLfloat := GLfloat.add a (GLfloat.neg b)

/-- The product `a * b`. -/
def GLfloat.mul : GLfloat → GLfloat → GLfloat
  | GLfloat.finite a, GLfloat.finite b => GLfloat.round (a * b)
  | GLfloat.finite a, GLfloat.infinity t =>
      if a = 0 then GLfloat.nan else GLfloat.infinity (xor (decide (a < 0)) t)
  | GLfloat.infinity s, GLfloat.finite b =>
      if b = 0 then GLfloat.nan else GLfloat.infinity (xor s (decide (b < 0)))
  | GLfloat.infinity s, GLfloat.infinity t => GLfloat.infinity (xor s t)
  | GLfloat.nan, _ => GLfloat.nan
  | _, GLfloat.nan => GLfloat.nan

/-- The quotient `a / b`; a zero divisor is the positive zero. -/
def GLfloat.div : GLfloat → GLfloat → GLfloat
  | GLfloat.finite a, GLfloat.finite b =>
      if b = 0 then (if a = 0 then GLfloat.nan else GLfloat.infinity (decide (a < 0)))
      else GLfloat.round (a / b)
  | GLfloat.finite _, GLfloat.infinity _ => GLfloat.finite 0
  | GLfloat.infinity s, GLfloat.finite b => GLfloat.infinity (xor s (decide (b < 0)))
  | GLfloat.infinity _, GLfloat.infinity _ => GLfloat.nan
  | GLfloat.nan, _ => GLfloat.nan
  | _, GLfloat.nan => GLfloat.nan

/-- The comparison `a <= b`, false where an operand is a NaN. -/
def GLfloat.le : GLfloat → GLfloat → Bool
  | GLfloat.finite a, GLfloat.finite b => decide (a ≤ b)
  | GLfloat.finite _, GLfloat.infinity t => !t
  | GLfloat.infinity s, GLfloat.finite _ => s
  | GLfloat.infinity s, GLfloat.infinity t => s || !t
  | GLfloat.nan, _ => false
  | _, GLfloat.nan => false

/-- The comparison `a < b`, false where an operand is a NaN. -/
def GLfloat.lt : GLfloat → GLfloat → Bool
  | GLfloat.finite a, GLfloat.finite b => decide (a < b)
  | GLfloat.finite _, GLfloat.infinity t => !t
  | GLfloat.infinity s, GLfloat.finite _ => s
  | GLfloat.infinity s, GLfloat.infinity t => s && !t
  | GLfloat.nan, _ => false
  | _, GLfloat.nan => false

/-- A whole-number literal; the literals used are below `2^24` and so are `GLfloat`
values. -/
instance (n : Nat) : OfNat GLfloat n := ⟨GLfloat.finite (OfNat.ofNat n)⟩

/-- A decimal literal such as `1.2f`: the `GLfloat` nearest to the decimal number. -/
instance : OfScientific GLfloat :=
  ⟨fun m s e => GLfloat.round (OfScientific.ofScientific m s e)⟩

instance : Add GLfloat := ⟨GLfloat.add⟩

instance : Sub GLfloat := ⟨GLfloat.sub⟩

instance : Mul GLfloat := ⟨GLfloat.mul⟩

instance : Div GLfloat := ⟨GLfloat.div⟩

instance : LE GLfloat := ⟨fun a b => GLfloat.le a b = true⟩

instance : LT GLfloat := ⟨fun a b => GLfloat.lt a b = true⟩

instance (a b : GLfloat) : Decidable (a ≤ b) :=
  inferInstanceAs (Decidable (GLfloat.le a b = true))

instance (a b : GLfloat) : Decidable (a < b) :=
  inferInstanceAs (Decidable (GLfloat.lt a b = true))

/-! ## Depth-source heuristic

The two counters of an entry are `GLfloat` values and the operations on them are the
single-precision operations above.  The `double` products of the size test are read as
the rational numbers they denote.  The hash table `_depthSourceTable` is the list of
its entries in iteration order. -/

/-- The OpenGL constant `GL_NONE`. -/
def GL_NONE : Nat := 0

/-- The OpenGL constant `GL_RENDERBUFFER`. -/
def GL_RENDERBUFFER : Nat := 0x8D41

/-- The OpenGL constant `GL_DEPTH24_STENCIL8`. -/
def GL_DEPTH24_STENCIL8 : Nat := 0x88F0

/-- Modelled from the spec: the record `DepthSourceInfo` is declared in `GLRuntime.hpp`,
which is not part of the sources at hand: "width/height/mip-level/format, running
draw-call count and cumulative vertex count".  The first four fields are in the
order of the aggregate initialisers `{ width, height, 0, format }`; the two
counters are `GLfloat` (`OnDrawCall` stores `static_cast<GLfloat>` in one). -/
structure DepthSourceInfo where
  Width : Int
  Height : Int
  Level : Int
  Format : Int
  DrawCallCount : GLfloat
  DrawVerticesCount : GLfloat
  deriving DecidableEq

/-- The part of the runtime's `_stats` that the heuristic reads. -/
structure Statistics where
  DrawCalls : Nat
  deriving DecidableEq

/-- The part of `GLRuntime` the depth-source heuristic works on, with the two static
locals `cooldown` and `traffic` of `DetectDepthSource`. -/
structure DepthState where
  _width : Nat
  _height : Nat
  _stats : Statistics
  _depthSourceTable : List (Nat × DepthSourceInfo)
  _depthSource : Nat
  _depthTexture : Nat
  cooldown : Int
  traffic : Int
  deriving DecidableEq

/-- The lookup `_depthSourceTable.find(id)`. -/
def findDepthSource (table : List (Nat × DepthSourceInfo)) (id : Nat) : Option DepthSourceInfo :=
  (table.find? (fun it => it.1 == id)).map (fun it => it.2)

/-- The table key of an attachment: `object | (objecttarget == GL_RENDERBUFFER ?
0x80000000 : 0)`. -/
def depthSourceKey (object objecttarget : Nat) : Nat :=
  object ||| (if objecttarget = GL_RENDERBUFFER then 0x80000000 else 0)

/-- The runtime state left by the constructor `GLRuntime::GLRuntime`. -/
def DepthState.initial : DepthState :=
  ⟨0, 0, ⟨0⟩, [], 0, 0, 0, 0⟩

/-- The assignment `_depthSourceTable[id] = info`: the entry is overwritten where the key
exists and added otherwise. -/
def setDepthSource (id : Nat) (info : DepthSourceInfo) :
    List (Nat × DepthSourceInfo) → List (Nat × DepthSourceInfo)
  | [] => [(id, info)]
  | it :: rest => if it.1 = id then (id, info) :: rest else it :: setDepthSource id info rest

/-- The function `GLRuntime::OnInit` on a run in which every resource is created
(`glTexture` is the depth texture left by `glGenTextures`): the size, the default
depth entry with id 0 and the depth texture. -/
def OnInit (width height glTexture : Nat) (s : DepthState) : DepthState :=
  let defaultdepth : DepthSourceInfo := ⟨width, height, 0, GL_DEPTH24_STENCIL8, 0, 0⟩
  { s with _width := width, _height := height,
           _depthSourceTable := setDepthSource 0 defaultdepth s._depthSourceTable,
           _depthTexture := glTexture }

/-- The function `GLRuntime::OnFramebufferAttachment`.  `depthAttachment` tells whether
`attachment` is `GL_DEPTH_ATTACHMENT` or `GL_DEPTH_STENCIL_ATTACHMENT`, `internalFBO`
whether the bound framebuffer is one of `_defaultBackBufferFBO`, `_depthSourceFBO`,
`_blitFBO`; `width`, `height`, `format` are the values the graphics device reports
for the object. -/
def OnFramebufferAttachment (depthAttachment internalFBO : Bool) (objecttarget object : Nat)
    (level width height format : Int) (s : DepthState) : DepthState :=
  if object = 0 ∨ depthAttachment = false then s
  else if internalFBO then s
  else
    let id := depthSourceKey object objecttarget
    if (findDepthSource s._depthSourceTable id).isSome then s
    else
      let info : DepthSourceInfo :=
        if objecttarget = GL_RENDERBUFFER then ⟨width, height, 0, format, 0, 0⟩
        else ⟨width, height, level, format, 0, 0⟩
      { s with _depthSourceTable := s._depthSourceTable ++ [(id, info)] }

/-- Modelled from the spec: the base-class function `Runtime::OnDrawCall` is defined in
`Runtime.cpp`, which is not part of the sources at hand; the runtime records every
draw call ("the frame's total draw calls", "zero recorded draw calls since the last
present"). -/
def Runtime_OnDrawCall (s : DepthState) : DepthState :=
  { s with _stats := ⟨s._stats.DrawCalls + 1⟩ }

/-- The update of the entry found by `OnDrawCall` (lines 3313-3317):
`DrawCallCount = static_cast<GLfloat>(_stats.DrawCalls)` and
`DrawVerticesCount += vertices`, a single-precision sum with the converted `vertices`. -/
def recordDrawCall (DrawCalls vertices id : Nat) :
    List (Nat × DepthSourceInfo) → List (Nat × DepthSourceInfo)
  | [] => []
  | it :: rest =>
    if it.1 = id then
      (it.1, { it.2 with DrawCallCount := GLfloat.ofNat DrawCalls,
                         DrawVerticesCount :=
                           it.2.DrawVerticesCount + GLfloat.ofNat vertices }) :: rest
    else it :: recordDrawCall DrawCalls vertices id rest

/-- The function `GLRuntime::OnDrawCall`.  `fbo` is the bound draw framebuffer, and
`objecttarget`, `object` are what the graphics device reports for its depth
attachment. -/
def OnDrawCall (vertices fbo objecttarget object : Nat) (s : DepthState) : DepthState :=
  let s := Runtime_OnDrawCall s
  if fbo ≠ 0 ∧ objecttarget = GL_NONE then s
  else
    let object := if fbo ≠ 0 then object else 0
    let objecttarget := if fbo ≠ 0 then objecttarget else GL_NONE
    let id := depthSourceKey object objecttarget
    { s with _depthSourceTable := recordDrawCall s._stats.DrawCalls vertices id s._depthSourceTable }

/-- The score of `DetectDepthSource`:
`DrawVerticesCount * (1.2f - DrawCallCount / _stats.DrawCalls)`, computed in single
precision: `_stats.DrawCalls` is converted to `GLfloat`, and the quotient, the
difference and the product are rounded each. -/
def depthScore (DrawCalls : Nat) (info : DepthSourceInfo) : GLfloat :=
  info.DrawVerticesCount * (1.2 - info.DrawCallCount / GLfloat.ofNat DrawCalls)

/-- The size test of `DetectDepthSource`: `Width > _width * 0.95 && Width < _width * 1.05`
and the same for the height. -/
def depthSizeMatches (_width _height : Nat) (info : DepthSourceInfo) : Prop :=
  ((info.Width : ℚ) > _width * 0.95 ∧ (info.Width : ℚ) < _width * 1.05) ∧
  ((info.Height : ℚ) > _height * 0.95 ∧ (info.Height : ℚ) < _height * 1.05)

instance (w h : Nat) (info : DepthSourceInfo) : Decidable (depthSizeMatches w h info) := by
  unfold depthSizeMatches; exact inferInstance

/-- The loop of `DetectDepthSource` (lines 3642-3655) over the entries still to visit,
from the current `best` and `bestInfo`: the final `best` and `bestInfo`, and the
entries as the loop leaves them. -/
def scoringLoop (DrawCalls _width _height : Nat) :
    List (Nat × DepthSourceInfo) → Nat → DepthSourceInfo →
      Nat × DepthSourceInfo × List (Nat × DepthSourceInfo)
  | [], best, bestInfo => (best, bestInfo, [])
  | it :: rest, best, bestInfo =>
    if it.2.DrawCallCount = 0 then
      let r := scoringLoop DrawCalls _width _height rest best bestInfo
      (r.1, r.2.1, it :: r.2.2)
    else
      let chosen : Nat × DepthSourceInfo :=
        if depthScore DrawCalls it.2 ≥ depthScore DrawCalls bestInfo ∧
            depthSizeMatches _width _height it.2 then (it.1, it.2) else (best, bestInfo)
      let r := scoringLoop DrawCalls _width _height rest chosen.1 chosen.2
      (r.1, r.2.1, (it.1, { it.2 with DrawCallCount := 0, DrawVerticesCount := 0 }) :: r.2.2)

/-- The scoring pass of `DetectDepthSource` up to the choice of `best` (lines 3639-3655),
started with `best = 0` and `bestInfo = { 0, 0, 0, GL_NONE }`. -/
def scoringPass (s : DepthState) : Nat × DepthSourceInfo × List (Nat × DepthSourceInfo) :=
  scoringLoop s._stats.DrawCalls s._width s._height s._depthSourceTable 0
    ⟨0, 0, 0, GL_NONE, 0, 0⟩

/-- The function `GLRuntime::CreateDepthTexture` as far as `_depthTexture` goes;
`glTexture` is the texture the graphics device leaves, 0 when the creation fails. -/
def CreateDepthTexture (format : Int) (glTexture : Nat) (s : DepthState) : DepthState :=
  { s with _depthTexture := if format ≠ GL_NONE then glTexture else 0 }

/-- The function `GLRuntime::DetectDepthSource`.  `NetworkUpload` is the global traffic
counter, `glTexture` the outcome of a depth texture creation.  The result is `none`
where `_depthSourceTable.at` throws.  The framebuffer bindings done for the new
source do not touch the fields kept here. -/
def DetectDepthSource (NetworkUpload : Int) (glTexture : Nat) (s : DepthState) :
    Option DepthState :=
  if s.cooldown > 0 then
    some { s with cooldown := s.cooldown - 1,
                  traffic := s.traffic + (if NetworkUpload > 0 then 1 else 0) }
  else if s.traffic > 10 then
    some (CreateDepthTexture GL_NONE glTexture
      { s with cooldown := 30, traffic := 0, _depthSource := 0 })
  else
    let s := { s with cooldown := 30, traffic := 0 }
    let r := scoringPass s
    let best := r.1
    let s := { s with _depthSourceTable := r.2.2 }
    let found : Option DepthSourceInfo :=
      if best = 0 then findDepthSource s._depthSourceTable 0 else some r.2.1
    match found with
    | none => none
    | some bestInfo =>
      if s._depthSource ≠ best ∨ s._depthTexture = 0 then
        match findDepthSource s._depthSourceTable s._depthSource with
        | none => none
        | some previousInfo =>
          let s :=
            if (bestInfo.Width ≠ previousInfo.Width ∨ bestInfo.Height ≠ previousInfo.Height ∨
                bestInfo.Format ≠ previousInfo.Format) ∨ s._depthTexture = 0
            then CreateDepthTexture bestInfo.Format glTexture s else s
          some { s with _depthSource := best }
      else some s

/-- The calls that reach the depth-source heuristic, with what the graphics device and
the environment answer in them. -/
inductive DepthEvent where
  | FramebufferAttachment (depthAttachment internalFBO : Bool) (objecttarget object : Nat)
      (level width height format : Int)
  | DrawCall (vertices fbo objecttarget object : Nat)
  | Detect (NetworkUpload : Int) (glTexture : Nat)
  | StatsReset

/-- One call on the runtime.  `StatsReset` is the start of a new count of draw calls. -/
def DepthEvent.apply (s : DepthState) : DepthEvent → Option DepthState
  | DepthEvent.FramebufferAttachment d i t o l w h f =>
      some (OnFramebufferAttachment d i t o l w h f s)
  | DepthEvent.DrawCall v fbo t o => some (OnDrawCall v fbo t o s)
  | DepthEvent.Detect n g => DetectDepthSource n g s
  | DepthEvent.StatsReset => some { s with _stats := ⟨0⟩ }

/-- A sequence of calls after a successful `OnInit`; `none` where a call throws. -/
def runDepthEvents (width height glTexture : Nat) (events : List DepthEvent) :
    Option DepthState :=
  events.foldlM DepthEvent.apply (OnInit width height glTexture DepthState.initial)

/-- What holds in every state the runtime reaches: an entry without draw calls has no
vertices counted, the default entry with id 0 is in the table, and so is the selected
source. -/
def DepthState.Consistent (s : DepthState) : Prop :=
  (∀ it ∈ s._depthSourceTable, it.2.DrawCallCount = 0 → it.2.DrawVerticesCount = 0) ∧
  (findDepthSource s._depthSourceTable 0).isSome = true ∧
  (findDepthSource s._depthSourceTable s._depthSource).isSome = true

/-- A state before a scoring pass: presentation size 100 x 100, two draw calls in the
frame; candidate 5 is 1000 x 1000 with a million vertices, candidate 7 is 100 x 100
with ten vertices. -/
def depthExample : DepthState :=
  ⟨100, 100, ⟨2⟩,
   [(0, ⟨100, 100, 0, GL_DEPTH24_STENCIL8, 0, 0⟩),
    (5, ⟨1000, 1000, 0, GL_DEPTH24_STENCIL8, 1, 1000000⟩),
    (7, ⟨100, 100, 0, GL_DEPTH24_STENCIL8, 2, 10⟩)],
   0, 1, 0, 0⟩

/-- A state before a scoring pass in which the candidates 1 and 2, both of the
presentation size, have the same counters. -/
def depthTieExample : DepthState :=
  ⟨100, 100, ⟨2⟩,
   [(0, ⟨100, 100, 0, GL_DEPTH24_STENCIL8, 0, 0⟩),
    (1, ⟨100, 100, 0, GL_DEPTH24_STENCIL8, 1, 10⟩),
    (2, ⟨100, 100, 0, GL_DEPTH24_STENCIL8, 1, 10⟩)],
   0, 1, 0, 0⟩

/-- A state before a scoring pass in a frame of two draw calls: the candidates 1 and 2,
both of the presentation size, have the counters `D = 1`, `V = 1000001` and `D = 2`,
`V = 3500003`. -/
def depthRoundingExample : DepthState :=
  ⟨100, 100, ⟨2⟩,
   [(0, ⟨100, 100, 0, GL_DEPTH24_STENCIL8, 0, 0⟩),
    (1, ⟨100, 100, 0, GL_DEPTH24_STENCIL8, 1, 1000001⟩),
    (2, ⟨100, 100, 0, GL_DEPTH24_STENCIL8, 2, 3500003⟩)],
   0, 1, 0, 0⟩

/-- A run after `OnInit(100, 100)`: renderbuffer 3 is attached as depth buffer of a
framebuffer of the application and one draw call of 30 vertices is issued on it. -/
def depthRunExample : List DepthEvent :=
  [DepthEvent.FramebufferAttachment true false GL_RENDERBUFFER 3 0 100 100 GL_DEPTH24_STENCIL8,
   DepthEvent.DrawCall 30 1 GL_RENDERBUFFER 3]

/-! ## Pass assembly -/

/-- The OpenGL constant `GL_COLOR_ATTACHMENT0`. -/
def GL_COLOR_ATTACHMENT0 : Nat := 0x8CE0

/-- The record `FX::Location` as the diagnostics print it. -/
structure Location where
  Source : String
  Line : Nat
  Column : Nat
  deriving DecidableEq, Repr

/-- The calls into the graphics device that create or release an object during the
assembly of a pass or the binding of a resource (with `id` the name of the object), and
the allocation `glTexStorage2D` of the images of a texture. -/
inductive GLCall where
  | glGenFramebuffers (id : Nat)
  | glCreateProgram (id : Nat)
  | glDeleteProgram (id : Nat)
  | glCreateShader (id : Nat)
  | glDeleteShader (id : Nat)
  | glGenTextures (id0 id1 : Nat)
  | glDeleteTextures (id0 id1 : Nat)
  | glTexStorage2D (id levels internalformat width height : Nat)
  | glGenSamplers (id : Nat)
  | glGenBuffers (id : Nat)
  deriving DecidableEq, Repr

/-- The diagnostics of the compiler, `_errors` and `_isFatal`, and the record of the
objects it asked the graphics device for. -/
structure CompilerState where
  _errors : String
  _isFatal : Bool
  glCalls : List GLCall
  deriving DecidableEq, Repr

/-- The function `GLEffectCompiler::Error` for a message without format arguments. -/
def Error (location : Location) (formatted : String) (st : CompilerState) : CompilerState :=
  { st with
    _errors := st._errors ++ (location.Source ++ "(" ++ toString location.Line ++ ", " ++
      toString location.Column ++ "): error: " ++ formatted ++ "\n"),
    _isFatal := true }

/-- The function `GLEffectCompiler::Warning` for a message without format arguments. -/
def Warning (location : Location) (formatted : String) (st : CompilerState) : CompilerState :=
  { st with
    _errors := st._errors ++ (location.Source ++ "(" ++ toString location.Line ++ ", " ++
      toString location.Column ++ "): warning: " ++ formatted ++ "\n") }

/-- The part of a `GLTexture` the pass assembly reads: the name, the size and the two
image handles `ID[0]`, `ID[1]`. -/
structure GLTexture where
  Name : String
  Width : Nat
  Height : Nat
  ID : Nat × Nat
  deriving DecidableEq, Repr

/-- Modelled from the spec: the lookup `Runtime::GetTexture` is defined in `Runtime.cpp`,
which is not part of the sources at hand: "lookup-texture(by name)" in the table
of registered textures; a null pointer is `none`. -/
def GetTexture (textures : List GLTexture) (name : String) : Option GLTexture :=
  textures.find? (fun t => t.Name == name)

/-- The part of `FX::Nodes::Pass::States` the render-target logic reads: the eight
render-target slots (the name of the referenced texture variable, `none` for a null
pointer), the sRGB flag and whether the two shader stages are given.  The other
render states are copied into the pass descriptor field by field (lines 2270-2289)
and are left out here. -/
structure PassStates where
  RenderTargets : List (Option String)
  SRGBWriteEnable : Bool
  VertexShader : Bool
  PixelShader : Bool
  deriving DecidableEq, Repr

/-- The part of a `FX::Nodes::Pass` node read by `VisitTechniquePass`. -/
structure PassNode where
  Location : Location
  States : PassStates
  deriving DecidableEq, Repr

/-- The fields of `GLTechnique::Pass` that the render-target logic and the program
creation write; `DrawTextures` and `DrawBuffers` are the arrays of eight entries. -/
structure Pass where
  Program : Nat
  Framebuffer : Nat
  DrawTextures : List Nat
  ViewportWidth : Int
  ViewportHeight : Int
  DrawBuffers : List Nat
  FramebufferSRGB : Bool
  deriving DecidableEq, Repr

/-- What the graphics device and the window system answer during the assembly of one
pass: the new framebuffer, program and shader objects, the info log of a failed
compilation of the vertex and the fragment stage, the info log of a failed link
(`none` where the status is not `GL_FALSE`), and the size of the client rectangle
of the presentation window. -/
structure PassEnvironment where
  framebuffer : Nat
  program : Nat
  vertexShader : Nat
  fragmentShader : Nat
  vertexCompileLog : Option String
  fragmentCompileLog : Option String
  linkLog : Option String
  clientWidth : Int
  clientHeight : Int
  deriving DecidableEq, Repr

/-- The objects of the runtime the pass assembly refers to: the registered textures and
`_backbufferTexture[1]`. -/
structure RuntimeObjects where
  textures : List GLTexture
  _backbufferTexture1 : Nat
  deriving DecidableEq, Repr

/-- The render-target loop of `VisitTechniquePass` (lines 2297-2329) over the slots still
to visit.  The second component is `none` where the loop leaves the function by
`return`.  The conversions between `unsigned int` and `GLsizei` are the identity on
texture sizes. -/
def attachRenderTargets (runtime : RuntimeObjects) (node : PassNode) :
    List Nat → Pass → Bool → CompilerState → CompilerState × Option (Pass × Bool)
  | [], pass, backbufferFramebuffer, st => (st, some (pass, backbufferFramebuffer))
  | i :: rest, pass, backbufferFramebuffer, st =>
    match node.States.RenderTargets.getD i none with
    | none => attachRenderTargets runtime node rest pass backbufferFramebuffer st
    | some name =>
      match GetTexture runtime.textures name with
      | none => ({ st with _isFatal := true }, none)
      | some texture =>
        if pass.ViewportWidth ≠ 0 ∧ pass.ViewportHeight ≠ 0 ∧
            ((texture.Width : Int) ≠ pass.ViewportWidth ∨
              (texture.Height : Int) ≠ pass.ViewportHeight) then
          (Error node.Location
            "cannot use multiple rendertargets with different sized textures" st, none)
        else
          let id := if pass.FramebufferSRGB then texture.ID.2 else texture.ID.1
          let pass := { pass with
            ViewportWidth := texture.Width, ViewportHeight := texture.Height,
            DrawBuffers := pass.DrawBuffers.set i (GL_COLOR_ATTACHMENT0 + i),
            DrawTextures := pass.DrawTextures.set i id }
          attachRenderTargets runtime node rest pass false st

/-- The end of `VisitTechniquePassShader` (lines 2609-2621): a failed compilation appends
the info log to `_errors` and marks the compilation fatal. -/
def compileStage (log : Option String) (st : CompilerState) : CompilerState :=
  match log with
  | none => st
  | some log => { st with _errors := st._errors ++ log, _isFatal := true }

/-- The function `GLEffectCompiler::VisitTechniquePass`: the compiler state and the vector
`passes` after the call. -/
def VisitTechniquePass (env : PassEnvironment) (runtime : RuntimeObjects) (node : PassNode)
    (st : CompilerState) (passes : List Pass) : CompilerState × List Pass :=
  let pass : Pass :=
    { Program := 0, Framebuffer := env.framebuffer, DrawTextures := List.replicate 8 0,
      ViewportWidth := 0, ViewportHeight := 0, DrawBuffers := List.replicate 8 0,
      FramebufferSRGB := node.States.SRGBWriteEnable }
  let st := { st with glCalls := st.glCalls ++ [GLCall.glGenFramebuffers env.framebuffer] }
  match attachRenderTargets runtime node (List.range 8) pass true st with
  | (st, none) => (st, passes)
  | (st, some (pass, backbufferFramebuffer)) =>
    let pass :=
      if backbufferFramebuffer then
        { pass with
          DrawBuffers := pass.DrawBuffers.set 0 GL_COLOR_ATTACHMENT0,
          DrawTextures := pass.DrawTextures.set 0 runtime._backbufferTexture1,
          ViewportWidth := env.clientWidth, ViewportHeight := env.clientHeight }
      else pass
    let pass := { pass with Program := env.program }
    let st := { st with glCalls := st.glCalls ++ [GLCall.glCreateProgram env.program] }
    let st :=
      if node.States.VertexShader then
        compileStage env.vertexCompileLog
          { st with glCalls := st.glCalls ++ [GLCall.glCreateShader env.vertexShader] }
      else st
    let st :=
      if node.States.PixelShader then
        compileStage env.fragmentCompileLog
          { st with glCalls := st.glCalls ++ [GLCall.glCreateShader env.fragmentShader] }
      else st
    let shader0 := if node.States.VertexShader then env.vertexShader else 0
    let shader1 := if node.States.PixelShader then env.fragmentShader else 0
    let st := { st with glCalls := st.glCalls ++
      [GLCall.glDeleteShader shader0, GLCall.glDeleteShader shader1] }
    match env.linkLog with
    | some log =>
      ({ st with glCalls := st.glCalls ++ [GLCall.glDeleteProgram env.program],
                 _errors := st._errors ++ log, _isFatal := true }, passes)
    | none => (st, passes ++ [pass])

/-- The registered textures of a runtime with a 256 x 256, a 128 x 128 and an empty
texture. -/
def passExampleRuntime : RuntimeObjects :=
  ⟨[⟨"big", 256, 256, (11, 12)⟩, ⟨"small", 128, 128, (21, 22)⟩, ⟨"empty", 0, 0, (31, 32)⟩], 7⟩

/-- An environment in which every stage compiles and the program links; the client
rectangle is 1920 x 1080. -/
def passExampleEnvironment : PassEnvironment :=
  ⟨1, 2, 3, 4, none, none, none, 1920, 1080⟩

/-- A pass with the given textures in the first render-target slots. -/
def passExampleNode (targets : List (Option String)) : PassNode :=
  ⟨⟨"fx", 3, 5⟩, ⟨targets ++ List.replicate (8 - targets.length) none, false, true, true⟩⟩

/-! ## Stage interface declarations -/

/-- The OpenGL constant `GL_VERTEX_SHADER`. -/
def GL_VERTEX_SHADER : Nat := 0x8B31

/-- The OpenGL constant `GL_FRAGMENT_SHADER`. -/
def GL_FRAGMENT_SHADER : Nat := 0x8B30

/-- The function `GLEffectCompiler::FixNameWithSemantic`. -/
def FixNameWithSemantic (name semantic : String) (shadertype : Nat) : String :=
  if semantic = "SV_VERTEXID" ∨ semantic = "VERTEXID" then "gl_VertexID"
  else if semantic = "SV_INSTANCEID" then "gl_InstanceID"
  else if (semantic = "SV_POSITION" ∨ semantic = "POSITION") ∧ shadertype = GL_VERTEX_SHADER
    then "gl_Position"
  else if (semantic = "SV_POSITION" ∨ semantic = "VPOS") ∧ shadertype = GL_FRAGMENT_SHADER
    then "gl_FragCoord"
  else if (semantic = "SV_DEPTH" ∨ semantic = "DEPTH") ∧ shadertype = GL_FRAGMENT_SHADER
    then "gl_FragDepth"
  else FixName name ""

/-- The C library predicate `isspace` in the "C" locale. -/
def isspace (c : Char) : Bool :=
  c = ' ' || c = '\t' || c = '\n' || c = '\x0b' || c = '\x0c' || c = '\r'

/-- The value of a run of decimal digits, read from the left onto `acc`. -/
def digitsValue (acc : Nat) (digits : List Char) : Nat :=
  digits.foldl (fun a c => a * 10 + (c.toNat - 48)) acc

/-- The C library function `strtol(s, nullptr, 10)` for a `long` of 32 bits, as on the
platform the runtime is built for: white space is skipped, an optional sign and the
longest run of decimal digits are read, and a value outside the range of `long` is
replaced by `LONG_MAX` or `LONG_MIN`. -/
def strtol (s : List Char) : Int :=
  let s := s.dropWhile isspace
  let signed : Bool × List Char :=
    match s with
    | '-' :: rest => (true, rest)
    | '+' :: rest => (false, rest)
    | _ => (false, s)
  let value := digitsValue 0 (signed.2.takeWhile Char.isDigit)
  if signed.1 then (if value > 2147483648 then -2147483648 else -(value : Int))
  else (if value > 2147483647 then 2147483647 else (value : Int))

/-- The conversion `static_cast<unsigned int>` of a `long`. -/
def toUnsigned (x : Int) : Nat := (x % 4294967296).toNat

/-- The choice of the location in the loop of `VisitShaderParameter` (lines 2635-2650):
the type and the location after the `else if` chain on the semantic. -/
def semanticLocation (semantic : String) (type : FXType) (location : Nat) : FXType × Nat :=
  if "COLOR".data.isPrefixOf semantic.data then
    ({ type with Rows := 4 }, toUnsigned (strtol (semantic.data.drop 5)))
  else if "TEXCOORD".data.isPrefixOf semantic.data then
    (type, (toUnsigned (strtol (semantic.data.drop 8)) + 1) % 4294967296)
  else if "SV_TARGET".data.isPrefixOf semantic.data then
    ({ type with Rows := 4 }, toUnsigned (strtol (semantic.data.drop 9)))
  else (type, location)

/-- The loop of `VisitShaderParameter` over the values of `i` still to come. -/
def shaderParameterLoop (name semantic : String) (shadertype : Nat) :
    List Nat → String → FXType → Nat → Option String
  | [], source, _, _ => some source
  | i :: rest, source, type, location =>
    if FixNameWithSemantic "" semantic shadertype ≠ "" then
      shaderParameterLoop name semantic shadertype rest source type location
    else
      let chosen := semanticLocation semantic type location
      let type := chosen.1
      let location := chosen.2
      let source := source ++ ("layout(location = " ++ toString ((location + i) % 4294967296) ++ ") ")
      match VisitType source type with
      | none => none
      | some source =>
        let source := source ++ (" " ++ name)
        let source := if type.IsArray then source ++ toString i else source
        shaderParameterLoop name semantic shadertype rest (source ++ ";\n") type location

/-- The function `GLEffectCompiler::VisitShaderParameter`. -/
def VisitShaderParameter (source : String) (type : FXType) (qualifier : List Qualifier)
    (name semantic : String) (shadertype : Nat) : Option String :=
  let type := { type with Qualifiers := qualifier }
  shaderParameterLoop name semantic shadertype (List.range (max 1 type.ArrayLength))
    source type 0

/-! ## Expressions -/

/-- A visited sub-expression.  The expression visitor only ever appends to its output:
the call `Visit(output, node)` on a node appends the text of the node.  A sub-expression
is given by that text, `Code`, and by `node->Type`. -/
structure Expression where
  Type_ : FXType
  Code : String
  deriving DecidableEq, Repr

/-- The call `Visit(output, node)` on a sub-expression. -/
def Visit (output : String) (node : Expression) : String := output ++ node.Code

/-- Modelled from the spec: `Type::IsScalar`; the "row/column arity (scalar, vector,
matrix)" of a type that is neither a vector nor a matrix. -/
def FXType.IsScalar (t : FXType) : Bool := !t.IsMatrix && !t.IsVector

/-- Modelled from the spec: `Type::IsFloatingPoint`; the base class is `float`. -/
def FXType.IsFloatingPoint (t : FXType) : Bool := decide (t.BaseClass = TypeClass.Float)

/-- The call `output.erase(output.end() - 2, output.end())`; on a text of fewer than two
characters the iterator `end() - 2` is out of range and the result is `none`. -/
def eraseLastTwo (output : String) : Option String :=
  if 2 ≤ output.data.length then some (String.mk (output.data.take (output.data.length - 2)))
  else none

/-- The member `Value` of a `Literal` node, a union of the arrays `Int`, `Uint` and
`Float`, as the list of the components under each of the three views.  A `float` is the
rational number it stands for. -/
structure LiteralValue where
  Int : List Int
  Uint : List Nat
  Float : List ℚ
  deriving DecidableEq, Repr

/-- The six decimal places that `std::to_string` prints, from their value below 10^6. -/
def sixDigits (n : Nat) : String :=
  String.mk (List.replicate (6 - (toString n).length) '0') ++ toString n

/-- The function `std::to_string(float)`, the format `%f`: the sign, the integer part,
and six decimal places of the absolute value rounded to the nearest, ties to even. -/
def to_string_float (x : ℚ) : String :=
  let scaled : ℚ := |x| * 1000000
  let low : Nat := scaled.floor.toNat
  let rest : ℚ := scaled - low
  let rounded : Nat :=
    if rest < 1 / 2 then low else if 1 / 2 < rest then low + 1
    else if low % 2 = 0 then low else low + 1
  (if x < 0 then "-" else "") ++ toString (rounded / 1000000) ++ "." ++
    sixDigits (rounded % 1000000)

/-- The body of the `switch` in the loop of `Visit(Literal)`: the text of the component
`i`.  A read outside the value array gives `none`; a base class without a `case` appends
nothing. -/
def literalComponent (type : FXType) (Value : LiteralValue) (i : Nat) : Option String :=
  match type.BaseClass with
  | TypeClass.Bool => (Value.Int[i]?).map (fun v => if v ≠ 0 then "true" else "false")
  | TypeClass.Int => (Value.Int[i]?).map (fun v => toString v)
  | TypeClass.Uint => (Value.Uint[i]?).map (fun v => toString v ++ "u")
  | TypeClass.Float => (Value.Float[i]?).map to_string_float
  | _ => some ""

/-- The loop of `Visit(Literal)` over the values of `i` still to come. -/
def literalLoop (type : FXType) (Value : LiteralValue) : List Nat → String → Option String
  | [], output => some output
  | i :: rest, output =>
    match literalComponent type Value i with
    | none => none
    | some text => literalLoop type Value rest ((output ++ text) ++ ", ")

/-- The function `GLEffectCompiler::Visit(Literal)`. -/
def VisitLiteral (output : String) (type : FXType) (Value : LiteralValue) : Option String :=
  let opened : Option String :=
    if !type.IsScalar then (VisitTypeClass output type).map (fun o => o.push '(')
    else some output
  match opened with
  | none => none
  | some output =>
    match literalLoop type Value (List.range ((type.Rows * type.Cols) % 4294967296)) output with
    | none => none
    | some output =>
      match eraseLastTwo output with
      | none => none
      | some output => some (if !type.IsScalar then output.push ')' else output)

/-- The function `GLEffectCompiler::Visit(Constructor)`. -/
def VisitConstructor (output : String) (type : FXType) (Arguments : List Expression) :
    Option String :=
  let output := if type.IsMatrix then output ++ "transpose(" else output
  match VisitTypeClass output type with
  | none => none
  | some output =>
    let output := output.push '('
    let listed : Option String :=
      if Arguments ≠ [] then
        eraseLastTwo (Arguments.foldl (fun o argument => Visit o argument ++ ", ") output)
      else some output
    match listed with
    | none => none
    | some output =>
      let output := output.push ')'
      some (if type.IsMatrix then output.push ')' else output)

/-- The authored matrix `int2x2(1, 2, 3, 4)` as a type. -/
def int2x2 : FXType := ⟨TypeClass.Int, [], 2, 2, 0, none⟩

/-- The authored matrix `float2x2(1, 2, 3, 4)` as a type. -/
def float2x2 : FXType := ⟨TypeClass.Float, [], 2, 2, 0, none⟩

/-- A scalar literal of the given text as an argument of a constructor. -/
def scalarArgument (c : TypeClass) (code : String) : Expression :=
  ⟨⟨c, [], 1, 1, 0, none⟩, code⟩

/-! ## Intrinsics -/

/-- The operators `FX::Nodes::Intrinsic::Op`, in the order of the `switch` of
`Visit(Intrinsic)`. -/
inductive IntrinsicOp where
  | Abs | Acos | All | Any | BitCastInt2Float | BitCastUint2Float | Asin
  | BitCastFloat2Int | BitCastFloat2Uint | Atan | Atan2 | Ceil | Clamp | Cos | Cosh
  | Cross | PartialDerivativeX | PartialDerivativeY | Degrees | Determinant | Distance
  | Dot | Exp | Exp2 | FaceForward | Floor | Frac | Frexp | Fwidth | Ldexp | Length | Lerp
  | Log | Log10 | Log2 | Mad | Max | Min | Modf | Mul | Normalize | Pow | Radians | Rcp
  | Reflect | Refract | Round | Rsqrt | Saturate | Sign | Sin | SinCos | Sinh | SmoothStep
  | Sqrt | Step | Tan | Tanh | Tex2D | Tex2DFetch | Tex2DGather | Tex2DGatherOffset
  | Tex2DGrad | Tex2DLevel | Tex2DLevelOffset | Tex2DOffset | Tex2DProj | Tex2DSize
  | Transpose | Trunc
  deriving DecidableEq, Repr

/-- The local variables of `Visit(Intrinsic)` after the cast set-up (lines 1189-1214).
A type that was declared without an initialiser and never assigned is `none`. -/
structure IntrinsicLocals where
  type1 : FXType
  type2 : Option FXType
  type3 : Option FXType
  type4 : Option FXType
  type12 : Option FXType
  cast1 : String × String
  cast2 : String × String
  cast3 : String × String
  cast4 : String × String
  cast121 : String × String
  cast122 : String × String
  deriving DecidableEq, Repr

/-- The cast set-up of `Visit(Intrinsic)` (lines 1189-1214) for the node type `type` and
the four argument pointers, `none` for a null pointer.  The fourth cast is computed from
the type of the third argument, as in the source; with a null third argument that read
gives `none`. -/
def intrinsicCasts (type : FXType) (a0 a1 a2 a3 : Option Expression) :
    Option IntrinsicLocals := do
  let type1 : FXType :=
    match a0 with
    | some e => e.Type_
    | none => ⟨TypeClass.Void, [], 0, 0, 0, none⟩
  let cast1 ←
    match a0 with
    | some e => PrintCast e.Type_ type
    | none => some ("", "")
  let second ←
    match a1 with
    | some e => do
      let type2 := e.Type_
      let cast2 ← PrintCast type2 type
      let type12 := if type2.IsFloatingPoint then type2 else type1
      let type12 := { type12 with Rows := max type1.Rows type2.Rows }
      let type12 := { type12 with Cols := max type1.Cols type2.Cols }
      let cast121 ← PrintCast type1 type12
      let cast122 ← PrintCast type2 type12
      some (some type2, some type12, cast2, cast121, cast122)
    | none => some (none, none, ("", ""), ("", ""), ("", ""))
  let third ←
    match a2 with
    | some e => do
      let cast3 ← PrintCast e.Type_ type
      some (some e.Type_, cast3)
    | none => some (none, ("", ""))
  let fourth ←
    match a3 with
    | some _ =>
      match a2 with
      | some e => do
        let cast4 ← PrintCast e.Type_ type
        some (some e.Type_, cast4)
      | none => none
    | none => some (none, ("", ""))
  some ⟨type1, second.1, third.1, fourth.1, second.2.1, cast1, second.2.2.1, third.2,
    fourth.2, second.2.2.2.1, second.2.2.2.2⟩

/-- The five parts `part1` .. `part5` that the `switch` of `Visit(Intrinsic)` assigns
(lines 1216-1707) for a node of type `type`.  A read of an unassigned type gives `none`.
In the case `SinCos` the assignment `part2 = ')'` of the branch is overwritten by the
assignment `part2 = ", "` that follows it. -/
def intrinsicParts (type : FXType) (op : IntrinsicOp) (l : IntrinsicLocals) :
    Option (String × String × String × String × String) :=
  match op with
  | IntrinsicOp.Abs => some ("abs(" ++ l.cast1.1, l.cast1.2 ++ ")", "", "", "")
  | IntrinsicOp.Acos => some ("acos(" ++ l.cast1.1, l.cast1.2 ++ ")", "", "", "")
  | IntrinsicOp.All =>
    if l.type1.IsVector then
      some ("all(bvec" ++ toString l.type1.Rows ++ "(", "))", "", "", "")
    else some ("bool(", ")", "", "", "")
  | IntrinsicOp.Any =>
    if l.type1.IsVector then
      some ("any(bvec" ++ toString l.type1.Rows ++ "(", "))", "", "", "")
    else some ("bool(", ")", "", "", "")
  | IntrinsicOp.BitCastInt2Float =>
    if l.type1.BaseClass ≠ TypeClass.Int then
      (VisitTypeClass "intBitsToFloat(" { l.type1 with BaseClass := TypeClass.Int }).map
        (fun part1 => (part1 ++ "(", ")" ++ ")", "", "", ""))
    else some ("intBitsToFloat(", ")", "", "", "")
  | IntrinsicOp.BitCastUint2Float =>
    if l.type1.BaseClass ≠ TypeClass.Uint then
      (VisitTypeClass "uintBitsToFloat(" { l.type1 with BaseClass := TypeClass.Uint }).map
        (fun part1 => (part1 ++ "(", ")" ++ ")", "", "", ""))
    else some ("uintBitsToFloat(", ")", "", "", "")
  | IntrinsicOp.Asin => some ("asin(" ++ l.cast1.1, l.cast1.2 ++ ")", "", "", "")
  | IntrinsicOp.BitCastFloat2Int =>
    if l.type1.BaseClass ≠ TypeClass.Float then
      (VisitTypeClass "floatBitsToInt(" { l.type1 with BaseClass := TypeClass.Float }).map
        (fun part1 => (part1 ++ "(", ")" ++ ")", "", "", ""))
    else some ("floatBitsToInt(", ")", "", "", "")
  | IntrinsicOp.BitCastFloat2Uint =>
    if l.type1.BaseClass ≠ TypeClass.Float then
      (VisitTypeClass "floatBitsToUint(" { l.type1 with BaseClass := TypeClass.Float }).map
        (fun part1 => (part1 ++ "(", ")" ++ ")", "", "", ""))
    else some ("floatBitsToUint(", ")", "", "", "")
  | IntrinsicOp.Atan => some ("atan(" ++ l.cast1.1, l.cast1.2 ++ ")", "", "", "")
  | IntrinsicOp.Atan2 =>
    some ("atan(" ++ l.cast1.1, l.cast1.2 ++ ", " ++ l.cast2.1, l.cast2.2 ++ ")", "", "")
  | IntrinsicOp.Ceil => some ("ceil(" ++ l.cast1.1, l.cast1.2 ++ ")", "", "", "")
  | IntrinsicOp.Clamp =>
    some ("clamp(" ++ l.cast1.1, l.cast1.2 ++ ", " ++ l.cast2.1,
      l.cast2.2 ++ ", " ++ l.cast3.1, l.cast3.2 ++ ")", "")
  | IntrinsicOp.Cos => some ("cos(" ++ l.cast1.1, l.cast1.2 ++ ")", "", "", "")
  | IntrinsicOp.Cosh => some ("cosh(" ++ l.cast1.1, l.cast1.2 ++ ")", "", "", "")
  | IntrinsicOp.Cross =>
    some ("cross(" ++ l.cast1.1, l.cast1.2 ++ ", " ++ l.cast2.1, l.cast2.2 ++ ")", "", "")
  | IntrinsicOp.PartialDerivativeX => some ("dFdx(" ++ l.cast1.1, l.cast1.2 ++ ")", "", "", "")
  | IntrinsicOp.PartialDerivativeY => some ("dFdy(" ++ l.cast1.1, l.cast1.2 ++ ")", "", "", "")
  | IntrinsicOp.Degrees => some ("degrees(" ++ l.cast1.1, l.cast1.2 ++ ")", "", "", "")
  | IntrinsicOp.Determinant =>
    if !l.type1.IsFloatingPoint then
      (VisitTypeClass "determinant(" { l.type1 with BaseClass := TypeClass.Float }).map
        (fun part1 => (part1 ++ "(", ")" ++ ")", "", "", ""))
    else some ("determinant(", ")", "", "", "")
  | IntrinsicOp.Distance =>
    some ("distance(" ++ l.cast121.1, l.cast121.2 ++ ", " ++ l.cast122.1,
      l.cast122.2 ++ ")", "", "")
  | IntrinsicOp.Dot =>
    some ("dot(" ++ l.cast121.1, l.cast121.2 ++ ", " ++ l.cast122.1,
      l.cast122.2 ++ ")", "", "")
  | IntrinsicOp.Exp => some ("exp(" ++ l.cast1.1, l.cast1.2 ++ ")", "", "", "")
  | IntrinsicOp.Exp2 => some ("exp2(" ++ l.cast1.1, l.cast1.2 ++ ")", "", "", "")
  | IntrinsicOp.FaceForward =>
    some ("faceforward(" ++ l.cast1.1, l.cast1.2 ++ ", " ++ l.cast2.1,
      l.cast2.2 ++ ", " ++ l.cast3.1, l.cast3.2 ++ ")", "")
  | IntrinsicOp.Floor => some ("floor(" ++ l.cast1.1, l.cast1.2 ++ ")", "", "", "")
  | IntrinsicOp.Frac => some ("fract(" ++ l.cast1.1, l.cast1.2 ++ ")", "", "", "")
  | IntrinsicOp.Frexp =>
    some ("frexp(" ++ l.cast1.1, l.cast1.2 ++ ", " ++ l.cast2.1, l.cast2.2 ++ ")", "", "")
  | IntrinsicOp.Fwidth => some ("fwidth(" ++ l.cast1.1, l.cast1.2 ++ ")", "", "", "")
  | IntrinsicOp.Ldexp =>
    some ("ldexp(" ++ l.cast1.1, l.cast1.2 ++ ", " ++ l.cast2.1, l.cast2.2 ++ ")", "", "")
  | IntrinsicOp.Length =>
    if !l.type1.IsFloatingPoint then
      (VisitTypeClass "length(" { l.type1 with BaseClass := TypeClass.Float }).map
        (fun part1 => (part1 ++ "(", ")" ++ ")", "", "", ""))
    else some ("length(", ")", "", "", "")
  | IntrinsicOp.Lerp =>
    some ("mix(" ++ l.cast1.1, l.cast1.2 ++ ", " ++ l.cast2.1,
      l.cast2.2 ++ ", " ++ l.cast3.1, l.cast3.2 ++ ")", "")
  | IntrinsicOp.Log => some ("log(" ++ l.cast1.1, l.cast1.2 ++ ")", "", "", "")
  | IntrinsicOp.Log10 =>
    (VisitTypeClass (l.cast1.2 ++ ") / ") type).map
      (fun part2 => ("(log2(" ++ l.cast1.1, part2 ++ "(2.302585093))", "", "", ""))
  | IntrinsicOp.Log2 => some ("log2(" ++ l.cast1.1, l.cast1.2 ++ ")", "", "", "")
  | IntrinsicOp.Mad =>
    some ("(" ++ l.cast1.1, l.cast1.2 ++ " * " ++ l.cast2.1,
      l.cast2.2 ++ " + " ++ l.cast3.1, l.cast3.2 ++ ")", "")
  | IntrinsicOp.Max =>
    some ("max(" ++ l.cast1.1, l.cast1.2 ++ ", " ++ l.cast2.1, l.cast2.2 ++ ")", "", "")
  | IntrinsicOp.Min =>
    some ("min(" ++ l.cast1.1, l.cast1.2 ++ ", " ++ l.cast2.1, l.cast2.2 ++ ")", "", "")
  | IntrinsicOp.Modf =>
    some ("modf(" ++ l.cast1.1, l.cast1.2 ++ ", " ++ l.cast2.1, l.cast2.2 ++ ")", "", "")
  | IntrinsicOp.Mul => some ("(", " * ", ")", "", "")
  | IntrinsicOp.Normalize =>
    if !l.type1.IsFloatingPoint then
      (VisitTypeClass "normalize(" { l.type1 with BaseClass := TypeClass.Float }).map
        (fun part1 => (part1 ++ "(", ")" ++ ")", "", "", ""))
    else some ("normalize(", ")", "", "", "")
  | IntrinsicOp.Pow =>
    some ("pow(" ++ l.cast1.1, l.cast1.2 ++ ", " ++ l.cast2.1, l.cast2.2 ++ ")", "", "")
  | IntrinsicOp.Radians => some ("radians(" ++ l.cast1.1, l.cast1.2 ++ ")", "", "", "")
  | IntrinsicOp.Rcp =>
    (VisitTypeClass "(" type).map (fun part1 => (part1 ++ "(1.0) / ", ")", "", "", ""))
  | IntrinsicOp.Reflect =>
    some ("reflect(" ++ l.cast1.1, l.cast1.2 ++ ", " ++ l.cast2.1, l.cast2.2 ++ ")", "", "")
  | IntrinsicOp.Refract =>
    some ("refract(" ++ l.cast1.1, l.cast1.2 ++ ", " ++ l.cast2.1,
      l.cast2.2 ++ ", float", "))", "")
  | IntrinsicOp.Round => some ("round(" ++ l.cast1.1, l.cast1.2 ++ ")", "", "", "")
  | IntrinsicOp.Rsqrt => some ("inversesqrt(" ++ l.cast1.1, l.cast1.2 ++ ")", "", "", "")
  | IntrinsicOp.Saturate => some ("clamp(" ++ l.cast1.1, l.cast1.2 ++ ", 0.0, 1.0)", "", "", "")
  | IntrinsicOp.Sign => some (l.cast1.1 ++ "sign(", ")" ++ l.cast1.2, "", "", "")
  | IntrinsicOp.Sin => some ("sin(" ++ l.cast1.1, l.cast1.2 ++ ")", "", "", "")
  | IntrinsicOp.SinCos =>
    let part1 : Option String :=
      if l.type1.BaseClass ≠ TypeClass.Float then
        (VisitTypeClass "_sincos(" { l.type1 with BaseClass := TypeClass.Float }).map
          (fun part1 => part1 ++ "(")
      else some "_sincos("
    part1.map (fun part1 => (part1, ", ", ", ", ")", ""))
  | IntrinsicOp.Sinh => some ("sinh(" ++ l.cast1.1, l.cast1.2 ++ ")", "", "", "")
  | IntrinsicOp.SmoothStep =>
    some ("smoothstep(" ++ l.cast1.1, l.cast1.2 ++ ", " ++ l.cast2.1,
      l.cast2.2 ++ ", " ++ l.cast3.1, l.cast3.2 ++ ")", "")
  | IntrinsicOp.Sqrt => some ("sqrt(" ++ l.cast1.1, l.cast1.2 ++ ")", "", "", "")
  | IntrinsicOp.Step =>
    some ("step(" ++ l.cast1.1, l.cast1.2 ++ ", " ++ l.cast2.1, l.cast2.2 ++ ")", "", "")
  | IntrinsicOp.Tan => some ("tan(" ++ l.cast1.1, l.cast1.2 ++ ")", "", "", "")
  | IntrinsicOp.Tanh => some ("tanh(" ++ l.cast1.1, l.cast1.2 ++ ")", "", "", "")
  | IntrinsicOp.Tex2D => do
    let type2to : FXType := ⟨TypeClass.Float, [], 2, 1, 0, none⟩
    let cast2 ← (l.type2).bind (fun type2 => PrintCast type2 type2to)
    some ("texture(", ", " ++ cast2.1,
      cast2.2 ++ " * vec2(1.0, -1.0) + vec2(0.0, 1.0))", "", "")
  | IntrinsicOp.Tex2DFetch => do
    let type2to : FXType := ⟨TypeClass.Int, [], 2, 1, 0, none⟩
    let cast2 ← (l.type2).bind (fun type2 => PrintCast type2 type2to)
    some ("texelFetch(", ", " ++ cast2.1,
      cast2.2 ++ " * ivec2(1, -1) + ivec2(0, 1))", "", "")
  | IntrinsicOp.Tex2DGather => do
    let type2to : FXType := ⟨TypeClass.Float, [], 2, 1, 0, none⟩
    let cast2 ← (l.type2).bind (fun type2 => PrintCast type2 type2to)
    some ("textureGather(", ", " ++ cast2.1,
      cast2.2 ++ " * vec2(1.0, -1.0) + vec2(0.0, 1.0), int(", "))", "")
  | IntrinsicOp.Tex2DGatherOffset => do
    let type2to : FXType := ⟨TypeClass.Float, [], 2, 1, 0, none⟩
    let type3to : FXType := ⟨TypeClass.Int, [], 2, 1, 0, none⟩
    let cast2 ← (l.type2).bind (fun type2 => PrintCast type2 type2to)
    let cast3 ← (l.type3).bind (fun type3 => PrintCast type3 type3to)
    some ("textureGatherOffset(", ", " ++ cast2.1,
      cast2.2 ++ " * vec2(1.0, -1.0) + vec2(0.0, 1.0), " ++ cast3.1,
      cast3.2 ++ " * ivec2(1, -1), int(", "))")
  | IntrinsicOp.Tex2DGrad => do
    let type2to : FXType := ⟨TypeClass.Float, [], 2, 1, 0, none⟩
    let cast2 ← (l.type2).bind (fun type2 => PrintCast type2 type2to)
    let cast3 ← (l.type3).bind (fun type3 => PrintCast type3 type2to)
    let cast4 ← (l.type4).bind (fun type4 => PrintCast type4 type2to)
    some ("textureGrad(", ", " ++ cast2.1,
      cast2.2 ++ " * vec2(1.0, -1.0) + vec2(0.0, 1.0), " ++ cast3.1,
      cast3.2 ++ ", " ++ cast4.1, cast4.2 ++ ")")
  | IntrinsicOp.Tex2DLevel => do
    let type2to : FXType := ⟨TypeClass.Float, [], 4, 1, 0, none⟩
    let cast2 ← (l.type2).bind (fun type2 => PrintCast type2 type2to)
    some ("_textureLod(", ", " ++ cast2.1,
      cast2.2 ++ " * vec4(1.0, -1.0, 1.0, 1.0) + vec4(0.0, 1.0, 0.0, 0.0))", "", "")
  | IntrinsicOp.Tex2DLevelOffset => do
    let type2to : FXType := ⟨TypeClass.Float, [], 4, 1, 0, none⟩
    let type3to : FXType := ⟨TypeClass.Int, [], 2, 1, 0, none⟩
    let cast2 ← (l.type2).bind (fun type2 => PrintCast type2 type2to)
    let cast3 ← (l.type3).bind (fun type3 => PrintCast type3 type3to)
    some ("_textureLodOffset(", ", " ++ cast2.1,
      cast2.2 ++ " * vec4(1.0, -1.0, 1.0, 1.0) + vec4(0.0, 1.0, 0.0, 0.0), " ++ cast3.1,
      cast3.2 ++ " * ivec2(1, -1))", "")
  | IntrinsicOp.Tex2DOffset => do
    let type2to : FXType := ⟨TypeClass.Float, [], 2, 1, 0, none⟩
    let type3to : FXType := ⟨TypeClass.Int, [], 2, 1, 0, none⟩
    let cast2 ← (l.type2).bind (fun type2 => PrintCast type2 type2to)
    let cast3 ← (l.type3).bind (fun type3 => PrintCast type3 type3to)
    some ("textureOffset(", ", " ++ cast2.1,
      cast2.2 ++ " * vec2(1.0, -1.0) + vec2(0.0, 1.0), " ++ cast3.1,
      cast3.2 ++ " * ivec2(1, -1))", "")
  | IntrinsicOp.Tex2DProj => do
    let type2to : FXType := ⟨TypeClass.Float, [], 4, 1, 0, none⟩
    let cast2 ← (l.type2).bind (fun type2 => PrintCast type2 type2to)
    some ("textureProj(", ", " ++ cast2.1,
      cast2.2 ++ " * vec4(1.0, -1.0, 1.0, 1.0) + vec4(0.0, 1.0, 0.0, 0.0))", "", "")
  | IntrinsicOp.Tex2DSize => some ("textureSize(", ", int(", "))", "", "")
  | IntrinsicOp.Transpose =>
    if !l.type1.IsFloatingPoint then
      (VisitTypeClass "transpose(" { l.type1 with BaseClass := TypeClass.Float }).map
        (fun part1 => (part1 ++ "(", ")" ++ ")", "", "", ""))
    else some ("transpose(", ")", "", "", "")
  | IntrinsicOp.Trunc => some ("trunc(" ++ l.cast1.1, l.cast1.2 ++ ")", "", "", "")

/-- A statement `if (argument != nullptr) Visit(output, argument);`. -/
def visitArgument (output : String) (argument : Option Expression) : String :=
  match argument with
  | some e => Visit output e
  | none => output

/-- The function `GLEffectCompiler::Visit(Intrinsic)`: the cast
set-up, the `switch` on the operator, and the output of the parts around the arguments
(lines 1708-1737). -/
def VisitIntrinsic (output : String) (type : FXType) (op : IntrinsicOp)
    (a0 a1 a2 a3 : Option Expression) : Option String := do
  let l ← intrinsicCasts type a0 a1 a2 a3
  let parts ← intrinsicParts type op l
  let output := output ++ parts.1
  let output := visitArgument output a0
  let output := output ++ parts.2.1
  let output := visitArgument output a1
  let output := output ++ parts.2.2.1
  let output := visitArgument output a2
  let output := output ++ parts.2.2.2.1
  let output := visitArgument output a3
  some (output ++ parts.2.2.2.2)

/-- The type `float4` of the result of a texture fetch. -/
def float4 : FXType := ⟨TypeClass.Float, [], 4, 1, 0, none⟩

/-- A sampler argument `s`. -/
def samplerArgument : Expression := ⟨⟨TypeClass.Sampler2D, [], 1, 1, 0, none⟩, "s"⟩

/-- A texture coordinate `uv` of type `float2`. -/
def coordArgument : Expression := ⟨⟨TypeClass.Float, [], 2, 1, 0, none⟩, "uv"⟩

/-- No two neighbouring characters of a text are both underscores. -/
def NoDoubleUnderscore (l : List Char) : Prop :=
  List.Chain' (fun a b => ¬ (a = '_' ∧ b = '_')) l

/-! ## Swizzles -/

/-- The part of a `FX::Nodes::Swizzle` node read by the visitor: the location, the visited
operand and the array `signed char Mask[4]`. -/
structure SwizzleNode where
  Location : Location
  Operand : Expression
  Mask : List Int
  deriving DecidableEq, Repr

/-- The local array `const char swizzle[4]` of `Visit(Swizzle)`. -/
def swizzle : List Char := ['x', 'y', 'z', 'w']

/-- The loop `for (i = 0; i < 4 && Mask[i] >= 0; ++i) output += swizzle[Mask[i]]` over the
values of `i` still to come; a read outside `Mask` or `swizzle` gives `none`. -/
def swizzleLoop (Mask : List Int) : List Nat → String → Option String
  | [], output => some output
  | i :: rest, output =>
    match Mask[i]? with
    | none => none
    | some m =>
      if m ≥ 0 then
        match swizzle[m.toNat]? with
        | none => none
        | some c => swizzleLoop Mask rest (output.push c)
      else some output

/-- The function `GLEffectCompiler::Visit(Swizzle)`: the output and the diagnostics after
the call.  The row is `Mask[0] % 4` converted to `unsigned int`, the column is computed
in `unsigned int`. -/
def VisitSwizzle (output : String) (node : SwizzleNode) (st : CompilerState) :
    Option (String × CompilerState) :=
  let output := Visit output node.Operand
  if node.Operand.Type_.IsMatrix then
    match node.Mask[1]?, node.Mask[0]? with
    | some m1, some m0 =>
      if m1 ≥ 0 then
        some (output, Error node.Location
          "multiple component matrix swizzeling is not supported in OpenGL" st)
      else
        let row : Nat := toUnsigned (Int.tmod m0 4)
        let col : Nat := ((toUnsigned m0 + 4294967296 - row) % 4294967296) / 4
        some (output ++ ("[" ++ toString row ++ "][" ++ toString col ++ "]"), st)
    | _, _ => none
  else
    match swizzleLoop node.Mask (List.range 4) (output.push '.') with
    | none => none
    | some output => some (output, st)

/-- The value `!_isFatal` that `Compile` returns (line 186) from the final diagnostics. -/
def compileResult (st : CompilerState) : Bool := !st._isFatal

/-! ## Binary operators -/

/-- The operators of `FX::Nodes::Binary::Op` that `Visit(Binary)` lowers. -/
inductive BinaryOp where
  | Add | Subtract | Multiply | Divide | Modulo | Less | Greater | LessOrEqual
  | GreaterOrEqual | Equal | NotEqual | LeftShift | RightShift | BitwiseAnd | BitwiseOr
  | BitwiseXor | LogicalAnd | LogicalOr | ElementExtract
  deriving DecidableEq, Repr

/-- The three parts `part1`, `part2`, `part3` that the `switch` of `Visit(Binary)` assigns
(lines 1003-1179), from the type of the node, the type of the second operand and the
four casts. -/
def binaryParts (op : BinaryOp) (type type2 : FXType)
    (cast1 cast2 cast121 cast122 : String × String) : String × String × String :=
  match op with
  | BinaryOp.Add => ("(" ++ cast1.1, cast1.2 ++ " + " ++ cast2.1, cast2.2 ++ ")")
  | BinaryOp.Subtract => ("(" ++ cast1.1, cast1.2 ++ " - " ++ cast2.1, cast2.2 ++ ")")
  | BinaryOp.Multiply =>
    if type.IsMatrix then
      ("matrixCompMult(" ++ cast1.1, cast1.2 ++ ", " ++ cast2.1, cast2.2 ++ ")")
    else ("(" ++ cast1.1, cast1.2 ++ " * " ++ cast2.1, cast2.2 ++ ")")
  | BinaryOp.Divide => ("(" ++ cast1.1, cast1.2 ++ " / " ++ cast2.1, cast2.2 ++ ")")
  | BinaryOp.Modulo =>
    if type.IsFloatingPoint then
      ("_fmod(" ++ cast1.1, cast1.2 ++ ", " ++ cast2.1, cast2.2 ++ ")")
    else ("(" ++ cast1.1, cast1.2 ++ " % " ++ cast2.1, cast2.2 ++ ")")
  | BinaryOp.Less =>
    if type.IsVector then
      ("lessThan(" ++ cast121.1, cast121.2 ++ ", " ++ cast122.1, cast122.2 ++ ")")
    else ("(" ++ cast121.1, cast121.2 ++ " < " ++ cast122.1, cast122.2 ++ ")")
  | BinaryOp.Greater =>
    if type.IsVector then
      ("greaterThan(" ++ cast121.1, cast121.2 ++ ", " ++ cast122.1, cast122.2 ++ ")")
    else ("(" ++ cast121.1, cast121.2 ++ " > " ++ cast122.1, cast122.2 ++ ")")
  | BinaryOp.LessOrEqual =>
    if type.IsVector then
      ("lessThanEqual(" ++ cast121.1, cast121.2 ++ ", " ++ cast122.1, cast122.2 ++ ")")
    else ("(" ++ cast121.1, cast121.2 ++ " <= " ++ cast122.1, cast122.2 ++ ")")
  | BinaryOp.GreaterOrEqual =>
    if type.IsVector then
      ("greaterThanEqual(" ++ cast121.1, cast121.2 ++ ", " ++ cast122.1, cast122.2 ++ ")")
    else ("(" ++ cast121.1, cast121.2 ++ " >= " ++ cast122.1, cast122.2 ++ ")")
  | BinaryOp.Equal =>
    if type.IsVector then
      ("equal(" ++ cast121.1, cast121.2 ++ ", " ++ cast122.1, cast122.2 ++ ")")
    else ("(" ++ cast121.1, cast121.2 ++ " == " ++ cast122.1, cast122.2 ++ ")")
  | BinaryOp.NotEqual =>
    if type.IsVector then
      ("notEqual(" ++ cast121.1, cast121.2 ++ ", " ++ cast122.1, cast122.2 ++ ")")
    else ("(" ++ cast121.1, cast121.2 ++ " != " ++ cast122.1, cast122.2 ++ ")")
  | BinaryOp.LeftShift => ("(", " << ", ")")
  | BinaryOp.RightShift => ("(", " >> ", ")")
  | BinaryOp.BitwiseAnd => ("(" ++ cast1.1, cast1.2 ++ " & " ++ cast2.1, cast2.2 ++ ")")
  | BinaryOp.BitwiseOr => ("(" ++ cast1.1, cast1.2 ++ " | " ++ cast2.1, cast2.2 ++ ")")
  | BinaryOp.BitwiseXor => ("(" ++ cast1.1, cast1.2 ++ " ^ " ++ cast2.1, cast2.2 ++ ")")
  | BinaryOp.LogicalAnd =>
    ("(" ++ cast121.1, cast121.2 ++ " && " ++ cast122.1, cast122.2 ++ ")")
  | BinaryOp.LogicalOr =>
    ("(" ++ cast121.1, cast121.2 ++ " || " ++ cast122.1, cast122.2 ++ ")")
  | BinaryOp.ElementExtract =>
    if type2.BaseClass ≠ TypeClass.Uint then ("", "[uint(", ")]") else ("", "[", "]")

/-- The function `GLEffectCompiler::Visit(Binary)` for a node of type `type` with the two
visited operands. -/
def VisitBinary (output : String) (type : FXType) (op : BinaryOp)
    (operand0 operand1 : Expression) : Option String :=
  let type1 := operand0.Type_
  let type2 := operand1.Type_
  let type12 := if type2.IsFloatingPoint then type2 else type1
  let type12 := { type12 with Rows := max type1.Rows type2.Rows }
  let type12 := { type12 with Cols := max type1.Cols type2.Cols }
  match PrintCast type1 type, PrintCast type2 type, PrintCast type1 type12,
      PrintCast type2 type12 with
  | some cast1, some cast2, some cast121, some cast122 =>
    let parts := binaryParts op type type2 cast1 cast2 cast121 cast122
    let output := output ++ parts.1
    let output := Visit output operand0
    let output := output ++ parts.2.1
    let output := Visit output operand1
    some (output ++ parts.2.2)
  | _, _, _, _ => none

/-! ## Stage sources -/

/-- The part of a `FX::Nodes::Variable` node that is a field of a struct, as the stage
wrapper reads it. -/
structure FieldNode where
  Name : String
  Type_ : FXType
  Semantic : String
  deriving DecidableEq, Repr

/-- The part of a `FX::Nodes::Variable` node that is a parameter of a function; `Fields`
are the fields `Type.Definition->Fields` of a parameter of struct type. -/
structure ParameterNode where
  Name : String
  Type_ : FXType
  Semantic : String
  Fields : List FieldNode
  deriving DecidableEq, Repr

/-- The part of a `FX::Nodes::Function` node read by `VisitTechniquePassShader`.  `Id`
stands for the address of the node, the key of `_functions`; `ReturnFields` are the
fields `ReturnType.Definition->Fields` of a return value of struct type. -/
structure FunctionNode where
  Id : Nat
  Name : String
  Namespace : String
  ReturnType : FXType
  ReturnSemantic : String
  ReturnFields : List FieldNode
  Parameters : List ParameterNode
  deriving DecidableEq, Repr

/-- The record `GLEffectCompiler::Function`: the generated text of a function and the
functions it depends on. -/
structure Function where
  SourceCode : String
  FunctionDependencies : List Nat
  deriving DecidableEq, Repr

/-- The members of the compiler that `VisitTechniquePassShader` reads. -/
structure CompilerTexts where
  _globalCode : String
  _globalUniforms : String
  _functions : List (Nat × Function)
  deriving DecidableEq, Repr

/-- The lookup `_functions.at(node)`; `none` where `at` throws. -/
def functionsAt (functions : List (Nat × Function)) (id : Nat) : Option Function :=
  (functions.find? (fun it => it.1 == id)).map (fun it => it.2)

/-- Modelled from the spec: `Type::IsStruct`; the base class is `struct`. -/
def FXType.IsStruct (t : FXType) : Bool := decide (t.BaseClass = TypeClass.Struct)

/-- Modelled from the spec: `Type::IsVoid`; the base class is `void`. -/
def FXType.IsVoid (t : FXType) : Bool := decide (t.BaseClass = TypeClass.Void)

/-- The function `boost::starts_with`. -/
def starts_with (input test : String) : Bool := test.data.isPrefixOf input.data

/-- The test `starts_with(semantic, "COLOR") || starts_with(semantic, "SV_TARGET")`. -/
def isTargetSemantic (semantic : String) : Bool :=
  starts_with semantic "COLOR" || starts_with semantic "SV_TARGET"

/-- The read `swizzle[Rows - 1]` of the local array `swizzle[3] = { "x", "xy", "xyz" }`;
with `Rows = 0` the index is out of range and the result is `none`. -/
def swizzleOfRows (Rows : Nat) : Option String :=
  if Rows = 0 then none else ["x", "xy", "xyz"][Rows - 1]?

/-- The text the stage source starts with (lines 2399-2413). -/
def shaderPrelude : String :=
  "#version 430\n" ++
  "float _fmod(float x, float y) \x7b return x - y * trunc(x / y); \x7d" ++
  "vec2 _fmod(vec2 x, vec2 y) \x7b return x - y * trunc(x / y); \x7d" ++
  "vec3 _fmod(vec3 x, vec3 y) \x7b return x - y * trunc(x / y); \x7d" ++
  "vec4 _fmod(vec4 x, vec4 y) \x7b return x - y * trunc(x / y); \x7d" ++
  "mat2 _fmod(mat2 x, mat2 y) \x7b return x - matrixCompMult(y, mat2(trunc(x[0] / y[0]), trunc(x[1] / y[1]))); \x7d" ++
  "mat3 _fmod(mat3 x, mat3 y) \x7b return x - matrixCompMult(y, mat3(trunc(x[0] / y[0]), trunc(x[1] / y[1]), trunc(x[2] / y[2]))); \x7d" ++
  "mat4 _fmod(mat4 x, mat4 y) \x7b return x - matrixCompMult(y, mat4(trunc(x[0] / y[0]), trunc(x[1] / y[1]), trunc(x[2] / y[2]), trunc(x[3] / y[3]))); \x7d\n" ++
  "void _sincos(float x, out float s, out float c) \x7b s = sin(x), c = cos(x); \x7d" ++
  "void _sincos(vec2 x, out vec2 s, out vec2 c) \x7b s = sin(x), c = cos(x); \x7d" ++
  "void _sincos(vec3 x, out vec3 s, out vec3 c) \x7b s = sin(x), c = cos(x); \x7d" ++
  "void _sincos(vec4 x, out vec4 s, out vec4 c) \x7b s = sin(x), c = cos(x); \x7d\n" ++
  "vec4 _textureLod(sampler2D s, vec4 c) \x7b return textureLod(s, c.xy, c.w); \x7d\n" ++
  "#define _textureLodOffset(s, c, offset) textureLodOffset(s, (c).xy, (c).w, offset)\n"

/-- The statement that the wrapper of a vertex stage ends with (line 2596). -/
def depthRemapStatement : String :=
  "gl_Position = gl_Position * vec4(1.0, 1.0, 2.0, 1.0) + vec4(0.0, 0.0, -gl_Position.w, 0.0);\n"

/-- The start of the stage source (lines 2399-2431): the prelude, the block of the global
uniforms, `discard` outside the fragment stage, the global code, the text of the
dependencies and the text of the function. -/
def shaderSourceHead (texts : CompilerTexts) (node : FunctionNode) (shadertype : Nat) :
    Option String := do
  let source := shaderPrelude
  let source :=
    if texts._globalUniforms ≠ "" then
      source ++ ("layout(std140, binding = 0) uniform _GLOBAL_\n\x7b\n" ++
        texts._globalUniforms ++ "\x7d;\n")
    else source
  let source := if shadertype ≠ GL_FRAGMENT_SHADER then source ++ "#define discard\n" else source
  let source := source ++ texts._globalCode
  let function ← functionsAt texts._functions node.Id
  let source ← function.FunctionDependencies.foldlM
    (fun source dependency =>
      (functionsAt texts._functions dependency).map (fun f => source ++ f.SourceCode))
    source
  some (source ++ function.SourceCode)

/-- The declarations of the stage interface for one parameter (lines 2433-2446). -/
def declareParameter (shadertype : Nat) (source : String) (parameter : ParameterNode) :
    Option String :=
  if parameter.Type_.IsStruct then
    match parameter.Type_.Definition with
    | none => none
    | some _ =>
      parameter.Fields.foldlM
        (fun source field =>
          VisitShaderParameter source field.Type_ parameter.Type_.Qualifiers
            ("_param_" ++ parameter.Name ++ "_" ++ field.Name) field.Semantic shadertype)
        source
  else
    VisitShaderParameter source parameter.Type_ parameter.Type_.Qualifiers
      ("_param_" ++ parameter.Name) parameter.Semantic shadertype

/-- The declarations of the stage interface for the return value (lines 2448-2458). -/
def declareReturn (shadertype : Nat) (source : String) (node : FunctionNode) :
    Option String :=
  if node.ReturnType.IsStruct then
    match node.ReturnType.Definition with
    | none => none
    | some _ =>
      node.ReturnFields.foldlM
        (fun source field =>
          VisitShaderParameter source field.Type_ [Qualifier.Out]
            ("_return_" ++ field.Name) field.Semantic shadertype)
        source
  else if !node.ReturnType.IsVoid then
    VisitShaderParameter source node.ReturnType [Qualifier.Out] "_return"
      node.ReturnSemantic shadertype
  else some source

/-- The body of the loop over `i` of lines 2464-2490 for one parameter and one `i`. -/
def initParameterElement (shadertype : Nat) (parameter : ParameterNode) (source : String)
    (i : Nat) : Option String :=
  let index := if parameter.Type_.IsArray then toString i else ""
  if parameter.Type_.IsStruct then do
    let source ← VisitTypeClass source parameter.Type_
    let source := source ++ (" _param_" ++ parameter.Name ++ index ++ " = ")
    let source ← VisitTypeClass source parameter.Type_
    let source := source ++ "("
    let _ ← parameter.Type_.Definition
    let source ←
      if parameter.Fields ≠ [] then
        eraseLastTwo (parameter.Fields.foldl
          (fun source field =>
            source ++ (FixNameWithSemantic
              ("_param_" ++ parameter.Name ++ "_" ++ field.Name ++ index)
              field.Semantic shadertype ++ ", "))
          source)
      else some source
    some (source ++ ");\n")
  else if isTargetSemantic parameter.Semantic then
    some (source ++ (" _param_" ++ parameter.Name ++ index ++ " = vec4(0, 0, 0, 1);\n"))
  else some source

/-- The body of the loop over the parameters of lines 2462-2509 for one parameter. -/
def initParameter (shadertype : Nat) (source : String) (parameter : ParameterNode) :
    Option String := do
  let source ← (List.range (max 1 parameter.Type_.ArrayLength)).foldlM
    (initParameterElement shadertype parameter) source
  if parameter.Type_.IsArray then do
    let source ← VisitTypeClass source parameter.Type_
    let source := source ++ (" _param_" ++ parameter.Name ++ "[] = ")
    let source ← VisitTypeClass source parameter.Type_
    let source := source ++ "[]("
    let source := (List.range parameter.Type_.ArrayLength).foldl
      (fun source i => source ++ ("_param_" ++ parameter.Name ++ toString i ++ ", ")) source
    let source ← eraseLastTwo source
    some (source ++ ");\n")
  else some source

/-- The start of the call statement (lines 2511-2531): the declaration of `_return` and
its initialisation for a target of fewer than four rows. -/
def beginReturn (source : String) (node : FunctionNode) : Option String := do
  let source ←
    if node.ReturnType.IsStruct then
      (VisitTypeClass source node.ReturnType).map (fun source => source.push ' ')
    else some source
  if !node.ReturnType.IsVoid then
    let source := source ++ "_return = "
    if isTargetSemantic node.ReturnSemantic ∧ node.ReturnType.Rows < 4 then
      (swizzleOfRows node.ReturnType.Rows).map (fun letters =>
        source ++ ("vec4(0, 0, 0, 1);\n_return." ++ letters ++ " = "))
    else some source
  else some source

/-- The body of the loop over the arguments of the call (lines 2537-2549). -/
def callArgument (shadertype : Nat) (source : String) (parameter : ParameterNode) :
    Option String := do
  let source := source ++
    FixNameWithSemantic ("_param_" ++ parameter.Name) parameter.Semantic shadertype
  let source ←
    if isTargetSemantic parameter.Semantic ∧ parameter.Type_.Rows < 4 then
      (swizzleOfRows parameter.Type_.Rows).map (fun letters => source ++ ("." ++ letters))
    else some source
  some (source ++ ", ")

/-- The call of the entry function (lines 2533-2555). -/
def callEntry (shadertype : Nat) (source : String) (node : FunctionNode) :
    Option String := do
  let source := source ++ (FixName node.Name node.Namespace).push '('
  let source ←
    if node.Parameters ≠ [] then do
      let source ← node.Parameters.foldlM (callArgument shadertype) source
      eraseLastTwo source
    else some source
  some (source ++ ");\n")

/-- The copies of one `out` parameter behind the call (lines 2557-2582). -/
def copyOutParameter (source : String) (parameter : ParameterNode) : Option String :=
  if !parameter.Type_.HasQualifier Qualifier.Out then some source
  else do
    let source :=
      if parameter.Type_.IsArray then
        (List.range parameter.Type_.ArrayLength).foldl
          (fun source i =>
            source ++ ("_param_" ++ parameter.Name ++ toString i ++ " = _param_" ++
              parameter.Name ++ "[" ++ toString i ++ "];\n"))
          source
      else source
    (List.range (max 1 parameter.Type_.ArrayLength)).foldlM
      (fun source i =>
        if parameter.Type_.IsStruct then
          match parameter.Type_.Definition with
          | none => none
          | some _ =>
            some (parameter.Fields.foldl
              (fun source field =>
                source ++ ("_param_" ++ parameter.Name ++ "_" ++ field.Name ++
                  (if parameter.Type_.IsArray then toString i else "") ++ " = " ++
                  "_param_" ++ parameter.Name ++ "." ++ field.Name ++
                  (if parameter.Type_.IsArray then "[" ++ toString i ++ "]" else "") ++
                  ";\n"))
              source)
        else some source)
      source

/-- The copies of the fields of a return value of struct type (lines 2584-2590). -/
def copyReturn (shadertype : Nat) (source : String) (node : FunctionNode) : Option String :=
  if node.ReturnType.IsStruct then
    match node.ReturnType.Definition with
    | none => none
    | some _ =>
      some (node.ReturnFields.foldl
        (fun source field =>
          source ++ (FixNameWithSemantic ("_return_" ++ field.Name) field.Semantic shadertype ++
            " = _return." ++ field.Name ++ ";\n"))
        source)
  else some source

/-- The text `source` that `GLEffectCompiler::VisitTechniquePassShader` hands to the
graphics device (lines 2399-2599). -/
def shaderSource (texts : CompilerTexts) (node : FunctionNode) (shadertype : Nat) :
    Option String := do
  let source ← shaderSourceHead texts node shadertype
  let source ← node.Parameters.foldlM (declareParameter shadertype) source
  let source ← declareReturn shadertype source node
  let source := source ++ "void main()\n\x7b\n"
  let source ← node.Parameters.foldlM (initParameter shadertype) source
  let source ← beginReturn source node
  let source ← callEntry shadertype source node
  let source ← node.Parameters.foldlM copyOutParameter source
  let source ← copyReturn shadertype source node
  let source := if shadertype = GL_VERTEX_SHADER then source ++ depthRemapStatement else source
  some (source ++ "\x7d\n")

/-- The statement `gl_Position = gl_Position * vec4(1.0, 1.0, 2.0, 1.0) +
vec4(0.0, 0.0, -gl_Position.w, 0.0)` read as exact arithmetic on the four components of
`gl_Position`: the product and the sum of vectors are taken component by component. -/
def depthRemap (p : ℚ × ℚ × ℚ × ℚ) : ℚ × ℚ × ℚ × ℚ :=
  (p.1 * 1 + 0, p.2.1 * 1 + 0, p.2.2.1 * 2 + -p.2.2.2, p.2.2.2 * 1 + 0)

/-- A vertex entry point `float4 VS(uint id : SV_VertexID) : SV_Position`. -/
def vertexEntryExample : FunctionNode :=
  ⟨1, "VS", "", ⟨TypeClass.Float, [], 4, 1, 0, none⟩, "SV_POSITION", [],
    [⟨"id", ⟨TypeClass.Uint, [Qualifier.In], 1, 1, 0, none⟩, "SV_VERTEXID", []⟩]⟩

/-- A fragment entry point `float3 PS(float2 uv : TEXCOORD0) : SV_Target`. -/
def fragmentEntryExample : FunctionNode :=
  ⟨2, "PS", "", ⟨TypeClass.Float, [], 3, 1, 0, none⟩, "SV_TARGET", [],
    [⟨"uv", ⟨TypeClass.Float, [Qualifier.In], 2, 1, 0, none⟩, "TEXCOORD0", []⟩]⟩

/-- The texts of a compiler that has visited the two example entry points. -/
def textsExample : CompilerTexts :=
  ⟨"", "", [(1, ⟨"vec4 VS(in uint id)\n\x7b\n\x7d\n", []⟩),
            (2, ⟨"vec3 PS(in vec2 uv)\n\x7b\n\x7d\n", []⟩)]⟩

/-- The text `result` is the text `source` with something appended. -/
def Extends (source result : String) : Prop := ∃ t : String, result = source ++ t

/-- A name of the effect language: letters, digits and underscores. -/
def IsIdentifier (name : String) : Prop :=
  ∀ c ∈ name.data, c.isAlphanum = true ∨ c = '_'

/-- The text ends with `;` and a line break behind a character other than `)`. -/
def StatementEnd (l : List Char) : Prop :=
  ∃ (u : List Char) (c : Char), l = u ++ [c, ';', '\n'] ∧ c ≠ ')'

/-- The text has at least two characters and does not end with `.0`. -/
def ArgumentEnd (l : List Char) : Prop :=
  ∃ (u : List Char) (c d : Char), l = u ++ [c, d] ∧ (d ≠ '0' ∨ c ≠ '.')

/-- The text ends with `);` and a line break behind a text that does not end with `.0`. -/
def CallEnd (l : List Char) : Prop :=
  ∃ (u : List Char) (c : Char), l = u ++ [c, ')', ';', '\n'] ∧
    (c ≠ '0' ∨ ∃ (v : List Char) (b : Char), u = v ++ [b] ∧ b ≠ '.')

instance (name : String) : Decidable (IsIdentifier name) := by
  unfold IsIdentifier; exact inferInstance

/-! ## Resource binding -/

/-- The OpenGL constant `GL_RGBA8`. -/
def GL_RGBA8 : Nat := 0x8058

/-- The OpenGL constant `GL_SRGB8_ALPHA8`. -/
def GL_SRGB8_ALPHA8 : Nat := 0x8C43

/-- The enumeration `GLTexture::Source`. -/
inductive TextureSource where
  | None | Memory | BackBuffer | DepthStencil
  deriving DecidableEq, Repr

/-- A `GLTexture` object as `VisitTexture` creates it: the part the pass assembly reads,
the member `DataSource`, and the members `Levels` and `Format` of its base `Texture`. -/
structure GLTextureObject extends GLTexture where
  Levels : Nat
  Format : PixelFormat
  DataSource : TextureSource
  deriving DecidableEq, Repr

/-- The function `LiteralToFormat`: `internalformat`, `internalformatsrgb` and `name` for
a value of `Properties::Format`, given by the pixel format of the same name (`Unknown`
for a value without a `case`).  The `GLenum` values are those of the OpenGL headers. -/
def LiteralToFormat (value : PixelFormat) : Nat × Nat × PixelFormat :=
  match value with
  | PixelFormat.R8 => (0x8229, 0x8229, PixelFormat.R8)
  | PixelFormat.R16F => (0x822D, 0x822D, PixelFormat.R16F)
  | PixelFormat.R32F => (0x822E, 0x822E, PixelFormat.R32F)
  | PixelFormat.RG8 => (0x822B, 0x822B, PixelFormat.RG8)
  | PixelFormat.RG16 => (0x822C, 0x822C, PixelFormat.RG16)
  | PixelFormat.RG16F => (0x822F, 0x822F, PixelFormat.RG16F)
  | PixelFormat.RG32F => (0x8230, 0x8230, PixelFormat.RG32F)
  | PixelFormat.RGBA8 => (GL_RGBA8, GL_SRGB8_ALPHA8, PixelFormat.RGBA8)
  | PixelFormat.RGBA16 => (0x805B, 0x805B, PixelFormat.RGBA16)
  | PixelFormat.RGBA16F => (0x881A, 0x881A, PixelFormat.RGBA16F)
  | PixelFormat.RGBA32F => (0x8814, 0x8814, PixelFormat.RGBA32F)
  | PixelFormat.DXT1 => (0x83F1, 0x8C4D, PixelFormat.DXT1)
  | PixelFormat.DXT3 => (0x83F2, 0x8C4E, PixelFormat.DXT3)
  | PixelFormat.DXT5 => (0x83F3, 0x8C4F, PixelFormat.DXT5)
  | PixelFormat.LATC1 => (0x8C70, 0x8C70, PixelFormat.LATC1)
  | PixelFormat.LATC2 => (0x8C72, 0x8C72, PixelFormat.LATC2)
  | PixelFormat.Unknown => (GL_NONE, GL_NONE, PixelFormat.Unknown)

/-- The function `GLTexture::ChangeDataSource`: the object after the call and the release
of the images it held. -/
def ChangeDataSource (obj : GLTextureObject) (source : TextureSource)
    (texture textureSRGB : Nat) : GLTextureObject × List GLCall :=
  let calls :=
    if obj.DataSource = TextureSource.Memory then [GLCall.glDeleteTextures obj.ID.1 obj.ID.2]
    else []
  let obj := { obj with DataSource := source }
  let textureSRGB := if textureSRGB = 0 then texture else textureSRGB
  if obj.ID.1 = texture ∧ obj.ID.2 = textureSRGB then (obj, calls)
  else ({ obj with ID := (texture, textureSRGB) }, calls)

/-- The part of a `FX::Nodes::Variable` node of texture type read by `VisitTexture`; the
annotations, which are copied to the object, are left out. -/
structure TextureNode where
  Location : Location
  Name : String
  Semantic : String
  Width : Nat
  Height : Nat
  MipLevels : Nat
  Format : PixelFormat
  deriving DecidableEq, Repr

/-- The record `GLSampler`; the pointer `Texture` is the name of the texture object. -/
structure GLSampler where
  ID : Nat
  Texture : String
  SRGB : Bool
  deriving DecidableEq, Repr

/-- The part of a `FX::Nodes::Variable` node of sampler type whose reading decides what
`VisitSampler` registers: `Texture` is the name of `Properties.Texture`, `none` for a null
pointer.  The filter and address properties, which go to the sampler object of the
graphics device, are left out. -/
structure SamplerNode where
  Location : Location
  Name : String
  Namespace : String
  Texture : Option String
  SRGBTexture : Bool
  deriving DecidableEq, Repr

/-- The record `GLTechnique` with the members `Name` and `PassCount` of its base
`Technique`. -/
structure GLTechnique where
  Name : String
  PassCount : Nat
  Passes : List Pass
  deriving DecidableEq, Repr

/-- The part of a `FX::Nodes::Technique` node read by `VisitTechnique`. -/
structure TechniqueNode where
  Name : String
  Passes : List PassNode
  deriving DecidableEq, Repr

/-- Modelled from the spec: the resource tables of the runtime are declared in
`Runtime.hpp`, which is not part of the sources at hand: "append-only
append-and-lookup-by-name collections during one compile pass", filled by the
"registration calls - add-texture(by name), add-uniform(by name), add-technique(by
name)".  With them the members of `GLRuntime` that `Compile` reads or writes. -/
structure RuntimeState where
  _textures : List GLTextureObject
  _effectSamplers : List GLSampler
  _uniforms : List Uniform
  _techniques : List GLTechnique
  _backbufferTexture : Nat × Nat
  _depthTexture : Nat
  _effectUBO : Nat
  deriving DecidableEq, Repr

/-- The function `GLEffectCompiler::VisitTexture`; `ids` are the two names that
`glGenTextures` returns. -/
def VisitTexture (ids : Nat × Nat) (node : TextureNode) (runtime : RuntimeState)
    (st : CompilerState) : RuntimeState × CompilerState :=
  let format := LiteralToFormat node.Format
  let obj : GLTextureObject :=
    { Name := node.Name, Width := node.Width, Height := node.Height, ID := (0, 0),
      Levels := node.MipLevels, Format := format.2.2, DataSource := TextureSource.None }
  let width := node.Width
  let height := node.Height
  let levels := node.MipLevels
  let internalformat := format.1
  let warned : CompilerState × Nat :=
    if levels = 0 then
      (Warning node.Location "a texture cannot have 0 miplevels, changed it to 1" st, 1)
    else (st, levels)
  let st := warned.1
  let levels := warned.2
  if node.Semantic = "COLOR" ∨ node.Semantic = "SV_TARGET" then
    let st :=
      if width ≠ 1 ∨ height ≠ 1 ∨ levels ≠ 1 ∨ internalformat ≠ GL_RGBA8 then
        Warning node.Location "texture property on backbuffer textures are ignored" st
      else st
    let changed := ChangeDataSource obj TextureSource.BackBuffer
      runtime._backbufferTexture.1 runtime._backbufferTexture.2
    ({ runtime with _textures := runtime._textures ++ [changed.1] },
      { st with glCalls := st.glCalls ++ changed.2 })
  else if node.Semantic = "DEPTH" ∨ node.Semantic = "SV_DEPTH" then
    let st :=
      if width ≠ 1 ∨ height ≠ 1 ∨ levels ≠ 1 ∨ internalformat ≠ GL_RGBA8 then
        Warning node.Location "texture property on depthbuffer textures are ignored" st
      else st
    let changed := ChangeDataSource obj TextureSource.DepthStencil runtime._depthTexture 0
    ({ runtime with _textures := runtime._textures ++ [changed.1] },
      { st with glCalls := st.glCalls ++ changed.2 })
  else
    let obj := { obj with DataSource := TextureSource.Memory, ID := ids }
    let st := { st with glCalls := st.glCalls ++
      [GLCall.glGenTextures ids.1 ids.2,
        GLCall.glTexStorage2D ids.1 levels internalformat width height] }
    ({ runtime with _textures := runtime._textures ++ [obj] }, st)

/-- The function `GLEffectCompiler::VisitSampler`: the runtime, the diagnostics and
`_globalCode` after the call; `id` is the name that `glGenSamplers` returns. -/
def VisitSampler (id : Nat) (node : SamplerNode) (runtime : RuntimeState)
    (st : CompilerState) (_globalCode : String) : RuntimeState × CompilerState × String :=
  match node.Texture with
  | none =>
    (runtime, Error node.Location
      ("sampler '" ++ node.Name ++ "' is missing required 'Texture' property") st,
      _globalCode)
  | some name =>
    match GetTexture (runtime._textures.map GLTextureObject.toGLTexture) name with
    | none => (runtime, { st with _isFatal := true }, _globalCode)
    | some texture =>
      let sampler : GLSampler := ⟨id, texture.Name, node.SRGBTexture⟩
      let st := { st with glCalls := st.glCalls ++ [GLCall.glGenSamplers id] }
      let _globalCode := _globalCode ++
        ("layout(binding = " ++ toString runtime._effectSamplers.length ++
          ") uniform sampler2D ")
      let _globalCode := _globalCode ++ FixName node.Name node.Namespace
      let _globalCode := _globalCode ++ ";\n"
      ({ runtime with _effectSamplers := runtime._effectSamplers ++ [sampler] }, st,
        _globalCode)

/-- The loop of `VisitTechnique` over the passes still to visit; `env i` is what the
graphics device answers during the assembly of pass `i`. -/
def visitPasses (env : Nat → PassEnvironment) (runtime : RuntimeObjects) :
    Nat → List PassNode → CompilerState → List Pass → CompilerState × List Pass
  | _, [], st, passes => (st, passes)
  | i, pass :: rest, st, passes =>
    let visited := VisitTechniquePass (env i) runtime pass st passes
    visitPasses env runtime (i + 1) rest visited.1 visited.2

/-- The function `GLEffectCompiler::VisitTechnique`; the annotations, which are copied to
the object, are left out. -/
def VisitTechnique (env : Nat → PassEnvironment) (node : TechniqueNode)
    (runtime : RuntimeState) (st : CompilerState) : RuntimeState × CompilerState :=
  let obj : GLTechnique := ⟨node.Name, node.Passes.length, []⟩
  let visited := visitPasses env
    ⟨runtime._textures.map GLTextureObject.toGLTexture, runtime._backbufferTexture.2⟩
    0 node.Passes st obj.Passes
  ({ runtime with _techniques := runtime._techniques ++ [{ obj with Passes := visited.2 }] },
    visited.1)

/-- A struct, a global variable or a function as `Compile` visits it: the text that the
visit generates, and the locations of the swizzles of more than one component of a
matrix inside it, each of which the visit reports by `Error`. -/
structure VisitedCode where
  Code : String
  MatrixSwizzles : List Location
  deriving DecidableEq, Repr

/-- A declaration of `_ast.Uniforms` by the branch of `Compile` that it takes: a texture,
a sampler, a variable with the qualifier `uniform`, or any other global variable. -/
inductive UniformDeclaration where
  | texture (node : TextureNode)
  | sampler (node : SamplerNode)
  | uniform (node : Variable)
  | other (node : VisitedCode)
  deriving DecidableEq, Repr

/-- The record `FX::NodeTree` as `Compile` walks it. -/
structure NodeTree where
  Structs : List VisitedCode
  Uniforms : List UniformDeclaration
  Functions : List VisitedCode
  Techniques : List TechniqueNode
  deriving DecidableEq, Repr

/-- What the graphics device answers during one compilation: the names of the images of
the texture declared at position `i`, of the sampler declared at position `i`, the
answers during pass `j` of technique `i`, and the name of the uniform buffer. -/
structure CompileEnvironment where
  textures : Nat → Nat × Nat
  samplers : Nat → Nat
  passes : Nat → Nat → PassEnvironment
  effectUBO : Nat

/-- The members of the compiler and the runtime while `Compile` runs.  The texts
`_globalUniforms` and `_functions` and the backing store of the uniforms, which do not
enter the diagnostics or the tables of the runtime, are left out. -/
structure CompileState where
  runtime : RuntimeState
  diagnostics : CompilerState
  _globalCode : String
  _currentGlobalSize : Nat
  deriving DecidableEq, Repr

/-- The visit of a struct, a global variable or a function: its text is appended to
`output`, and every swizzle of more than one component of a matrix is reported. -/
def visitCode (node : VisitedCode) (st : CompilerState) : CompilerState :=
  node.MatrixSwizzles.foldl
    (fun st location =>
      Error location "multiple component matrix swizzeling is not supported in OpenGL" st)
    st

/-- The body of the loop over `_ast.Uniforms` in `Compile` (lines 135-157) for the
declaration at position `i`. -/
def visitUniformDeclaration (env : CompileEnvironment) (i : Nat)
    (declaration : UniformDeclaration) (s : CompileState) : CompileState :=
  match declaration with
  | UniformDeclaration.texture node =>
    let visited := VisitTexture (env.textures i) node s.runtime s.diagnostics
    { s with runtime := visited.1, diagnostics := visited.2 }
  | UniformDeclaration.sampler node =>
    let visited := VisitSampler (env.samplers i) node s.runtime s.diagnostics s._globalCode
    { s with runtime := visited.1, diagnostics := visited.2.1, _globalCode := visited.2.2 }
  | UniformDeclaration.uniform node =>
    let visited := VisitUniform node ⟨s._currentGlobalSize, s.runtime._uniforms⟩
    { s with runtime := { s.runtime with _uniforms := visited.Constants },
             _currentGlobalSize := visited._currentGlobalSize }
  | UniformDeclaration.other node =>
    { s with diagnostics := visitCode node s.diagnostics,
             _globalCode := (s._globalCode ++ node.Code) ++ ";\n" }

/-- The loop over `_ast.Uniforms` from position `i` on. -/
def visitUniformDeclarations (env : CompileEnvironment) :
    Nat → List UniformDeclaration → CompileState → CompileState
  | _, [], s => s
  | i, declaration :: rest, s =>
    visitUniformDeclarations env (i + 1) rest (visitUniformDeclaration env i declaration s)

/-- The loop over `_ast.Techniques` from position `i` on. -/
def visitTechniques (env : CompileEnvironment) :
    Nat → List TechniqueNode → CompileState → CompileState
  | _, [], s => s
  | i, technique :: rest, s =>
    let visited := VisitTechnique (env.passes i) technique s.runtime s.diagnostics
    visitTechniques env (i + 1) rest { s with runtime := visited.1, diagnostics := visited.2 }

/-- The function `GLEffectCompiler::Compile` of a compiler that was just constructed
(`_currentGlobalSize(0)`): the value it returns, the runtime after the call, and
`errors` after the call. -/
def Compile (env : CompileEnvironment) (ast : NodeTree) (runtime : RuntimeState)
    (errors : String) : Bool × RuntimeState × String :=
  let s : CompileState := ⟨runtime, ⟨"", false, []⟩, "", 0⟩
  let s := ast.Structs.foldl
    (fun s node => { s with diagnostics := visitCode node s.diagnostics,
                            _globalCode := s._globalCode ++ node.Code }) s
  let s := visitUniformDeclarations env 0 ast.Uniforms s
  let s := ast.Functions.foldl
    (fun s node => { s with diagnostics := visitCode node s.diagnostics }) s
  let s := visitTechniques env 0 ast.Techniques s
  let s :=
    if s._currentGlobalSize ≠ 0 then
      { s with runtime := { s.runtime with _effectUBO := env.effectUBO },
               diagnostics := { s.diagnostics with
                 glCalls := s.diagnostics.glCalls ++ [GLCall.glGenBuffers env.effectUBO] } }
    else s
  (!s.diagnostics._isFatal, s.runtime, errors ++ s.diagnostics._errors)

/-- A runtime with the effect compiled before: one texture, one sampler on it, one
uniform and one technique. -/
def runtimeExample : RuntimeState :=
  ⟨[⟨⟨"old", 64, 64, (11, 12)⟩, 1, PixelFormat.RGBA8, TextureSource.Memory⟩],
   [⟨13, "old", false⟩],
   [⟨"oldValue", some UniformType.Float, 1, 1, 0, 4, 0⟩],
   [⟨"oldTechnique", 0, []⟩], (1, 2), 3, 4⟩

/-- An environment that names the objects from 100 on and in which every stage compiles
and every program links. -/
def environmentExample : CompileEnvironment :=
  ⟨fun i => (100 + 2 * i, 101 + 2 * i), fun i => 200 + i,
   fun i j => ⟨300 + 10 * i + j, 400 + 10 * i + j, 500, 501, none, none, none, 1920, 1080⟩,
   600⟩

/-- A texture declaration `texture name { Width = 16; Height = 16; MipLevels = levels; }`
at line 1 of `fx`. -/
def textureExample (name : String) (levels : Nat) : TextureNode :=
  ⟨⟨"fx", 1, 1⟩, name, "", 16, 16, levels, PixelFormat.RGBA8⟩

/-- The tables of the runtime `after` start with the entries of the tables of the runtime
`before`, in the same order. -/
def RuntimeState.Grows (before after : RuntimeState) : Prop :=
  before._textures <+: after._textures ∧
  before._effectSamplers <+: after._effectSamplers ∧
  before._uniforms <+: after._uniforms ∧
  before._techniques <+: after._techniques

/-- An effect with a texture declaration and a sampler declaration that lacks the
`Texture` property. -/
def failingEffectExample : NodeTree :=
  ⟨[], [UniformDeclaration.texture (textureExample "new" 1),
        UniformDeclaration.sampler ⟨⟨"fx", 2, 1⟩, "s", "", none, false⟩], [], []⟩

/-- An environment in which the program of the first pass of every technique fails to
link with the log `link failed`, and everything else succeeds. -/
def linkFailureEnvironment : CompileEnvironment :=
  ⟨fun i => (100 + 2 * i, 101 + 2 * i), fun i => 200 + i,
   fun i j => ⟨300 + 10 * i + j, 400 + 10 * i + j, 500, 501, none, none,
     if j = 0 then some "link failed\n" else none, 1920, 1080⟩,
   600⟩

/-- A technique `T` of two passes without render targets. -/
def techniqueExample : TechniqueNode :=
  ⟨"T", [⟨⟨"fx", 5, 1⟩, ⟨List.replicate 8 none, false, true, true⟩⟩,
         ⟨⟨"fx", 6, 1⟩, ⟨List.replicate 8 none, false, true, true⟩⟩]⟩

/-! ## Selected depth source, index rows, assignments, balanced text -/

/-- The call by which `DetectDepthSource` attaches the selected depth source to
`_depthSourceFBO`. -/
inductive DepthSourceCall where
  | glFramebufferRenderbuffer (renderbuffer : Nat)
  | glFramebufferTexture (texture : Nat) (level : Int)
  deriving DecidableEq, Repr

/-- The decoding of the selected key in `DetectDepthSource` (lines 3691-3704): with
`(best & 0x80000000) != 0` the object `best ^ 0x80000000` is attached as a renderbuffer,
otherwise `best` is attached as a texture at the level of `bestInfo`. -/
def attachDepthSource (best : Nat) (bestInfo : DepthSourceInfo) : DepthSourceCall :=
  if best &&& 0x80000000 ≠ 0 then
    DepthSourceCall.glFramebufferRenderbuffer (best ^^^ 0x80000000)
  else DepthSourceCall.glFramebufferTexture best bestInfo.Level

/-- The bytes 2..7 of a BC4 block read as a little-endian field of 48 bits. -/
def indexField (block : List Nat) : Nat :=
  block.getD 2 0 + 256 * (block.getD 3 0 + 256 * (block.getD 4 0 + 256 * (block.getD 5 0 +
    256 * (block.getD 6 0 + 256 * block.getD 7 0))))

/-- Row `r` of the index grid of a BC4 block: the bits `12 r .. 12 r + 11` of the index
field, four indices of three bits. -/
def indexRow (block : List Nat) (r : Nat) : Nat :=
  indexField block / 4096 ^ r % 4096

/-- The operators `FX::Nodes::Assignment::Op`. -/
inductive AssignmentOp where
  | None | Add | Subtract | Multiply | Divide | Modulo | LeftShift | RightShift
  | BitwiseAnd | BitwiseOr | BitwiseXor
  deriving DecidableEq, Repr

/-- The function `GLEffectCompiler::Visit(Assignment)`. -/
def VisitAssignment (output : String) (op : AssignmentOp) (Left Right : Expression) :
    Option String :=
  let output := output.push '('
  let output := Visit output Left
  let output := output.push ' '
  let output :=
    match op with
    | AssignmentOp.None => output.push '='
    | AssignmentOp.Add => output ++ "+="
    | AssignmentOp.Subtract => output ++ "-="
    | AssignmentOp.Multiply => output ++ "*="
    | AssignmentOp.Divide => output ++ "/="
    | AssignmentOp.Modulo => output ++ "%="
    | AssignmentOp.LeftShift => output ++ "<<="
    | AssignmentOp.RightShift => output ++ ">>="
    | AssignmentOp.BitwiseAnd => output ++ "&="
    | AssignmentOp.BitwiseOr => output ++ "|="
    | AssignmentOp.BitwiseXor => output ++ "^="
  match PrintCast Right.Type_ Left.Type_ with
  | none => none
  | some cast =>
    let output := output ++ (" " ++ cast.1)
    let output := Visit output Right
    some (output ++ (cast.2 ++ ")"))

/-- The scan of a text for balanced parentheses and square brackets: `expected` holds the
closing characters of the brackets that are open, the innermost first. -/
def balancedFrom : List Char → List Char → Bool
  | [], expected => expected.isEmpty
  | c :: rest, expected =>
    if c = '(' then balancedFrom rest (')' :: expected)
    else if c = '[' then balancedFrom rest (']' :: expected)
    else if c = ')' ∨ c = ']' then
      match expected with
      | [] => false
      | e :: outer => if e = c then balancedFrom rest outer else false
    else balancedFrom rest expected

/-- A text has balanced parentheses and square brackets. -/
def Balanced (text : String) : Bool := balancedFrom text.data []

/-! ## Screenshot -/

/-- One round of the inner loop of `GLRuntime::Screenshot` (lines 3505-3510) at the row
offsets `i1`, `i2` and the column offset `x`.  The indices are computed in `unsigned
int`; the result is `none` where one of them lies outside the buffer. -/
def screenshotPixel (i1 i2 x : Nat) (buffer : List Nat) : Option (List Nat) :=
  if ∀ k < 4, (i1 + x + k) % 4294967296 < buffer.length ∧
      (i2 + x + k) % 4294967296 < buffer.length then
    let buffer := buffer.set ((i1 + x + 3) % 4294967296) 0xFF
    let buffer := buffer.set ((i2 + x + 3) % 4294967296) 0xFF
    let buffer := swapBytes buffer ((i1 + x + 0) % 4294967296) ((i2 + x + 0) % 4294967296)
    let buffer := swapBytes buffer ((i1 + x + 1) % 4294967296) ((i2 + x + 1) % 4294967296)
    some (swapBytes buffer ((i1 + x + 2) % 4294967296) ((i2 + x + 2) % 4294967296))
  else none

/-- The inner loop `for (x = ...; x < pitch; x += 4)` of `GLRuntime::Screenshot` from the
column offset `x` on; `none` where the loop does not end within `fuel` rounds. -/
def screenshotLine (pitch i1 i2 : Nat) : Nat → Nat → List Nat → Option (List Nat)
  | 0, _, _ => none
  | fuel + 1, x, buffer =>
    if x < pitch then
      (screenshotPixel i1 i2 x buffer).bind
        (screenshotLine pitch i1 i2 fuel ((x + 4) % 4294967296))
    else some buffer

/-- The outer loop `for (y = ...; y * 2 < _height; ++y)` of `GLRuntime::Screenshot` from
the row `y` on; `none` where the loop does not end within `fuel` rounds. -/
def screenshotLines (_height pitch : Nat) : Nat → Nat → List Nat → Option (List Nat)
  | 0, _, _ => none
  | fuel + 1, y, buffer =>
    if (y * 2) % 4294967296 < _height then
      let i1 := (y * pitch) % 4294967296
      let i2 := (((_height + 4294967296 - 1 - y) % 4294967296) * pitch) % 4294967296
      (screenshotLine pitch i1 i2 (pitch + 1) 0 buffer).bind
        (screenshotLines _height pitch fuel ((y + 1) % 4294967296))
    else some buffer

/-- The function `GLRuntime::Screenshot` on a runtime of the size `_width` x `_height`;
`pixels` is what `glReadPixels` leaves in the buffer, the rows from the bottom to the
top, and the result is the buffer after the call. -/
def Screenshot (_width _height : Nat) (pixels : List Nat) : Option (List Nat) :=
  let pitch := (_width * 4) % 4294967296
  screenshotLines _height pitch (_height + 1) 0 pixels

/-! ## Function dependencies -/

/-- The part of a `FX::Nodes::Function` node that the loop of `Compile` over
`_ast.Functions` works on: `Id` stands for the address of the node, `Code` is the text
that the visitor emits for the function, and `Calls` are the callees `node->Callee` of
the Call nodes of its body, in the order in which `Visit(Call)` reaches its end for
them. -/
structure FunctionDeclaration where
  Id : Nat
  Code : String
  Calls : List Nat
  deriving DecidableEq, Repr

/-- The access `_functions[function]`: an empty record is inserted where the key is
new. -/
def functionsEntry (functions : List (Nat × Function)) (id : Nat) : List (Nat × Function) :=
  if (functionsAt functions id).isSome then functions else functions ++ [(id, ⟨"", []⟩)]

/-- An assignment through the reference `_functions.at(id)`. -/
def functionsSet (functions : List (Nat × Function)) (id : Nat) (record : Function) :
    List (Nat × Function) :=
  functions.map (fun it => if it.1 = id then (it.1, record) else it)

/-- The `push_back` of a dependency that `std::find` does not find in the vector (lines
1891-1894 and 1897-1900). -/
def addDependency (dependencies : List Nat) (dependency : Nat) : List Nat :=
  if dependency ∈ dependencies then dependencies else dependencies ++ [dependency]

/-- The end of `Visit(Call)` (lines 1886-1900): the dependencies of the callee and the
callee are added to the dependencies of `_currentFunction`; `none` where `at` throws. -/
def mergeDependencies (functions : List (Nat × Function)) (_currentFunction callee : Nat) :
    Option (List (Nat × Function)) := do
  let info ← functionsAt functions _currentFunction
  let infoCallee ← functionsAt functions callee
  let dependencies := infoCallee.FunctionDependencies.foldl addDependency
    info.FunctionDependencies
  let dependencies := addDependency dependencies callee
  some (functionsSet functions _currentFunction { info with FunctionDependencies := dependencies })

/-- The body of the loop of `Compile` over `_ast.Functions` (lines 160-164): the visit of
the function appends its text to `_functions[function].SourceCode`, and every Call node
in it merges the dependencies. -/
def visitFunction (functions : List (Nat × Function)) (node : FunctionDeclaration) :
    Option (List (Nat × Function)) := do
  let functions := functionsEntry functions node.Id
  let functions ← node.Calls.foldlM
    (fun functions callee => mergeDependencies functions node.Id callee) functions
  let info ← functionsAt functions node.Id
  some (functionsSet functions node.Id { info with SourceCode := info.SourceCode ++ node.Code })

/-- The loop of `Compile` over `_ast.Functions` (lines 158-165) of a compiler that was
just constructed: the map `_functions` after the loop. -/
def visitFunctions (ast : List FunctionDeclaration) : Option (List (Nat × Function)) :=
  ast.foldlM visitFunction []

/-- The function `g` has a Call node with the callee `c`. -/
def CallsIn (ast : List FunctionDeclaration) (g c : Nat) : Prop :=
  ∃ f ∈ ast, f.Id = g ∧ c ∈ f.Calls

/-- Each called function is defined before its callers: the callees of the function at
position `k` are among the functions at the positions before `k`. -/
def DefinedBeforeUse (ast : List FunctionDeclaration) : Prop :=
  ∀ k < ast.length, ∀ f ∈ ast[k]?, ∀ c ∈ f.Calls, c ∈ (ast.take k).map (fun g => g.Id)

instance (ast : List FunctionDeclaration) : Decidable (DefinedBeforeUse ast) := by
  unfold DefinedBeforeUse; exact inferInstance

/-- The text that the visitor emits for the function with the address `id`. -/
def codeOf (ast : List FunctionDeclaration) (id : Nat) : String :=
  ((ast.find? (fun f => f.Id == id)).map (fun f => f.Code)).getD ""

/-- Every callee is listed before its callers: each entry of the list has its callees
among the entries before it. -/
def CalleesFirst (ast : List FunctionDeclaration) (l : List Nat) : Prop :=
  ∀ (before : List Nat) (x : Nat) (after : List Nat), l = before ++ x :: after →
    ∀ e, CallsIn ast x e → e ∈ before

/-- What the compiler has recorded for the function `id`: its text `code` and a list of
dependencies without duplicates, with every callee first, that holds the functions
called from `id` through one or more calls. -/
def Recorded (ast : List FunctionDeclaration) (functions : List (Nat × Function))
    (id : Nat) (code : String) (deps : List Nat) : Prop :=
  functionsAt functions id = some ⟨code, deps⟩ ∧ deps.Nodup ∧ CalleesFirst ast deps ∧
    ∀ d, d ∈ deps ↔ Relation.TransGen (CallsIn ast) id d

/-- The text of a stage source in front of the functions (lines 2400-2426): the prelude,
the block of the global uniforms, `discard` outside the fragment stage and the global
code. -/
def shaderSourceStart (texts : CompilerTexts) (shadertype : Nat) : String :=
  let source := shaderPrelude
  let source :=
    if texts._globalUniforms ≠ "" then
      source ++ ("layout(std140, binding = 0) uniform _GLOBAL_\n\x7b\n" ++
        texts._globalUniforms ++ "\x7d;\n")
    else source
  let source := if shadertype ≠ GL_FRAGMENT_SHADER then source ++ "#define discard\n" else source
  source ++ texts._globalCode

/-- An effect with the functions `a`, `b` (calls `a`), `c` (calls `a`), `d` (calls `c`,
then `b`) and `e` (calls `b`). -/
def functionsExample : List FunctionDeclaration :=
  [⟨1, "A", []⟩, ⟨2, "B", [1]⟩, ⟨3, "C", [1]⟩, ⟨4, "D", [3, 2]⟩, ⟨5, "E", [2]⟩]

end ReShade

namespace ReShade

/-! ## Casts: theorems -/

/-- With an empty qualifier set `VisitType` emits the type name alone. -/
theorem VisitType_no_qualifiers (output : String) (c : TypeClass) (r k a : Nat)
    (d : Option StructDef) :
    VisitType output ⟨c, [], r, k, a, d⟩ = VisitTypeClass output ⟨c, [], r, k, a, d⟩ := by
  simp [VisitType, FXType.HasQualifier]

/-- The type name of a well-formed type is always produced. -/
theorem VisitTypeClass_isSome (output : String) (t : FXType) (h : t.WellFormed) :
    ∃ s, VisitTypeClass output t = some s := by
  unfold VisitTypeClass
  cases hc : t.BaseClass <;> simp only [] <;> try (split_ifs <;> exact ⟨_, rfl⟩)
  · exact ⟨_, rfl⟩
  · exact ⟨_, rfl⟩
  · cases hd : t.Definition with
    | none => exact absurd hd (h hc)
    | some d => exact ⟨_, rfl⟩
  · exact ⟨_, rfl⟩

/-- C1: casting a value to its own type adds no text: for every type `T`,
`PrintCast(T, T)` returns the pair of empty strings. -/
theorem PrintCast_same_type (T : FXType) : PrintCast T T = some ("", "") := by
  simp [PrintCast]

/-- C2: a truncating cast selects the leading components.  For well-formed types with
`1 ≤ to.Rows < from.Rows ≤ 4`, `PrintCast(from, to)` returns a result (no component
index outside `subscript` is read) whose second text is the `)` that closes the
base-class constructor when one was opened, then `.` and exactly the first
`to.Rows` letters of `xyzw`. -/
theorem PrintCast_truncate (from_ to_ : FXType) (hwf : to_.WellFormed)
    (h1 : 1 ≤ to_.Rows) (h2 : to_.Rows < from_.Rows) (h3 : from_.Rows ≤ 4) :
    ∃ first, PrintCast from_ to_ =
      some (first,
        (if from_.BaseClass ≠ to_.BaseClass ∧ !(from_.IsMatrix && to_.IsMatrix) then ")" else "")
          ++ "." ++ String.mk ("xyzw".data.take to_.Rows)) := by
  obtain ⟨fc, fq, fr, fk, fa, fd⟩ := from_
  obtain ⟨tc, tq, tr, tk, ta, td⟩ := to_
  simp only at h1 h2 h3
  obtain ⟨s, hs⟩ := VisitTypeClass_isSome "" ⟨tc, [], fr, fk, 0, td⟩ hwf
  unfold PrintCast
  simp only [VisitType_no_qualifiers, hs]
  have hnot : ¬ (0 < fr ∧ fr < tr) := by omega
  simp only [hnot, h2, if_true, if_false]
  split_ifs with hc
  · refine ⟨s.push '(', ?_⟩
    interval_cases fr <;> interval_cases tr <;> first | omega | rfl
  · refine ⟨"", ?_⟩
    interval_cases fr <;> interval_cases tr <;> first | omega | rfl

/-- Witness for C2: a `float4` expression cast to `int2` gets the second text `).xy`. -/
theorem PrintCast_truncate_witness :
    (FXType.mk TypeClass.Int [] 2 1 0 none).WellFormed ∧ 1 ≤ 2 ∧ 2 < 4 ∧ 4 ≤ 4 ∧
    ∃ first, PrintCast (FXType.mk TypeClass.Float [] 4 1 0 none)
        (FXType.mk TypeClass.Int [] 2 1 0 none) = some (first, ").xy") :=
  ⟨by decide, by decide, by decide, by decide,
   PrintCast_truncate (FXType.mk TypeClass.Float [] 4 1 0 none)
     (FXType.mk TypeClass.Int [] 2 1 0 none) (by decide) (by decide) (by decide) (by decide)⟩

/-- C3: an expanding cast selects every source component and repeats the last one.
For well-formed types with `1 ≤ from.Rows < to.Rows ≤ 4`, the swizzle emitted by
`PrintCast(from, to)` is `.`, the first `from.Rows` letters of `xyzw`, then the
letter of component `from.Rows - 1` repeated `to.Rows - from.Rows` times: exactly
`to.Rows` letters. -/
theorem PrintCast_expand (from_ to_ : FXType) (hwf : to_.WellFormed)
    (h1 : 1 ≤ from_.Rows) (h2 : from_.Rows < to_.Rows) (h3 : to_.Rows ≤ 4) :
    (∃ first, PrintCast from_ to_ =
      some (first,
        (if from_.BaseClass ≠ to_.BaseClass ∧ !(from_.IsMatrix && to_.IsMatrix) then ")" else "")
          ++ "." ++ String.mk ("xyzw".data.take from_.Rows ++
            List.replicate (to_.Rows - from_.Rows) ("xyzw".data.getD (from_.Rows - 1) ' ')))) ∧
    ("xyzw".data.take from_.Rows ++
      List.replicate (to_.Rows - from_.Rows) ("xyzw".data.getD (from_.Rows - 1) ' ')).length
        = to_.Rows := by
  obtain ⟨fc, fq, fr, fk, fa, fd⟩ := from_
  obtain ⟨tc, tq, tr, tk, ta, td⟩ := to_
  simp only at h1 h2 h3
  obtain ⟨s, hs⟩ := VisitTypeClass_isSome "" ⟨tc, [], fr, fk, 0, td⟩ hwf
  refine ⟨?_, ?_⟩
  · unfold PrintCast
    simp only [VisitType_no_qualifiers, hs]
    have hyes : 0 < fr ∧ fr < tr := by omega
    simp only [hyes, and_self, if_true]
    split_ifs with hc
    · refine ⟨s.push '(', ?_⟩
      interval_cases tr <;> interval_cases fr <;> first | omega | rfl
    · refine ⟨"", ?_⟩
      interval_cases tr <;> interval_cases fr <;> first | omega | rfl
  · interval_cases tr <;> interval_cases fr <;> first | omega | rfl

/-- Witness for C3: a `float2` expression cast to `float4` gets the swizzle `.xyyy`. -/
theorem PrintCast_expand_witness :
    (FXType.mk TypeClass.Float [] 4 1 0 none).WellFormed ∧ 1 ≤ 2 ∧ 2 < 4 ∧ 4 ≤ 4 ∧
    ∃ first, PrintCast (FXType.mk TypeClass.Float [] 2 1 0 none)
        (FXType.mk TypeClass.Float [] 4 1 0 none) = some (first, ".xyyy") :=
  ⟨by decide, by decide, by decide, by decide,
   (PrintCast_expand (FXType.mk TypeClass.Float [] 2 1 0 none)
     (FXType.mk TypeClass.Float [] 4 1 0 none) (by decide) (by decide) (by decide) (by decide)).1⟩

end ReShade

namespace ReShade

/-! ## Uniform layout: theorems -/

/-- One call of `VisitUniform` appends one constant; its offset, the new cursor and the
place of its bytes relative to the 16-byte blocks. -/
theorem VisitUniform_step (node : Variable) (st : UniformLayout) :
    ∃ u : Uniform,
      VisitUniform node st = ⟨u.StorageOffset + u.StorageSize, st.Constants ++ [u]⟩ ∧
      u.Name = node.Name ∧
      st._currentGlobalSize ≤ u.StorageOffset ∧
      (1 ≤ u.StorageSize → u.StorageSize ≤ 16 →
        u.StorageOffset / 16 = (u.StorageOffset + u.StorageSize - 1) / 16) ∧
      (16 < u.StorageSize → u.StorageOffset % 16 = 0) ∧
      (1 ≤ node.Type_.Rows → 1 ≤ node.Type_.Cols → 1 ≤ u.StorageSize) ∧
      (0 < u.StorageSize → u.StorageSize % 16 = 0 →
        (u.StorageOffset + u.StorageSize) % 16 = 0) := by
  obtain ⟨c, cs⟩ := st
  obtain ⟨name, ns, ⟨bc, q, r, k, a, d⟩⟩ := node
  simp only [VisitUniform]
  generalize hsz : (match bc with
    | TypeClass.Bool => (some UniformType.Bool, r * k * max 1 a * 4)
    | TypeClass.Int => (some UniformType.Int, r * k * max 1 a * 4)
    | TypeClass.Uint => (some UniformType.Uint, r * k * max 1 a * 4)
    | TypeClass.Float => (some UniformType.Float, r * k * max 1 a * 4)
    | _ => (none, r * k * max 1 a)) = sized
  have hpos : 1 ≤ r → 1 ≤ k → 1 ≤ sized.2 := by
    intro hr hk
    have h1 : 1 ≤ r * k * max 1 a := by
      have : 1 ≤ max 1 a := le_max_left _ _
      have := Nat.mul_le_mul (Nat.mul_le_mul hr hk) this
      simpa using this
    cases bc <;> simp at hsz <;> subst hsz <;> simp <;> omega
  obtain ⟨bt, sz⟩ := sized
  simp only at hpos ⊢
  refine ⟨⟨name, bt, r, k, a, sz,
    (c + if 16 - c % 16 < sz ∧ (16 - c % 16 ≠ 16 ∨ sz ≤ 16) then sz + (16 - c % 16) else sz) - sz⟩,
    ?_, rfl, ?_, ?_, ?_, hpos, ?_⟩
  · simp only [UniformLayout.mk.injEq, and_true]
    split_ifs <;> omega
  · simp only; split_ifs <;> omega
  · simp only; split_ifs <;> omega
  · simp only; split_ifs <;> omega
  · simp only; split_ifs <;> omega

/-- The straddling rule holds for every constant of a layout that is continued from a
layout in which it holds. -/
theorem foldl_VisitUniform_fits (nodes : List Variable) :
    ∀ st : UniformLayout,
      (∀ u ∈ st.Constants,
        (1 ≤ u.StorageSize → u.StorageSize ≤ 16 →
          u.StorageOffset / 16 = (u.StorageOffset + u.StorageSize - 1) / 16) ∧
        (16 < u.StorageSize → u.StorageOffset % 16 = 0)) →
      ∀ u ∈ (nodes.foldl (fun st node => VisitUniform node st) st).Constants,
        (1 ≤ u.StorageSize → u.StorageSize ≤ 16 →
          u.StorageOffset / 16 = (u.StorageOffset + u.StorageSize - 1) / 16) ∧
        (16 < u.StorageSize → u.StorageOffset % 16 = 0) := by
  induction nodes with
  | nil => intro st h; simpa using h
  | cons node rest ih =>
    intro st h
    rw [List.foldl_cons]
    apply ih
    obtain ⟨v, hv, -, -, h1, h2, -, -⟩ := VisitUniform_step node st
    rw [hv]
    intro u hu
    rcases List.mem_append.mp hu with hu | hu
    · exact h u hu
    · rw [List.mem_singleton] at hu
      subst hu
      exact ⟨h1, h2⟩

/-- The byte ranges stay ordered and disjoint when a layout is continued with
declarations of at least one row and one column. -/
theorem foldl_VisitUniform_ordered (nodes : List Variable) :
    ∀ st : UniformLayout,
      (∀ n ∈ nodes, 1 ≤ n.Type_.Rows ∧ 1 ≤ n.Type_.Cols) →
      (∀ u ∈ st.Constants, u.StorageOffset + u.StorageSize ≤ st._currentGlobalSize ∧
        1 ≤ u.StorageSize) →
      List.Pairwise (fun a b : Uniform => a.StorageOffset + a.StorageSize ≤ b.StorageOffset ∧
        a.StorageOffset < b.StorageOffset) st.Constants →
      List.Pairwise (fun a b : Uniform => a.StorageOffset + a.StorageSize ≤ b.StorageOffset ∧
        a.StorageOffset < b.StorageOffset)
        (nodes.foldl (fun st node => VisitUniform node st) st).Constants ∧
      (nodes.foldl (fun st node => VisitUniform node st) st).Constants.map (fun u => u.Name) =
        st.Constants.map (fun u => u.Name) ++ nodes.map (fun n => n.Name) := by
  induction nodes with
  | nil => intro st _ _ hp; exact ⟨by simpa using hp, by simp⟩
  | cons node rest ih =>
    intro st hn hb hp
    rw [List.foldl_cons]
    obtain ⟨v, hv, hname, hle, -, -, hpos, -⟩ := VisitUniform_step node st
    have hnode := hn node (List.mem_cons_self _ _)
    have hvpos : 1 ≤ v.StorageSize := hpos hnode.1 hnode.2
    have key := ih (VisitUniform node st)
      (fun n hmem => hn n (List.mem_cons_of_mem _ hmem))
      (by
        rw [hv]
        intro u hu
        rcases List.mem_append.mp hu with hu | hu
        · have := hb u hu
          simp only
          omega
        · rw [List.mem_singleton] at hu
          subst hu
          simp only
          omega)
      (by
        rw [hv]
        simp only
        rw [List.pairwise_append]
        refine ⟨hp, List.pairwise_singleton _ _, ?_⟩
        intro a ha b hb2
        rw [List.mem_singleton] at hb2
        subst hb2
        have := hb a ha
        omega)
    refine ⟨key.1, ?_⟩
    rw [key.2, hv]
    simp [hname]

/-- Counterexample for C4 as stated: after a `float4`, a uniform of struct type (no rows,
storage size 0) is placed at offset 16, and `16 / 16 ≠ (16 + 0 - 1) / 16`. -/
theorem layout_zero_size_breaks_block_formula :
    ¬ ∀ u ∈ (layoutUniforms [float4Uniform "a", structUniform "s"]).Constants,
      (u.StorageSize ≤ 16 →
        u.StorageOffset / 16 = (u.StorageOffset + u.StorageSize - 1) / 16) ∧
      (16 < u.StorageSize → u.StorageOffset % 16 = 0) := by
  decide

/-- C4 (amended): for every sequence of plain-uniform declarations laid out from the empty
layout, every uniform of storage size between 1 and 16 bytes lies inside one 16-byte
block (`offset / 16 = (offset + size - 1) / 16`), and every uniform of more than 16
bytes starts at a multiple of 16. -/
theorem layout_no_straddle (nodes : List Variable) (u : Uniform)
    (hu : u ∈ (layoutUniforms nodes).Constants) :
    (1 ≤ u.StorageSize → u.StorageSize ≤ 16 →
      u.StorageOffset / 16 = (u.StorageOffset + u.StorageSize - 1) / 16) ∧
    (16 < u.StorageSize → u.StorageOffset % 16 = 0) :=
  foldl_VisitUniform_fits nodes ⟨0, []⟩ (by simp) u hu

/-- Witness for C4 (amended): the `float4` that follows a `float` sits at offset 16. -/
theorem layout_no_straddle_witness :
    (⟨"b", some UniformType.Float, 4, 1, 0, 16, 16⟩ : Uniform) ∈
      (layoutUniforms [floatUniform "a", float4Uniform "b"]).Constants ∧
    16 / 16 = (16 + 16 - 1) / 16 :=
  ⟨by decide,
   (layout_no_straddle [floatUniform "a", float4Uniform "b"]
     ⟨"b", some UniformType.Float, 4, 1, 0, 16, 16⟩ (by decide)).1 (by decide) (by decide)⟩

/-- C5: for declarations with at least one row and one column, the constants are
registered in declaration order, every later uniform starts at or behind the end of
every earlier one (byte ranges never overlap), offsets strictly increase, and the
offsets are pairwise distinct. -/
theorem layout_offsets_increase (nodes : List Variable)
    (h : ∀ n ∈ nodes, 1 ≤ n.Type_.Rows ∧ 1 ≤ n.Type_.Cols) :
    List.Pairwise (fun a b : Uniform => a.StorageOffset + a.StorageSize ≤ b.StorageOffset ∧
      a.StorageOffset < b.StorageOffset) (layoutUniforms nodes).Constants ∧
    ((layoutUniforms nodes).Constants.map (fun u => u.StorageOffset)).Nodup ∧
    (layoutUniforms nodes).Constants.map (fun u => u.Name) = nodes.map (fun n => n.Name) := by
  have key := foldl_VisitUniform_ordered nodes ⟨0, []⟩ h (by simp) List.Pairwise.nil
  refine ⟨key.1, ?_, by simpa using key.2⟩
  rw [List.Nodup, List.pairwise_map]
  exact key.1.imp (fun hab => Nat.ne_of_lt hab.2)

/-- Witness for C5: a `float`, a `float4` and a `float` get the offsets 0, 16 and 32. -/
theorem layout_offsets_increase_witness :
    (∀ n ∈ [floatUniform "a", float4Uniform "b", floatUniform "c"],
      1 ≤ n.Type_.Rows ∧ 1 ≤ n.Type_.Cols) ∧
    (layoutUniforms [floatUniform "a", float4Uniform "b", floatUniform "c"]).Constants.map
      (fun u => u.StorageOffset) = [0, 16, 32] ∧
    List.Pairwise (fun a b : Uniform => a.StorageOffset + a.StorageSize ≤ b.StorageOffset ∧
      a.StorageOffset < b.StorageOffset)
      (layoutUniforms [floatUniform "a", float4Uniform "b", floatUniform "c"]).Constants :=
  ⟨by decide, by decide,
   (layout_offsets_increase [floatUniform "a", float4Uniform "b", floatUniform "c"]
     (by decide)).1⟩

/-- C6: a scalar `float` (storage size 4) followed by a `float4` (storage size 16), laid
out from the empty layout, get the offsets 0 and 16, and the cursor ends at 32. -/
theorem layout_float_then_float4 :
    (layoutUniforms [floatUniform "a", float4Uniform "b"]).Constants.map
      (fun u => (u.StorageSize, u.StorageOffset)) = [(4, 0), (16, 16)] ∧
    (layoutUniforms [floatUniform "a", float4Uniform "b"])._currentGlobalSize = 32 := by
  decide

/-- Counterexample for C7 as stated: a single `float` uniform leaves the cursor
`_currentGlobalSize` at 4, which is not a multiple of 16. -/
theorem layout_single_float_size_four :
    (layoutUniforms [floatUniform "a"])._currentGlobalSize = 4 ∧
    ¬ 16 ∣ (layoutUniforms [floatUniform "a"])._currentGlobalSize := by
  decide

/-- C7 (amended): for every non-empty sequence of uniform declarations the final cursor
`_currentGlobalSize` is the offset of the last uniform plus its storage size; it is
a multiple of 16 when the storage size of the last uniform is a positive multiple
of 16. -/
theorem layout_final_size (nodes : List Variable) (last : Variable) :
    ∃ u : Uniform,
      (layoutUniforms (nodes ++ [last])).Constants.getLast? = some u ∧
      (layoutUniforms (nodes ++ [last]))._currentGlobalSize =
        u.StorageOffset + u.StorageSize ∧
      (0 < u.StorageSize → u.StorageSize % 16 = 0 →
        (layoutUniforms (nodes ++ [last]))._currentGlobalSize % 16 = 0) := by
  unfold layoutUniforms
  rw [List.foldl_append, List.foldl_cons, List.foldl_nil]
  obtain ⟨v, hv, -, -, -, -, -, hmul⟩ :=
    VisitUniform_step last (nodes.foldl (fun st node => VisitUniform node st) ⟨0, []⟩)
  refine ⟨v, ?_, ?_, ?_⟩
  · rw [hv]; simp
  · rw [hv]
  · rw [hv]; exact hmul

/-- Witness for C7 (amended): after a `float` and a `float4` the cursor is 32. -/
theorem layout_final_size_witness :
    ∃ u : Uniform,
      (layoutUniforms ([floatUniform "a"] ++ [float4Uniform "b"])).Constants.getLast? = some u ∧
      (layoutUniforms ([floatUniform "a"] ++ [float4Uniform "b"]))._currentGlobalSize =
        u.StorageOffset + u.StorageSize ∧
      (0 < u.StorageSize → u.StorageSize % 16 = 0 →
        (layoutUniforms ([floatUniform "a"] ++ [float4Uniform "b"]))._currentGlobalSize % 16 = 0) :=
  layout_final_size [floatUniform "a"] (float4Uniform "b")

end ReShade

namespace ReShade

/-! ## Vertical flip: theorems -/

theorem list_length8 (p : List Nat) (h : p.length = 8) :
    ∃ a0 a1 a2 a3 a4 a5 a6 a7, p = [a0, a1, a2, a3, a4, a5, a6, a7] := by
  match p, h with
  | [a0, a1, a2, a3, a4, a5, a6, a7], _ => exact ⟨_, _, _, _, _, _, _, _, rfl⟩

/-- A block of sixteen bytes is two halves of eight bytes. -/
theorem list_length16 (p : List Nat) (h : p.length = 16) :
    ∃ a b : List Nat, a.length = 8 ∧ b.length = 8 ∧ p = a ++ b :=
  ⟨p.take 8, p.drop 8, by simp [h], by simp [h], by simp⟩

/-- Masking with a shifted mask and shifting back is masking the shifted value. -/
theorem and_shiftLeft_shiftRight (x m i : Nat) : (x &&& (m <<< i)) >>> i = (x >>> i) &&& m := by
  apply Nat.eq_of_testBit_eq
  intro j
  simp [Nat.testBit_shiftRight, Nat.testBit_and, Nat.testBit_shiftLeft]

/-- The exchange of the two 12-bit halves of a 24-bit value in `FlipBC4Block`, in
arithmetic. -/
theorem swap12 (n : Nat) (h : n < 2 ^ 24) :
    ((n &&& 0x000FFF) <<< 12) ||| ((n &&& 0xFFF000) >>> 12) = (n % 4096) * 4096 + n / 4096 := by
  have h1 : n &&& 0x000FFF = n % 4096 := Nat.and_pow_two_sub_one_eq_mod n 12
  have h2 : (n &&& 0xFFF000) >>> 12 = (n / 4096) % 4096 := by
    have : (0xFFF000 : Nat) = 0xFFF <<< 12 := by decide
    rw [this, and_shiftLeft_shiftRight, Nat.shiftRight_eq_div_pow]
    exact Nat.and_pow_two_sub_one_eq_mod _ 12
  rw [h1, h2, Nat.shiftLeft_eq]
  have h3 : n / 4096 % 4096 = n / 4096 := by omega
  rw [h3]
  have := Nat.mul_add_lt_is_or (i := 12) (b := n / 4096) (by omega) (n % 4096)
  rw [Nat.mul_comm] at this
  exact this.symm

/-- The low byte written by `FlipBC4Block`. -/
theorem byte0 (n : Nat) : (n &&& 0xFF) % 256 = n % 256 := by
  have h1 : n &&& 0xFF = n % 256 := Nat.and_pow_two_sub_one_eq_mod n 8
  rw [h1]; omega

/-- The middle byte written by `FlipBC4Block`. -/
theorem byte1 (n : Nat) : ((n &&& 0xFF00) >>> 8) % 256 = n / 256 % 256 := by
  have : (0xFF00 : Nat) = 0xFF <<< 8 := by decide
  rw [this, and_shiftLeft_shiftRight, Nat.shiftRight_eq_div_pow]
  have h1 : n / 2 ^ 8 &&& 0xFF = n / 2 ^ 8 % 256 := Nat.and_pow_two_sub_one_eq_mod _ 8
  rw [h1]; omega

/-- The high byte written by `FlipBC4Block`. -/
theorem byte2 (n : Nat) : ((n &&& 0xFF0000) >>> 16) % 256 = n / 65536 % 256 := by
  have : (0xFF0000 : Nat) = 0xFF <<< 16 := by decide
  rw [this, and_shiftLeft_shiftRight, Nat.shiftRight_eq_div_pow]
  have h1 : n / 2 ^ 16 &&& 0xFF = n / 2 ^ 16 % 256 := Nat.and_pow_two_sub_one_eq_mod _ 8
  rw [h1]; omega

/-- The routine `FlipBC4Block` touches only the eight bytes of its block. -/
theorem FlipBC4Block_append (p q : List Nat) (hp : p.length = 8) :
    FlipBC4Block (p ++ q) = FlipBC4Block p ++ q := by
  obtain ⟨a0, a1, a2, a3, a4, a5, a6, a7, rfl⟩ := list_length8 p hp
  simp [FlipBC4Block]

/-- The routine `FlipBC4Block` keeps the length of the buffer. -/
theorem FlipBC4Block_length (p : List Nat) : (FlipBC4Block p).length = p.length := by
  simp [FlipBC4Block]

/-- The bytes `FlipBC4Block` leaves in a block of eight bytes, in arithmetic. -/
theorem FlipBC4Block_explicit (a0 a1 a2 a3 a4 a5 a6 a7 : Nat)
    (h2 : a2 < 256) (h3 : a3 < 256) (h4 : a4 < 256) (h5 : a5 < 256) (h6 : a6 < 256)
    (h7 : a7 < 256) :
    FlipBC4Block [a0, a1, a2, a3, a4, a5, a6, a7] =
      [a0, a1,
       ((a5 + 256 * (a6 + 256 * a7)) % 4096 * 4096 + (a5 + 256 * (a6 + 256 * a7)) / 4096) % 256,
       ((a5 + 256 * (a6 + 256 * a7)) % 4096 * 4096 + (a5 + 256 * (a6 + 256 * a7)) / 4096) / 256 % 256,
       ((a5 + 256 * (a6 + 256 * a7)) % 4096 * 4096 + (a5 + 256 * (a6 + 256 * a7)) / 4096) / 65536 % 256,
       ((a2 + 256 * (a3 + 256 * a4)) % 4096 * 4096 + (a2 + 256 * (a3 + 256 * a4)) / 4096) % 256,
       ((a2 + 256 * (a3 + 256 * a4)) % 4096 * 4096 + (a2 + 256 * (a3 + 256 * a4)) / 4096) / 256 % 256,
       ((a2 + 256 * (a3 + 256 * a4)) % 4096 * 4096 + (a2 + 256 * (a3 + 256 * a4)) / 4096) / 65536 % 256] := by
  have e1 := swap12 (a2 + 256 * (a3 + 256 * a4)) (by omega)
  have e2 := swap12 (a5 + 256 * (a6 + 256 * a7)) (by omega)
  simp only [FlipBC4Block, List.getD_cons_succ, List.getD_cons_zero, List.set_cons_succ,
    List.set_cons_zero, e1, e2, byte0, byte1, byte2]

/-- A 24-bit value is recovered from its three bytes. -/
theorem bytes_recombine (s : Nat) (h : s < 2 ^ 24) :
    s % 256 + 256 * (s / 256 % 256 + 256 * (s / 65536 % 256)) = s := by
  omega

/-- Exchanging the 12-bit halves twice gives the value back. -/
theorem swap12_swap12 (n : Nat) (h : n < 2 ^ 24) :
    n % 4096 * 4096 + n / 4096 < 2 ^ 24 ∧
    (n % 4096 * 4096 + n / 4096) % 4096 * 4096 + (n % 4096 * 4096 + n / 4096) / 4096 = n := by
  constructor <;> omega

/-- The three bytes of a little-endian 24-bit value. -/
theorem bytes_split (a b c : Nat) (ha : a < 256) (hb : b < 256) (hc : c < 256) :
    (a + 256 * (b + 256 * c)) % 256 = a ∧ (a + 256 * (b + 256 * c)) / 256 % 256 = b ∧
    (a + 256 * (b + 256 * c)) / 65536 % 256 = c := by
  refine ⟨?_, ?_, ?_⟩ <;> omega

/-- The routine `FlipBC4Block` is an involution on a block of eight bytes. -/
theorem FlipBC4Block_involutive (p : List Nat) (hp : p.length = 8) (hb : ∀ b ∈ p, b < 256) :
    FlipBC4Block (FlipBC4Block p) = p := by
  obtain ⟨a0, a1, a2, a3, a4, a5, a6, a7, rfl⟩ := list_length8 p hp
  have h2 := hb a2 (by simp)
  have h3 := hb a3 (by simp)
  have h4 := hb a4 (by simp)
  have h5 := hb a5 (by simp)
  have h6 := hb a6 (by simp)
  have h7 := hb a7 (by simp)
  rw [FlipBC4Block_explicit a0 a1 a2 a3 a4 a5 a6 a7 h2 h3 h4 h5 h6 h7]
  rw [FlipBC4Block_explicit _ _ _ _ _ _ _ _ (Nat.mod_lt _ (by norm_num)) (Nat.mod_lt _ (by norm_num))
    (Nat.mod_lt _ (by norm_num)) (Nat.mod_lt _ (by norm_num)) (Nat.mod_lt _ (by norm_num))
    (Nat.mod_lt _ (by norm_num))]
  obtain ⟨l1, w1⟩ := swap12_swap12 (a2 + 256 * (a3 + 256 * a4)) (by omega)
  obtain ⟨l2, w2⟩ := swap12_swap12 (a5 + 256 * (a6 + 256 * a7)) (by omega)
  rw [bytes_recombine _ l1, bytes_recombine _ l2, w1, w2]
  obtain ⟨x2, x3, x4⟩ := bytes_split a2 a3 a4 h2 h3 h4
  obtain ⟨x5, x6, x7⟩ := bytes_split a5 a6 a7 h5 h6 h7
  rw [x2, x3, x4, x5, x6, x7]

/-- The routine `FlipBC4Block` leaves bytes. -/
theorem FlipBC4Block_bytes (p : List Nat) (hp : p.length = 8) (hb : ∀ b ∈ p, b < 256) :
    ∀ b ∈ FlipBC4Block p, b < 256 := by
  obtain ⟨a0, a1, a2, a3, a4, a5, a6, a7, rfl⟩ := list_length8 p hp
  have h0 := hb a0 (by simp)
  have h1 := hb a1 (by simp)
  rw [FlipBC4Block_explicit a0 a1 a2 a3 a4 a5 a6 a7 (hb a2 (by simp)) (hb a3 (by simp))
    (hb a4 (by simp)) (hb a5 (by simp)) (hb a6 (by simp)) (hb a7 (by simp))]
  intro b hmem
  simp only [List.mem_cons, List.mem_singleton, List.not_mem_nil, or_false] at hmem
  rcases hmem with h | h | h | h | h | h | h | h <;> subst h <;>
    first | assumption | exact Nat.mod_lt _ (by norm_num)


/-- A call at offset `o` of a routine that stays inside its block rewrites that block. -/
theorem atOffset_block (f : List Nat → List Nat) (bs o : Nat)
    (hf : ∀ p q : List Nat, p.length = bs → f (p ++ q) = f p ++ q)
    (P B R : List Nat) (hP : P.length = o) (hB : B.length = bs) :
    atOffset f o (P ++ (B ++ R)) = P ++ (f B ++ R) := by
  unfold atOffset
  rw [← hP, List.take_left, List.drop_left, hf B R hB]

/-- A buffer that holds a block at offset `o`, cut in front of and behind the block. -/
theorem split_block (bs o : Nat) (d : List Nat) (h : o + bs ≤ d.length) :
    ∃ A B C : List Nat, d = A ++ (B ++ C) ∧ A.length = o ∧ B.length = bs := by
  refine ⟨d.take o, (d.drop o).take bs, (d.drop o).drop bs, ?_, ?_, ?_⟩
  · rw [List.take_append_drop, List.take_append_drop]
  · rw [List.length_take]; omega
  · rw [List.length_take, List.length_drop]; omega

/-- A block routine called inside the buffer keeps its length and leaves bytes. -/
theorem atOffset_keeps {bs : Nat} {f : List Nat → List Nat} (hf : BlockFlip bs f)
    (o : Nat) (d : List Nat) (h : o + bs ≤ d.length) (hb : ∀ b ∈ d, b < 256) :
    (atOffset f o d).length = d.length ∧ ∀ b ∈ atOffset f o d, b < 256 := by
  obtain ⟨A, B, C, rfl, hA, hB⟩ := split_block bs o d h
  rw [atOffset_block f bs o hf.append A B C hA hB]
  constructor
  · simp [hf.length_eq B hB, hB]
  · intro b hmem
    simp only [List.mem_append] at hmem hb
    rcases hmem with h1 | h1 | h1
    · exact hb b (Or.inl h1)
    · exact hf.bytes B hB (fun x hx => hb x (Or.inr (Or.inl hx))) b h1
    · exact hb b (Or.inr (Or.inr h1))

/-- Calling a block routine twice on the same block restores the buffer. -/
theorem atOffset_involutive {bs : Nat} {f : List Nat → List Nat} (hf : BlockFlip bs f)
    (o : Nat) (d : List Nat) (h : o + bs ≤ d.length) (hb : ∀ b ∈ d, b < 256) :
    atOffset f o (atOffset f o d) = d := by
  obtain ⟨A, B, C, rfl, hA, hB⟩ := split_block bs o d h
  rw [atOffset_block f bs o hf.append A B C hA hB,
    atOffset_block f bs o hf.append A (f B) C hA (hf.length_eq B hB),
    hf.involutive B hB (fun x hx => hb x (by simp [hx]))]

/-- Calls of a block routine on two blocks that do not overlap commute. -/
theorem atOffset_comm_lt {bs : Nat} {f : List Nat → List Nat} (hf : BlockFlip bs f)
    (o1 o2 : Nat) (d : List Nat) (h12 : o1 + bs ≤ o2) (h2 : o2 + bs ≤ d.length) :
    atOffset f o1 (atOffset f o2 d) = atOffset f o2 (atOffset f o1 d) := by
  obtain ⟨A, B1, C, rfl, hA, hB1⟩ := split_block bs o1 d (by omega)
  have hC : (o2 - o1 - bs) + bs ≤ C.length := by
    simp only [List.length_append] at h2
    omega
  obtain ⟨M, B2, E, rfl, hM, hB2⟩ := split_block bs (o2 - o1 - bs) C hC
  have e1 : ∀ X : List Nat, A ++ (X ++ (M ++ (B2 ++ E))) = (A ++ (X ++ M)) ++ (B2 ++ E) := by
    intro X; simp
  have e2 : ∀ X : List Nat, A ++ (X ++ (M ++ (f B2 ++ E))) = (A ++ (X ++ M)) ++ (f B2 ++ E) := by
    intro X; simp
  have len : ∀ X : List Nat, X.length = bs → (A ++ (X ++ M)).length = o2 := by
    intro X hX
    simp only [List.length_append]
    omega
  rw [atOffset_block f bs o1 hf.append A B1 _ hA hB1]
  rw [e1 B1, atOffset_block f bs o2 hf.append _ B2 E (len B1 hB1) hB2, ← e2 B1]
  rw [atOffset_block f bs o1 hf.append A B1 _ hA hB1]
  rw [e1 (f B1), atOffset_block f bs o2 hf.append _ B2 E (len (f B1) (hf.length_eq B1 hB1)) hB2,
    ← e2 (f B1)]

/-- A step that commutes with every step of a loop commutes with the loop. -/
theorem foldl_comm {α ι : Type} (op : ι → α → α) (S : α → Prop) (g : α → α) (L : List ι)
    (hS : ∀ i ∈ L, ∀ x, S x → S (op i x))
    (hcomm : ∀ i ∈ L, ∀ x, S x → g (op i x) = op i (g x)) :
    ∀ x, S x → g (L.foldl (fun x i => op i x) x) = L.foldl (fun x i => op i x) (g x) := by
  induction L with
  | nil => intro x _; rfl
  | cons j L ih =>
    intro x hx
    simp only [List.foldl_cons]
    rw [ih (fun i hi => hS i (List.mem_cons_of_mem _ hi))
      (fun i hi => hcomm i (List.mem_cons_of_mem _ hi)) (op j x)
      (hS j (List.mem_cons_self _ _) x hx)]
    rw [hcomm j (List.mem_cons_self _ _) x hx]

/-- An invariant of every step of a loop is an invariant of the loop. -/
theorem foldl_keeps {α ι : Type} (op : ι → α → α) (S : α → Prop) (L : List ι)
    (hS : ∀ i ∈ L, ∀ x, S x → S (op i x)) :
    ∀ x, S x → S (L.foldl (fun x i => op i x) x) := by
  induction L with
  | nil => intro x hx; exact hx
  | cons j L ih =>
    intro x hx
    simp only [List.foldl_cons]
    exact ih (fun i hi => hS i (List.mem_cons_of_mem _ hi)) _ (hS j (List.mem_cons_self _ _) x hx)

/-- A loop of pairwise commuting involutions, run twice, is the identity. -/
theorem foldl_involutive {α ι : Type} (op : ι → α → α) (S : α → Prop) (L : List ι)
    (hS : ∀ i ∈ L, ∀ x, S x → S (op i x))
    (hinv : ∀ i ∈ L, ∀ x, S x → op i (op i x) = x)
    (hcomm : ∀ i ∈ L, ∀ j ∈ L, ∀ x, S x → op i (op j x) = op j (op i x)) :
    ∀ x, S x → L.foldl (fun x i => op i x) (L.foldl (fun x i => op i x) x) = x := by
  induction L with
  | nil => intro x _; rfl
  | cons j L ih =>
    intro x hx
    have hSL : ∀ i ∈ L, ∀ x, S x → S (op i x) := fun i hi => hS i (List.mem_cons_of_mem _ hi)
    have hj : S (op j x) := hS j (List.mem_cons_self _ _) x hx
    simp only [List.foldl_cons]
    rw [foldl_comm op S (op j) L hSL
      (fun i hi y hy => hcomm j (List.mem_cons_self _ _) i (List.mem_cons_of_mem _ hi) y hy)
      (op j x) hj]
    rw [hinv j (List.mem_cons_self _ _) x hx]
    exact ih hSL (fun i hi => hinv i (List.mem_cons_of_mem _ hi))
      (fun i hi k hk => hcomm i (List.mem_cons_of_mem _ hi) k (List.mem_cons_of_mem _ hk)) x hx

/-- The two nested loops of the compressed branch as one loop over the block offsets. -/
theorem flipCompressed_eq_foldl (f : List Nat → List Nat) (bs w h : Nat) (data : List Nat) :
    flipCompressed f bs w h data =
      (((List.range h).map (fun y => (List.range w).map
        (fun k => w * bs * (h - 1 - y) + k * bs))).flatten).foldl
        (fun d o => atOffset f o d) data := by
  unfold flipCompressed
  rw [List.foldl_flatten, List.foldl_map]
  simp only [List.foldl_map]

/-- Every offset the compressed branch visits is the start of a block of the image. -/
theorem mem_block_offsets (bs w h o : Nat)
    (ho : o ∈ ((List.range h).map (fun y => (List.range w).map
        (fun k => w * bs * (h - 1 - y) + k * bs))).flatten) :
    ∃ m, m < w * h ∧ o = m * bs := by
  simp only [List.mem_flatten, List.mem_map, List.mem_range] at ho
  obtain ⟨l, ⟨y, hy, rfl⟩, hmem⟩ := ho
  simp only [List.mem_map, List.mem_range] at hmem
  obtain ⟨k, hk, rfl⟩ := hmem
  refine ⟨w * (h - 1 - y) + k, ?_, by ring⟩
  calc w * (h - 1 - y) + k < w * (h - 1 - y) + w := by omega
    _ = w * (h - 1 - y + 1) := by ring
    _ ≤ w * h := Nat.mul_le_mul_left _ (by omega)

/-- Two block starts are the same or at least one block apart. -/
theorem block_offsets_apart (bs m1 m2 : Nat) :
    m1 * bs = m2 * bs ∨ m1 * bs + bs ≤ m2 * bs ∨ m2 * bs + bs ≤ m1 * bs := by
  rcases Nat.lt_trichotomy m1 m2 with h | h | h
  · right; left
    calc m1 * bs + bs = (m1 + 1) * bs := by ring
      _ ≤ m2 * bs := Nat.mul_le_mul_right _ h
  · left; rw [h]
  · right; right
    calc m2 * bs + bs = (m2 + 1) * bs := by ring
      _ ≤ m1 * bs := Nat.mul_le_mul_right _ h

/-- Block `m` of `n` blocks ends inside the buffer. -/
theorem block_offset_inside (bs n m : Nat) (h : m < n) : m * bs + bs ≤ n * bs := by
  calc m * bs + bs = (m + 1) * bs := by ring
    _ ≤ n * bs := Nat.mul_le_mul_right _ h

/-- Flipping every block of a compressed image twice gives the image back. -/
theorem flipCompressed_twice {bs : Nat} {f : List Nat → List Nat} (hf : BlockFlip bs f)
    (w h : Nat) (data : List Nat) (hlen : data.length = w * h * bs)
    (hb : ∀ b ∈ data, b < 256) :
    flipCompressed f bs w h (flipCompressed f bs w h data) = data := by
  rw [flipCompressed_eq_foldl, flipCompressed_eq_foldl]
  refine foldl_involutive (fun o d => atOffset f o d)
    (fun d => d.length = w * h * bs ∧ ∀ b ∈ d, b < 256) _ ?_ ?_ ?_ data ⟨hlen, hb⟩
  · intro o ho d hd
    obtain ⟨m, hm, rfl⟩ := mem_block_offsets bs w h o ho
    have hin := block_offset_inside bs (w * h) m hm
    have := atOffset_keeps hf (m * bs) d (by rw [hd.1]; exact hin) hd.2
    exact ⟨by rw [this.1, hd.1], this.2⟩
  · intro o ho d hd
    obtain ⟨m, hm, rfl⟩ := mem_block_offsets bs w h o ho
    have hin := block_offset_inside bs (w * h) m hm
    exact atOffset_involutive hf (m * bs) d (by rw [hd.1]; exact hin) hd.2
  · intro o1 ho1 o2 ho2 d hd
    obtain ⟨m1, hm1, rfl⟩ := mem_block_offsets bs w h o1 ho1
    obtain ⟨m2, hm2, rfl⟩ := mem_block_offsets bs w h o2 ho2
    have hin1 := block_offset_inside bs (w * h) m1 hm1
    have hin2 := block_offset_inside bs (w * h) m2 hm2
    rcases block_offsets_apart bs m1 m2 with e | e | e
    · rw [e]
    · exact atOffset_comm_lt hf _ _ d e (by rw [hd.1]; exact hin2)
    · exact (atOffset_comm_lt hf _ _ d e (by rw [hd.1]; exact hin1)).symm

/-- The statement `std::swap` keeps the length of the buffer. -/
theorem swapBytes_length (block : List Nat) (i j : Nat) :
    (swapBytes block i j).length = block.length := by
  simp [swapBytes]

/-- The routine `FlipBC1Block` on blocks of eight bytes. -/
theorem BlockFlip_BC1 : BlockFlip 8 FlipBC1Block where
  append := by
    intro p q hp
    obtain ⟨a0, a1, a2, a3, a4, a5, a6, a7, rfl⟩ := list_length8 p hp
    simp [FlipBC1Block, swapBytes]
  length_eq := by
    intro p hp
    simp [FlipBC1Block, swapBytes, hp]
  involutive := by
    intro p hp _
    obtain ⟨a0, a1, a2, a3, a4, a5, a6, a7, rfl⟩ := list_length8 p hp
    simp [FlipBC1Block, swapBytes]
  bytes := by
    intro p hp hb
    obtain ⟨a0, a1, a2, a3, a4, a5, a6, a7, rfl⟩ := list_length8 p hp
    simp only [FlipBC1Block, swapBytes, List.getD_cons_succ, List.getD_cons_zero,
      List.set_cons_succ, List.set_cons_zero]
    intro b hmem
    apply hb
    simp only [List.mem_cons, List.mem_singleton, List.not_mem_nil, or_false] at hmem ⊢
    tauto

/-- The routine `FlipBC4Block` on blocks of eight bytes. -/
theorem BlockFlip_BC4 : BlockFlip 8 FlipBC4Block where
  append := FlipBC4Block_append
  length_eq := fun p hp => by rw [FlipBC4Block_length, hp]
  involutive := FlipBC4Block_involutive
  bytes := FlipBC4Block_bytes

/-- The four exchanges of alpha rows at the start of `FlipBC2Block`. -/
theorem BlockFlip_alpha : BlockFlip 8
    (fun block => swapBytes (swapBytes (swapBytes (swapBytes block 0 6) 1 7) 2 4) 3 5) where
  append := by
    intro p q hp
    obtain ⟨a0, a1, a2, a3, a4, a5, a6, a7, rfl⟩ := list_length8 p hp
    simp [swapBytes]
  length_eq := by
    intro p hp
    simp [swapBytes, hp]
  involutive := by
    intro p hp _
    obtain ⟨a0, a1, a2, a3, a4, a5, a6, a7, rfl⟩ := list_length8 p hp
    simp [swapBytes]
  bytes := by
    intro p hp hb
    obtain ⟨a0, a1, a2, a3, a4, a5, a6, a7, rfl⟩ := list_length8 p hp
    simp only [swapBytes, List.getD_cons_succ, List.getD_cons_zero,
      List.set_cons_succ, List.set_cons_zero]
    intro b hmem
    apply hb
    simp only [List.mem_cons, List.mem_singleton, List.not_mem_nil, or_false] at hmem ⊢
    tauto

/-- A routine for 16-byte blocks made of one routine on bytes 0-7 followed by one on
bytes 8-15. -/
theorem BlockFlip_pair {f g : List Nat → List Nat} (hf : BlockFlip 8 f) (hg : BlockFlip 8 g) :
    BlockFlip 16 (fun block => atOffset g 8 (f block)) where
  append := by
    intro p q hp
    obtain ⟨a, b, ha, hb, rfl⟩ := list_length16 p hp
    simp only [List.append_assoc]
    rw [hf.append a (b ++ q) ha, hf.append a b ha,
      atOffset_block g 8 8 hg.append (f a) b q (hf.length_eq a ha) hb]
    have := atOffset_block g 8 8 hg.append (f a) b [] (hf.length_eq a ha) hb
    simp only [List.append_nil] at this
    rw [this]
    simp
  length_eq := by
    intro p hp
    obtain ⟨a, b, ha, hb, rfl⟩ := list_length16 p hp
    have := atOffset_block g 8 8 hg.append (f a) b [] (hf.length_eq a ha) hb
    simp only [List.append_nil] at this
    rw [hf.append a b ha, this]
    simp [hf.length_eq a ha, hg.length_eq b hb]
  involutive := by
    intro p hp hbytes
    obtain ⟨a, b, ha, hb, rfl⟩ := list_length16 p hp
    have e1 := atOffset_block g 8 8 hg.append (f a) b [] (hf.length_eq a ha) hb
    simp only [List.append_nil] at e1
    have e2 := atOffset_block g 8 8 hg.append (f (f a)) (g b) []
      (hf.length_eq _ (hf.length_eq a ha)) (hg.length_eq b hb)
    simp only [List.append_nil] at e2
    rw [hf.append a b ha, e1, hf.append (f a) (g b) (hf.length_eq a ha), e2,
      hf.involutive a ha (fun x hx => hbytes x (by simp [hx])),
      hg.involutive b hb (fun x hx => hbytes x (by simp [hx]))]
  bytes := by
    intro p hp hbytes
    obtain ⟨a, b, ha, hb, rfl⟩ := list_length16 p hp
    have e1 := atOffset_block g 8 8 hg.append (f a) b [] (hf.length_eq a ha) hb
    simp only [List.append_nil] at e1
    rw [hf.append a b ha, e1]
    intro x hx
    rcases List.mem_append.mp hx with h1 | h1
    · exact hf.bytes a ha (fun y hy => hbytes y (by simp [hy])) x h1
    · exact hg.bytes b hb (fun y hy => hbytes y (by simp [hy])) x h1

/-- The routine `FlipBC2Block` on blocks of sixteen bytes. -/
theorem BlockFlip_BC2 : BlockFlip 16 FlipBC2Block := BlockFlip_pair BlockFlip_alpha BlockFlip_BC1

/-- The routine `FlipBC3Block` on blocks of sixteen bytes. -/
theorem BlockFlip_BC3 : BlockFlip 16 FlipBC3Block := BlockFlip_pair BlockFlip_BC4 BlockFlip_BC1

/-- The routine `FlipBC5Block` on blocks of sixteen bytes. -/
theorem BlockFlip_BC5 : BlockFlip 16 FlipBC5Block := BlockFlip_pair BlockFlip_BC4 BlockFlip_BC4

/-- C8: for every block-compressed texture (DXT1, DXT3, DXT5, LATC1, LATC2), every width
and height and every buffer of `ceil(width/4) * ceil(height/4)` blocks of bytes,
`FlipImageData` applied twice gives back the buffer; and each of `FlipBC1Block` ..
`FlipBC5Block` is an involution on its block of 8 or 16 bytes. -/
theorem FlipImageData_twice (texture : Texture) (data : List Nat)
    (hfmt : texture.Format ∈ [PixelFormat.DXT1, PixelFormat.DXT3, PixelFormat.DXT5,
      PixelFormat.LATC1, PixelFormat.LATC2])
    (hlen : data.length = ((texture.Width + 3) / 4) * ((texture.Height + 3) / 4) *
      (if texture.Format = PixelFormat.DXT1 ∨ texture.Format = PixelFormat.LATC1
        then 8 else 16))
    (hbytes : ∀ b ∈ data, b < 256) :
    FlipImageData texture (FlipImageData texture data) = data ∧
    (∀ block : List Nat, block.length = 8 → (∀ b ∈ block, b < 256) →
      FlipBC1Block (FlipBC1Block block) = block) ∧
    (∀ block : List Nat, block.length = 16 → (∀ b ∈ block, b < 256) →
      FlipBC2Block (FlipBC2Block block) = block) ∧
    (∀ block : List Nat, block.length = 16 → (∀ b ∈ block, b < 256) →
      FlipBC3Block (FlipBC3Block block) = block) ∧
    (∀ block : List Nat, block.length = 8 → (∀ b ∈ block, b < 256) →
      FlipBC4Block (FlipBC4Block block) = block) ∧
    (∀ block : List Nat, block.length = 16 → (∀ b ∈ block, b < 256) →
      FlipBC5Block (FlipBC5Block block) = block) := by
  refine ⟨?_, BlockFlip_BC1.involutive, BlockFlip_BC2.involutive, BlockFlip_BC3.involutive,
    BlockFlip_BC4.involutive, BlockFlip_BC5.involutive⟩
  obtain ⟨w, h, fmt⟩ := texture
  simp only [List.mem_cons, List.mem_singleton, List.not_mem_nil, or_false] at hfmt
  simp only at hlen
  rcases hfmt with rfl | rfl | rfl | rfl | rfl
  · exact flipCompressed_twice BlockFlip_BC1 _ _ data (by simpa using hlen) hbytes
  · exact flipCompressed_twice BlockFlip_BC2 _ _ data (by simpa using hlen) hbytes
  · exact flipCompressed_twice BlockFlip_BC3 _ _ data (by simpa using hlen) hbytes
  · exact flipCompressed_twice BlockFlip_BC4 _ _ data (by simpa using hlen) hbytes
  · exact flipCompressed_twice BlockFlip_BC5 _ _ data (by simpa using hlen) hbytes

/-- Witness for C8: a DXT5 texture of 5 by 8 texels (2 by 2 blocks, 64 bytes). -/
theorem FlipImageData_twice_witness :
    PixelFormat.DXT5 ∈ [PixelFormat.DXT1, PixelFormat.DXT3, PixelFormat.DXT5,
      PixelFormat.LATC1, PixelFormat.LATC2] ∧
    (List.range 64).length = ((5 + 3) / 4) * ((8 + 3) / 4) * 16 ∧
    (∀ b ∈ List.range 64, b < 256) ∧
    FlipImageData ⟨5, 8, PixelFormat.DXT5⟩
      (FlipImageData ⟨5, 8, PixelFormat.DXT5⟩ (List.range 64)) = List.range 64 :=
  ⟨by decide, by decide, by decide,
   (FlipImageData_twice ⟨5, 8, PixelFormat.DXT5⟩ (List.range 64) (by decide) (by decide)
     (by decide)).1⟩

/-- C9 (evaluation at the failing input): for a DXT1 texture of 4 by 8 texels, two block
rows of one block each, `FlipImageData` flips each block in place and leaves it in
its block row; block row 0 of the result is not the flipped block of input block
row 1. -/
theorem FlipImageData_compressed_rows_stay :
    FlipImageData ⟨4, 8, PixelFormat.DXT1⟩ (List.range 16) =
      [0, 1, 2, 3, 7, 6, 5, 4, 8, 9, 10, 11, 15, 14, 13, 12] ∧
    (FlipImageData ⟨4, 8, PixelFormat.DXT1⟩ (List.range 16)).take 8 =
      FlipBC1Block (((List.range 16).drop (8 * 0)).take 8) ∧
    (FlipImageData ⟨4, 8, PixelFormat.DXT1⟩ (List.range 16)).take 8 ≠
      FlipBC1Block (((List.range 16).drop (8 * (2 - 1 - 0))).take 8) := by
  decide

/-- The formats R16F, RG16, RG16F and RG32F have no case in the switch of `FlipImageData`:
the buffer is returned as it is. -/
theorem FlipImageData_unhandled_formats (w h : Nat) (data : List Nat) :
    FlipImageData ⟨w, h, PixelFormat.R16F⟩ data = data ∧
    FlipImageData ⟨w, h, PixelFormat.RG16⟩ data = data ∧
    FlipImageData ⟨w, h, PixelFormat.RG16F⟩ data = data ∧
    FlipImageData ⟨w, h, PixelFormat.RG32F⟩ data = data :=
  ⟨rfl, rfl, rfl, rfl⟩

/-- C10 (evaluation at the failing input): an R16F texture of 1 by 2 texels keeps its two
rows in place, where an R8 texture of 2 by 2 texels with the same bytes has them
exchanged. -/
theorem FlipImageData_R16F_rows_stay :
    FlipImageData ⟨1, 2, PixelFormat.R16F⟩ [1, 2, 3, 4] = [1, 2, 3, 4] ∧
    FlipImageData ⟨2, 2, PixelFormat.R8⟩ [1, 2, 3, 4] = [3, 4, 1, 2] := by
  decide

end ReShade

namespace ReShade

/-! ## Single-precision arithmetic: theorems -/

/-- The function `pow2` is the power of two. -/
theorem pow2_eq (e : Int) : pow2 e = (2 : ℚ) ^ e := by
  unfold pow2
  split_ifs with h
  · obtain ⟨n, rfl⟩ := Int.eq_ofNat_of_zero_le h
    simp
  · obtain ⟨n, hn⟩ := Int.eq_ofNat_of_zero_le (by omega : 0 ≤ -e)
    have he : e = -(n : Int) := by omega
    subst he
    simp

/-- A power of two is positive. -/
theorem pow2_pos (e : Int) : 0 < pow2 e := by
  rw [pow2_eq]; positivity

/-- With enough fuel `log2Fuel` is the binary logarithm, rounded down. -/
theorem log2Fuel_spec : ∀ (fuel n : Nat), n ≠ 0 → n ≤ fuel →
    2 ^ log2Fuel fuel n ≤ n ∧ n < 2 ^ (log2Fuel fuel n + 1)
  | 0, n, hn, hf => absurd (Nat.le_zero.mp hf) hn
  | fuel + 1, n, hn, hf => by
    unfold log2Fuel
    split_ifs with h
    · constructor <;> simp <;> omega
    · have ih := log2Fuel_spec fuel (n / 2) (by omega) (by omega)
      have e1 : 2 ^ (log2Fuel fuel (n / 2) + 1) = 2 * 2 ^ log2Fuel fuel (n / 2) := by ring
      have e2 : 2 ^ (log2Fuel fuel (n / 2) + 1 + 1) = 4 * 2 ^ log2Fuel fuel (n / 2) := by ring
      rw [e1] at ih
      rw [e1, e2]
      generalize 2 ^ log2Fuel fuel (n / 2) = p at ih ⊢
      constructor <;> omega

/-- The function `floorLog2` is the binary logarithm, rounded down. -/
theorem floorLog2_spec (q : ℚ) (hq : q ≠ 0) :
    (2 : ℚ) ^ floorLog2 q ≤ |q| ∧ |q| < (2 : ℚ) ^ (floorLog2 q + 1) := by
  have ha : q.num.natAbs ≠ 0 := Int.natAbs_ne_zero.mpr (Rat.num_ne_zero.mpr hq)
  have hb : q.den ≠ 0 := q.den_nz
  have habs : |q| = (q.num.natAbs : ℚ) / q.den := by
    conv_lhs => rw [← Rat.num_div_den q]
    rw [abs_div, Nat.abs_cast, Nat.cast_natAbs, Int.cast_abs]
  obtain ⟨ha1, ha2⟩ := log2Fuel_spec q.num.natAbs q.num.natAbs ha le_rfl
  obtain ⟨hb1, hb2⟩ := log2Fuel_spec q.den q.den hb le_rfl
  have ha1' : (2 : ℚ) ^ log2Fuel q.num.natAbs q.num.natAbs ≤ q.num.natAbs := by
    exact_mod_cast ha1
  have ha2' : (q.num.natAbs : ℚ) < 2 ^ log2Fuel q.num.natAbs q.num.natAbs * 2 := by
    rw [← pow_succ]; exact_mod_cast ha2
  have hb1' : (2 : ℚ) ^ log2Fuel q.den q.den ≤ q.den := by exact_mod_cast hb1
  have hb2' : (q.den : ℚ) < 2 ^ log2Fuel q.den q.den * 2 := by
    rw [← pow_succ]; exact_mod_cast hb2
  have he : (2 : ℚ) ^ ((log2Fuel q.num.natAbs q.num.natAbs : Int) - (log2Fuel q.den q.den : Int))
      = 2 ^ log2Fuel q.num.natAbs q.num.natAbs / 2 ^ log2Fuel q.den q.den := by
    rw [zpow_sub₀ (by norm_num), zpow_natCast, zpow_natCast]
  have hA : (0 : ℚ) < 2 ^ log2Fuel q.num.natAbs q.num.natAbs := by positivity
  have hB : (0 : ℚ) < 2 ^ log2Fuel q.den q.den := by positivity
  have hb0 : (0 : ℚ) < q.den := by exact_mod_cast Nat.pos_of_ne_zero hb
  unfold floorLog2
  simp only [pow2_eq]
  generalize (2 : ℚ) ^ log2Fuel q.num.natAbs q.num.natAbs = A at *
  generalize (2 : ℚ) ^ log2Fuel q.den q.den = B at *
  split_ifs with h
  · refine ⟨h, ?_⟩
    rw [zpow_add_one₀ (by norm_num), he, habs, div_lt_iff₀ hb0, div_mul_eq_mul_div,
      div_mul_eq_mul_div, lt_div_iff₀ hB]
    nlinarith
  · refine ⟨?_, ?_⟩
    · rw [zpow_sub_one₀ (by norm_num), he, habs, le_div_iff₀ hb0, ← div_eq_mul_inv,
        div_mul_eq_mul_div, div_le_iff₀ (by norm_num), div_mul_eq_mul_div, div_le_iff₀ hB]
      nlinarith
    · rw [sub_add_cancel]; exact not_le.mp h

/-- Outside the subnormal range, `2^e` for the exponent `e` of `q` is at most `|q|`. -/
theorem GLfloat.pow_exponent_le (q : ℚ) (h : (2 : ℚ) ^ (-126 : Int) ≤ |q|) :
    (2 : ℚ) ^ GLfloat.exponent q ≤ |q| := by
  have hq : q ≠ 0 := by
    rintro rfl
    rw [abs_zero] at h
    exact absurd h (not_le.mpr (by positivity))
  unfold GLfloat.exponent
  rw [if_neg hq]
  rcases max_cases (floorLog2 q) (-126) with ⟨e, _⟩ | ⟨e, _⟩
  · rw [e]; exact (floorLog2_spec q hq).1
  · rw [e]; exact h

/-- The exponent of a number below 2 is at most 0. -/
theorem GLfloat.exponent_le_zero (q : ℚ) (h : |q| < 2) : GLfloat.exponent q ≤ 0 := by
  unfold GLfloat.exponent
  split_ifs with hq
  · norm_num
  · apply max_le _ (by norm_num)
    have h1 := (floorLog2_spec q hq).1
    have h2 : (2 : ℚ) ^ floorLog2 q < 2 ^ (1 : Int) := by
      rw [zpow_one]; exact lt_of_le_of_lt h1 h
    have := (zpow_lt_zpow_iff_right₀ (by norm_num : (1 : ℚ) < 2)).mp h2
    omega

/-- The function `roundEven` does not go above an integer above `x`. -/
theorem roundEven_le (x : ℚ) (m : Int) (h : x ≤ m) : roundEven x ≤ m := by
  have hf : ⌊x⌋ ≤ m := Int.floor_le_iff.mpr (lt_of_le_of_lt h (by exact_mod_cast Int.lt_succ m))
  unfold roundEven
  have hstep : 0 < x - ⌊x⌋ → ⌊x⌋ + 1 ≤ m := by
    intro hpos
    have : (⌊x⌋ : ℚ) < m := by linarith
    have : ⌊x⌋ < m := by exact_mod_cast this
    omega
  split_ifs with h1 h2 h3
  · exact hf
  · exact hstep (by linarith)
  · exact hf
  · exact hstep (by linarith)

/-- The function `roundEven` does not go below an integer below `x`. -/
theorem le_roundEven (x : ℚ) (m : Int) (h : (m : ℚ) ≤ x) : m ≤ roundEven x := by
  have hf : m ≤ ⌊x⌋ := Int.le_floor.mpr h
  unfold roundEven
  split_ifs <;> omega

/-- The function `roundEven` moves `x` by at most one half. -/
theorem roundEven_near (x : ℚ) : x - 1 / 2 ≤ roundEven x ∧ (roundEven x : ℚ) ≤ x + 1 / 2 := by
  have h1 := Int.floor_le x
  have h2 := Int.lt_floor_add_one x
  unfold roundEven
  split_ifs <;> push_cast <;> constructor <;> linarith

/-- A multiple of the unit in the last place of `q` above `q` is above the rounded `q`. -/
theorem GLfloat.roundValue_le (q c : ℚ) (m : Int)
    (hc : c = m * (2 : ℚ) ^ (GLfloat.exponent q - 23)) (h : q ≤ c) :
    GLfloat.roundValue q ≤ c := by
  unfold GLfloat.roundValue
  rw [pow2_eq, hc]
  have hu : (0 : ℚ) < 2 ^ (GLfloat.exponent q - 23) := by positivity
  apply mul_le_mul_of_nonneg_right _ (le_of_lt hu)
  have : roundEven (q / 2 ^ (GLfloat.exponent q - 23)) ≤ m := by
    apply roundEven_le
    rw [div_le_iff₀ hu, ← hc]; exact h
  exact_mod_cast this

/-- A multiple of the unit in the last place of `q` below `q` is below the rounded `q`. -/
theorem GLfloat.le_roundValue (q c : ℚ) (m : Int)
    (hc : c = m * (2 : ℚ) ^ (GLfloat.exponent q - 23)) (h : c ≤ q) :
    c ≤ GLfloat.roundValue q := by
  unfold GLfloat.roundValue
  rw [pow2_eq, hc]
  have hu : (0 : ℚ) < 2 ^ (GLfloat.exponent q - 23) := by positivity
  apply mul_le_mul_of_nonneg_right _ (le_of_lt hu)
  have : m ≤ roundEven (q / 2 ^ (GLfloat.exponent q - 23)) := by
    apply le_roundEven
    rw [le_div_iff₀ hu, ← hc]; exact h
  exact_mod_cast this

/-- The rounding of a number that is not negative is not negative. -/
theorem GLfloat.roundValue_nonneg (q : ℚ) (h : 0 ≤ q) : 0 ≤ GLfloat.roundValue q :=
  GLfloat.le_roundValue q 0 0 (by simp) h

/-- The rounding moves `q` by at most half a unit in the last place. -/
theorem GLfloat.roundValue_near (q : ℚ) :
    |GLfloat.roundValue q - q| ≤ (2 : ℚ) ^ (GLfloat.exponent q - 23) / 2 := by
  unfold GLfloat.roundValue
  rw [pow2_eq]
  have hu : (0 : ℚ) < 2 ^ (GLfloat.exponent q - 23) := by positivity
  obtain ⟨h1, h2⟩ := roundEven_near (q / 2 ^ (GLfloat.exponent q - 23))
  have e : q = q / 2 ^ (GLfloat.exponent q - 23) * 2 ^ (GLfloat.exponent q - 23) := by
    field_simp
  generalize (2 : ℚ) ^ (GLfloat.exponent q - 23) = u at *
  generalize (roundEven (q / u) : ℚ) = r at *
  rw [abs_le]
  constructor
  · nlinarith
  · nlinarith

/-- The exponent of a number below `2^(k+1)` is at most `k`, from -126 on. -/
theorem GLfloat.exponent_le (q : ℚ) (k : Int) (hk : -126 ≤ k) (h : |q| < (2 : ℚ) ^ (k + 1)) :
    GLfloat.exponent q ≤ k := by
  unfold GLfloat.exponent
  split_ifs with hq
  · exact hk
  · apply max_le _ hk
    have h1 := (floorLog2_spec q hq).1
    have := (zpow_lt_zpow_iff_right₀ (by norm_num : (1 : ℚ) < 2)).mp (lt_of_le_of_lt h1 h)
    omega

/-- A multiple of a power of two that is at least the unit in the last place of `q`, and
is above `q`, is above the rounded `q`. -/
theorem GLfloat.roundValue_le_of (q c : ℚ) (m j : Int) (hc : c = m * (2 : ℚ) ^ j)
    (hj : GLfloat.exponent q - 23 ≤ j) (h : q ≤ c) : GLfloat.roundValue q ≤ c := by
  obtain ⟨n, hn⟩ := Int.eq_ofNat_of_zero_le (sub_nonneg.mpr hj)
  refine GLfloat.roundValue_le q c (m * 2 ^ n) ?_ h
  have e : j = (n : Int) + (GLfloat.exponent q - 23) := by omega
  rw [hc, e, zpow_add₀ (by norm_num), zpow_natCast]
  push_cast
  ring

/-- A multiple of a power of two that is at least the unit in the last place of `q`, and
is below `q`, is below the rounded `q`. -/
theorem GLfloat.le_roundValue_of (q c : ℚ) (m j : Int) (hc : c = m * (2 : ℚ) ^ j)
    (hj : GLfloat.exponent q - 23 ≤ j) (h : c ≤ q) : c ≤ GLfloat.roundValue q := by
  obtain ⟨n, hn⟩ := Int.eq_ofNat_of_zero_le (sub_nonneg.mpr hj)
  refine GLfloat.le_roundValue q c (m * 2 ^ n) ?_ h
  have e : j = (n : Int) + (GLfloat.exponent q - 23) := by omega
  rw [hc, e, zpow_add₀ (by norm_num), zpow_natCast]
  push_cast
  ring

/-- The numeral `0` is the finite zero. -/
theorem GLfloat.zero_def : (0 : GLfloat) = GLfloat.finite 0 := rfl

/-- The constant `1.2f`. -/
theorem GLfloat.one_point_two : (1.2 : GLfloat) = GLfloat.finite (5033165 / 4194304) := by
  decide!

/-- The rounding of a number that is not negative is not below zero. -/
theorem GLfloat.round_nonneg (q : ℚ) (h : 0 ≤ q) : (0 : GLfloat) ≤ GLfloat.round q := by
  unfold GLfloat.round
  split_ifs
  · rw [decide_eq_false (not_lt.mpr h)]; rfl
  · show GLfloat.le (GLfloat.finite 0) (GLfloat.finite _) = true
    simp only [GLfloat.le, decide_eq_true_eq]
    exact GLfloat.roundValue_nonneg q h

/-- The rounding of a number between zero and a multiple `c < 2^128` of a power of two
from the unit in the last place on is a finite number between zero and `c`. -/
theorem GLfloat.round_bounded (q c : ℚ) (m j : Int) (hc : c = m * (2 : ℚ) ^ j)
    (hj : GLfloat.exponent q - 23 ≤ j) (h0 : 0 ≤ q) (h : q ≤ c) (hlt : c < 2 ^ 128) :
    GLfloat.round q = GLfloat.finite (GLfloat.roundValue q) ∧
      0 ≤ GLfloat.roundValue q ∧ GLfloat.roundValue q ≤ c := by
  have h1 := GLfloat.roundValue_nonneg q h0
  have h2 := GLfloat.roundValue_le_of q c m j hc hj h
  refine ⟨?_, h1, h2⟩
  unfold GLfloat.round
  rw [if_neg]
  rw [abs_of_nonneg h1]
  exact not_le.mpr (lt_of_le_of_lt h2 hlt)

/-- The conversion of a count above zero is the positive infinity or a number that is
below the count by at most the fraction `2^-24` of it. -/
theorem GLfloat.ofNat_pos (n : Nat) (hn : 0 < n) :
    GLfloat.ofNat n = GLfloat.infinity false ∨
    ∃ t, GLfloat.ofNat n = GLfloat.finite t ∧ (n : ℚ) * (1 - 1 / 2 ^ 24) ≤ t := by
  have hn1 : (1 : ℚ) ≤ n := by exact_mod_cast hn
  have habs : |(n : ℚ)| = n := abs_of_nonneg (by linarith)
  unfold GLfloat.ofNat GLfloat.round
  split_ifs with h
  · left
    rw [decide_eq_false (not_lt.mpr (by linarith))]
  · right
    refine ⟨_, rfl, ?_⟩
    have hnear := GLfloat.roundValue_near (n : ℚ)
    have hexp := GLfloat.pow_exponent_le (n : ℚ) (by
      rw [habs]
      refine le_trans ?_ hn1
      exact zpow_le_one_of_nonpos₀ (by norm_num) (by norm_num))
    rw [habs] at hexp
    have e : (2 : ℚ) ^ (GLfloat.exponent (n : ℚ) - 23) =
        2 ^ GLfloat.exponent (n : ℚ) / 2 ^ 23 := by
      rw [zpow_sub₀ (by norm_num)]; norm_num
    rw [e] at hnear
    have := (abs_le.mp hnear).1
    generalize (2 : ℚ) ^ GLfloat.exponent (n : ℚ) = p at *
    norm_num at this ⊢
    linarith

/-- The conversion of a count above zero is not zero. -/
theorem GLfloat.ofNat_ne_zero (n : Nat) (hn : 0 < n) : GLfloat.ofNat n ≠ 0 := by
  have hn1 : (1 : ℚ) ≤ n := by exact_mod_cast hn
  rcases GLfloat.ofNat_pos n hn with h | ⟨t, h, ht⟩
  · rw [h]; exact fun e => GLfloat.noConfusion e
  · rw [h, GLfloat.zero_def]
    intro e
    have : t = 0 := GLfloat.finite.inj e
    rw [this] at ht
    norm_num at ht
    linarith

/-- The conversion of a count of at most `2^24` is exact. -/
theorem GLfloat.ofNat_exact (n : Nat) (hn : n ≤ 2 ^ 24) :
    GLfloat.ofNat n = GLfloat.finite n := by
  rcases Nat.eq_zero_or_pos n with rfl | hpos
  · decide!
  rcases Nat.lt_or_ge n (2 ^ 24) with hlt | hge
  · have hn1 : (1 : ℚ) ≤ n := by exact_mod_cast hpos
    have h0 : (0 : ℚ) ≤ n := by linarith
    have habs : |(n : ℚ)| = n := abs_of_nonneg h0
    have hexp : GLfloat.exponent (n : ℚ) ≤ 23 := by
      apply GLfloat.exponent_le _ _ (by norm_num)
      rw [habs]
      have : (n : ℚ) < ((2 ^ 24 : Nat) : ℚ) := by exact_mod_cast hlt
      norm_num at this ⊢
      exact this
    have hval : GLfloat.roundValue (n : ℚ) = n :=
      le_antisymm
        (GLfloat.roundValue_le_of _ _ n 0 (by simp) (by omega) le_rfl)
        (GLfloat.le_roundValue_of _ _ n 0 (by simp) (by omega) le_rfl)
    unfold GLfloat.ofNat GLfloat.round
    rw [hval, if_neg]
    rw [habs]
    have : (n : ℚ) < ((2 ^ 24 : Nat) : ℚ) := by exact_mod_cast hlt
    norm_num at this ⊢
    linarith
  · have : n = 2 ^ 24 := le_antisymm hn hge
    subst this
    decide!

/-- The comparison `<=` is transitive. -/
theorem GLfloat.le_of_le_of_le {a b c : GLfloat} (h1 : a ≤ b) (h2 : b ≤ c) : a ≤ c := by
  change GLfloat.le a b = true at h1
  change GLfloat.le b c = true at h2
  show GLfloat.le a c = true
  cases a <;> cases b <;> cases c <;> simp only [GLfloat.le, decide_eq_true_eq, Bool.not_eq_true',
    Bool.or_eq_true, Bool.false_eq_true] at h1 h2 ⊢
  · exact le_trans h1 h2
  all_goals (try subst_vars)
  all_goals (try simp_all)
  rename_i s t u
  cases s <;> cases t <;> cases u <;> simp_all

/-- A number that is compared with success is not a NaN: it is at most itself. -/
theorem GLfloat.le_self_of_le_right {a b : GLfloat} (h : a ≤ b) : b ≤ b := by
  change GLfloat.le a b = true at h
  show GLfloat.le b b = true
  cases a <;> cases b <;> simp_all [GLfloat.le]

/-- Two numbers that are not NaNs are comparable. -/
theorem GLfloat.le_of_not_le {a b : GLfloat} (ha : a ≤ a) (hb : b ≤ b) (h : ¬ a ≤ b) :
    b ≤ a := by
  change GLfloat.le a a = true at ha
  change GLfloat.le b b = true at hb
  change ¬ GLfloat.le a b = true at h
  show GLfloat.le b a = true
  cases a <;> cases b <;> simp only [GLfloat.le, decide_eq_true_eq, Bool.not_eq_true',
    Bool.or_eq_true, Bool.false_eq_true, not_le, Bool.not_eq_true] at ha hb h ⊢
  · exact le_of_lt h
  all_goals (try subst_vars)
  all_goals (try simp_all)

/-- The comparison `<` holds where `<=` holds and `>=` does not. -/
theorem GLfloat.lt_iff_le_not_ge (a b : GLfloat) : a < b ↔ a ≤ b ∧ ¬ b ≤ a := by
  show GLfloat.lt a b = true ↔ GLfloat.le a b = true ∧ ¬ GLfloat.le b a = true
  cases a <;> cases b <;> simp only [GLfloat.le, GLfloat.lt, decide_eq_true_eq,
    Bool.not_eq_true', Bool.or_eq_true, Bool.and_eq_true, Bool.false_eq_true, not_le,
    Bool.not_eq_true, false_and, and_false, not_or]
  · exact ⟨fun h => ⟨le_of_lt h, h⟩, fun h => h.2⟩
  all_goals (try simp)
  all_goals (try tauto)

/-! ## Depth-source heuristic: theorems -/

/-- The loop over a table cut in two is the loop over the first part followed by the loop
over the second part. -/
theorem scoringLoop_append (T w h : Nat) (a b : List (Nat × DepthSourceInfo)) :
    ∀ (best : Nat) (bi : DepthSourceInfo),
      scoringLoop T w h (a ++ b) best bi =
        ((scoringLoop T w h b (scoringLoop T w h a best bi).1
            (scoringLoop T w h a best bi).2.1).1,
         (scoringLoop T w h b (scoringLoop T w h a best bi).1
            (scoringLoop T w h a best bi).2.1).2.1,
         (scoringLoop T w h a best bi).2.2 ++
           (scoringLoop T w h b (scoringLoop T w h a best bi).1
            (scoringLoop T w h a best bi).2.1).2.2) := by
  induction a with
  | nil => intro best bi; simp [scoringLoop]
  | cons it rest ih =>
    intro best bi
    rw [List.cons_append, scoringLoop, scoringLoop]
    split_ifs <;> simp only [ih, List.cons_append]

/-- The loop ends with the `best` it started from or with an entry of the table that has
draw calls and passes the size test. -/
theorem scoringLoop_choice (T w h : Nat) (l : List (Nat × DepthSourceInfo)) :
    ∀ (best : Nat) (bi : DepthSourceInfo),
      ((scoringLoop T w h l best bi).1 = best ∧ (scoringLoop T w h l best bi).2.1 = bi) ∨
      (((scoringLoop T w h l best bi).1, (scoringLoop T w h l best bi).2.1) ∈ l ∧
        (scoringLoop T w h l best bi).2.1.DrawCallCount ≠ 0 ∧
        depthSizeMatches w h (scoringLoop T w h l best bi).2.1) := by
  induction l with
  | nil => intro best bi; left; simp [scoringLoop]
  | cons it rest ih =>
    intro best bi
    simp only [scoringLoop]
    split_ifs with h0 hc
    · rcases ih best bi with h1 | h1
      · left; exact h1
      · right; exact ⟨List.mem_cons_of_mem _ h1.1, h1.2⟩
    · rcases ih it.1 it.2 with h1 | h1
      · right
        simp only at h1 ⊢
        rw [h1.1, h1.2]
        exact ⟨List.mem_cons_self _ _, h0, hc.2⟩
      · right; exact ⟨List.mem_cons_of_mem _ h1.1, h1.2⟩
    · rcases ih best bi with h1 | h1
      · left; exact h1
      · right; exact ⟨List.mem_cons_of_mem _ h1.1, h1.2⟩

/-- The score of `bestInfo`, where it is not a NaN, never goes down in the loop. -/
theorem scoringLoop_mono (T w h : Nat) (l : List (Nat × DepthSourceInfo)) :
    ∀ (best : Nat) (bi : DepthSourceInfo), depthScore T bi ≤ depthScore T bi →
      depthScore T bi ≤ depthScore T (scoringLoop T w h l best bi).2.1 := by
  induction l with
  | nil => intro best bi hbi; simpa [scoringLoop] using hbi
  | cons it rest ih =>
    intro best bi hbi
    simp only [scoringLoop]
    split_ifs with h0 hc
    · exact ih best bi hbi
    · exact GLfloat.le_of_le_of_le hc.1 (ih it.1 it.2 (GLfloat.le_self_of_le_right hc.1))
    · exact ih best bi hbi

/-- Where no score is a NaN, the final `bestInfo` scores at least as high as every entry
that has draw calls and passes the size test. -/
theorem scoringLoop_upper (T w h : Nat) (l : List (Nat × DepthSourceInfo)) :
    ∀ (best : Nat) (bi : DepthSourceInfo), depthScore T bi ≤ depthScore T bi →
      (∀ x ∈ l, x.2.DrawCallCount ≠ 0 → depthSizeMatches w h x.2 →
        depthScore T x.2 ≤ depthScore T x.2) →
      ∀ it ∈ l, it.2.DrawCallCount ≠ 0 → depthSizeMatches w h it.2 →
        depthScore T it.2 ≤ depthScore T (scoringLoop T w h l best bi).2.1 := by
  induction l with
  | nil => intro best bi _ _ it hit; simp at hit
  | cons x rest ih =>
    intro best bi hbi hall it hit hD hS
    have hrestall : ∀ x ∈ rest, x.2.DrawCallCount ≠ 0 → depthSizeMatches w h x.2 →
        depthScore T x.2 ≤ depthScore T x.2 :=
      fun y hy => hall y (List.mem_cons_of_mem _ hy)
    simp only [scoringLoop]
    rcases List.mem_cons.mp hit with rfl | hrest
    · rw [if_neg hD]
      have hit' := hall it (List.mem_cons_self _ _) hD hS
      split_ifs with hc
      · exact scoringLoop_mono T w h rest it.1 it.2 hit'
      · have hle : depthScore T it.2 ≤ depthScore T bi :=
          GLfloat.le_of_not_le hbi hit' (fun hcon => hc ⟨hcon, hS⟩)
        exact GLfloat.le_of_le_of_le hle (scoringLoop_mono T w h rest best bi hbi)
    · split_ifs with h0 hc
      · exact ih best bi hbi hrestall it hrest hD hS
      · exact ih x.1 x.2 (GLfloat.le_self_of_le_right hc.1) hrestall it hrest hD hS
      · exact ih best bi hbi hrestall it hrest hD hS

/-- Where some entry with draw calls passes the size test and scores at least as high as
the initial `bestInfo`, the loop ends with an entry of the table. -/
theorem scoringLoop_picks (T w h : Nat) (l : List (Nat × DepthSourceInfo)) :
    ∀ (best : Nat) (bi : DepthSourceInfo),
      (∃ it ∈ l, it.2.DrawCallCount ≠ 0 ∧ depthSizeMatches w h it.2 ∧
        depthScore T bi ≤ depthScore T it.2) →
      ((scoringLoop T w h l best bi).1, (scoringLoop T w h l best bi).2.1) ∈ l ∧
        (scoringLoop T w h l best bi).2.1.DrawCallCount ≠ 0 ∧
        depthSizeMatches w h (scoringLoop T w h l best bi).2.1 := by
  induction l with
  | nil => intro best bi ⟨it, hit, _⟩; simp at hit
  | cons x rest ih =>
    intro best bi ⟨it, hit, hD, hS, hsc⟩
    have hch := scoringLoop_choice T w h (x :: rest)
    rcases List.mem_cons.mp hit with rfl | hrest
    · simp only [scoringLoop]
      rw [if_neg hD, if_pos ⟨hsc, hS⟩]
      rcases scoringLoop_choice T w h rest it.1 it.2 with h1 | h1
      · simp only at h1 ⊢
        rw [h1.1, h1.2]
        exact ⟨List.mem_cons_self _ _, hD, hS⟩
      · exact ⟨List.mem_cons_of_mem _ h1.1, h1.2⟩
    · simp only [scoringLoop]
      split_ifs with h0 hc
      · have := ih best bi ⟨it, hrest, hD, hS, hsc⟩
        exact ⟨List.mem_cons_of_mem _ this.1, this.2⟩
      · rcases scoringLoop_choice T w h rest x.1 x.2 with h1 | h1
        · simp only at h1 ⊢
          rw [h1.1, h1.2]
          exact ⟨List.mem_cons_self _ _, h0, hc.2⟩
        · exact ⟨List.mem_cons_of_mem _ h1.1, h1.2⟩
      · have := ih best bi ⟨it, hrest, hD, hS, hsc⟩
        exact ⟨List.mem_cons_of_mem _ this.1, this.2⟩

/-- Where no entry with draw calls that passes the size test scores at least as high as the
initial `bestInfo`, the loop keeps `best` and `bestInfo`. -/
theorem scoringLoop_keeps (T w h : Nat) (l : List (Nat × DepthSourceInfo)) :
    ∀ (best : Nat) (bi : DepthSourceInfo),
      (∀ it ∈ l, it.2.DrawCallCount ≠ 0 → depthSizeMatches w h it.2 →
        ¬ depthScore T it.2 ≥ depthScore T bi) →
      (scoringLoop T w h l best bi).1 = best ∧ (scoringLoop T w h l best bi).2.1 = bi := by
  induction l with
  | nil => intro best bi _; simp [scoringLoop]
  | cons x rest ih =>
    intro best bi hall
    simp only [scoringLoop]
    have hrest : ∀ it ∈ rest, it.2.DrawCallCount ≠ 0 → depthSizeMatches w h it.2 →
        ¬ depthScore T it.2 ≥ depthScore T bi :=
      fun it hit => hall it (List.mem_cons_of_mem _ hit)
    split_ifs with h0 hc
    · exact ih best bi hrest
    · exact absurd hc.1 (hall x (List.mem_cons_self _ _) h0 hc.2)
    · exact ih best bi hrest

/-- The table after the loop: every entry with draw calls has both counters reset, the
other entries are as they were. -/
theorem scoringLoop_table (T w h : Nat) (l : List (Nat × DepthSourceInfo)) :
    ∀ (best : Nat) (bi : DepthSourceInfo),
      (scoringLoop T w h l best bi).2.2 =
        l.map (fun it => if it.2.DrawCallCount = 0 then it
          else (it.1, { it.2 with DrawCallCount := 0, DrawVerticesCount := 0 })) := by
  induction l with
  | nil => intro best bi; simp [scoringLoop]
  | cons x rest ih =>
    intro best bi
    simp only [scoringLoop, List.map_cons]
    split_ifs with h0 <;> simp only [ih]

/-- A key is found in the table exactly when some entry carries it. -/
theorem findDepthSource_isSome_iff (l : List (Nat × DepthSourceInfo)) (id : Nat) :
    (findDepthSource l id).isSome = true ↔ id ∈ l.map Prod.fst := by
  unfold findDepthSource
  rw [Option.isSome_map', List.find?_isSome]
  simp only [beq_iff_eq, List.mem_map]

/-- The loop keeps the keys of the table, in order. -/
theorem scoringLoop_keys (T w h : Nat) (l : List (Nat × DepthSourceInfo)) (best : Nat)
    (bi : DepthSourceInfo) :
    (scoringLoop T w h l best bi).2.2.map Prod.fst = l.map Prod.fst := by
  rw [scoringLoop_table, List.map_map]
  apply List.map_congr_left
  intro it _
  simp only [Function.comp]
  split_ifs <;> rfl

/-- After the loop every entry has both counters at zero, provided no entry without draw
calls had vertices counted. -/
theorem scoringLoop_resets (T w h : Nat) (l : List (Nat × DepthSourceInfo)) (best : Nat)
    (bi : DepthSourceInfo)
    (hinv : ∀ it ∈ l, it.2.DrawCallCount = 0 → it.2.DrawVerticesCount = 0) :
    ∀ it ∈ (scoringLoop T w h l best bi).2.2,
      it.2.DrawCallCount = 0 ∧ it.2.DrawVerticesCount = 0 := by
  rw [scoringLoop_table]
  intro it hit
  obtain ⟨x, hx, rfl⟩ := List.mem_map.mp hit
  split_ifs with h0
  · exact ⟨h0, hinv x hx h0⟩
  · exact ⟨rfl, rfl⟩

/-- A call of `DetectDepthSource` that is not skipped by the cooldown or the traffic reset
and does not throw leaves the `best` of the scoring pass in `_depthSource` and the
table as the loop left it. -/
theorem DetectDepthSource_scoring (n : Int) (g : Nat) (s s' : DepthState)
    (hc : s.cooldown ≤ 0) (ht : s.traffic ≤ 10) (h : DetectDepthSource n g s = some s') :
    s'._depthSource = (scoringPass s).1 ∧ s'._depthSourceTable = (scoringPass s).2.2 := by
  unfold DetectDepthSource at h
  rw [if_neg (not_lt.mpr hc), if_neg (not_lt.mpr ht)] at h
  have e : scoringPass { s with cooldown := 30, traffic := 0 } = scoringPass s := rfl
  simp only [e] at h
  split at h
  · exact absurd h (by simp)
  · rename_i bestInfo hfound
    split_ifs at h with hchg
    · split at h
      · exact absurd h (by simp)
      · simp only [Option.some.injEq] at h
        subst h
        split_ifs <;> exact ⟨rfl, rfl⟩
    · simp only [Option.some.injEq] at h
      subst h
      simp only [ne_eq, not_or, not_not] at hchg
      exact ⟨hchg.1, rfl⟩

/-- A scoring call of `DetectDepthSource` returns when the table holds the default entry
and the selected source. -/
theorem DetectDepthSource_returns (n : Int) (g : Nat) (s : DepthState)
    (hc : s.cooldown ≤ 0) (ht : s.traffic ≤ 10)
    (h0 : (findDepthSource s._depthSourceTable 0).isSome = true)
    (hsrc : (findDepthSource s._depthSourceTable s._depthSource).isSome = true) :
    ∃ s', DetectDepthSource n g s = some s' := by
  have k0 : (findDepthSource (scoringPass s).2.2 0).isSome = true := by
    rw [findDepthSource_isSome_iff] at h0 ⊢
    unfold scoringPass
    rw [scoringLoop_keys]; exact h0
  have ksrc : (findDepthSource (scoringPass s).2.2 s._depthSource).isSome = true := by
    rw [findDepthSource_isSome_iff] at hsrc ⊢
    unfold scoringPass
    rw [scoringLoop_keys]; exact hsrc
  obtain ⟨i0, hi0⟩ := Option.isSome_iff_exists.mp k0
  obtain ⟨isrc, hisrc⟩ := Option.isSome_iff_exists.mp ksrc
  unfold DetectDepthSource
  rw [if_neg (not_lt.mpr hc), if_neg (not_lt.mpr ht)]
  have e : scoringPass { s with cooldown := 30, traffic := 0 } = scoringPass s := rfl
  simp only [e, hisrc]
  by_cases hb : (scoringPass s).1 = 0
  · simp only [hb, if_true, hi0]
    split_ifs <;> exact ⟨_, rfl⟩
  · simp only [hb, if_false]
    split_ifs <;> exact ⟨_, rfl⟩

/-- C11: a scoring pass of `DetectDepthSource` never selects a candidate attachment
(an id other than 0) whose width is outside the open interval (0.95 W, 1.05 W) or
whose height is outside (0.95 H, 1.05 H): whatever the table, the presentation size
and the draw-call total, the attachment left in `_depthSource` is an entry of the
table of such a width and height.  The call returns when the table holds the default
entry and the current source (no lookup throws). -/
theorem DetectDepthSource_selects_in_range (n : Int) (g : Nat) (s : DepthState)
    (hc : s.cooldown ≤ 0) (ht : s.traffic ≤ 10) :
    ((findDepthSource s._depthSourceTable 0).isSome = true →
      (findDepthSource s._depthSourceTable s._depthSource).isSome = true →
      ∃ s', DetectDepthSource n g s = some s') ∧
    ∀ s', DetectDepthSource n g s = some s' → s'._depthSource ≠ 0 →
      ∃ info, (s'._depthSource, info) ∈ s._depthSourceTable ∧
        ((s._width : ℚ) * 0.95 < info.Width ∧ (info.Width : ℚ) < s._width * 1.05) ∧
        ((s._height : ℚ) * 0.95 < info.Height ∧ (info.Height : ℚ) < s._height * 1.05) := by
  refine ⟨fun h0 hsrc => DetectDepthSource_returns n g s hc ht h0 hsrc, ?_⟩
  intro s' h hsel
  obtain ⟨hbest, -⟩ := DetectDepthSource_scoring n g s s' hc ht h
  rw [hbest] at hsel ⊢
  unfold scoringPass at hsel ⊢
  rcases scoringLoop_choice s._stats.DrawCalls s._width s._height s._depthSourceTable 0
    ⟨0, 0, 0, GL_NONE, 0, 0⟩ with h1 | h1
  · exact absurd h1.1 hsel
  · exact ⟨_, h1.1, h1.2.2⟩

/-- Witness for C11: candidate 5 (1000 x 1000, the highest score) is passed over and
candidate 7 (100 x 100) is selected for a presentation size of 100 x 100. -/
theorem DetectDepthSource_selects_in_range_witness :
    depthExample.cooldown ≤ 0 ∧ depthExample.traffic ≤ 10 ∧
    (DetectDepthSource 0 0 depthExample).map (fun s => s._depthSource) = some 7 ∧
    ∃ info, (7, info) ∈ depthExample._depthSourceTable ∧
      ((depthExample._width : ℚ) * 0.95 < info.Width ∧
        (info.Width : ℚ) < depthExample._width * 1.05) ∧
      ((depthExample._height : ℚ) * 0.95 < info.Height ∧
        (info.Height : ℚ) < depthExample._height * 1.05) :=
  ⟨by decide, by decide, by decide!,
   (DetectDepthSource_selects_in_range 0 0 depthExample (by decide) (by decide)).2
     { depthExample with
        _depthSourceTable :=
          [(0, ⟨100, 100, 0, GL_DEPTH24_STENCIL8, 0, 0⟩),
           (5, ⟨1000, 1000, 0, GL_DEPTH24_STENCIL8, 0, 0⟩),
           (7, ⟨100, 100, 0, GL_DEPTH24_STENCIL8, 0, 0⟩)],
        _depthSource := 7, cooldown := 30 }
     (by decide!) (by decide)⟩

/-- In a frame with draw calls the score of the initial `bestInfo = { 0, 0, 0, GL_NONE }`
is zero. -/
theorem depthScore_initial (T : Nat) (hT : 0 < T) :
    depthScore T ⟨0, 0, 0, GL_NONE, 0, 0⟩ = 0 := by
  have hdiv : GLfloat.div (GLfloat.finite 0) (GLfloat.ofNat T) = GLfloat.finite 0 := by
    rcases GLfloat.ofNat_pos T hT with h | ⟨t, h, ht⟩
    · rw [h]; rfl
    · have hT1 : (1 : ℚ) ≤ T := by exact_mod_cast hT
      have ht0 : t ≠ 0 := by
        rintro rfl
        norm_num at ht
        linarith
      rw [h]
      simp only [GLfloat.div, if_neg ht0, zero_div]
      decide!
  show GLfloat.mul (GLfloat.finite 0)
    (GLfloat.sub 1.2 (GLfloat.div (GLfloat.finite 0) (GLfloat.ofNat T))) = GLfloat.finite 0
  rw [hdiv]
  decide!

/-- In a frame with `T > 0` draw calls, the factor `1.2f - D / T` of the score of an entry
with a draw-call count `0 ≤ D ≤ T` is a number of at least `1/8`. -/
theorem depthScore_factor (T : Nat) (d : ℚ) (hT : 0 < T) (hd0 : 0 ≤ d) (hd : d ≤ T) :
    ∃ f, GLfloat.sub 1.2 (GLfloat.div (GLfloat.finite d) (GLfloat.ofNat T)) =
      GLfloat.finite f ∧ 1 / 8 ≤ f := by
  rcases GLfloat.ofNat_pos T hT with h | ⟨t, h, ht⟩
  · rw [h]
    refine ⟨5033165 / 4194304, ?_, by norm_num⟩
    simp only [GLfloat.div]
    decide!
  · have hT1 : (1 : ℚ) ≤ T := by exact_mod_cast hT
    have htpos : 0 < t := by
      norm_num at ht
      linarith
    have hx0 : 0 ≤ d / t := div_nonneg hd0 htpos.le
    have hx1 : d / t ≤ 8388609 / 8388608 := by
      rw [div_le_iff₀ htpos]
      norm_num at ht
      linarith
    obtain ⟨hr, hr0, hr1⟩ := GLfloat.round_bounded (d / t) (8388609 / 8388608) 8388609
      (-23) (by norm_num) (by
        have := GLfloat.exponent_le_zero (d / t) (by
          rw [abs_of_nonneg hx0]; linarith)
        omega) hx0 hx1 (by norm_num)
    have hy0 : (1 / 8 : ℚ) ≤ 5033165 / 4194304 - GLfloat.roundValue (d / t) := by linarith
    have hy1 : (5033165 / 4194304 - GLfloat.roundValue (d / t) : ℚ) ≤ 5033165 / 4194304 := by
      linarith
    have hexp : GLfloat.exponent (5033165 / 4194304 - GLfloat.roundValue (d / t)) ≤ 0 :=
      GLfloat.exponent_le_zero _ (by
        rw [abs_of_nonneg (by linarith)]; linarith)
    obtain ⟨hf, -, -⟩ := GLfloat.round_bounded (5033165 / 4194304 - GLfloat.roundValue (d / t))
      (5033165 / 4194304) 10066330 (-23) (by norm_num) (by omega) (by linarith) hy1
      (by norm_num)
    refine ⟨_, ?_, GLfloat.le_roundValue_of _ (1 / 8) 1 (-3) (by norm_num) (by omega) hy0⟩
    rw [h, GLfloat.one_point_two]
    simp only [GLfloat.div, if_neg htpos.ne', hr, GLfloat.sub, GLfloat.neg, GLfloat.add]
    rw [← sub_eq_add_neg]
    exact hf

/-- In a frame with `T > 0` draw calls, an entry with a vertex count `V ≥ 0` and a draw-call
count `0 ≤ D ≤ T` has a score that is not below zero (and not a NaN). -/
theorem depthScore_nonneg (T : Nat) (info : DepthSourceInfo) (hT : 0 < T)
    (hV : (0 : GLfloat) ≤ info.DrawVerticesCount) (hD0 : (0 : GLfloat) ≤ info.DrawCallCount)
    (hD : info.DrawCallCount ≤ GLfloat.finite T) : (0 : GLfloat) ≤ depthScore T info := by
  show (0 : GLfloat) ≤ GLfloat.mul info.DrawVerticesCount
    (GLfloat.sub 1.2 (GLfloat.div info.DrawCallCount (GLfloat.ofNat T)))
  change GLfloat.le (GLfloat.finite 0) info.DrawVerticesCount = true at hV
  change GLfloat.le (GLfloat.finite 0) info.DrawCallCount = true at hD0
  change GLfloat.le info.DrawCallCount (GLfloat.finite T) = true at hD
  cases hd : info.DrawCallCount with
  | nan => rw [hd] at hD0; simp [GLfloat.le] at hD0
  | infinity s => rw [hd] at hD; rw [hd] at hD0; cases s <;> simp [GLfloat.le] at hD hD0
  | finite d =>
    rw [hd] at hD hD0
    simp only [GLfloat.le, decide_eq_true_eq] at hD hD0
    obtain ⟨f, hf, hf0⟩ := depthScore_factor T d hT hD0 hD
    rw [hf]
    cases hv : info.DrawVerticesCount with
    | nan => rw [hv] at hV; simp [GLfloat.le] at hV
    | infinity s =>
      rw [hv] at hV
      have hs : s = false := by simpa [GLfloat.le] using hV
      subst hs
      have hf1 : f ≠ 0 := by linarith
      have hf2 : ¬ f < 0 := by linarith
      simp only [GLfloat.mul, if_neg hf1, decide_eq_false hf2]
      rfl
    | finite v =>
      rw [hv] at hV
      simp only [GLfloat.le, decide_eq_true_eq] at hV
      exact GLfloat.round_nonneg (v * f) (mul_nonneg hV (by linarith))

/-- Counterexample for C12 as stated: in a frame of two draw calls the candidates 1
(`D = 1`, `V = 1000001`) and 2 (`D = 2`, `V = 3500003`) are both of the presentation
size; the score `V * (1.2 - D / T)` of candidate 1 is 700000.7, above the 700000.6 of
candidate 2, the scores as the code computes them are 700000.75 both, and candidate 2
is selected. -/
theorem DetectDepthSource_selects_max_example :
    depthRoundingExample._stats.DrawCalls = 2 ∧
    depthRoundingExample._depthSourceTable =
      [(0, ⟨100, 100, 0, GL_DEPTH24_STENCIL8, 0, 0⟩),
       (1, ⟨100, 100, 0, GL_DEPTH24_STENCIL8, 1, 1000001⟩),
       (2, ⟨100, 100, 0, GL_DEPTH24_STENCIL8, 2, 3500003⟩)] ∧
    (∀ it ∈ depthRoundingExample._depthSourceTable,
      depthSizeMatches depthRoundingExample._width depthRoundingExample._height it.2) ∧
    (3500003 : ℚ) * (1.2 - 2 / 2) < 1000001 * (1.2 - 1 / 2) ∧
    depthScore 2 ⟨100, 100, 0, GL_DEPTH24_STENCIL8, 1, 1000001⟩ = GLfloat.finite 700000.75 ∧
    depthScore 2 ⟨100, 100, 0, GL_DEPTH24_STENCIL8, 2, 3500003⟩ = GLfloat.finite 700000.75 ∧
    (DetectDepthSource 0 0 depthRoundingExample).map (fun s => s._depthSource) = some 2 := by
  decide!

/-- C12 (amended): in a scoring pass with `T > 0` total draw calls, where every entry has a
vertex count `V ≥ 0` and a draw-call count `0 ≤ D ≤ T` (and the table holds the default
entry and the current source, so that no lookup throws), `DetectDepthSource` returns,
and the source it selects is an entry of maximal score among the entries with non-zero
draw-call count whose width and height are within 5% of the presentation size, the
score being `V * (1.2f - D / T)` as the code computes it in single precision, with the
quotient, the difference and the product rounded each; if no entry qualifies,
source 0 is selected. -/
theorem DetectDepthSource_selects_max (n : Int) (g : Nat) (s : DepthState)
    (hc : s.cooldown ≤ 0) (ht : s.traffic ≤ 10) (hT : 0 < s._stats.DrawCalls)
    (hdom : ∀ it ∈ s._depthSourceTable,
      (0 : GLfloat) ≤ it.2.DrawVerticesCount ∧ (0 : GLfloat) ≤ it.2.DrawCallCount ∧
      it.2.DrawCallCount ≤ GLfloat.finite s._stats.DrawCalls)
    (h0 : (findDepthSource s._depthSourceTable 0).isSome = true)
    (hsrc : (findDepthSource s._depthSourceTable s._depthSource).isSome = true) :
    ∃ s', DetectDepthSource n g s = some s' ∧
      ((∃ it ∈ s._depthSourceTable, it.2.DrawCallCount ≠ 0 ∧
          depthSizeMatches s._width s._height it.2) →
        ∃ info, (s'._depthSource, info) ∈ s._depthSourceTable ∧
          info.DrawCallCount ≠ 0 ∧ depthSizeMatches s._width s._height info ∧
          ∀ it ∈ s._depthSourceTable, it.2.DrawCallCount ≠ 0 →
            depthSizeMatches s._width s._height it.2 →
            it.2.DrawVerticesCount *
                (1.2 - it.2.DrawCallCount / GLfloat.ofNat s._stats.DrawCalls) ≤
              info.DrawVerticesCount *
                (1.2 - info.DrawCallCount / GLfloat.ofNat s._stats.DrawCalls)) ∧
      ((¬ ∃ it ∈ s._depthSourceTable, it.2.DrawCallCount ≠ 0 ∧
          depthSizeMatches s._width s._height it.2) → s'._depthSource = 0) := by
  obtain ⟨s', hs'⟩ := DetectDepthSource_returns n g s hc ht h0 hsrc
  obtain ⟨hbest, -⟩ := DetectDepthSource_scoring n g s s' hc ht hs'
  have hscore : ∀ it ∈ s._depthSourceTable,
      (0 : GLfloat) ≤ depthScore s._stats.DrawCalls it.2 :=
    fun it hit => depthScore_nonneg _ _ hT (hdom it hit).1 (hdom it hit).2.1 (hdom it hit).2.2
  have hinit : depthScore s._stats.DrawCalls ⟨0, 0, 0, GL_NONE, 0, 0⟩ ≤
      depthScore s._stats.DrawCalls ⟨0, 0, 0, GL_NONE, 0, 0⟩ := by
    rw [depthScore_initial _ hT]; decide
  refine ⟨s', hs', ?_, ?_⟩
  · rintro ⟨it, hit, hD, hS⟩
    have hpick := scoringLoop_picks s._stats.DrawCalls s._width s._height s._depthSourceTable 0
      ⟨0, 0, 0, GL_NONE, 0, 0⟩ ⟨it, hit, hD, hS, by
        rw [depthScore_initial _ hT]
        exact hscore it hit⟩
    refine ⟨(scoringPass s).2.1, ?_, hpick.2.1, hpick.2.2, ?_⟩
    · rw [hbest]; exact hpick.1
    · intro x hx hxD hxS
      exact scoringLoop_upper s._stats.DrawCalls s._width s._height s._depthSourceTable 0
        ⟨0, 0, 0, GL_NONE, 0, 0⟩ hinit
        (fun y hy _ _ => GLfloat.le_self_of_le_right (hscore y hy)) x hx hxD hxS
  · intro hnone
    rw [hbest]
    unfold scoringPass
    rcases scoringLoop_choice s._stats.DrawCalls s._width s._height s._depthSourceTable 0
      ⟨0, 0, 0, GL_NONE, 0, 0⟩ with h1 | h1
    · exact h1.1
    · exact absurd ⟨_, h1.1, h1.2.1, h1.2.2⟩ hnone

/-- Witness for C12 (amended): of the candidates 5 (out of range) and 7 (in range,
score 2.0000005), 7 is selected. -/
theorem DetectDepthSource_selects_max_witness :
    depthExample.cooldown ≤ 0 ∧ depthExample.traffic ≤ 10 ∧
    0 < depthExample._stats.DrawCalls ∧
    (∀ it ∈ depthExample._depthSourceTable,
      (0 : GLfloat) ≤ it.2.DrawVerticesCount ∧ (0 : GLfloat) ≤ it.2.DrawCallCount ∧
      it.2.DrawCallCount ≤ GLfloat.finite depthExample._stats.DrawCalls) ∧
    (findDepthSource depthExample._depthSourceTable 0).isSome = true ∧
    (findDepthSource depthExample._depthSourceTable depthExample._depthSource).isSome = true ∧
    (DetectDepthSource 0 0 depthExample).map (fun s => s._depthSource) = some 7 ∧
    depthScore 2 ⟨100, 100, 0, GL_DEPTH24_STENCIL8, 2, 10⟩ = GLfloat.finite (4194305 / 2097152) ∧
    ∃ s', DetectDepthSource 0 0 depthExample = some s' ∧
      ((∃ it ∈ depthExample._depthSourceTable, it.2.DrawCallCount ≠ 0 ∧
          depthSizeMatches depthExample._width depthExample._height it.2) →
        ∃ info, (s'._depthSource, info) ∈ depthExample._depthSourceTable ∧
          info.DrawCallCount ≠ 0 ∧
          depthSizeMatches depthExample._width depthExample._height info ∧
          ∀ it ∈ depthExample._depthSourceTable, it.2.DrawCallCount ≠ 0 →
            depthSizeMatches depthExample._width depthExample._height it.2 →
            it.2.DrawVerticesCount *
                (1.2 - it.2.DrawCallCount / GLfloat.ofNat depthExample._stats.DrawCalls) ≤
              info.DrawVerticesCount *
                (1.2 - info.DrawCallCount / GLfloat.ofNat depthExample._stats.DrawCalls)) ∧
      ((¬ ∃ it ∈ depthExample._depthSourceTable, it.2.DrawCallCount ≠ 0 ∧
          depthSizeMatches depthExample._width depthExample._height it.2) →
        s'._depthSource = 0) :=
  ⟨by decide, by decide, by decide, by decide!, by decide, by decide, by decide!, by decide!,
   DetectDepthSource_selects_max 0 0 depthExample (by decide) (by decide) (by decide)
     (by decide!) (by decide) (by decide)⟩

/-- The entry behind which no score as high follows, and in front of which no higher score
stands, is the one the loop ends with. -/
theorem scoringLoop_last_max (T w h : Nat) (a b : List (Nat × DepthSourceInfo)) (k : Nat)
    (i : DepthSourceInfo) (best : Nat) (bi : DepthSourceInfo)
    (hD : i.DrawCallCount ≠ 0) (hS : depthSizeMatches w h i)
    (hbi : depthScore T bi ≤ depthScore T i)
    (ha : ∀ it ∈ a, it.2.DrawCallCount ≠ 0 → depthSizeMatches w h it.2 →
      depthScore T it.2 ≤ depthScore T i)
    (hb : ∀ it ∈ b, it.2.DrawCallCount ≠ 0 → depthSizeMatches w h it.2 →
      ¬ depthScore T it.2 ≥ depthScore T i) :
    (scoringLoop T w h (a ++ (k, i) :: b) best bi).1 = k ∧
    (scoringLoop T w h (a ++ (k, i) :: b) best bi).2.1 = i := by
  rw [scoringLoop_append]
  have hle : depthScore T (scoringLoop T w h a best bi).2.1 ≤ depthScore T i := by
    rcases scoringLoop_choice T w h a best bi with h1 | h1
    · rw [h1.2]; exact hbi
    · exact ha _ h1.1 h1.2.1 h1.2.2
  simp only [scoringLoop]
  rw [if_neg hD, if_pos ⟨hle, hS⟩]
  exact scoringLoop_keeps T w h b k i hb

/-- The scores the code compares are the rounded ones.  In a frame of two draw calls the
candidates with `D = 2`, `V = 35` and with `D = 1`, `V = 10` have the same score
`V * (1.2 - D / T) = 7`; the scores computed in single precision are 7.0000019 and
7.0000005, and the first candidate is kept although it is visited first. -/
theorem depthScore_rounded_tie_example :
    (35 : ℚ) * (1.2 - 2 / 2) = 10 * (1.2 - 1 / 2) ∧
    depthScore 2 ⟨100, 100, 0, GL_DEPTH24_STENCIL8, 2, 35⟩ =
      GLfloat.finite (14680068 / 2097152) ∧
    depthScore 2 ⟨100, 100, 0, GL_DEPTH24_STENCIL8, 1, 10⟩ =
      GLfloat.finite (14680065 / 2097152) ∧
    (DetectDepthSource 0 0
      ⟨100, 100, ⟨2⟩,
       [(0, ⟨100, 100, 0, GL_DEPTH24_STENCIL8, 0, 0⟩),
        (2, ⟨100, 100, 0, GL_DEPTH24_STENCIL8, 2, 35⟩),
        (1, ⟨100, 100, 0, GL_DEPTH24_STENCIL8, 1, 10⟩)],
       0, 1, 0, 0⟩).map (fun s => s._depthSource) = some 2 := by
  decide!

/-- Counterexample for C13 as stated: the candidates 1 and 2 have equal scores, higher
than every other score; candidate 1 is visited first, candidate 2 is selected. -/
theorem DetectDepthSource_tie_selects_later_example :
    (depthTieExample._depthSourceTable.map Prod.fst = [0, 1, 2]) ∧
    (DetectDepthSource 0 0 depthTieExample).map (fun s => s._depthSource) = some 2 ∧
    (DetectDepthSource 0 0 depthTieExample).map (fun s => s._depthSource) ≠ some 1 := by
  decide!

/-- C13 (amended): in a frame with draw calls, when two eligible depth candidates have
exactly equal scores, not below zero, that are higher than every other eligible
candidate's score, a scoring pass of `DetectDepthSource` selects the one that is
visited later in the table iteration.  The scores are the single-precision numbers the
code computes and compares. -/
theorem DetectDepthSource_tie_selects_later (n : Int) (g : Nat) (s : DepthState)
    (pre mid post : List (Nat × DepthSourceInfo)) (k1 k2 : Nat) (i1 i2 : DepthSourceInfo)
    (htable : s._depthSourceTable = pre ++ (k1, i1) :: (mid ++ (k2, i2) :: post))
    (hc : s.cooldown ≤ 0) (ht : s.traffic ≤ 10) (hT : 0 < s._stats.DrawCalls)
    (_he1 : i1.DrawCallCount ≠ 0 ∧ depthSizeMatches s._width s._height i1)
    (he2 : i2.DrawCallCount ≠ 0 ∧ depthSizeMatches s._width s._height i2)
    (htie : depthScore s._stats.DrawCalls i1 = depthScore s._stats.DrawCalls i2)
    (hnonneg : (0 : GLfloat) ≤ depthScore s._stats.DrawCalls i2)
    (hothers : ∀ it ∈ pre ++ mid ++ post, it.2.DrawCallCount ≠ 0 →
      depthSizeMatches s._width s._height it.2 →
      depthScore s._stats.DrawCalls it.2 < depthScore s._stats.DrawCalls i2)
    (h0 : (findDepthSource s._depthSourceTable 0).isSome = true)
    (hsrc : (findDepthSource s._depthSourceTable s._depthSource).isSome = true) :
    ∃ s', DetectDepthSource n g s = some s' ∧ s'._depthSource = k2 := by
  obtain ⟨s', hs'⟩ := DetectDepthSource_returns n g s hc ht h0 hsrc
  obtain ⟨hbest, -⟩ := DetectDepthSource_scoring n g s s' hc ht hs'
  refine ⟨s', hs', ?_⟩
  rw [hbest]
  unfold scoringPass
  have e : s._depthSourceTable = (pre ++ (k1, i1) :: mid) ++ (k2, i2) :: post := by
    rw [htable]; simp
  rw [e]
  refine (scoringLoop_last_max s._stats.DrawCalls s._width s._height
    (pre ++ (k1, i1) :: mid) post k2 i2 0 ⟨0, 0, 0, GL_NONE, 0, 0⟩ he2.1 he2.2
    (by rw [depthScore_initial _ hT]; exact hnonneg) ?_ ?_).1
  · intro it hit hD hS
    rcases List.mem_append.mp hit with h1 | h1
    · exact ((GLfloat.lt_iff_le_not_ge _ _).mp (hothers it (by simp [h1]) hD hS)).1
    · rcases List.mem_cons.mp h1 with rfl | h2
      · show depthScore s._stats.DrawCalls i1 ≤ depthScore s._stats.DrawCalls i2
        rw [htie]; exact GLfloat.le_self_of_le_right hnonneg
      · exact ((GLfloat.lt_iff_le_not_ge _ _).mp (hothers it (by simp [h2]) hD hS)).1
  · intro it hit hD hS
    exact ((GLfloat.lt_iff_le_not_ge _ _).mp (hothers it (by simp [hit]) hD hS)).2

/-- Witness for C13 (amended): of the tied candidates 1 and 2, candidate 2 is selected. -/
theorem DetectDepthSource_tie_selects_later_witness :
    ∃ s', DetectDepthSource 0 0 depthTieExample = some s' ∧ s'._depthSource = 2 :=
  DetectDepthSource_tie_selects_later 0 0 depthTieExample
    [(0, ⟨100, 100, 0, GL_DEPTH24_STENCIL8, 0, 0⟩)] [] []
    1 2 ⟨100, 100, 0, GL_DEPTH24_STENCIL8, 1, 10⟩ ⟨100, 100, 0, GL_DEPTH24_STENCIL8, 1, 10⟩
    (by decide!) (by decide) (by decide) (by decide) (by decide!) (by decide!) (by decide!)
    (by decide!) (by decide!) (by decide) (by decide)

/-- The state after a successful `OnInit` is consistent. -/
theorem OnInit_consistent (width height glTexture : Nat) :
    (OnInit width height glTexture DepthState.initial).Consistent := by
  refine ⟨?_, ?_, ?_⟩
  · intro it hit _
    simp only [OnInit, DepthState.initial, setDepthSource, List.mem_singleton] at hit
    rw [hit]
  · simp [OnInit, DepthState.initial, setDepthSource, findDepthSource]
  · simp [OnInit, DepthState.initial, setDepthSource, findDepthSource]

/-- The function `OnFramebufferAttachment` keeps a consistent state consistent. -/
theorem OnFramebufferAttachment_consistent (d i : Bool) (t o : Nat) (l w h f : Int)
    (s : DepthState) (hs : s.Consistent) :
    (OnFramebufferAttachment d i t o l w h f s).Consistent := by
  obtain ⟨hz, h0, hsrc⟩ := hs
  by_cases h1 : o = 0 ∨ d = false
  · simp only [OnFramebufferAttachment, if_pos h1]; exact ⟨hz, h0, hsrc⟩
  by_cases h2 : i = true
  · simp only [OnFramebufferAttachment, if_neg h1, if_pos h2]; exact ⟨hz, h0, hsrc⟩
  by_cases h3 : (findDepthSource s._depthSourceTable (depthSourceKey o t)).isSome = true
  · simp only [OnFramebufferAttachment, if_neg h1, if_neg h2, if_pos h3]; exact ⟨hz, h0, hsrc⟩
  simp only [OnFramebufferAttachment, if_neg h1, if_neg h2, if_neg h3]
  refine ⟨?_, ?_, ?_⟩
  · intro it hit hD
    rcases List.mem_append.mp hit with hit | hit
    · exact hz it hit hD
    · rw [List.mem_singleton] at hit
      subst hit
      split_ifs <;> rfl
  · rw [findDepthSource_isSome_iff] at h0 ⊢
    simp only [List.map_append, List.mem_append]
    exact Or.inl h0
  · rw [findDepthSource_isSome_iff] at hsrc ⊢
    simp only [List.map_append, List.mem_append]
    exact Or.inl hsrc

/-- The update of `OnDrawCall` keeps the keys of the table. -/
theorem recordDrawCall_keys (T v id : Nat) (l : List (Nat × DepthSourceInfo)) :
    (recordDrawCall T v id l).map Prod.fst = l.map Prod.fst := by
  induction l with
  | nil => rfl
  | cons x rest ih =>
    simp only [recordDrawCall]
    split_ifs
    · rfl
    · simp only [List.map_cons, ih]

/-- After the update of `OnDrawCall` with a draw-call total above zero, an entry without
draw calls is an entry that was there before. -/
theorem recordDrawCall_zero (T v id : Nat) (hT : 0 < T) (l : List (Nat × DepthSourceInfo)) :
    ∀ it ∈ recordDrawCall T v id l, it.2.DrawCallCount = 0 → it ∈ l := by
  induction l with
  | nil => intro it hit; simp [recordDrawCall] at hit
  | cons x rest ih =>
    intro it hit hD
    simp only [recordDrawCall] at hit
    split_ifs at hit with hx
    · rcases List.mem_cons.mp hit with rfl | h1
      · simp only at hD
        exact absurd hD (GLfloat.ofNat_ne_zero T hT)
      · exact List.mem_cons_of_mem _ h1
    · rcases List.mem_cons.mp hit with rfl | h1
      · exact List.mem_cons_self _ _
      · exact List.mem_cons_of_mem _ (ih it h1 hD)

/-- The function `OnDrawCall` keeps a consistent state consistent. -/
theorem OnDrawCall_consistent (v fbo t o : Nat) (s : DepthState) (hs : s.Consistent) :
    (OnDrawCall v fbo t o s).Consistent := by
  obtain ⟨hz, h0, hsrc⟩ := hs
  by_cases h1 : fbo ≠ 0 ∧ t = GL_NONE
  · simp only [OnDrawCall, Runtime_OnDrawCall, if_pos h1]
    exact ⟨hz, h0, hsrc⟩
  · simp only [OnDrawCall, Runtime_OnDrawCall, if_neg h1]
    refine ⟨?_, ?_, ?_⟩
    · intro it hit hD
      exact hz it (recordDrawCall_zero _ _ _ (Nat.succ_pos _) _ it hit hD) hD
    · rw [findDepthSource_isSome_iff] at h0 ⊢
      simp only [recordDrawCall_keys]; exact h0
    · rw [findDepthSource_isSome_iff] at hsrc ⊢
      simp only [recordDrawCall_keys]; exact hsrc

/-- Every call of `DetectDepthSource` on a consistent state returns a consistent state. -/
theorem DetectDepthSource_consistent (n : Int) (g : Nat) (s : DepthState)
    (hs : s.Consistent) :
    ∃ s', DetectDepthSource n g s = some s' ∧ s'.Consistent := by
  obtain ⟨hz, h0, hsrc⟩ := hs
  by_cases hc : s.cooldown > 0
  · refine ⟨{ s with cooldown := s.cooldown - 1,
                     traffic := s.traffic + (if n > 0 then 1 else 0) }, ?_, hz, h0, hsrc⟩
    unfold DetectDepthSource; rw [if_pos hc]
  · by_cases ht : s.traffic > 10
    · refine ⟨CreateDepthTexture GL_NONE g
        { s with cooldown := 30, traffic := 0, _depthSource := 0 }, ?_, hz, h0, h0⟩
      unfold DetectDepthSource; rw [if_neg hc, if_pos ht]
    · obtain ⟨s', hs'⟩ := DetectDepthSource_returns n g s (not_lt.mp hc) (not_lt.mp ht) h0 hsrc
      obtain ⟨hbest, htab⟩ := DetectDepthSource_scoring n g s s' (not_lt.mp hc) (not_lt.mp ht) hs'
      refine ⟨s', hs', ?_, ?_, ?_⟩
      · intro it hit _
        rw [htab] at hit
        exact (scoringLoop_resets _ _ _ _ _ _ hz it hit).2
      · rw [htab, findDepthSource_isSome_iff]
        unfold scoringPass
        rw [scoringLoop_keys, ← findDepthSource_isSome_iff]; exact h0
      · rw [htab, hbest, findDepthSource_isSome_iff]
        unfold scoringPass
        rw [scoringLoop_keys]
        rcases scoringLoop_choice s._stats.DrawCalls s._width s._height s._depthSourceTable 0
          ⟨0, 0, 0, GL_NONE, 0, 0⟩ with h1 | h1
        · rw [h1.1, ← findDepthSource_isSome_iff]; exact h0
        · exact List.mem_map.mpr ⟨_, h1.1, rfl⟩

/-- Every call keeps a consistent state consistent and none throws. -/
theorem DepthEvent_apply_consistent (e : DepthEvent) (s : DepthState) (hs : s.Consistent) :
    ∃ s', DepthEvent.apply s e = some s' ∧ s'.Consistent := by
  cases e with
  | FramebufferAttachment d i t o l w h f =>
    exact ⟨_, rfl, OnFramebufferAttachment_consistent d i t o l w h f s hs⟩
  | DrawCall v fbo t o => exact ⟨_, rfl, OnDrawCall_consistent v fbo t o s hs⟩
  | Detect n g => exact DetectDepthSource_consistent n g s hs
  | StatsReset => exact ⟨_, rfl, hs⟩

/-- Every sequence of calls from a consistent state ends in a consistent state. -/
theorem foldlM_apply_consistent (events : List DepthEvent) :
    ∀ s : DepthState, s.Consistent →
      ∃ s', events.foldlM DepthEvent.apply s = some s' ∧ s'.Consistent := by
  induction events with
  | nil => intro s hs; exact ⟨s, rfl, hs⟩
  | cons e rest ih =>
    intro s hs
    obtain ⟨s1, h1, hs1⟩ := DepthEvent_apply_consistent e s hs
    obtain ⟨s2, h2, hs2⟩ := ih s1 hs1
    refine ⟨s2, ?_, hs2⟩
    rw [List.foldlM_cons, h1]
    exact h2

/-- Every run after a successful `OnInit` goes through and ends in a consistent state. -/
theorem runDepthEvents_consistent (width height glTexture : Nat) (events : List DepthEvent) :
    ∃ s, runDepthEvents width height glTexture events = some s ∧ s.Consistent :=
  foldlM_apply_consistent events _ (OnInit_consistent width height glTexture)

/-- C14: in every state the runtime reaches after `OnInit` by calls of
`OnFramebufferAttachment`, `OnDrawCall` and `DetectDepthSource`, a call of
`DetectDepthSource` that is not skipped by the cooldown or the traffic reset returns
and leaves every entry of the depth-source table with draw-call count 0 and vertex
count 0, whichever candidate is selected. -/
theorem DetectDepthSource_resets_counters (width height glTexture : Nat)
    (events : List DepthEvent) (s : DepthState)
    (hrun : runDepthEvents width height glTexture events = some s)
    (n : Int) (g : Nat) (hc : s.cooldown ≤ 0) (ht : s.traffic ≤ 10) :
    ∃ s', DetectDepthSource n g s = some s' ∧
      ∀ it ∈ s'._depthSourceTable,
        it.2.DrawCallCount = 0 ∧ it.2.DrawVerticesCount = 0 := by
  obtain ⟨s0, h0, hs0⟩ := runDepthEvents_consistent width height glTexture events
  rw [hrun] at h0
  simp only [Option.some.injEq] at h0
  subst h0
  obtain ⟨s', hs'⟩ := DetectDepthSource_returns n g s hc ht hs0.2.1 hs0.2.2
  obtain ⟨-, htab⟩ := DetectDepthSource_scoring n g s s' hc ht hs'
  refine ⟨s', hs', ?_⟩
  rw [htab]
  exact scoringLoop_resets _ _ _ _ _ _ hs0.1

/-- Witness for C14: after a renderbuffer is attached and drawn to with 30 vertices, the
scoring pass leaves both entries of the table with counters at zero. -/
theorem DetectDepthSource_resets_counters_witness :
    (runDepthEvents 100 100 1 depthRunExample).map (fun s => s._depthSourceTable) =
      some [(0, ⟨100, 100, 0, GL_DEPTH24_STENCIL8, 0, 0⟩),
            (2147483651, ⟨100, 100, 0, GL_DEPTH24_STENCIL8, 1, 30⟩)] ∧
    ∃ s', DetectDepthSource 0 0
        ⟨100, 100, ⟨1⟩, [(0, ⟨100, 100, 0, GL_DEPTH24_STENCIL8, 0, 0⟩),
          (2147483651, ⟨100, 100, 0, GL_DEPTH24_STENCIL8, 1, 30⟩)], 0, 1, 0, 0⟩ = some s' ∧
      ∀ it ∈ s'._depthSourceTable,
        it.2.DrawCallCount = 0 ∧ it.2.DrawVerticesCount = 0 :=
  ⟨by decide!,
   DetectDepthSource_resets_counters 100 100 1 depthRunExample
     ⟨100, 100, ⟨1⟩, [(0, ⟨100, 100, 0, GL_DEPTH24_STENCIL8, 0, 0⟩),
       (2147483651, ⟨100, 100, 0, GL_DEPTH24_STENCIL8, 1, 30⟩)], 0, 1, 0, 0⟩
     (by decide!) 0 0 (by decide) (by decide)⟩

end ReShade

namespace ReShade

/-! ## Pass assembly: theorems -/

/-- With the viewport set, a declared slot whose texture has another size ends the
render-target loop with the error. -/
theorem attachRenderTargets_mismatch (runtime : RuntimeObjects) (node : PassNode)
    (slots : List Nat) :
    ∀ (pass : Pass) (bb : Bool) (st : CompilerState),
      pass.ViewportWidth ≠ 0 → pass.ViewportHeight ≠ 0 →
      (∀ i ∈ slots, ∀ name, node.States.RenderTargets.getD i none = some name →
        ∃ t, GetTexture runtime.textures name = some t ∧ t.Width ≠ 0 ∧ t.Height ≠ 0) →
      (∃ i ∈ slots, ∃ name t, node.States.RenderTargets.getD i none = some name ∧
        GetTexture runtime.textures name = some t ∧
        ((t.Width : Int) ≠ pass.ViewportWidth ∨ (t.Height : Int) ≠ pass.ViewportHeight)) →
      attachRenderTargets runtime node slots pass bb st =
        (Error node.Location
          "cannot use multiple rendertargets with different sized textures" st, none) := by
  induction slots with
  | nil => intro pass bb st _ _ _ ⟨i, hi, _⟩; simp at hi
  | cons i0 rest ih =>
    intro pass bb st hw hh hres ⟨i, hi, name, t, hname, htex, hdiff⟩
    have hres' : ∀ i ∈ rest, ∀ name, node.States.RenderTargets.getD i none = some name →
        ∃ t, GetTexture runtime.textures name = some t ∧ t.Width ≠ 0 ∧ t.Height ≠ 0 :=
      fun k hk => hres k (List.mem_cons_of_mem _ hk)
    unfold attachRenderTargets
    cases h0 : node.States.RenderTargets.getD i0 none with
    | none =>
      simp only
      rcases List.mem_cons.mp hi with rfl | hi'
      · rw [h0] at hname; exact absurd hname (by simp)
      · exact ih pass bb st hw hh hres' ⟨i, hi', name, t, hname, htex, hdiff⟩
    | some name0 =>
      obtain ⟨t0, ht0, hw0, hh0⟩ := hres i0 (List.mem_cons_self _ _) name0 h0
      simp only [ht0]
      by_cases hc : (t0.Width : Int) ≠ pass.ViewportWidth ∨ (t0.Height : Int) ≠ pass.ViewportHeight
      · rw [if_pos ⟨hw, hh, hc⟩]
      · rw [if_neg (fun h => hc h.2.2)]
        simp only [not_or, not_not] at hc
        rcases List.mem_cons.mp hi with rfl | hi'
        · rw [h0] at hname
          simp only [Option.some.injEq] at hname
          subst hname
          rw [ht0] at htex
          simp only [Option.some.injEq] at htex
          subst htex
          rcases hdiff with hd | hd
          · exact absurd hc.1 hd
          · exact absurd hc.2 hd
        · apply ih
          · simp only; exact_mod_cast hw0
          · simp only; exact_mod_cast hh0
          · exact hres'
          · refine ⟨i, hi', name, t, hname, htex, ?_⟩
            simp only
            rw [hc.1, hc.2]
            exact hdiff

/-- From a fresh pass, two declared slots whose textures differ in size end the
render-target loop with the error. -/
theorem attachRenderTargets_mixed (runtime : RuntimeObjects) (node : PassNode)
    (slots : List Nat) :
    ∀ (pass : Pass) (bb : Bool) (st : CompilerState),
      pass.ViewportWidth = 0 →
      (∀ i ∈ slots, ∀ name, node.States.RenderTargets.getD i none = some name →
        ∃ t, GetTexture runtime.textures name = some t ∧ t.Width ≠ 0 ∧ t.Height ≠ 0) →
      (∃ i ∈ slots, ∃ j ∈ slots, ∃ ni nj ti tj,
        node.States.RenderTargets.getD i none = some ni ∧
        node.States.RenderTargets.getD j none = some nj ∧
        GetTexture runtime.textures ni = some ti ∧ GetTexture runtime.textures nj = some tj ∧
        (ti.Width ≠ tj.Width ∨ ti.Height ≠ tj.Height)) →
      attachRenderTargets runtime node slots pass bb st =
        (Error node.Location
          "cannot use multiple rendertargets with different sized textures" st, none) := by
  induction slots with
  | nil => intro pass bb st _ _ ⟨i, hi, _⟩; simp at hi
  | cons i0 rest ih =>
    intro pass bb st hw hres ⟨i, hi, j, hj, ni, nj, ti, tj, hni, hnj, hti, htj, hdiff⟩
    have hres' : ∀ i ∈ rest, ∀ name, node.States.RenderTargets.getD i none = some name →
        ∃ t, GetTexture runtime.textures name = some t ∧ t.Width ≠ 0 ∧ t.Height ≠ 0 :=
      fun k hk => hres k (List.mem_cons_of_mem _ hk)
    unfold attachRenderTargets
    cases h0 : node.States.RenderTargets.getD i0 none with
    | none =>
      simp only
      have hi' : i ∈ rest := by
        rcases List.mem_cons.mp hi with rfl | h
        · rw [h0] at hni; exact absurd hni (by simp)
        · exact h
      have hj' : j ∈ rest := by
        rcases List.mem_cons.mp hj with rfl | h
        · rw [h0] at hnj; exact absurd hnj (by simp)
        · exact h
      exact ih pass bb st hw hres' ⟨i, hi', j, hj', ni, nj, ti, tj, hni, hnj, hti, htj, hdiff⟩
    | some name0 =>
      obtain ⟨t0, ht0, hw0, hh0⟩ := hres i0 (List.mem_cons_self _ _) name0 h0
      simp only [ht0]
      rw [if_neg (fun h => h.1 hw)]
      have same : ∀ k nk tk, k = i0 → node.States.RenderTargets.getD k none = some nk →
          GetTexture runtime.textures nk = some tk → tk = t0 := by
        intro k nk tk hk hnk htk
        subst hk
        rw [h0] at hnk
        simp only [Option.some.injEq] at hnk
        subst hnk
        rw [ht0] at htk
        simp only [Option.some.injEq] at htk
        exact htk.symm
      have key : ∃ k ∈ rest, ∃ nk tk, node.States.RenderTargets.getD k none = some nk ∧
          GetTexture runtime.textures nk = some tk ∧
          (tk.Width ≠ t0.Width ∨ tk.Height ≠ t0.Height) := by
        rcases List.mem_cons.mp hi with hi0 | hi'
        · have e1 := same i ni ti hi0 hni hti
          rcases List.mem_cons.mp hj with hj0 | hj'
          · have e2 := same j nj tj hj0 hnj htj
            rw [e1, e2] at hdiff
            rcases hdiff with hd | hd <;> exact absurd rfl hd
          · refine ⟨j, hj', nj, tj, hnj, htj, ?_⟩
            rw [e1] at hdiff
            rcases hdiff with hd | hd
            · exact Or.inl (Ne.symm hd)
            · exact Or.inr (Ne.symm hd)
        · by_cases hsame : ti.Width = t0.Width ∧ ti.Height = t0.Height
          · rcases List.mem_cons.mp hj with hj0 | hj'
            · have e2 := same j nj tj hj0 hnj htj
              rw [e2, hsame.1, hsame.2] at hdiff
              rcases hdiff with hd | hd <;> exact absurd rfl hd
            · refine ⟨j, hj', nj, tj, hnj, htj, ?_⟩
              rw [hsame.1, hsame.2] at hdiff
              rcases hdiff with hd | hd
              · exact Or.inl (Ne.symm hd)
              · exact Or.inr (Ne.symm hd)
          · refine ⟨i, hi', ni, ti, hni, hti, ?_⟩
            by_contra hcon
            simp only [not_or, not_not] at hcon
            exact hsame hcon
      obtain ⟨k, hk, nk, tk, hnk, htk, hkd⟩ := key
      apply attachRenderTargets_mismatch
      · simp only; exact_mod_cast hw0
      · simp only; exact_mod_cast hh0
      · exact hres'
      · refine ⟨k, hk, nk, tk, hnk, htk, ?_⟩
        simp only
        rcases hkd with hd | hd
        · left; exact_mod_cast hd
        · right; exact_mod_cast hd

/-- Without a declared render target the render-target loop leaves the pass as it is. -/
theorem attachRenderTargets_none (runtime : RuntimeObjects) (node : PassNode)
    (slots : List Nat) :
    ∀ (pass : Pass) (bb : Bool) (st : CompilerState),
      (∀ i ∈ slots, node.States.RenderTargets.getD i none = none) →
      attachRenderTargets runtime node slots pass bb st = (st, some (pass, bb)) := by
  induction slots with
  | nil => intro pass bb st _; rfl
  | cons i0 rest ih =>
    intro pass bb st hnone
    unfold attachRenderTargets
    rw [hnone i0 (List.mem_cons_self _ _)]
    exact ih pass bb st (fun k hk => hnone k (List.mem_cons_of_mem _ hk))

/-- Counterexample for C15 as stated: a pass with `RenderTarget0` = a texture of size
0 x 0 and `RenderTarget1` = a texture of 128 x 128 records no error, is not fatal,
and is assembled with both attachments and a viewport of 128 x 128. -/
theorem VisitTechniquePass_empty_texture_example :
    VisitTechniquePass passExampleEnvironment passExampleRuntime
        (passExampleNode [some "empty", some "small"]) ⟨"", false, []⟩ [] =
      (⟨"", false, [GLCall.glGenFramebuffers 1, GLCall.glCreateProgram 2,
          GLCall.glCreateShader 3, GLCall.glCreateShader 4, GLCall.glDeleteShader 3,
          GLCall.glDeleteShader 4]⟩,
       [⟨2, 1, [31, 21, 0, 0, 0, 0, 0, 0], 128, 128,
         [GL_COLOR_ATTACHMENT0, GL_COLOR_ATTACHMENT0 + 1, 0, 0, 0, 0, 0, 0], false⟩]) := by
  decide

/-- C15 (amended): for every pass whose declared render targets all name registered
textures of non-zero width and height, if two of these textures differ in width or
in height, `VisitTechniquePass` records the error "cannot use multiple
rendertargets with different sized textures", marks the compilation fatal, creates
no program and appends no pass descriptor; consequently, when such a pass is
assembled, its color attachments all share one width and one height. -/
theorem VisitTechniquePass_mixed_sizes (env : PassEnvironment) (runtime : RuntimeObjects)
    (node : PassNode) (st : CompilerState) (passes : List Pass)
    (hres : ∀ i ∈ List.range 8, ∀ name, node.States.RenderTargets.getD i none = some name →
      ∃ t, GetTexture runtime.textures name = some t ∧ t.Width ≠ 0 ∧ t.Height ≠ 0) :
    ((∃ i ∈ List.range 8, ∃ j ∈ List.range 8, ∃ ni nj ti tj,
        node.States.RenderTargets.getD i none = some ni ∧
        node.States.RenderTargets.getD j none = some nj ∧
        GetTexture runtime.textures ni = some ti ∧ GetTexture runtime.textures nj = some tj ∧
        (ti.Width ≠ tj.Width ∨ ti.Height ≠ tj.Height)) →
      VisitTechniquePass env runtime node st passes =
        (⟨st._errors ++ (node.Location.Source ++ "(" ++ toString node.Location.Line ++ ", " ++
            toString node.Location.Column ++
            "): error: " ++ "cannot use multiple rendertargets with different sized textures" ++
            "\n"),
          true, st.glCalls ++ [GLCall.glGenFramebuffers env.framebuffer]⟩, passes)) ∧
    (∀ p, (VisitTechniquePass env runtime node st passes).2 = passes ++ [p] →
      ∀ i ∈ List.range 8, ∀ j ∈ List.range 8, ∀ ni nj ti tj,
        node.States.RenderTargets.getD i none = some ni →
        node.States.RenderTargets.getD j none = some nj →
        GetTexture runtime.textures ni = some ti → GetTexture runtime.textures nj = some tj →
        ti.Width = tj.Width ∧ ti.Height = tj.Height) := by
  have main : (∃ i ∈ List.range 8, ∃ j ∈ List.range 8, ∃ ni nj ti tj,
        node.States.RenderTargets.getD i none = some ni ∧
        node.States.RenderTargets.getD j none = some nj ∧
        GetTexture runtime.textures ni = some ti ∧ GetTexture runtime.textures nj = some tj ∧
        (ti.Width ≠ tj.Width ∨ ti.Height ≠ tj.Height)) →
      VisitTechniquePass env runtime node st passes =
        (⟨st._errors ++ (node.Location.Source ++ "(" ++ toString node.Location.Line ++ ", " ++
            toString node.Location.Column ++
            "): error: " ++ "cannot use multiple rendertargets with different sized textures" ++
            "\n"),
          true, st.glCalls ++ [GLCall.glGenFramebuffers env.framebuffer]⟩, passes) := by
    intro hdiff
    unfold VisitTechniquePass
    simp only
    rw [attachRenderTargets_mixed runtime node (List.range 8) _ true _ rfl hres hdiff]
    rfl
  refine ⟨main, ?_⟩
  intro p hp i hi j hj ni nj ti tj hni hnj hti htj
  by_contra hcon
  have hd : ti.Width ≠ tj.Width ∨ ti.Height ≠ tj.Height := by
    by_contra h2
    simp only [not_or, not_not] at h2
    exact hcon h2
  rw [main ⟨i, hi, j, hj, ni, nj, ti, tj, hni, hnj, hti, htj, hd⟩] at hp
  simp at hp

/-- Witness for C15 (amended): `RenderTarget0` = 256 x 256 and `RenderTarget1` =
128 x 128 give the error, no program and no pass. -/
theorem VisitTechniquePass_mixed_sizes_witness :
    VisitTechniquePass passExampleEnvironment passExampleRuntime
        (passExampleNode [some "big", some "small"]) ⟨"", false, []⟩ [] =
      (⟨"" ++ ("fx" ++ "(" ++ toString 3 ++ ", " ++ toString 5 ++
          "): error: " ++ "cannot use multiple rendertargets with different sized textures" ++
          "\n"),
        true, [] ++ [GLCall.glGenFramebuffers 1]⟩, []) :=
  (VisitTechniquePass_mixed_sizes passExampleEnvironment passExampleRuntime
    (passExampleNode [some "big", some "small"]) ⟨"", false, []⟩ [] (by decide)).1
    ⟨0, by decide, 1, by decide, "big", "small", ⟨"big", 256, 256, (11, 12)⟩,
      ⟨"small", 128, 128, (21, 22)⟩, by decide, by decide, by decide, by decide, by decide⟩

/-- C16: a pass that declares no render target and whose program links is assembled with
the backbuffer color attachment in draw slot 0 (and no other draw buffer) and with
the viewport of the client rectangle of the presentation window, whatever passes
were assembled before it. -/
theorem VisitTechniquePass_no_targets (env : PassEnvironment) (runtime : RuntimeObjects)
    (node : PassNode) (st : CompilerState) (passes : List Pass)
    (hnone : ∀ i ∈ List.range 8, node.States.RenderTargets.getD i none = none)
    (hlink : env.linkLog = none) :
    (VisitTechniquePass env runtime node st passes).2 =
      passes ++ [⟨env.program, env.framebuffer,
        [runtime._backbufferTexture1, 0, 0, 0, 0, 0, 0, 0],
        env.clientWidth, env.clientHeight,
        [GL_COLOR_ATTACHMENT0, 0, 0, 0, 0, 0, 0, 0], node.States.SRGBWriteEnable⟩] := by
  unfold VisitTechniquePass
  simp only
  rw [attachRenderTargets_none runtime node (List.range 8) _ true _ hnone]
  simp only [hlink, if_true]
  rfl

/-- Witness for C16: after a first pass with a 256 x 256 render target, a second pass
without render targets gets the viewport 1920 x 1080 of the client rectangle. -/
theorem VisitTechniquePass_no_targets_witness :
    (VisitTechniquePass passExampleEnvironment passExampleRuntime
        (passExampleNode [some "big"]) ⟨"", false, []⟩ []).2 =
      [⟨2, 1, [11, 0, 0, 0, 0, 0, 0, 0], 256, 256,
        [GL_COLOR_ATTACHMENT0, 0, 0, 0, 0, 0, 0, 0], false⟩] ∧
    (VisitTechniquePass passExampleEnvironment passExampleRuntime (passExampleNode [])
        ⟨"", false, []⟩
        [⟨2, 1, [11, 0, 0, 0, 0, 0, 0, 0], 256, 256,
          [GL_COLOR_ATTACHMENT0, 0, 0, 0, 0, 0, 0, 0], false⟩]).2 =
      [⟨2, 1, [11, 0, 0, 0, 0, 0, 0, 0], 256, 256,
        [GL_COLOR_ATTACHMENT0, 0, 0, 0, 0, 0, 0, 0], false⟩] ++
      [⟨2, 1, [7, 0, 0, 0, 0, 0, 0, 0], 1920, 1080,
        [GL_COLOR_ATTACHMENT0, 0, 0, 0, 0, 0, 0, 0], false⟩] :=
  ⟨by decide,
   VisitTechniquePass_no_targets passExampleEnvironment passExampleRuntime (passExampleNode [])
     ⟨"", false, []⟩ _ (by decide) (by decide)⟩

end ReShade

namespace ReShade

/-! ## Stage interface declarations: theorems -/

/-- The character of a decimal digit has the value of the digit and is a digit. -/
theorem digitChar_value (k : Nat) (hk : k < 10) :
    (Nat.digitChar k).toNat - 48 = k ∧ (Nat.digitChar k).isDigit = true ∧
    isspace (Nat.digitChar k) = false ∧ Nat.digitChar k ≠ '-' ∧ Nat.digitChar k ≠ '+' := by
  interval_cases k <;> decide

/-- The value of a run of digits that is put behind another run. -/
theorem digitsValue_append (acc : Nat) (a b : List Char) :
    digitsValue acc (a ++ b) = digitsValue (digitsValue acc a) b := by
  simp [digitsValue, List.foldl_append]

/-- The decimal digits of `n` are a non-empty run of digit characters of value `n`. -/
theorem toDigitsCore_spec (fuel : Nat) :
    ∀ (n : Nat) (ds : List Char), n < fuel →
      ∃ front : List Char, Nat.toDigitsCore 10 fuel n ds = front ++ ds ∧
        front ≠ [] ∧ (∀ c ∈ front, c.isDigit = true) ∧ digitsValue 0 front = n := by
  induction fuel with
  | zero => intro n ds h; exact absurd h (Nat.not_lt_zero _)
  | succ fuel ih =>
    intro n ds hn
    obtain ⟨hv, hd, -, -, -⟩ := digitChar_value (n % 10) (Nat.mod_lt _ (by norm_num))
    simp only [Nat.toDigitsCore]
    split_ifs with h0
    · refine ⟨[Nat.digitChar (n % 10)], rfl, by simp, ?_, ?_⟩
      · intro c hc
        rw [List.mem_singleton] at hc
        rw [hc]; exact hd
      · simp only [digitsValue, List.foldl_cons, List.foldl_nil, hv]
        omega
    · obtain ⟨front, hfront, -, hdig, hval⟩ :=
        ih (n / 10) (Nat.digitChar (n % 10) :: ds) (by omega)
      refine ⟨front ++ [Nat.digitChar (n % 10)], ?_, by simp, ?_, ?_⟩
      · rw [hfront]; simp
      · intro c hc
        rcases List.mem_append.mp hc with h1 | h1
        · exact hdig c h1
        · rw [List.mem_singleton] at h1
          rw [h1]; exact hd
      · rw [digitsValue_append, hval]
        simp only [digitsValue, List.foldl_cons, List.foldl_nil, hv]
        omega

/-- The decimal text of `n`. -/
theorem toString_data (n : Nat) :
    ∃ front : List Char, (toString n).data = front ∧ front ≠ [] ∧
      (∀ c ∈ front, c.isDigit = true) ∧ digitsValue 0 front = n := by
  obtain ⟨front, h1, h2, h3, h4⟩ := toDigitsCore_spec (n + 1) n [] (Nat.lt_succ_self n)
  refine ⟨front, ?_, h2, h3, h4⟩
  show (Nat.toDigits 10 n).asString.data = front
  simp only [Nat.toDigits, h1, List.append_nil, List.asString]

/-- A digit character is no white space and no sign. -/
theorem isDigit_plain (c : Char) (h : c.isDigit = true) :
    isspace c = false ∧ c ≠ '-' ∧ c ≠ '+' := by
  simp only [Char.isDigit, Bool.and_eq_true, decide_eq_true_eq] at h
  refine ⟨?_, ?_, ?_⟩
  · simp only [isspace, Bool.or_eq_false_iff, decide_eq_false_iff_not]
    refine ⟨⟨⟨⟨⟨?_, ?_⟩, ?_⟩, ?_⟩, ?_⟩, ?_⟩ <;>
      (intro hc; rw [hc] at h; revert h; decide)
  · intro hc; rw [hc] at h; revert h; decide
  · intro hc; rw [hc] at h; revert h; decide

/-- The function `strtol` reads the decimal text of `n` back as `n`, up to `LONG_MAX`. -/
theorem strtol_toString (n : Nat) (hn : n ≤ 2147483647) :
    strtol (toString n).data = n := by
  obtain ⟨front, hdata, hne, hdig, hval⟩ := toString_data n
  rw [hdata]
  obtain ⟨c, rest, rfl⟩ := List.exists_cons_of_ne_nil hne
  obtain ⟨hsp, hminus, hplus⟩ := isDigit_plain c (hdig c (List.mem_cons_self _ _))
  have htake : List.takeWhile Char.isDigit (c :: rest) = c :: rest := by
    rw [List.takeWhile_eq_self_iff]
    exact hdig
  unfold strtol
  simp only [List.dropWhile_cons, hsp]
  have hmatch : (match (c :: rest : List Char) with
      | '-' :: rest => (true, rest)
      | '+' :: rest => (false, rest)
      | _ => (false, c :: rest)) = (false, c :: rest) := by
    split
    · rename_i heq
      simp only [List.cons.injEq] at heq
      exact absurd heq.1 hminus
    · rename_i heq
      simp only [List.cons.injEq] at heq
      exact absurd heq.1 hplus
    · rfl
  simp only [Bool.false_eq_true, if_false, hmatch, htake, hval]
  rw [if_neg (by omega)]

/-- A conditional keyword appended to the output. -/
theorem ite_append (c : Prop) [Decidable c] (o k : String) :
    (if c then o ++ k else o) = o ++ (if c then k else "") := by
  split_ifs <;> simp

/-- The type name is appended to the output. -/
theorem VisitTypeClass_append (output : String) (t : FXType) :
    VisitTypeClass output t = (VisitTypeClass "" t).map (fun s => output ++ s) := by
  unfold VisitTypeClass
  cases t.BaseClass <;> simp only [] <;> (try split_ifs) <;>
    simp only [Option.map_some', String.empty_append, String.append_empty]
  cases t.Definition <;> simp

/-- The qualifier keywords and the type name are appended to the output. -/
theorem VisitType_append (output : String) (t : FXType) :
    VisitType output t = (VisitType "" t).map (fun s => output ++ s) := by
  have key : ∀ (g : String → String), (∀ o, g o = o ++ g "") →
      ∀ (f : String → String), (∀ o, f o = o ++ f "") → ∀ o, f (g o) = o ++ f (g "") := by
    intro g hg f hf o
    rw [hf (g o), hg o, hf (g ""), String.append_assoc]
  have p1 : ∀ o : String, (if t.HasQualifier Qualifier.Linear then o ++ "smooth " else o) =
      o ++ (if t.HasQualifier Qualifier.Linear then "" ++ "smooth " else "") := by
    intro o; split_ifs <;> simp
  have p2 : ∀ o : String,
      (if t.HasQualifier Qualifier.NoPerspective then o ++ "noperspective " else o) =
      o ++ (if t.HasQualifier Qualifier.NoPerspective then "" ++ "noperspective " else "") := by
    intro o; split_ifs <;> simp
  have p3 : ∀ o : String, (if t.HasQualifier Qualifier.Centroid then o ++ "centroid " else o) =
      o ++ (if t.HasQualifier Qualifier.Centroid then "" ++ "centroid " else "") := by
    intro o; split_ifs <;> simp
  have p4 : ∀ o : String,
      (if t.HasQualifier Qualifier.NoInterpolation then o ++ "flat " else o) =
      o ++ (if t.HasQualifier Qualifier.NoInterpolation then "" ++ "flat " else "") := by
    intro o; split_ifs <;> simp
  have p5 : ∀ o : String,
      (if t.HasQualifier Qualifier.InOut then o ++ "inout "
        else if t.HasQualifier Qualifier.In then o ++ "in "
        else if t.HasQualifier Qualifier.Out then o ++ "out "
        else if t.HasQualifier Qualifier.Uniform then o ++ "uniform " else o) =
      o ++ (if t.HasQualifier Qualifier.InOut then "" ++ "inout "
        else if t.HasQualifier Qualifier.In then "" ++ "in "
        else if t.HasQualifier Qualifier.Out then "" ++ "out "
        else if t.HasQualifier Qualifier.Uniform then "" ++ "uniform " else "") := by
    intro o; split_ifs <;> simp
  have p6 : ∀ o : String, (if t.HasQualifier Qualifier.Const then o ++ "const " else o) =
      o ++ (if t.HasQualifier Qualifier.Const then "" ++ "const " else "") := by
    intro o; split_ifs <;> simp
  have all := key _ (key _ (key _ (key _ (key _ p1 _ p2) _ p3) _ p4) _ p5) _ p6 output
  unfold VisitType
  simp only at all ⊢
  rw [all, VisitTypeClass_append]
  generalize hq : (if t.HasQualifier Qualifier.Const = true then
      (if t.HasQualifier Qualifier.InOut = true then _ else _) ++ "const " else _) = q
  rw [VisitTypeClass_append q]
  cases VisitTypeClass "" t <;> simp [String.append_assoc]

/-- The name lowering of the empty name is empty. -/
theorem FixName_empty : FixName "" "" = "" := by decide

/-- The type of a well-formed type is always lowered. -/
theorem VisitType_isSome (output : String) (t : FXType) (h : t.WellFormed) :
    ∃ s, VisitType output t = some s := by
  obtain ⟨s, hs⟩ := VisitTypeClass_isSome "" t h
  rw [VisitType_append]
  unfold VisitType
  simp only
  rw [VisitTypeClass_append, hs]
  exact ⟨_, rfl⟩

/-- The semantic `TEXCOORDn` is no built-in variable and selects the location `n + 1`. -/
theorem semanticLocation_texcoord (n : Nat) (hn : n ≤ 2147483647) (shadertype : Nat)
    (type : FXType) (location : Nat) :
    FixNameWithSemantic "" ("TEXCOORD" ++ toString n) shadertype = "" ∧
    semanticLocation ("TEXCOORD" ++ toString n) type location = (type, n + 1) := by
  have hdata : ("TEXCOORD" ++ toString n).data =
      'T' :: 'E' :: 'X' :: 'C' :: 'O' :: 'O' :: 'R' :: 'D' :: (toString n).data := by
    rw [String.data_append]; rfl
  constructor
  · unfold FixNameWithSemantic
    simp only [String.ext_iff, hdata]
    simp [FixName_empty]
  · unfold semanticLocation
    simp only [hdata]
    have h5 : "COLOR".data = ['C', 'O', 'L', 'O', 'R'] := rfl
    have h8 : "TEXCOORD".data = ['T', 'E', 'X', 'C', 'O', 'O', 'R', 'D'] := rfl
    simp only [h5, h8, List.isPrefixOf, List.drop]
    simp [strtol_toString n hn, toUnsigned]
    omega

/-- The semantic `SV_TARGETn` is no built-in variable, forces four rows and selects the
location `n`. -/
theorem semanticLocation_target (n : Nat) (hn : n ≤ 2147483647) (shadertype : Nat)
    (type : FXType) (location : Nat) :
    FixNameWithSemantic "" ("SV_TARGET" ++ toString n) shadertype = "" ∧
    semanticLocation ("SV_TARGET" ++ toString n) type location =
      ({ type with Rows := 4 }, n) := by
  have hdata : ("SV_TARGET" ++ toString n).data =
      'S' :: 'V' :: '_' :: 'T' :: 'A' :: 'R' :: 'G' :: 'E' :: 'T' :: (toString n).data := by
    rw [String.data_append]; rfl
  constructor
  · unfold FixNameWithSemantic
    simp only [String.ext_iff, hdata]
    simp [FixName_empty]
  · unfold semanticLocation
    simp only [hdata]
    have h5 : "COLOR".data = ['C', 'O', 'L', 'O', 'R'] := rfl
    have h8 : "TEXCOORD".data = ['T', 'E', 'X', 'C', 'O', 'O', 'R', 'D'] := rfl
    have h9 : "SV_TARGET".data = ['S', 'V', '_', 'T', 'A', 'R', 'G', 'E', 'T'] := rfl
    simp only [h5, h8, h9, List.isPrefixOf, List.drop]
    simp [strtol_toString n hn, toUnsigned]
    omega

/-- The semantic `COLORn` is no built-in variable, forces four rows and selects the
location `n`. -/
theorem semanticLocation_color (n : Nat) (hn : n ≤ 2147483647) (shadertype : Nat)
    (type : FXType) (location : Nat) :
    FixNameWithSemantic "" ("COLOR" ++ toString n) shadertype = "" ∧
    semanticLocation ("COLOR" ++ toString n) type location = ({ type with Rows := 4 }, n) := by
  have hdata : ("COLOR" ++ toString n).data =
      'C' :: 'O' :: 'L' :: 'O' :: 'R' :: (toString n).data := by
    rw [String.data_append]; rfl
  constructor
  · unfold FixNameWithSemantic
    simp only [String.ext_iff, hdata]
    simp [FixName_empty]
  · unfold semanticLocation
    simp only [hdata]
    have h5 : "COLOR".data = ['C', 'O', 'L', 'O', 'R'] := rfl
    simp only [h5, List.isPrefixOf, List.drop]
    simp [strtol_toString n hn, toUnsigned]
    omega

/-- The text joined from a list of texts starts with the first of them. -/
theorem String_join_cons (a : String) (l : List String) :
    String.join (a :: l) = a ++ String.join l := by
  have h : ∀ (l : List String) (acc : String),
      List.foldl (fun r s => r ++ s) acc l = acc ++ List.foldl (fun r s => r ++ s) "" l := by
    intro l
    induction l with
    | nil => intro acc; simp
    | cons b l ih =>
      intro acc
      rw [List.foldl_cons, List.foldl_cons, ih (acc ++ b), ih ("" ++ b)]
      simp [String.append_assoc]
  unfold String.join
  rw [List.foldl_cons, h l ("" ++ a), String.empty_append]

/-- The loop of `VisitShaderParameter` skips every element of a built-in variable. -/
theorem shaderParameterLoop_builtin (name semantic : String) (shadertype : Nat)
    (h : FixNameWithSemantic "" semantic shadertype ≠ "") (is : List Nat) (source : String)
    (type : FXType) (location : Nat) :
    shaderParameterLoop name semantic shadertype is source type location = some source := by
  induction is with
  | nil => rfl
  | cons i rest ih => rw [shaderParameterLoop, if_pos h, ih]

/-- The loop of `VisitShaderParameter` for a semantic that is no built-in variable and
selects the type `chosen` and the location `base`: one declaration per element. -/
theorem shaderParameterLoop_spec (name semantic : String) (shadertype : Nat)
    (chosen : FXType) (base : Nat) (ty : String)
    (hfix : FixNameWithSemantic "" semantic shadertype = "")
    (hsel : ∀ location, semanticLocation semantic chosen location = (chosen, base))
    (hty : VisitType "" chosen = some ty) :
    ∀ (is : List Nat) (source : String) (type : FXType) (location : Nat),
      semanticLocation semantic type location = (chosen, base) →
      (∀ i ∈ is, base + i < 4294967296) →
      shaderParameterLoop name semantic shadertype is source type location =
        some (source ++ String.join (is.map (fun i =>
          "layout(location = " ++ toString (base + i) ++ ") " ++ ty ++ " " ++ name ++
            (if chosen.IsArray then toString i else "") ++ ";\n"))) := by
  intro is
  induction is with
  | nil =>
    intro source type location _ _
    simp [shaderParameterLoop, String.join]
  | cons i rest ih =>
    intro source type location hloc hrange
    have hi : (base + i) % 4294967296 = base + i :=
      Nat.mod_eq_of_lt (hrange i (List.mem_cons_self _ _))
    rw [shaderParameterLoop, if_neg (by rw [hfix]; simp)]
    simp only [hloc, hi]
    rw [VisitType_append, hty]
    simp only [Option.map_some']
    rw [ih _ chosen base (hsel base) (fun j hj => hrange j (List.mem_cons_of_mem _ hj))]
    congr 1
    rw [List.map_cons, String_join_cons]
    split_ifs <;> simp only [String.append_assoc, String.append_empty]

/-- Claim C17, amended.  For every `n` up to `LONG_MAX` (2147483647) and every
well-formed parameter type whose array length is in the range of `int`,
`VisitShaderParameter` returns the source extended by one declaration per element `i`
(a single one for a non-array): with the semantic `TEXCOORDn` at
`layout(location = n + 1 + i)` with the type unchanged, with the semantic `SV_TARGETn`
or `COLORn` at `layout(location = n + i)` with the type forced to 4 rows; and for a
semantic that `FixNameWithSemantic` maps to a built-in variable of the stage it returns
the source unchanged. -/
theorem VisitShaderParameter_locations (source name : String) (type : FXType)
    (qualifier : List Qualifier) (shadertype n : Nat)
    (hwf : type.WellFormed) (hn : n ≤ 2147483647) (hlen : type.ArrayLength ≤ 2147483647) :
    ∃ ty ty4 : String,
      VisitType "" { type with Qualifiers := qualifier } = some ty ∧
      VisitType "" { type with Qualifiers := qualifier, Rows := 4 } = some ty4 ∧
      VisitShaderParameter source type qualifier name ("TEXCOORD" ++ toString n) shadertype =
        some (source ++ String.join ((List.range (max 1 type.ArrayLength)).map (fun i =>
          "layout(location = " ++ toString (n + 1 + i) ++ ") " ++ ty ++ " " ++ name ++
            (if type.IsArray then toString i else "") ++ ";\n"))) ∧
      VisitShaderParameter source type qualifier name ("SV_TARGET" ++ toString n) shadertype =
        some (source ++ String.join ((List.range (max 1 type.ArrayLength)).map (fun i =>
          "layout(location = " ++ toString (n + i) ++ ") " ++ ty4 ++ " " ++ name ++
            (if type.IsArray then toString i else "") ++ ";\n"))) ∧
      VisitShaderParameter source type qualifier name ("COLOR" ++ toString n) shadertype =
        some (source ++ String.join ((List.range (max 1 type.ArrayLength)).map (fun i =>
          "layout(location = " ++ toString (n + i) ++ ") " ++ ty4 ++ " " ++ name ++
            (if type.IsArray then toString i else "") ++ ";\n"))) ∧
      ∀ semantic : String, FixNameWithSemantic "" semantic shadertype ≠ "" →
        VisitShaderParameter source type qualifier name semantic shadertype = some source := by
  obtain ⟨ty, hty⟩ := VisitType_isSome "" { type with Qualifiers := qualifier } hwf
  obtain ⟨ty4, hty4⟩ :=
    VisitType_isSome "" { type with Qualifiers := qualifier, Rows := 4 } hwf
  have hrange : ∀ i ∈ List.range (max 1 type.ArrayLength), i < 2147483647 := by
    intro i hi
    have := List.mem_range.mp hi
    omega
  refine ⟨ty, ty4, hty, hty4, ?_, ?_, ?_, ?_⟩
  · exact shaderParameterLoop_spec name _ shadertype _ (n + 1) ty
      (semanticLocation_texcoord n hn shadertype type 0).1
      (fun location => (semanticLocation_texcoord n hn shadertype _ location).2) hty _ source
      _ 0 (semanticLocation_texcoord n hn shadertype _ 0).2
      (fun i hi => by have := hrange i hi; omega)
  · exact shaderParameterLoop_spec name _ shadertype
      { type with Qualifiers := qualifier, Rows := 4 } n ty4
      (semanticLocation_target n hn shadertype type 0).1
      (fun location => (semanticLocation_target n hn shadertype _ location).2) hty4 _ source
      _ 0 (semanticLocation_target n hn shadertype _ 0).2
      (fun i hi => by have := hrange i hi; omega)
  · exact shaderParameterLoop_spec name _ shadertype
      { type with Qualifiers := qualifier, Rows := 4 } n ty4
      (semanticLocation_color n hn shadertype type 0).1
      (fun location => (semanticLocation_color n hn shadertype _ location).2) hty4 _ source
      _ 0 (semanticLocation_color n hn shadertype _ 0).2
      (fun i hi => by have := hrange i hi; omega)
  · intro semantic h
    exact shaderParameterLoop_builtin name semantic shadertype h _ source _ 0

/-- The amended claim C17 at the fragment-stage input `float2 uv : TEXCOORD2`. -/
theorem VisitShaderParameter_locations_witness :
    (⟨TypeClass.Float, [], 2, 1, 0, none⟩ : FXType).WellFormed ∧
    ∃ ty ty4 : String,
      VisitType "" ⟨TypeClass.Float, [Qualifier.In], 2, 1, 0, none⟩ = some ty ∧
      VisitType "" ⟨TypeClass.Float, [Qualifier.In], 4, 1, 0, none⟩ = some ty4 ∧
      VisitShaderParameter "" ⟨TypeClass.Float, [], 2, 1, 0, none⟩ [Qualifier.In] "_param_uv"
          ("TEXCOORD" ++ toString 2) GL_FRAGMENT_SHADER =
        some ("" ++ String.join ((List.range (max 1 0)).map (fun i =>
          "layout(location = " ++ toString (2 + 1 + i) ++ ") " ++ ty ++ " " ++ "_param_uv" ++
            (if (⟨TypeClass.Float, [], 2, 1, 0, none⟩ : FXType).IsArray then toString i
              else "") ++ ";\n"))) ∧
      VisitShaderParameter "" ⟨TypeClass.Float, [], 2, 1, 0, none⟩ [Qualifier.In] "_param_uv"
          ("SV_TARGET" ++ toString 2) GL_FRAGMENT_SHADER =
        some ("" ++ String.join ((List.range (max 1 0)).map (fun i =>
          "layout(location = " ++ toString (2 + i) ++ ") " ++ ty4 ++ " " ++ "_param_uv" ++
            (if (⟨TypeClass.Float, [], 2, 1, 0, none⟩ : FXType).IsArray then toString i
              else "") ++ ";\n"))) ∧
      VisitShaderParameter "" ⟨TypeClass.Float, [], 2, 1, 0, none⟩ [Qualifier.In] "_param_uv"
          ("COLOR" ++ toString 2) GL_FRAGMENT_SHADER =
        some ("" ++ String.join ((List.range (max 1 0)).map (fun i =>
          "layout(location = " ++ toString (2 + i) ++ ") " ++ ty4 ++ " " ++ "_param_uv" ++
            (if (⟨TypeClass.Float, [], 2, 1, 0, none⟩ : FXType).IsArray then toString i
              else "") ++ ";\n"))) ∧
      ∀ semantic : String, FixNameWithSemantic "" semantic GL_FRAGMENT_SHADER ≠ "" →
        VisitShaderParameter "" ⟨TypeClass.Float, [], 2, 1, 0, none⟩ [Qualifier.In]
          "_param_uv" semantic GL_FRAGMENT_SHADER = some "" :=
  ⟨by decide, VisitShaderParameter_locations "" "_param_uv"
    ⟨TypeClass.Float, [], 2, 1, 0, none⟩ [Qualifier.In] GL_FRAGMENT_SHADER 2
    (by decide) (by decide) (by decide)⟩

/-- Claim C17, counterexample.  The semantic `TEXCOORD4294967296` is declared at the
location 2147483648 and not at 4294967297: `strtol` stops at `LONG_MAX`. -/
theorem VisitShaderParameter_saturates_example :
    VisitShaderParameter "" ⟨TypeClass.Float, [], 2, 1, 0, none⟩ [Qualifier.In] "_param_uv"
        ("TEXCOORD" ++ toString 4294967296) GL_FRAGMENT_SHADER =
      some "layout(location = 2147483648) in vec2 _param_uv;\n" := by
  decide

/-- The scenarios of the specification: `TEXCOORD2` binds a fragment input to the
location 3, `SV_TARGET1` binds a fragment output of three rows to the location 1 as a
`vec4`, the elements of an array of two take the locations 3 and 4, and `SV_POSITION`
in the fragment stage declares nothing. -/
theorem VisitShaderParameter_scenarios :
    VisitShaderParameter "" ⟨TypeClass.Float, [], 2, 1, 0, none⟩ [Qualifier.In] "_param_uv"
        "TEXCOORD2" GL_FRAGMENT_SHADER = some "layout(location = 3) in vec2 _param_uv;\n" ∧
    VisitShaderParameter "" ⟨TypeClass.Float, [], 3, 1, 0, none⟩ [Qualifier.Out] "_return"
        "SV_TARGET1" GL_FRAGMENT_SHADER = some "layout(location = 1) out vec4 _return;\n" ∧
    VisitShaderParameter "" ⟨TypeClass.Float, [], 2, 1, 2, none⟩ [Qualifier.In] "_param_uv"
        "TEXCOORD2" GL_FRAGMENT_SHADER =
      some ("layout(location = 3) in vec2 _param_uv0;\n" ++
        "layout(location = 4) in vec2 _param_uv1;\n") ∧
    VisitShaderParameter "" ⟨TypeClass.Float, [], 4, 1, 0, none⟩ [Qualifier.In] "_param_pos"
        "SV_POSITION" GL_FRAGMENT_SHADER = some "" := by
  decide

end ReShade

namespace ReShade

/-! ## Constructors and literals: theorems -/

/-- Erasing the two characters of a separator that was appended last. -/
theorem eraseLastTwo_append (o : String) : eraseLastTwo (o ++ ", ") = some o := by
  unfold eraseLastTwo
  have hd : (o ++ ", ").data = o.data ++ [',', ' '] := by
    rw [String.data_append]
  rw [hd]
  simp

/-- A text in front of the accumulator of `String.intercalate` stays in front. -/
theorem intercalate_go_append (sep : String) (l : List String) :
    ∀ (x y : String),
      String.intercalate.go (x ++ y) sep l = x ++ String.intercalate.go y sep l := by
  induction l with
  | nil => intro x y; simp [String.intercalate.go]
  | cons c l ihl =>
    intro x y
    rw [String.intercalate.go, String.intercalate.go, ← ihl]
    simp only [String.append_assoc]

/-- The loop over the arguments of a constructor ends with the separator behind the
arguments joined by it. -/
theorem foldl_separator (sep : String) (l : List String) :
    ∀ (acc a : String),
      List.foldl (fun o c => (o ++ c) ++ sep) ((acc ++ a) ++ sep) l =
        (acc ++ String.intercalate.go a sep l) ++ sep := by
  induction l with
  | nil => intro acc a; simp [String.intercalate.go]
  | cons b l ih =>
    intro acc a
    rw [List.foldl_cons, ih, String.intercalate.go, String.append_assoc a sep b,
      intercalate_go_append sep l a (sep ++ b), intercalate_go_append sep l sep b]
    simp only [String.append_assoc]

/-- The loop over a non-empty argument list, and the erasure behind it, leave the texts of
the arguments joined by the separator. -/
theorem constructor_arguments (output : String) (Arguments : List Expression)
    (h : Arguments ≠ []) :
    eraseLastTwo (Arguments.foldl (fun o argument => Visit o argument ++ ", ") output) =
      some (output ++ ", ".intercalate (Arguments.map Expression.Code)) := by
  obtain ⟨a, rest, rfl⟩ := List.exists_cons_of_ne_nil h
  have hmap : ∀ (l : List Expression) (o : String),
      List.foldl (fun o argument => Visit o argument ++ ", ") o l =
        List.foldl (fun o c => (o ++ c) ++ ", ") o (l.map Expression.Code) := by
    intro l
    induction l with
    | nil => intro o; rfl
    | cons b l ih => intro o; simp only [List.foldl_cons, List.map_cons]; exact ih _
  rw [hmap, List.map_cons, List.foldl_cons, foldl_separator, eraseLastTwo_append]
  rfl

/-- Claim C18.  A Constructor node of matrix type emits `transpose(`, the type name, `(`,
the texts of the arguments separated by `, `, and `))`; a Constructor node of any other
type emits the type name, `(`, the texts of the arguments separated by `, `, and `)`,
with no transpose wrapper.  The type name is the text `VisitTypeClass` emits for the
(well-formed) type of the node. -/
theorem VisitConstructor_transpose (output : String) (type : FXType)
    (Arguments : List Expression) (hwf : type.WellFormed) :
    ∃ typeName : String, VisitTypeClass "" type = some typeName ∧
      (type.IsMatrix = true →
        VisitConstructor output type Arguments =
          some (output ++ "transpose(" ++ typeName ++ "(" ++
            ", ".intercalate (Arguments.map Expression.Code) ++ "))")) ∧
      (type.IsMatrix = false →
        VisitConstructor output type Arguments =
          some (output ++ typeName ++ "(" ++
            ", ".intercalate (Arguments.map Expression.Code) ++ ")")) := by
  obtain ⟨typeName, hname⟩ := VisitTypeClass_isSome "" type hwf
  have hpush : ∀ (o : String) (c : Char), o.push c = o ++ String.singleton c := by
    intro o c
    apply String.ext
    simp [String.data_append, String.singleton]
  refine ⟨typeName, hname, ?_, ?_⟩
  · intro hm
    unfold VisitConstructor
    simp only [hm, if_true]
    rw [VisitTypeClass_append, hname]
    by_cases hargs : Arguments = []
    · subst hargs
      simp only [Option.map_some', ne_eq, not_true_eq_false, if_false, hpush]
      simp [String.intercalate, String.append_assoc]
      rfl
    · simp only [Option.map_some', ne_eq, hargs, not_false_eq_true, if_true,
        constructor_arguments _ _ hargs, hpush]
      simp [String.append_assoc]
      rfl
  · intro hm
    unfold VisitConstructor
    simp only [hm, Bool.false_eq_true, if_false]
    rw [VisitTypeClass_append, hname]
    by_cases hargs : Arguments = []
    · subst hargs
      simp only [Option.map_some', ne_eq, not_true_eq_false, if_false, hpush]
      simp [String.intercalate, String.append_assoc]
      rfl
    · simp only [Option.map_some', ne_eq, hargs, not_false_eq_true, if_true,
        constructor_arguments _ _ hargs, hpush]
      simp [String.append_assoc]
      rfl

/-- Claim C18 at the constructor `int2x2(1, 2, 3, 4)`. -/
theorem VisitConstructor_transpose_witness :
    int2x2.WellFormed ∧
    ∃ typeName : String, VisitTypeClass "" int2x2 = some typeName ∧
      VisitConstructor "" int2x2
          [scalarArgument TypeClass.Int "1", scalarArgument TypeClass.Int "2",
            scalarArgument TypeClass.Int "3", scalarArgument TypeClass.Int "4"] =
        some ("" ++ "transpose(" ++ typeName ++ "(" ++
          ", ".intercalate (List.map Expression.Code
            [scalarArgument TypeClass.Int "1", scalarArgument TypeClass.Int "2",
              scalarArgument TypeClass.Int "3", scalarArgument TypeClass.Int "4"]) ++ "))") := by
  obtain ⟨typeName, hname, hmatrix, _⟩ := VisitConstructor_transpose "" int2x2
    [scalarArgument TypeClass.Int "1", scalarArgument TypeClass.Int "2",
      scalarArgument TypeClass.Int "3", scalarArgument TypeClass.Int "4"] (by decide)
  exact ⟨by decide, typeName, hname, hmatrix (by decide)⟩

/-- The constructors of the specification's matrix and of a vector: the matrix is wrapped
in `transpose(`, the vector is not. -/
theorem VisitConstructor_examples :
    VisitConstructor "" int2x2
        [scalarArgument TypeClass.Int "1", scalarArgument TypeClass.Int "2",
          scalarArgument TypeClass.Int "3", scalarArgument TypeClass.Int "4"] =
      some "transpose(mat2x2(1, 2, 3, 4))" ∧
    VisitConstructor "" ⟨TypeClass.Float, [], 3, 1, 0, none⟩
        [scalarArgument TypeClass.Float "a", scalarArgument TypeClass.Float "b"] =
      some "vec3(a, b)" ∧
    VisitConstructor "" ⟨TypeClass.Float, [], 3, 1, 0, none⟩ [] = some "vec3()" := by
  decide

/-- Claim C19, the code at the failing input.  The matrix literal with the components
1, 2, 3, 4 in author order is emitted as the bare constructor `mat2x2(1, 2, 3, 4)`, both
for the classes `int` and `float`, while the Constructor node of the same type whose
arguments are the scalar literals 1, 2, 3, 4 (emitted as `1`, `2`, `3`, `4`) is emitted
as `transpose(mat2x2(1, 2, 3, 4))`: the literal is the operand of the transposition that
the constructor receives, and receives none itself. -/
theorem VisitLiteral_matrix_without_transpose :
    VisitLiteral "" int2x2 ⟨[1, 2, 3, 4], [], []⟩ = some "mat2x2(1, 2, 3, 4)" ∧
    VisitLiteral "" ⟨TypeClass.Int, [], 1, 1, 0, none⟩ ⟨[1], [], []⟩ = some "1" ∧
    VisitLiteral "" ⟨TypeClass.Int, [], 1, 1, 0, none⟩ ⟨[2], [], []⟩ = some "2" ∧
    VisitLiteral "" ⟨TypeClass.Int, [], 1, 1, 0, none⟩ ⟨[3], [], []⟩ = some "3" ∧
    VisitLiteral "" ⟨TypeClass.Int, [], 1, 1, 0, none⟩ ⟨[4], [], []⟩ = some "4" ∧
    VisitConstructor "" int2x2
        [scalarArgument TypeClass.Int "1", scalarArgument TypeClass.Int "2",
          scalarArgument TypeClass.Int "3", scalarArgument TypeClass.Int "4"] =
      some "transpose(mat2x2(1, 2, 3, 4))" ∧
    VisitLiteral "" float2x2 ⟨[], [], [1, 2, 3, 4]⟩ =
      some "mat2x2(1.000000, 2.000000, 3.000000, 4.000000)" ∧
    VisitConstructor "" float2x2
        [scalarArgument TypeClass.Float "1.000000", scalarArgument TypeClass.Float "2.000000",
          scalarArgument TypeClass.Float "3.000000",
          scalarArgument TypeClass.Float "4.000000"] =
      some "transpose(mat2x2(1.000000, 2.000000, 3.000000, 4.000000))" := by
  decide!

end ReShade

namespace ReShade

/-! ## Texture intrinsics: theorems -/

/-- A loop over subscripts inside `xyzw` always gives a text. -/
theorem appendSubscripts_isSome (idx : Nat → Nat) (is : List Nat)
    (h : ∀ i ∈ is, idx i < 4) : ∀ code : String, ∃ s, appendSubscripts idx is code = some s := by
  induction is with
  | nil => intro code; exact ⟨code, rfl⟩
  | cons i rest ih =>
    intro code
    have hi : idx i < 4 := h i (List.mem_cons_self _ _)
    obtain ⟨c, hc⟩ : ∃ c, subscript[idx i]? = some c := by
      unfold subscript
      interval_cases idx i <;> exact ⟨_, rfl⟩
    rw [appendSubscripts, hc]
    exact ih (fun j hj => h j (List.mem_cons_of_mem _ hj)) _

/-- The function `PrintCast` gives a pair of texts when the destination is well formed and
the smaller of the two row counts is at most 4. -/
theorem PrintCast_isSome (from_ to_ : FXType) (hwf : to_.WellFormed)
    (hrows : from_.Rows ≤ 4 ∨ to_.Rows ≤ 4) : ∃ p, PrintCast from_ to_ = some p := by
  obtain ⟨fc, fq, fr, fk, fa, fd⟩ := from_
  obtain ⟨tc, tq, tr, tk, ta, td⟩ := to_
  simp only at hrows
  obtain ⟨s, hs⟩ := VisitTypeClass_isSome "" ⟨tc, [], fr, fk, 0, td⟩ hwf
  unfold PrintCast
  simp only [VisitType_no_qualifiers, hs]
  have key : ∀ first second : String, ∃ p,
      (if 0 < fr ∧ fr < tr then
        match appendSubscripts (fun i => i) (List.range' 0 fr) (second.push '.') with
        | none => none
        | some second =>
          match appendSubscripts (fun _ => fr - 1) (List.range' fr (tr - fr)) second with
          | none => none
          | some second => some (first, second)
      else if tr < fr then
        match appendSubscripts (fun i => i) (List.range' 0 tr) (second.push '.') with
        | none => none
        | some second => some (first, second)
      else some (first, second)) = some p := by
    intro first second
    split_ifs with h1 h2
    · obtain ⟨s1, hs1⟩ := appendSubscripts_isSome (fun i => i) (List.range' 0 fr)
        (fun i hi => by
          have := List.mem_range'.mp hi
          simp only at this ⊢
          omega) (second.push '.')
      obtain ⟨s2, hs2⟩ := appendSubscripts_isSome (fun _ => fr - 1) (List.range' fr (tr - fr))
        (fun i _ => by simp only; omega) s1
      rw [hs1]
      simp only [hs2]
      exact ⟨_, rfl⟩
    · obtain ⟨s1, hs1⟩ := appendSubscripts_isSome (fun i => i) (List.range' 0 tr)
        (fun i hi => by
          have := List.mem_range'.mp hi
          simp only at this ⊢
          omega) (second.push '.')
      rw [hs1]
      exact ⟨_, rfl⟩
    · exact ⟨_, rfl⟩
  split
  · rename_i heq
    split_ifs at heq
  · exact key _ _

/-- The cast set-up of `Visit(Intrinsic)` succeeds on a sampler and a coordinate (and an
optional third argument) of well-formed types of at most four rows, and records the
types of the second and third argument; the type recorded for the fourth argument is the
type of the third. -/
theorem intrinsicCasts_isSome (type : FXType) (a0 a1 : Expression)
    (a2 a3 : Option Expression) (hwf : type.WellFormed)
    (h0 : a0.Type_.WellFormed ∧ a0.Type_.Rows ≤ 4)
    (h1 : a1.Type_.WellFormed ∧ a1.Type_.Rows ≤ 4)
    (h2 : ∀ e, a2 = some e → e.Type_.WellFormed ∧ e.Type_.Rows ≤ 4)
    (h3 : a3 ≠ none → a2 ≠ none) :
    ∃ l, intrinsicCasts type (some a0) (some a1) a2 a3 = some l ∧
      l.type2 = some a1.Type_ ∧ l.type3 = a2.map Expression.Type_ ∧
      l.type4 = (if a3 = none then none else a2.map Expression.Type_) := by
  obtain ⟨cast1, hcast1⟩ := PrintCast_isSome a0.Type_ type hwf (Or.inl h0.2)
  obtain ⟨cast2, hcast2⟩ := PrintCast_isSome a1.Type_ type hwf (Or.inl h1.2)
  have h12 : (if a1.Type_.IsFloatingPoint then a1.Type_ else a0.Type_).WellFormed := by
    split_ifs
    · exact h1.1
    · exact h0.1
  obtain ⟨cast121, hcast121⟩ := PrintCast_isSome a0.Type_
    { BaseClass := (if a1.Type_.IsFloatingPoint then a1.Type_ else a0.Type_).BaseClass,
      Qualifiers := (if a1.Type_.IsFloatingPoint then a1.Type_ else a0.Type_).Qualifiers,
      Rows := max a0.Type_.Rows a1.Type_.Rows,
      Cols := max a0.Type_.Cols a1.Type_.Cols,
      ArrayLength := (if a1.Type_.IsFloatingPoint then a1.Type_ else a0.Type_).ArrayLength,
      Definition := (if a1.Type_.IsFloatingPoint then a1.Type_ else a0.Type_).Definition }
    h12 (Or.inl h0.2)
  obtain ⟨cast122, hcast122⟩ := PrintCast_isSome a1.Type_
    { BaseClass := (if a1.Type_.IsFloatingPoint then a1.Type_ else a0.Type_).BaseClass,
      Qualifiers := (if a1.Type_.IsFloatingPoint then a1.Type_ else a0.Type_).Qualifiers,
      Rows := max a0.Type_.Rows a1.Type_.Rows,
      Cols := max a0.Type_.Cols a1.Type_.Cols,
      ArrayLength := (if a1.Type_.IsFloatingPoint then a1.Type_ else a0.Type_).ArrayLength,
      Definition := (if a1.Type_.IsFloatingPoint then a1.Type_ else a0.Type_).Definition }
    h12 (Or.inl h1.2)
  cases a2 with
  | none =>
    cases a3 with
    | none =>
      simp only [intrinsicCasts, Option.bind_eq_bind, Option.some_bind, hcast1, hcast2,
        hcast121, hcast122]
      exact ⟨_, rfl, rfl, rfl, rfl⟩
    | some d => exact absurd rfl (h3 (by simp))
  | some c =>
    obtain ⟨cast3, hcast3⟩ := PrintCast_isSome c.Type_ type hwf (Or.inl (h2 c rfl).2)
    cases a3 with
    | none =>
      simp only [intrinsicCasts, Option.bind_eq_bind, Option.some_bind, hcast1, hcast2,
        hcast121, hcast122, hcast3]
      exact ⟨_, rfl, rfl, rfl, rfl⟩
    | some d =>
      simp only [intrinsicCasts, Option.bind_eq_bind, Option.some_bind, hcast1, hcast2,
        hcast121, hcast122, hcast3]
      exact ⟨_, rfl, rfl, rfl, rfl⟩

/-- Claim C20.  For a sampler `s`, a coordinate `coord`, an integer offset `offset`, a
gather component `comp` and gradients `ddx`, `ddy` (types well formed, at most four rows),
each of the eight texture-sampling intrinsics emits its coordinate argument as the cast
coordinate text followed by the fixed transform: ` * vec2(1.0, -1.0) + vec2(0.0, 1.0)`
for Tex2D, Tex2DGather, Tex2DGatherOffset, Tex2DGrad and Tex2DOffset (cast to `float2`),
` * vec4(1.0, -1.0, 1.0, 1.0) + vec4(0.0, 1.0, 0.0, 0.0)` for Tex2DLevel,
Tex2DLevelOffset and Tex2DProj (cast to `float4`); and Tex2DOffset, Tex2DGatherOffset
and Tex2DLevelOffset emit the cast offset text followed by ` * ivec2(1, -1)`. -/
theorem VisitIntrinsic_coordinate_flip (output : String) (type : FXType)
    (s coord offset comp ddx ddy : Expression) (hwf : type.WellFormed)
    (hs : s.Type_.WellFormed ∧ s.Type_.Rows ≤ 4)
    (hcoord : coord.Type_.WellFormed ∧ coord.Type_.Rows ≤ 4)
    (hoffset : offset.Type_.WellFormed ∧ offset.Type_.Rows ≤ 4)
    (hcomp : comp.Type_.WellFormed ∧ comp.Type_.Rows ≤ 4)
    (hddx : ddx.Type_.WellFormed ∧ ddx.Type_.Rows ≤ 4) :
    ∃ c2 c4 c3 cd : String × String,
      PrintCast coord.Type_ ⟨TypeClass.Float, [], 2, 1, 0, none⟩ = some c2 ∧
      PrintCast coord.Type_ ⟨TypeClass.Float, [], 4, 1, 0, none⟩ = some c4 ∧
      PrintCast offset.Type_ ⟨TypeClass.Int, [], 2, 1, 0, none⟩ = some c3 ∧
      PrintCast ddx.Type_ ⟨TypeClass.Float, [], 2, 1, 0, none⟩ = some cd ∧
      VisitIntrinsic output type IntrinsicOp.Tex2D (some s) (some coord) none none =
        some (output ++ "texture(" ++ s.Code ++ ", " ++
          c2.1 ++ coord.Code ++ c2.2 ++ " * vec2(1.0, -1.0) + vec2(0.0, 1.0)" ++ ")") ∧
      VisitIntrinsic output type IntrinsicOp.Tex2DGather (some s) (some coord) (some comp)
          none =
        some (output ++ "textureGather(" ++ s.Code ++ ", " ++
          c2.1 ++ coord.Code ++ c2.2 ++ " * vec2(1.0, -1.0) + vec2(0.0, 1.0)" ++
          ", int(" ++ comp.Code ++ "))") ∧
      VisitIntrinsic output type IntrinsicOp.Tex2DGatherOffset (some s) (some coord)
          (some offset) (some comp) =
        some (output ++ "textureGatherOffset(" ++ s.Code ++ ", " ++
          c2.1 ++ coord.Code ++ c2.2 ++ " * vec2(1.0, -1.0) + vec2(0.0, 1.0)" ++ ", " ++
          c3.1 ++ offset.Code ++ c3.2 ++ " * ivec2(1, -1)" ++
          ", int(" ++ comp.Code ++ "))") ∧
      VisitIntrinsic output type IntrinsicOp.Tex2DGrad (some s) (some coord) (some ddx)
          (some ddy) =
        some (output ++ "textureGrad(" ++ s.Code ++ ", " ++
          c2.1 ++ coord.Code ++ c2.2 ++ " * vec2(1.0, -1.0) + vec2(0.0, 1.0)" ++ ", " ++
          cd.1 ++ ddx.Code ++ cd.2 ++ ", " ++ cd.1 ++ ddy.Code ++ cd.2 ++ ")") ∧
      VisitIntrinsic output type IntrinsicOp.Tex2DLevel (some s) (some coord) none none =
        some (output ++ "_textureLod(" ++ s.Code ++ ", " ++
          c4.1 ++ coord.Code ++ c4.2 ++
          " * vec4(1.0, -1.0, 1.0, 1.0) + vec4(0.0, 1.0, 0.0, 0.0)" ++ ")") ∧
      VisitIntrinsic output type IntrinsicOp.Tex2DLevelOffset (some s) (some coord)
          (some offset) none =
        some (output ++ "_textureLodOffset(" ++ s.Code ++ ", " ++
          c4.1 ++ coord.Code ++ c4.2 ++
          " * vec4(1.0, -1.0, 1.0, 1.0) + vec4(0.0, 1.0, 0.0, 0.0)" ++ ", " ++
          c3.1 ++ offset.Code ++ c3.2 ++ " * ivec2(1, -1)" ++ ")") ∧
      VisitIntrinsic output type IntrinsicOp.Tex2DOffset (some s) (some coord)
          (some offset) none =
        some (output ++ "textureOffset(" ++ s.Code ++ ", " ++
          c2.1 ++ coord.Code ++ c2.2 ++ " * vec2(1.0, -1.0) + vec2(0.0, 1.0)" ++ ", " ++
          c3.1 ++ offset.Code ++ c3.2 ++ " * ivec2(1, -1)" ++ ")") ∧
      VisitIntrinsic output type IntrinsicOp.Tex2DProj (some s) (some coord) none none =
        some (output ++ "textureProj(" ++ s.Code ++ ", " ++
          c4.1 ++ coord.Code ++ c4.2 ++
          " * vec4(1.0, -1.0, 1.0, 1.0) + vec4(0.0, 1.0, 0.0, 0.0)" ++ ")") := by
  obtain ⟨c2, hc2⟩ := PrintCast_isSome coord.Type_ ⟨TypeClass.Float, [], 2, 1, 0, none⟩
    (by decide) (Or.inl hcoord.2)
  obtain ⟨c4, hc4⟩ := PrintCast_isSome coord.Type_ ⟨TypeClass.Float, [], 4, 1, 0, none⟩
    (by decide) (Or.inl hcoord.2)
  obtain ⟨c3, hc3⟩ := PrintCast_isSome offset.Type_ ⟨TypeClass.Int, [], 2, 1, 0, none⟩
    (by decide) (Or.inl hoffset.2)
  obtain ⟨cd, hcd⟩ := PrintCast_isSome ddx.Type_ ⟨TypeClass.Float, [], 2, 1, 0, none⟩
    (by decide) (Or.inl hddx.2)
  obtain ⟨l0, hl0, h02, h03, h04⟩ := intrinsicCasts_isSome type s coord none none hwf hs
    hcoord (fun e he => by cases he) (fun h => absurd rfl h)
  obtain ⟨lc, hlc, hc02, hc03, hc04⟩ := intrinsicCasts_isSome type s coord (some comp) none
    hwf hs hcoord (fun e he => by cases he; exact hcomp) (fun h => absurd rfl h)
  obtain ⟨lo, hlo, ho2, ho3, ho4⟩ := intrinsicCasts_isSome type s coord (some offset) none
    hwf hs hcoord (fun e he => by cases he; exact hoffset) (fun h => absurd rfl h)
  obtain ⟨lg, hlg, hg2, hg3, hg4⟩ := intrinsicCasts_isSome type s coord (some offset)
    (some comp) hwf hs hcoord (fun e he => by cases he; exact hoffset) (fun _ => by simp)
  obtain ⟨ld, hld, hd2, hd3, hd4⟩ := intrinsicCasts_isSome type s coord (some ddx)
    (some ddy) hwf hs hcoord (fun e he => by cases he; exact hddx) (fun _ => by simp)
  simp only [Option.map_some', Option.map_none', if_true, reduceCtorEq, if_false]
    at h03 h04 hc03 hc04 ho3 ho4 hg3 hg4 hd3 hd4
  refine ⟨c2, c4, c3, cd, hc2, hc4, hc3, hcd, ?_, ?_, ?_, ?_, ?_, ?_, ?_, ?_⟩
  · simp only [VisitIntrinsic, hl0, Option.bind_eq_bind, Option.some_bind, intrinsicParts,
      h02, hc2, visitArgument, Visit, String.append_assoc, String.append_empty,
      String.reduceAppend]
  · simp only [VisitIntrinsic, hlc, Option.bind_eq_bind, Option.some_bind, intrinsicParts,
      hc02, hc2, visitArgument, Visit, String.append_assoc, String.append_empty,
      String.reduceAppend]
  · simp only [VisitIntrinsic, hlg, Option.bind_eq_bind, Option.some_bind, intrinsicParts,
      hg2, hg3, hc2, hc3, visitArgument, Visit, String.append_assoc, String.append_empty,
      String.reduceAppend]
  · simp only [VisitIntrinsic, hld, Option.bind_eq_bind, Option.some_bind, intrinsicParts,
      hd2, hd3, hd4, hc2, hcd, visitArgument, Visit, String.append_assoc, String.append_empty,
      String.reduceAppend]
  · simp only [VisitIntrinsic, hl0, Option.bind_eq_bind, Option.some_bind, intrinsicParts,
      h02, hc4, visitArgument, Visit, String.append_assoc, String.append_empty,
      String.reduceAppend]
  · simp only [VisitIntrinsic, hlo, Option.bind_eq_bind, Option.some_bind, intrinsicParts,
      ho2, ho3, hc4, hc3, visitArgument, Visit, String.append_assoc, String.append_empty,
      String.reduceAppend]
  · simp only [VisitIntrinsic, hlo, Option.bind_eq_bind, Option.some_bind, intrinsicParts,
      ho2, ho3, hc2, hc3, visitArgument, Visit, String.append_assoc, String.append_empty,
      String.reduceAppend]
  · simp only [VisitIntrinsic, hl0, Option.bind_eq_bind, Option.some_bind, intrinsicParts,
      h02, hc4, visitArgument, Visit, String.append_assoc, String.append_empty,
      String.reduceAppend]

/-- Claim C20 at `tex2Doffset(s, uv, o)` and `tex2Dlod(s, uv)` with a sampler `s`, a
`float2` coordinate `uv` and an `int2` offset `o`. -/
theorem VisitIntrinsic_coordinate_flip_witness :
    ∃ c2 c4 c3 : String × String,
      PrintCast coordArgument.Type_ ⟨TypeClass.Float, [], 2, 1, 0, none⟩ = some c2 ∧
      PrintCast coordArgument.Type_ ⟨TypeClass.Float, [], 4, 1, 0, none⟩ = some c4 ∧
      PrintCast (⟨TypeClass.Int, [], 2, 1, 0, none⟩ : FXType)
        ⟨TypeClass.Int, [], 2, 1, 0, none⟩ = some c3 ∧
      VisitIntrinsic "" float4 IntrinsicOp.Tex2DOffset (some samplerArgument)
          (some coordArgument) (some ⟨⟨TypeClass.Int, [], 2, 1, 0, none⟩, "o"⟩) none =
        some ("" ++ "textureOffset(" ++ "s" ++ ", " ++
          c2.1 ++ "uv" ++ c2.2 ++ " * vec2(1.0, -1.0) + vec2(0.0, 1.0)" ++ ", " ++
          c3.1 ++ "o" ++ c3.2 ++ " * ivec2(1, -1)" ++ ")") ∧
      VisitIntrinsic "" float4 IntrinsicOp.Tex2DLevel (some samplerArgument)
          (some coordArgument) none none =
        some ("" ++ "_textureLod(" ++ "s" ++ ", " ++
          c4.1 ++ "uv" ++ c4.2 ++
          " * vec4(1.0, -1.0, 1.0, 1.0) + vec4(0.0, 1.0, 0.0, 0.0)" ++ ")") := by
  obtain ⟨c2, c4, c3, _, h2, h4, h3, _, _, _, _, _, hlevel, _, hoffset, _⟩ :=
    VisitIntrinsic_coordinate_flip "" float4 samplerArgument coordArgument
      ⟨⟨TypeClass.Int, [], 2, 1, 0, none⟩, "o"⟩ ⟨⟨TypeClass.Int, [], 1, 1, 0, none⟩, "c"⟩
      ⟨⟨TypeClass.Float, [], 2, 1, 0, none⟩, "dx"⟩
      ⟨⟨TypeClass.Float, [], 2, 1, 0, none⟩, "dy"⟩
      (by decide) (by decide) (by decide) (by decide) (by decide) (by decide)
  exact ⟨c2, c4, c3, h2, h4, h3, hoffset, hlevel⟩

/-- The texts of the texture intrinsics on a sampler `s`, a `float2` coordinate `uv`, a
`float4` coordinate `c` and an `int2` offset `o`. -/
theorem VisitIntrinsic_examples :
    VisitIntrinsic "" float4 IntrinsicOp.Tex2D (some samplerArgument) (some coordArgument)
        none none = some "texture(s, uv * vec2(1.0, -1.0) + vec2(0.0, 1.0))" ∧
    VisitIntrinsic "" float4 IntrinsicOp.Tex2DOffset (some samplerArgument)
        (some coordArgument) (some ⟨⟨TypeClass.Int, [], 2, 1, 0, none⟩, "o"⟩) none =
      some "textureOffset(s, uv * vec2(1.0, -1.0) + vec2(0.0, 1.0), o * ivec2(1, -1))" ∧
    VisitIntrinsic "" float4 IntrinsicOp.Tex2DLevel (some samplerArgument)
        (some ⟨⟨TypeClass.Float, [], 4, 1, 0, none⟩, "c"⟩) none none =
      some "_textureLod(s, c * vec4(1.0, -1.0, 1.0, 1.0) + vec4(0.0, 1.0, 0.0, 0.0))" ∧
    VisitIntrinsic "" float4 IntrinsicOp.Tex2DFetch (some samplerArgument)
        (some ⟨⟨TypeClass.Int, [], 2, 1, 0, none⟩, "p"⟩) none none =
      some "texelFetch(s, p * ivec2(1, -1) + ivec2(0, 1))" := by
  decide

end ReShade

namespace ReShade

/-! ## Casts between base classes: theorems -/

/-- A loop over subscripts inside `xyzw` appends a text that does not depend on the text
it is appended to. -/
theorem appendSubscripts_spec (idx : Nat → Nat) (is : List Nat)
    (h : ∀ i ∈ is, idx i < 4) :
    ∃ t : String, ∀ code : String, appendSubscripts idx is code = some (code ++ t) := by
  induction is with
  | nil => exact ⟨"", fun code => by simp [appendSubscripts]⟩
  | cons i rest ih =>
    have hi : idx i < 4 := h i (List.mem_cons_self _ _)
    obtain ⟨c, hc⟩ : ∃ c, subscript[idx i]? = some c := by
      unfold subscript
      interval_cases idx i <;> exact ⟨_, rfl⟩
    obtain ⟨t, ht⟩ := ih (fun j hj => h j (List.mem_cons_of_mem _ hj))
    refine ⟨String.singleton c ++ t, fun code => ?_⟩
    rw [appendSubscripts, hc]
    simp only [ht]
    congr 1
    apply String.ext
    simp [String.data_append, String.singleton]

/-- Claim C22, counterexample.  The base classes of `int2x2` and `float2x2` differ, and
`PrintCast` wraps nothing: both texts are empty. -/
theorem PrintCast_matrix_pair_example :
    int2x2.BaseClass ≠ float2x2.BaseClass ∧ PrintCast int2x2 float2x2 = some ("", "") := by
  decide

/-- Claim C22, amended.  For every pair of types whose base classes differ and that are
not both matrices (the destination well formed, the smaller row count at most 4),
`PrintCast(from, to)` wraps the expression in a constructor call: the first text is the
name of the type with the base class of the destination and the rows and columns of the
source, followed by `(`, and the second text begins with `)`. -/
theorem PrintCast_wraps (from_ to_ : FXType) (hwf : to_.WellFormed)
    (hrows : from_.Rows ≤ 4 ∨ to_.Rows ≤ 4) (hclass : from_.BaseClass ≠ to_.BaseClass)
    (hmatrix : ¬ (from_.IsMatrix = true ∧ to_.IsMatrix = true)) :
    ∃ typeName rest : String,
      VisitTypeClass "" ⟨to_.BaseClass, [], from_.Rows, from_.Cols, 0, to_.Definition⟩ =
        some typeName ∧
      PrintCast from_ to_ = some (typeName ++ "(", ")" ++ rest) := by
  obtain ⟨fc, fq, fr, fk, fa, fd⟩ := from_
  obtain ⟨tc, tq, tr, tk, ta, td⟩ := to_
  simp only at hrows hclass hmatrix ⊢
  obtain ⟨s, hs⟩ := VisitTypeClass_isSome "" ⟨tc, [], fr, fk, 0, td⟩ hwf
  have hpush : ∀ (o : String) (c : Char), o.push c = o ++ String.singleton c := by
    intro o c
    apply String.ext
    simp [String.data_append, String.singleton]
  have hcond : fc ≠ tc ∧
      (!((⟨fc, fq, fr, fk, fa, fd⟩ : FXType).IsMatrix &&
        (⟨tc, tq, tr, tk, ta, td⟩ : FXType).IsMatrix)) = true := by
    refine ⟨hclass, ?_⟩
    cases h1 : (⟨fc, fq, fr, fk, fa, fd⟩ : FXType).IsMatrix <;>
      cases h2 : (⟨tc, tq, tr, tk, ta, td⟩ : FXType).IsMatrix <;> simp_all
  refine ⟨s, ?_⟩
  unfold PrintCast
  simp only [VisitType_no_qualifiers, hs, hcond, and_self, if_true, ne_eq, not_false_eq_true]
  by_cases h1 : 0 < fr ∧ fr < tr
  · obtain ⟨t1, ht1⟩ := appendSubscripts_spec (fun i => i) (List.range' 0 fr)
      (fun i hi => by
        have := List.mem_range'.mp hi
        simp only at this ⊢
        omega)
    obtain ⟨t2, ht2⟩ := appendSubscripts_spec (fun _ => fr - 1) (List.range' fr (tr - fr))
      (fun i _ => by simp only; omega)
    refine ⟨"." ++ t1 ++ t2, trivial, ?_⟩
    simp only [h1, and_self, if_true, ht1, ht2, hpush]
    simp [String.append_assoc]
    constructor <;> rfl
  · by_cases h2 : tr < fr
    · obtain ⟨t1, ht1⟩ := appendSubscripts_spec (fun i => i) (List.range' 0 tr)
        (fun i hi => by
          have := List.mem_range'.mp hi
          simp only at this ⊢
          omega)
      refine ⟨"." ++ t1, trivial, ?_⟩
      simp only [h1, h2, if_true, if_false, ht1, hpush]
      simp [String.append_assoc]
      constructor <;> rfl
    · refine ⟨"", trivial, ?_⟩
      simp only [h1, h2, if_false, hpush]
      simp
      constructor <;> rfl

/-- The amended claim C22 at the cast of a `float4` expression to `int2`. -/
theorem PrintCast_wraps_witness :
    ∃ typeName rest : String,
      VisitTypeClass "" ⟨TypeClass.Int, [], 4, 1, 0, none⟩ = some typeName ∧
      PrintCast ⟨TypeClass.Float, [], 4, 1, 0, none⟩ ⟨TypeClass.Int, [], 2, 1, 0, none⟩ =
        some (typeName ++ "(", ")" ++ rest) :=
  PrintCast_wraps ⟨TypeClass.Float, [], 4, 1, 0, none⟩ ⟨TypeClass.Int, [], 2, 1, 0, none⟩
    (by decide) (by decide) (by decide) (by decide)

end ReShade

namespace ReShade

/-! ## Name lowering: theorems -/

/-- The replacement of the empty text is empty. -/
theorem replace_all_copy_empty (a b : Char) (rep : String) :
    replace_all_copy "" a b rep = "" := rfl

/-- With an empty namespace, every word of the deny list is returned with `_` in front. -/
theorem FixName_denyList : ∀ w ∈ denyList, FixName w "" = "_" ++ w := by
  decide

/-- With an empty namespace, every name that starts with `gl_` is returned with `_` in
front of the name with its double underscores replaced. -/
theorem FixName_gl (name : String) (h : "gl_".data.isPrefixOf name.data = true) :
    FixName name "" = "_" ++ replace_all_copy name '_' '_' "_US" := by
  unfold FixName
  simp only [replace_all_copy_empty, h, Bool.true_or, if_true]
  rfl

/-- Claim C23, the code at the failing input.  The deny list holds the misspelt word
`ouput` and not the reserved word `output`: `FixName` returns `output` unchanged, while
`input` is returned as `_input`. -/
theorem FixName_output_unchanged :
    FixName "output" "" = "output" ∧ FixName "input" "" = "_input" ∧
    "ouput" ∈ denyList ∧ "output" ∉ denyList := by
  decide

/-- The replacement of `__` by `_US` leaves no two neighbouring underscores, and its result
starts with an underscore only if the text it is applied to does. -/
theorem replaceAllChars_no_double (l : List Char) :
    NoDoubleUnderscore (replaceAllChars '_' '_' "_US".data l) ∧
    ((replaceAllChars '_' '_' "_US".data l).head? = some '_' → l.head? = some '_') := by
  induction l using replaceAllChars.induct '_' '_' "_US".data with
  | case1 => exact ⟨List.chain'_nil, fun h => h⟩
  | case2 c => exact ⟨List.chain'_singleton c, fun h => h⟩
  | case3 c d rest hcd ih =>
    obtain ⟨hc, hd⟩ := hcd
    subst hc; subst hd
    rw [replaceAllChars, if_pos ⟨rfl, rfl⟩]
    refine ⟨?_, fun _ => rfl⟩
    have h3 : "_US".data = ['_', 'U', 'S'] := rfl
    rw [h3]
    simp only [List.cons_append, List.nil_append]
    unfold NoDoubleUnderscore
    refine List.Chain'.cons (by decide) (List.Chain'.cons (by decide) ?_)
    cases hrest : replaceAllChars '_' '_' ['_', 'U', 'S'] rest with
    | nil => exact List.chain'_singleton _
    | cons x xs =>
      refine List.Chain'.cons (fun h => absurd h.1 (by decide)) ?_
      have := ih.1
      rw [h3, hrest] at this
      exact this
  | case4 c d rest hcd ih =>
    rw [replaceAllChars, if_neg hcd]
    refine ⟨?_, fun h => ?_⟩
    · cases hrest : replaceAllChars '_' '_' "_US".data (d :: rest) with
      | nil => exact List.chain'_singleton _
      | cons x xs =>
        unfold NoDoubleUnderscore
        refine List.Chain'.cons ?_ ?_
        · rintro ⟨hc, hx⟩
          have hhead := ih.2 (by rw [hrest, hx]; rfl)
          simp only [List.head?_cons, Option.some.injEq] at hhead
          exact hcd ⟨hc, hhead⟩
        · have := ih.1
          rw [hrest] at this
          exact this
    · simpa using h

/-- No word of the deny list starts with an underscore. -/
theorem denyList_heads : ∀ w ∈ denyList, w.data.head? ≠ some '_' := by
  decide

/-- For every name and an empty namespace, the text returned by `FixName` contains no two
consecutive underscores. -/
theorem FixName_no_double_underscore (name : String) :
    ¬ "__".data <:+: (FixName name "").data := by
  have hchain : NoDoubleUnderscore (FixName name "").data := by
    obtain ⟨h1, h2⟩ := replaceAllChars_no_double name.data
    unfold FixName
    simp only [replace_all_copy_empty]
    split_ifs with hesc
    · have hhead : name.data.head? ≠ some '_' := by
        rcases Bool.or_eq_true _ _ |>.mp hesc with hgl | hdeny
        · intro hh
          cases hdata : name.data with
          | nil => rw [hdata] at hh; simp at hh
          | cons x xs =>
            rw [hdata] at hh hgl
            simp only [List.head?_cons, Option.some.injEq] at hh
            subst hh
            simp [List.isPrefixOf] at hgl
        · exact denyList_heads name (of_decide_eq_true hdeny)
      show NoDoubleUnderscore (("" ++ "_") ++ replace_all_copy name '_' '_' "_US").data
      rw [String.data_append]
      show NoDoubleUnderscore ('_' :: replaceAllChars '_' '_' "_US".data name.data)
      cases hrest : replaceAllChars '_' '_' "_US".data name.data with
      | nil => exact List.chain'_singleton _
      | cons x xs =>
        unfold NoDoubleUnderscore
        refine List.Chain'.cons ?_ ?_
        · rintro ⟨-, hx⟩
          exact hhead (h2 (by rw [hrest, hx]; rfl))
        · rw [hrest] at h1
          exact h1
    · show NoDoubleUnderscore ("" ++ replace_all_copy name '_' '_' "_US").data
      rw [String.data_append]
      exact h1
  intro hinfix
  have hpair : List.Chain' (fun a b => ¬ (a = '_' ∧ b = '_')) ['_', '_'] :=
    List.Chain'.infix hchain hinfix
  exact (List.chain'_pair.mp hpair) ⟨rfl, rfl⟩

end ReShade

namespace ReShade

/-! ## Draw-call statistics: theorems -/

/-- The lookup of the updated key after `recordDrawCall`. -/
theorem recordDrawCall_find_same (T v id : Nat) (l : List (Nat × DepthSourceInfo))
    (info : DepthSourceInfo) (h : findDepthSource l id = some info) :
    findDepthSource (recordDrawCall T v id l) id =
      some { info with DrawCallCount := GLfloat.ofNat T,
                       DrawVerticesCount := info.DrawVerticesCount + GLfloat.ofNat v } := by
  induction l with
  | nil => simp [findDepthSource] at h
  | cons x rest ih =>
    simp only [recordDrawCall]
    by_cases hx : x.1 = id
    · simp only [findDepthSource, List.find?_cons, hx, beq_self_eq_true, Option.map_some',
        Option.some.injEq] at h
      simp only [hx, if_true, findDepthSource, List.find?_cons, beq_self_eq_true,
        Option.map_some', h]
    · have hb : (x.1 == id) = false := by simpa using hx
      simp only [findDepthSource, List.find?_cons, hb] at h
      simp only [hx, if_false, findDepthSource, List.find?_cons, hb]
      exact ih h

/-- The lookup of every other key after `recordDrawCall`. -/
theorem recordDrawCall_find_other (T v id k : Nat) (hk : k ≠ id)
    (l : List (Nat × DepthSourceInfo)) :
    findDepthSource (recordDrawCall T v id l) k = findDepthSource l k := by
  induction l with
  | nil => rfl
  | cons x rest ih =>
    simp only [recordDrawCall]
    by_cases hx : x.1 = id
    · have hb : (x.1 == k) = false := by
        rw [hx]; simpa using fun h => hk h.symm
      simp only [hx, if_true, findDepthSource, List.find?_cons]
      rw [hx] at hb
      simp only [hb]
    · simp only [hx, if_false, findDepthSource, List.find?_cons]
      cases hxk : (x.1 == k)
      · simp only [findDepthSource] at ih
        exact ih
      · rfl

/-- The single-precision sum of a whole number `n` and the conversion of a count `v` is
the exact sum where `n + v` is at most `2^24`. -/
theorem GLfloat.add_ofNat_exact (n v : Nat) (h : n + v ≤ 2 ^ 24) :
    GLfloat.finite n + GLfloat.ofNat v = GLfloat.finite ((n + v : Nat) : ℚ) := by
  rw [GLfloat.ofNat_exact v (by omega)]
  show GLfloat.round ((n : ℚ) + (v : ℚ)) = _
  rw [← Nat.cast_add]
  exact GLfloat.ofNat_exact (n + v) h

/-- Claim C29, counterexample.  After `OnInit`, a draw call on a framebuffer without depth
attachment and then a draw call of 30 vertices on the default framebuffer: the second
call finds the default entry with draw-call count 0 and leaves it with draw-call
count 2.  And after a draw call of 16777216 vertices on the default framebuffer, a draw
call of one vertex leaves the vertex counter of the default entry at 16777216. -/
theorem OnDrawCall_counter_jumps_example :
    (runDepthEvents 100 100 1 [DepthEvent.DrawCall 10 5 GL_NONE 0]).map
        (fun s => (findDepthSource s._depthSourceTable 0).map
          (fun info => (info.DrawCallCount, info.DrawVerticesCount))) =
      some (some (0, 0)) ∧
    (runDepthEvents 100 100 1
        [DepthEvent.DrawCall 10 5 GL_NONE 0, DepthEvent.DrawCall 30 0 GL_NONE 0]).map
        (fun s => (findDepthSource s._depthSourceTable 0).map
          (fun info => (info.DrawCallCount, info.DrawVerticesCount))) =
      some (some (2, 30)) ∧
    (runDepthEvents 100 100 1 [DepthEvent.DrawCall 16777216 0 GL_NONE 0]).map
        (fun s => (findDepthSource s._depthSourceTable 0).map
          (fun info => (info.DrawCallCount, info.DrawVerticesCount))) =
      some (some (1, 16777216)) ∧
    (runDepthEvents 100 100 1
        [DepthEvent.DrawCall 16777216 0 GL_NONE 0, DepthEvent.DrawCall 1 0 GL_NONE 0]).map
        (fun s => (findDepthSource s._depthSourceTable 0).map
          (fun info => (info.DrawCallCount, info.DrawVerticesCount))) =
      some (some (2, 16777216)) := by
  decide!

/-- Claim C29, amended.  For a draw call observed by `OnDrawCall` while the depth
attachment of the bound framebuffer (the default entry 0 for the default framebuffer)
is an entry of the depth-source table, the vertex counter of that entry becomes the
single-precision sum of the counter and the vertex count of the call, which is the
exact sum where the counter is a whole number and the sum is at most `2^24 = 16777216`,
and its draw-call counter is set to the running total `_stats.DrawCalls` of the
runtime, which counts this call, converted to `GLfloat`, which is exact up to `2^24`;
the entries under every other key, and the keys of the table, are unchanged. -/
theorem OnDrawCall_counters (vertices fbo objecttarget object : Nat) (s : DepthState)
    (info : DepthSourceInfo) (hbound : fbo ≠ 0 → objecttarget ≠ GL_NONE)
    (hknown : findDepthSource s._depthSourceTable
      (depthSourceKey (if fbo ≠ 0 then object else 0)
        (if fbo ≠ 0 then objecttarget else GL_NONE)) = some info) :
    findDepthSource (OnDrawCall vertices fbo objecttarget object s)._depthSourceTable
        (depthSourceKey (if fbo ≠ 0 then object else 0)
          (if fbo ≠ 0 then objecttarget else GL_NONE)) =
      some { info with
        DrawCallCount :=
          GLfloat.ofNat (OnDrawCall vertices fbo objecttarget object s)._stats.DrawCalls,
        DrawVerticesCount := info.DrawVerticesCount + GLfloat.ofNat vertices } ∧
    (OnDrawCall vertices fbo objecttarget object s)._stats.DrawCalls =
      s._stats.DrawCalls + 1 ∧
    (s._stats.DrawCalls + 1 ≤ 2 ^ 24 →
      GLfloat.ofNat (OnDrawCall vertices fbo objecttarget object s)._stats.DrawCalls =
        GLfloat.finite ((s._stats.DrawCalls + 1 : Nat) : ℚ)) ∧
    (∀ n : Nat, info.DrawVerticesCount = GLfloat.finite n → n + vertices ≤ 2 ^ 24 →
      info.DrawVerticesCount + GLfloat.ofNat vertices =
        GLfloat.finite ((n + vertices : Nat) : ℚ)) ∧
    (∀ k, k ≠ depthSourceKey (if fbo ≠ 0 then object else 0)
          (if fbo ≠ 0 then objecttarget else GL_NONE) →
      findDepthSource (OnDrawCall vertices fbo objecttarget object s)._depthSourceTable k =
        findDepthSource s._depthSourceTable k) ∧
    (OnDrawCall vertices fbo objecttarget object s)._depthSourceTable.map Prod.fst =
      s._depthSourceTable.map Prod.fst := by
  have hnot : ¬ (fbo ≠ 0 ∧ objecttarget = GL_NONE) := fun h => hbound h.1 h.2
  unfold OnDrawCall
  simp only [hnot, if_false, Runtime_OnDrawCall]
  refine ⟨recordDrawCall_find_same _ _ _ _ info hknown, trivial,
    fun h => GLfloat.ofNat_exact _ h, ?_, ?_, recordDrawCall_keys _ _ _ _⟩
  · intro n hn h
    rw [hn]
    exact GLfloat.add_ofNat_exact n vertices h
  · intro k hk
    exact recordDrawCall_find_other _ _ _ k hk _

/-- The amended claim C29 on the run of a draw call of 30 vertices on renderbuffer 3. -/
theorem OnDrawCall_counters_witness :
    findDepthSource
        (OnDrawCall 30 1 GL_RENDERBUFFER 3
          (OnFramebufferAttachment true false GL_RENDERBUFFER 3 0 100 100 GL_DEPTH24_STENCIL8
            (OnInit 100 100 1 DepthState.initial)))._depthSourceTable
        (depthSourceKey 3 GL_RENDERBUFFER) =
      some ⟨100, 100, 0, GL_DEPTH24_STENCIL8, 1, 30⟩ := by
  have h := (OnDrawCall_counters 30 1 GL_RENDERBUFFER 3
    (OnFramebufferAttachment true false GL_RENDERBUFFER 3 0 100 100 GL_DEPTH24_STENCIL8
      (OnInit 100 100 1 DepthState.initial))
    ⟨100, 100, 0, GL_DEPTH24_STENCIL8, 0, 0⟩ (by decide) (by decide!)).1
  simp only [if_pos (show (1 : Nat) ≠ 0 by decide)] at h
  rw [h]
  decide!
end ReShade

namespace ReShade

/-! ## Swizzles: theorems -/

/-- Claim C25.  A Swizzle node on a matrix operand whose mask selects a second component
(`Mask[1] >= 0`) appends to `_errors` exactly the one line
`<source>(<line>, <column>): error: <message>` with the location of the node and marks the
compilation fatal, so that `Compile` returns false on these diagnostics; with a single
component `m = Mask[0] >= 0` (`Mask[1] < 0`) it leaves the diagnostics as they are and
emits `[row][col]` behind the operand, `row = m % 4` and `col = (m - row) / 4`. -/
theorem VisitSwizzle_matrix (output : String) (node : SwizzleNode) (st : CompilerState)
    (m0 m1 : Int) (hmatrix : node.Operand.Type_.IsMatrix = true)
    (h0 : node.Mask[0]? = some m0) (h1 : node.Mask[1]? = some m1)
    (hm0 : 0 ≤ m0 ∧ m0 ≤ 127) :
    (0 ≤ m1 →
      VisitSwizzle output node st =
        some (output ++ node.Operand.Code,
          ⟨st._errors ++ (node.Location.Source ++ "(" ++
            toString node.Location.Line ++ ", " ++ toString node.Location.Column ++
            "): error: " ++ "multiple component matrix swizzeling is not supported in OpenGL" ++
            "\n"), true, st.glCalls⟩) ∧
      ∀ out st', VisitSwizzle output node st = some (out, st') → compileResult st' = false) ∧
    (m1 < 0 →
      VisitSwizzle output node st =
        some (output ++ node.Operand.Code ++
          ("[" ++ toString (m0.toNat % 4) ++ "][" ++
            toString ((m0.toNat - m0.toNat % 4) / 4) ++ "]"), st)) := by
  obtain ⟨hlo, hhi⟩ := hm0
  constructor
  · intro hm1
    have hvisit : VisitSwizzle output node st =
        some (output ++ node.Operand.Code,
          ⟨st._errors ++ (node.Location.Source ++ "(" ++
            toString node.Location.Line ++ ", " ++ toString node.Location.Column ++
            "): error: " ++ "multiple component matrix swizzeling is not supported in OpenGL" ++
            "\n"), true, st.glCalls⟩) := by
      unfold VisitSwizzle
      simp only [hmatrix, if_true, h0, h1, ge_iff_le, hm1, Visit, Error]
    refine ⟨hvisit, ?_⟩
    intro out st' h
    rw [hvisit] at h
    simp only [Option.some.injEq, Prod.mk.injEq] at h
    rw [← h.2]
    rfl
  · intro hm1
    have hneg : ¬ (m1 ≥ 0) := by omega
    obtain ⟨n, rfl⟩ := Int.eq_ofNat_of_zero_le hlo
    have hn : n ≤ 127 := by omega
    have hrow : toUnsigned (Int.tmod (n : Int) 4) = n % 4 := by
      unfold toUnsigned
      have : Int.tmod (n : Int) 4 = ((n % 4 : Nat) : Int) := by
        rw [Int.tmod_eq_emod (by omega) (by norm_num)]
        rfl
      rw [this]
      omega
    have hcol : ((toUnsigned (n : Int) + 4294967296 - n % 4) % 4294967296) / 4 =
        (n - n % 4) / 4 := by
      have : toUnsigned (n : Int) = n := by
        unfold toUnsigned
        omega
      rw [this]
      omega
    unfold VisitSwizzle
    simp only [hmatrix, if_true, h0, h1, hneg, if_false, Visit, hrow, hcol, Int.toNat_ofNat]

/-- Claim C25 at the swizzles `m._m01_m10` (two components) and `m._m21` (mask 6) of a
matrix `m` at line 3, column 5 of `fx`. -/
theorem VisitSwizzle_matrix_witness :
    (VisitSwizzle "" ⟨⟨"fx", 3, 5⟩, ⟨float2x2, "m"⟩, [4, 1, -1, -1]⟩ ⟨"", false, []⟩ =
      some ("m", ⟨"fx(3, 5): error: " ++
        "multiple component matrix swizzeling is not supported in OpenGL" ++ "\n",
        true, []⟩)) ∧
    VisitSwizzle "" ⟨⟨"fx", 3, 5⟩, ⟨float2x2, "m"⟩, [6, -1, -1, -1]⟩ ⟨"", false, []⟩ =
      some ("m[2][1]", ⟨"", false, []⟩) := by
  obtain ⟨herror, -⟩ := VisitSwizzle_matrix "" ⟨⟨"fx", 3, 5⟩, ⟨float2x2, "m"⟩, [4, 1, -1, -1]⟩
    ⟨"", false, []⟩ 4 1 (by decide) (by decide) (by decide) (by decide)
  obtain ⟨-, hsingle⟩ := VisitSwizzle_matrix "" ⟨⟨"fx", 3, 5⟩, ⟨float2x2, "m"⟩,
    [6, -1, -1, -1]⟩ ⟨"", false, []⟩ 6 (-1) (by decide) (by decide) (by decide) (by decide)
  obtain ⟨hvisit, -⟩ := herror (by decide)
  refine ⟨?_, ?_⟩
  · rw [hvisit]
    decide
  · rw [hsingle (by decide)]
    decide

/-- The swizzle `.xyz` of a vector and the swizzle of a matrix. -/
theorem VisitSwizzle_examples :
    VisitSwizzle "" ⟨⟨"fx", 3, 5⟩, ⟨float4, "v"⟩, [0, 1, 2, -1]⟩ ⟨"", false, []⟩ =
      some ("v.xyz", ⟨"", false, []⟩) ∧
    VisitSwizzle "" ⟨⟨"fx", 3, 5⟩, ⟨float2x2, "m"⟩, [5, -1, -1, -1]⟩ ⟨"", false, []⟩ =
      some ("m[1][1]", ⟨"", false, []⟩) := by
  decide

end ReShade

namespace ReShade

/-! ## Stage sources: theorems -/

/-- Every text extends itself. -/
theorem Extends.reflexive (s : String) : Extends s s := ⟨"", by rw [String.append_empty]⟩

/-- A text extended twice is extended. -/
theorem Extends.transitive {a b c : String} (h1 : Extends a b) (h2 : Extends b c) :
    Extends a c := by
  obtain ⟨t1, rfl⟩ := h1
  obtain ⟨t2, rfl⟩ := h2
  exact ⟨t1 ++ t2, by rw [String.append_assoc]⟩

/-- Appending to an extension gives an extension. -/
theorem Extends.append_right {a b : String} (h : Extends a b) (x : String) :
    Extends a (b ++ x) :=
  Extends.transitive h ⟨x, rfl⟩

/-- Pushing a character onto an extension gives an extension. -/
theorem Extends.push {a b : String} (h : Extends a b) (c : Char) :
    Extends a (b.push c) := by
  have hpush : b.push c = b ++ String.singleton c := by
    apply String.ext
    simp [String.data_append, String.singleton]
  rw [hpush]
  exact h.append_right _

/-- A choice between two extensions is an extension. -/
theorem Extends.ite (c : Prop) [Decidable c] {a b d : String} (h1 : Extends a b)
    (h2 : Extends a d) : Extends a (if c then b else d) := by
  split_ifs
  · exact h1
  · exact h2

/-- A loop of steps that each extend the text extends the text. -/
theorem foldlM_extends {α : Type} (f : String → α → Option String)
    (hf : ∀ s x r, f s x = some r → Extends s r) :
    ∀ (l : List α) (s r : String), l.foldlM f s = some r → Extends s r := by
  intro l
  induction l with
  | nil =>
    intro s r h
    simp only [List.foldlM, pure, Option.some.injEq] at h
    rw [← h]
    exact Extends.reflexive s
  | cons x rest ih =>
    intro s r h
    simp only [List.foldlM, bind, Option.bind_eq_some] at h
    obtain ⟨s1, h1, h2⟩ := h
    exact Extends.transitive (hf s x s1 h1) (ih _ r h2)

/-- A loop of appending steps extends the text. -/
theorem foldl_extends {α : Type} (g : α → String) (l : List α) :
    ∀ s : String, Extends s (l.foldl (fun s x => s ++ g x) s) := by
  induction l with
  | nil => intro s; exact Extends.reflexive s
  | cons x rest ih =>
    intro s
    rw [List.foldl_cons]
    exact Extends.transitive ((Extends.reflexive s).append_right _) (ih _)

/-- The function `VisitTypeClass` extends the text. -/
theorem VisitTypeClass_extends (s : String) (t : FXType) (r : String)
    (h : VisitTypeClass s t = some r) : Extends s r := by
  rw [VisitTypeClass_append] at h
  cases hx : VisitTypeClass "" t with
  | none => rw [hx] at h; simp at h
  | some x =>
    rw [hx] at h
    simp only [Option.map_some', Option.some.injEq] at h
    exact ⟨x, h.symm⟩

/-- The loop of `VisitShaderParameter` extends the text. -/
theorem shaderParameterLoop_extends (name semantic : String) (shadertype : Nat) :
    ∀ (is : List Nat) (source : String) (type : FXType) (location : Nat) (r : String),
      shaderParameterLoop name semantic shadertype is source type location = some r →
      Extends source r := by
  intro is
  induction is with
  | nil =>
    intro source type location r h
    simp only [shaderParameterLoop, Option.some.injEq] at h
    rw [← h]
    exact Extends.reflexive _
  | cons i rest ih =>
    intro source type location r h
    rw [shaderParameterLoop] at h
    split_ifs at h with hfix
    · exact ih _ _ _ _ h
    · simp only at h
      rw [VisitType_append] at h
      cases hx : VisitType "" (semanticLocation semantic type location).1 with
      | none => rw [hx] at h; simp at h
      | some x =>
        rw [hx] at h
        simp only [Option.map_some'] at h
        refine Extends.transitive ?_ (ih _ _ _ _ h)
        split_ifs <;>
          repeat (first | exact Extends.reflexive _ | apply Extends.append_right)

/-- The function `VisitShaderParameter` extends the text. -/
theorem VisitShaderParameter_extends (source : String) (type : FXType)
    (qualifier : List Qualifier) (name semantic : String) (shadertype : Nat) (r : String)
    (h : VisitShaderParameter source type qualifier name semantic shadertype = some r) :
    Extends source r :=
  shaderParameterLoop_extends name semantic shadertype _ source _ 0 r h

/-- A loop that appends each element followed by `, `, over a list that ends with `x`:
the text ends with the text of `x` and `, `. -/
theorem foldl_separated {α : Type} (g : α → String) (l : List α) (x : α) (s : String) :
    ∃ T, (l ++ [x]).foldl (fun s y => s ++ (g y ++ ", ")) s = ((s ++ T) ++ g x) ++ ", " := by
  obtain ⟨T, hT⟩ := foldl_extends (fun y => g y ++ ", ") l s
  refine ⟨T, ?_⟩
  rw [List.foldl_append, hT]
  simp only [List.foldl_cons, List.foldl_nil, String.append_assoc]

/-- The erasure behind a loop that appends each element of a non-empty list followed by
`, ` leaves an extension of the text. -/
theorem eraseLastTwo_foldl {α : Type} (g : α → String) (l : List α) (hl : l ≠ [])
    (s r : String)
    (h : eraseLastTwo (l.foldl (fun s y => s ++ (g y ++ ", ")) s) = some r) :
    Extends s r := by
  rcases List.eq_nil_or_concat l with hnil | ⟨front, x, rfl⟩
  · exact absurd hnil hl
  · obtain ⟨T, hT⟩ := foldl_separated g front x s
    rw [List.concat_eq_append, hT, eraseLastTwo_append] at h
    simp only [Option.some.injEq] at h
    rw [← h]
    exact ((Extends.reflexive s).append_right T).append_right (g x)

/-- The start of the stage source begins with the prelude. -/
theorem shaderSourceHead_prelude (texts : CompilerTexts) (node : FunctionNode)
    (shadertype : Nat) (r : String) (h : shaderSourceHead texts node shadertype = some r) :
    Extends shaderPrelude r := by
  unfold shaderSourceHead at h
  simp only [Option.bind_eq_bind, Option.bind_eq_some, Option.some.injEq] at h
  obtain ⟨function, -, s1, hdeps, rfl⟩ := h
  refine Extends.append_right ?_ _
  refine Extends.transitive ?_ (foldlM_extends _ ?_ _ _ _ hdeps)
  · exact (Extends.ite _ ((Extends.ite _ ((Extends.reflexive _).append_right _)
      (Extends.reflexive _)).append_right _) (Extends.ite _ ((Extends.reflexive _).append_right _)
      (Extends.reflexive _))).append_right _
  · intro s x r hr
    simp only [Option.map_eq_some'] at hr
    obtain ⟨f, -, rfl⟩ := hr
    exact (Extends.reflexive s).append_right _

/-- The declarations for a parameter extend the text. -/
theorem declareParameter_extends (shadertype : Nat) (source : String)
    (parameter : ParameterNode) (r : String)
    (h : declareParameter shadertype source parameter = some r) : Extends source r := by
  unfold declareParameter at h
  split_ifs at h
  · cases hdef : parameter.Type_.Definition with
    | none => rw [hdef] at h; simp at h
    | some d =>
      rw [hdef] at h
      exact foldlM_extends _
        (fun s x r hr => VisitShaderParameter_extends _ _ _ _ _ _ _ hr) _ _ _ h
  · exact VisitShaderParameter_extends _ _ _ _ _ _ _ h

/-- The declarations for the return value extend the text. -/
theorem declareReturn_extends (shadertype : Nat) (source : String) (node : FunctionNode)
    (r : String) (h : declareReturn shadertype source node = some r) : Extends source r := by
  unfold declareReturn at h
  split_ifs at h
  · cases hdef : node.ReturnType.Definition with
    | none => rw [hdef] at h; simp at h
    | some d =>
      rw [hdef] at h
      exact foldlM_extends _
        (fun s x r hr => VisitShaderParameter_extends _ _ _ _ _ _ _ hr) _ _ _ h
  · exact VisitShaderParameter_extends _ _ _ _ _ _ _ h
  · simp only [Option.some.injEq] at h
    rw [← h]
    exact Extends.reflexive _

/-- The initialisation of one element of a parameter extends the text. -/
theorem initParameterElement_extends (shadertype : Nat) (parameter : ParameterNode)
    (source : String) (i : Nat) (r : String)
    (h : initParameterElement shadertype parameter source i = some r) :
    Extends source r := by
  unfold initParameterElement at h
  by_cases hstruct : parameter.Type_.IsStruct = true
  · simp only [hstruct, if_true, Option.bind_eq_bind, Option.bind_eq_some] at h
    obtain ⟨s1, h1, s2, h2, d, -, h3⟩ := h
    have e1 := VisitTypeClass_extends _ _ _ h1
    have e2 := VisitTypeClass_extends _ _ _ h2
    have e12 : Extends source (s2 ++ "(") :=
      (Extends.transitive (e1.append_right _) e2).append_right _
    by_cases hfields : parameter.Fields ≠ []
    · simp only [hfields, if_true, Option.bind_eq_some, Option.some.injEq,
        not_false_eq_true, ne_eq] at h3
      obtain ⟨s3, h3, rfl⟩ := h3
      have e3 : Extends (s2 ++ "(") s3 := eraseLastTwo_foldl
        (fun field => FixNameWithSemantic
          ("_param_" ++ parameter.Name ++ "_" ++ field.Name ++
            if parameter.Type_.IsArray = true then toString i else "")
          field.Semantic shadertype) parameter.Fields hfields (s2 ++ "(") s3 h3
      exact (Extends.transitive e12 e3).append_right _
    · simp only [hfields, if_false, Option.some_bind, Option.some.injEq] at h3
      rw [← h3]
      exact e12.append_right _
  · simp only [hstruct, if_false, Bool.false_eq_true] at h
    by_cases htarget : isTargetSemantic parameter.Semantic = true
    · simp only [htarget, if_true, Option.some.injEq] at h
      rw [← h]
      exact (Extends.reflexive _).append_right _
    · simp only [htarget, if_false, Option.some.injEq, Bool.false_eq_true] at h
      rw [← h]
      exact Extends.reflexive _

/-- The initialisation of a parameter extends the text. -/
theorem initParameter_extends (shadertype : Nat) (source : String)
    (parameter : ParameterNode) (r : String)
    (h : initParameter shadertype source parameter = some r) : Extends source r := by
  unfold initParameter at h
  simp only [Option.bind_eq_bind, Option.bind_eq_some] at h
  obtain ⟨s1, h1, h2⟩ := h
  have e1 := foldlM_extends _
    (fun s x r hr => initParameterElement_extends shadertype parameter s x r hr) _ _ _ h1
  split_ifs at h2 with harray
  · simp only [Option.bind_eq_some, Option.some.injEq] at h2
    obtain ⟨s2, h2, s3, h3, s4, h4, rfl⟩ := h2
    have e2 := VisitTypeClass_extends _ _ _ h2
    have e3 := VisitTypeClass_extends _ _ _ h3
    have hne : List.range parameter.Type_.ArrayLength ≠ [] := by
      have : parameter.Type_.ArrayLength ≠ 0 := by
        simpa [FXType.IsArray] using harray
      intro hnil
      exact this (List.range_eq_nil.mp hnil)
    have e4 := eraseLastTwo_foldl
      (fun i => "_param_" ++ parameter.Name ++ toString i) _ hne _ _ h4
    exact (Extends.transitive (Extends.transitive (Extends.transitive e1 (e2.append_right _)) (e3.append_right _))
      e4).append_right _
  · simp only [Option.some.injEq] at h2
    rw [← h2]
    exact e1

/-- The remap statement as the list of its characters in front of `.0);` and the line
break. -/
theorem depthRemapStatement_data :
    ∃ front : List Char, depthRemapStatement.data = front ++ ['.', '0', ')', ';', '\n'] :=
  ⟨"gl_Position = gl_Position * vec4(1.0, 1.0, 2.0, 1.0) + vec4(0.0, 0.0, -gl_Position.w, 0".data,
    by decide⟩

/-- A text that ends like a statement other than a call does not end with the remap
statement. -/
theorem StatementEnd.not_remap {l : List Char} (h : StatementEnd l) :
    ¬ depthRemapStatement.data <:+ l := by
  obtain ⟨u, c, rfl, hc⟩ := h
  obtain ⟨front, hfront⟩ := depthRemapStatement_data
  rintro ⟨w, hw⟩
  rw [hfront] at hw
  have h1 : w ++ (front ++ ['.', '0', ')', ';', '\n']) =
      (w ++ front ++ ['.', '0']) ++ [')', ';', '\n'] := by simp
  rw [h1] at hw
  have h2 := (List.append_inj' hw rfl).2
  simp only [List.cons.injEq, and_true] at h2
  exact hc h2.symm

/-- A text that ends like the call statement does not end with the remap statement. -/
theorem CallEnd.call_not_remap {l : List Char} (h : CallEnd l) :
    ¬ depthRemapStatement.data <:+ l := by
  obtain ⟨u, c, rfl, hc⟩ := h
  obtain ⟨front, hfront⟩ := depthRemapStatement_data
  rintro ⟨w, hw⟩
  rw [hfront] at hw
  have h1 : w ++ (front ++ ['.', '0', ')', ';', '\n']) =
      (w ++ front ++ ['.']) ++ ['0', ')', ';', '\n'] := by simp
  rw [h1] at hw
  obtain ⟨hu, h2⟩ := List.append_inj' hw rfl
  simp only [List.cons.injEq, and_true] at h2
  rcases hc with hc | ⟨v, b, hv, hb⟩
  · exact hc h2.symm
  · rw [hv] at hu
    have h3 := (List.append_inj' hu rfl).2
    simp only [List.cons.injEq, and_true] at h3
    exact hb h3.symm

/-- A statement appended to a text makes it end like a statement. -/
theorem StatementEnd.append_statement (l : List Char) {m : List Char} (h : StatementEnd m) :
    StatementEnd (l ++ m) := by
  obtain ⟨u, c, rfl, hc⟩ := h
  exact ⟨l ++ u, c, by simp, hc⟩

/-- A loop that appends statements leaves the text as it is or ending like a statement. -/
theorem foldl_statements {α : Type} (g : α → String) (l : List α)
    (hg : ∀ x ∈ l, StatementEnd (g x).data) :
    ∀ s : String, l.foldl (fun s x => s ++ g x) s = s ∨
      StatementEnd (l.foldl (fun s x => s ++ g x) s).data := by
  induction l with
  | nil => intro s; exact Or.inl rfl
  | cons x rest ih =>
    intro s
    rw [List.foldl_cons]
    rcases ih (fun y hy => hg y (List.mem_cons_of_mem _ hy)) (s ++ g x) with h | h
    · rw [h]
      right
      rw [String.data_append]
      exact StatementEnd.append_statement _ (hg x (List.mem_cons_self _ _))
    · exact Or.inr h

/-- A loop of steps that each leave the text as it is or ending like a statement. -/
theorem foldlM_statements {α : Type} (f : String → α → Option String) (l : List α)
    (hf : ∀ s x r, x ∈ l → f s x = some r → r = s ∨ StatementEnd r.data) :
    ∀ (s r : String), l.foldlM f s = some r → r = s ∨ StatementEnd r.data := by
  induction l with
  | nil =>
    intro s r h
    simp only [List.foldlM, pure, Option.some.injEq] at h
    exact Or.inl h.symm
  | cons x rest ih =>
    intro s r h
    simp only [List.foldlM, bind, Option.bind_eq_some] at h
    obtain ⟨s1, h1, h2⟩ := h
    rcases ih (fun s y r hy => hf s y r (List.mem_cons_of_mem _ hy)) s1 r h2 with h3 | h3
    · rw [h3]
      exact hf s x s1 (List.mem_cons_self _ _) h1
    · exact Or.inr h3

/-- A character of an identifier is neither `)` nor `.`. -/
theorem identifier_char (c : Char) (h : c.isAlphanum = true ∨ c = '_') :
    c ≠ ')' ∧ c ≠ '.' := by
  constructor
  · rintro rfl
    revert h; decide
  · rintro rfl
    revert h; decide

/-- A text that ends with `.`, a field name, an optional index in brackets, `;` and a line
break ends like a statement. -/
theorem StatementEnd.of_field (X F I : List Char)
    (hF : ∀ c ∈ F, c.isAlphanum = true ∨ c = '_')
    (hI : I = [] ∨ ∃ t, I = t ++ [']']) :
    StatementEnd (X ++ ('.' :: (F ++ (I ++ [';', '\n'])))) := by
  rcases hI with rfl | ⟨t, rfl⟩
  · rcases List.eq_nil_or_concat F with rfl | ⟨f, c, rfl⟩
    · exact ⟨X, '.', by simp, by decide⟩
    · refine ⟨X ++ '.' :: f, c, by simp, ?_⟩
      exact (identifier_char c (hF c (by simp))).1
  · exact ⟨X ++ '.' :: (F ++ t), ']', by simp, by decide⟩

/-- The copies of the fields of the return value leave the text as it is or ending like a
statement. -/
theorem copyReturn_end (shadertype : Nat) (source : String) (node : FunctionNode)
    (hnames : ∀ field ∈ node.ReturnFields, IsIdentifier field.Name) (r : String)
    (h : copyReturn shadertype source node = some r) :
    r = source ∨ StatementEnd r.data := by
  unfold copyReturn at h
  split_ifs at h
  · cases hdef : node.ReturnType.Definition with
    | none => rw [hdef] at h; simp at h
    | some d =>
      rw [hdef] at h
      simp only [Option.some.injEq] at h
      rw [← h]
      refine foldl_statements _ _ ?_ source
      intro field hfield
      have hend := StatementEnd.of_field
        ((FixNameWithSemantic ("_return_" ++ field.Name) field.Semantic shadertype).data ++
          " = _return".data) field.Name.data [] (hnames field hfield) (Or.inl rfl)
      simpa [String.data_append, List.append_assoc] using hend
  · simp only [Option.some.injEq] at h
    exact Or.inl h.symm

/-- The copies of an `out` parameter leave the text as it is or ending like a
statement. -/
theorem copyOutParameter_end (source : String) (parameter : ParameterNode)
    (hnames : ∀ field ∈ parameter.Fields, IsIdentifier field.Name) (r : String)
    (h : copyOutParameter source parameter = some r) :
    r = source ∨ StatementEnd r.data := by
  unfold copyOutParameter at h
  by_cases hout : (!parameter.Type_.HasQualifier Qualifier.Out) = true
  · simp only [hout, if_true, Option.some.injEq] at h
    exact Or.inl h.symm
  · simp only [hout, if_false, Option.bind_eq_bind, Bool.false_eq_true] at h
    by_cases harray : parameter.Type_.IsArray = true
    · simp only [harray, if_true] at h
      have hfirst := foldl_statements
        (fun i => "_param_" ++ parameter.Name ++ toString i ++ " = _param_" ++
          parameter.Name ++ "[" ++ toString i ++ "];\n")
        (List.range parameter.Type_.ArrayLength)
        (fun i _ => ⟨("_param_" ++ parameter.Name ++ toString i ++ " = _param_" ++
          parameter.Name ++ "[" ++ toString i).data, ']', by simp [String.data_append],
          by decide⟩) source
      have hsecond := foldlM_statements _ (List.range (max 1 parameter.Type_.ArrayLength))
        ?_ _ r h
      · rcases hsecond with h2 | h2
        · rw [h2]
          exact hfirst
        · exact Or.inr h2
      · intro s i r2 _ hr2
        by_cases hstruct : parameter.Type_.IsStruct = true
        · simp only [hstruct, if_true] at hr2
          cases hdef : parameter.Type_.Definition with
          | none => rw [hdef] at hr2; simp at hr2
          | some d =>
            rw [hdef] at hr2
            simp only [Option.some.injEq] at hr2
            rw [← hr2]
            refine foldl_statements _ _ ?_ s
            intro field hfield
            have hend := StatementEnd.of_field
              (("_param_" ++ parameter.Name ++ "_" ++ field.Name ++ toString i ++ " = " ++
                "_param_" ++ parameter.Name).data) field.Name.data
              ("[" ++ toString i ++ "]").data (hnames field hfield)
              (Or.inr ⟨("[" ++ toString i).data, by simp [String.data_append]⟩)
            simpa [String.data_append, List.append_assoc] using hend
        · simp only [hstruct, if_false, Option.some.injEq, Bool.false_eq_true] at hr2
          exact Or.inl hr2.symm
    · simp only [harray, if_false, Bool.false_eq_true] at h
      refine foldlM_statements _ (List.range (max 1 parameter.Type_.ArrayLength)) ?_ _ r h
      intro s i r2 _ hr2
      by_cases hstruct : parameter.Type_.IsStruct = true
      · simp only [hstruct, if_true] at hr2
        cases hdef : parameter.Type_.Definition with
        | none => rw [hdef] at hr2; simp at hr2
        | some d =>
          rw [hdef] at hr2
          simp only [Option.some.injEq] at hr2
          rw [← hr2]
          refine foldl_statements _ _ ?_ s
          intro field hfield
          have hend := StatementEnd.of_field
            (("_param_" ++ parameter.Name ++ "_" ++ field.Name ++ "" ++ " = " ++
              "_param_" ++ parameter.Name).data) field.Name.data [] (hnames field hfield)
            (Or.inl rfl)
          simpa [String.data_append, List.append_assoc] using hend
      · simp only [hstruct, if_false, Option.some.injEq, Bool.false_eq_true] at hr2
        exact Or.inl hr2.symm

/-- The replacement keeps a property that holds for every character of the text and of the
replacing text. -/
theorem replaceAllChars_chars (Q : Char → Prop) (a b : Char) (rep : List Char)
    (hrep : ∀ c ∈ rep, Q c) (l : List Char) :
    (∀ c ∈ l, Q c) → ∀ c ∈ replaceAllChars a b rep l, Q c := by
  induction l using replaceAllChars.induct a b rep with
  | case1 => intro _ c hc; simp [replaceAllChars] at hc
  | case2 x => intro h c hc; exact h c (by simpa [replaceAllChars] using hc)
  | case3 x y rest hxy ih =>
    intro h c hc
    rw [replaceAllChars, if_pos hxy] at hc
    rcases List.mem_append.mp hc with h1 | h1
    · exact hrep c h1
    · exact ih (fun d hd => h d (by simp [hd])) c h1
  | case4 x y rest hxy ih =>
    intro h c hc
    rw [replaceAllChars, if_neg hxy] at hc
    rcases List.mem_cons.mp hc with h1 | h1
    · rw [h1]; exact h x (by simp)
    · exact ih (fun d hd => h d (List.mem_cons_of_mem _ hd)) c h1

/-- A replacement by a text of at least two characters does not shorten the text. -/
theorem replaceAllChars_length (a b : Char) (rep : List Char) (hrep : 2 ≤ rep.length)
    (l : List Char) : l.length ≤ (replaceAllChars a b rep l).length := by
  induction l using replaceAllChars.induct a b rep with
  | case1 => simp [replaceAllChars]
  | case2 x => simp [replaceAllChars]
  | case3 x y rest hxy ih =>
    rw [replaceAllChars, if_pos hxy]
    simp only [List.length_append, List.length_cons]
    omega
  | case4 x y rest hxy ih =>
    rw [replaceAllChars, if_neg hxy]
    simp only [List.length_cons] at ih ⊢
    omega

/-- A text of at least two characters without `.` does not end with `.0`. -/
theorem ArgumentEnd.of_chars (l : List Char) (hlen : 2 ≤ l.length)
    (hl : ∀ c ∈ l, c ≠ '.') : ArgumentEnd l := by
  rcases List.eq_nil_or_concat l with rfl | ⟨l1, d, rfl⟩
  · simp at hlen
  · rcases List.eq_nil_or_concat l1 with rfl | ⟨l2, c, rfl⟩
    · simp at hlen
    · exact ⟨l2, c, d, by simp, Or.inr (hl c (by simp))⟩

/-- The lowered name of a parameter does not end with `.0`. -/
theorem FixNameWithSemantic_end (name semantic : String) (shadertype : Nat)
    (hname : IsIdentifier name) :
    ArgumentEnd (FixNameWithSemantic ("_param_" ++ name) semantic shadertype).data := by
  have hfix : ArgumentEnd (FixName ("_param_" ++ name) "").data := by
    have hchars : ∀ c ∈ ("_param_" ++ name).data, c ≠ '.' := by
      intro c hc
      rw [String.data_append] at hc
      rcases List.mem_append.mp hc with h1 | h1
      · exact (by decide : ∀ c ∈ "_param_".data, c ≠ '.') c h1
      · exact (identifier_char c (hname c h1)).2
    have hrep := replaceAllChars_chars (fun c => c ≠ '.') '_' '_' "_US".data (by decide)
      ("_param_" ++ name).data hchars
    have hlen := replaceAllChars_length '_' '_' "_US".data (by decide)
      ("_param_" ++ name).data
    have hlen7 : 7 ≤ ("_param_" ++ name).data.length := by
      rw [String.data_append, List.length_append]
      have : "_param_".data.length = 7 := rfl
      omega
    apply ArgumentEnd.of_chars
    · unfold FixName
      simp only [replace_all_copy_empty]
      split_ifs
      · show 2 ≤ (("" ++ "_") ++ replace_all_copy ("_param_" ++ name) '_' '_' "_US").data.length
        rw [String.data_append, List.length_append]
        show 2 ≤ _ + (replaceAllChars '_' '_' "_US".data ("_param_" ++ name).data).length
        omega
      · show 2 ≤ ("" ++ replace_all_copy ("_param_" ++ name) '_' '_' "_US").data.length
        rw [String.data_append, List.length_append]
        show 2 ≤ _ + (replaceAllChars '_' '_' "_US".data ("_param_" ++ name).data).length
        omega
    · intro c hc
      unfold FixName at hc
      simp only [replace_all_copy_empty] at hc
      split_ifs at hc
      · rw [String.data_append] at hc
        rcases List.mem_append.mp hc with h1 | h1
        · exact (by decide : ∀ c ∈ ['_'], c ≠ '.') c h1
        · exact hrep c h1
      · rw [String.data_append] at hc
        rcases List.mem_append.mp hc with h1 | h1
        · exact absurd h1 (List.not_mem_nil c)
        · exact hrep c h1
  unfold FixNameWithSemantic
  split_ifs
  · exact ⟨"gl_Vertex".data, 'I', 'D', by decide, Or.inl (by decide)⟩
  · exact ⟨"gl_Instance".data, 'I', 'D', by decide, Or.inl (by decide)⟩
  · exact ⟨"gl_Positi".data, 'o', 'n', by decide, Or.inl (by decide)⟩
  · exact ⟨"gl_FragCoo".data, 'r', 'd', by decide, Or.inl (by decide)⟩
  · exact ⟨"gl_FragDep".data, 't', 'h', by decide, Or.inl (by decide)⟩
  · exact hfix

/-- An argument of the call is appended with `, ` behind it, and does not end with `.0`
when the name of the parameter is an identifier. -/
theorem callArgument_end (shadertype : Nat) (source : String) (parameter : ParameterNode)
    (r : String) (h : callArgument shadertype source parameter = some r) :
    ∃ a : String, r = (source ++ a) ++ ", " ∧
      (IsIdentifier parameter.Name → ArgumentEnd a.data) := by
  have hfix := FixNameWithSemantic_end parameter.Name parameter.Semantic shadertype
  unfold callArgument at h
  by_cases hswizzle : isTargetSemantic parameter.Semantic = true ∧ parameter.Type_.Rows < 4
  · simp only [hswizzle, and_self, if_true, Option.bind_eq_bind, Option.bind_eq_some,
      Option.map_eq_some', Option.some.injEq] at h
    obtain ⟨s1, ⟨letters, hletters, rfl⟩, rfl⟩ := h
    refine ⟨FixNameWithSemantic ("_param_" ++ parameter.Name) parameter.Semantic shadertype ++
      ("." ++ letters), by simp only [String.append_assoc], fun _ => ?_⟩
    have hcases : letters = "x" ∨ letters = "xy" ∨ letters = "xyz" := by
      unfold swizzleOfRows at hletters
      split_ifs at hletters
      have hrows : parameter.Type_.Rows - 1 < 3 := by omega
      interval_cases (parameter.Type_.Rows - 1) <;> simp_all
    rw [String.data_append, String.data_append]
    generalize (FixNameWithSemantic ("_param_" ++ parameter.Name) parameter.Semantic
      shadertype).data = F
    rcases hcases with rfl | rfl | rfl
    · exact ⟨F, '.', 'x', by simp, Or.inl (by decide)⟩
    · exact ⟨F ++ ['.'], 'x', 'y', by simp, Or.inl (by decide)⟩
    · exact ⟨F ++ ['.', 'x'], 'y', 'z', by simp, Or.inl (by decide)⟩
  · simp only [hswizzle, if_false, Option.bind_eq_bind, Option.some_bind,
      Option.some.injEq] at h
    exact ⟨_, by rw [← h], hfix⟩

/-- The call of the entry function extends the text and ends with `);` behind a text
that does not end with `.0`, when the names of the parameters are identifiers. -/
theorem callEntry_end (shadertype : Nat) (source : String) (node : FunctionNode)
    (r : String) (h : callEntry shadertype source node = some r) :
    Extends source r ∧
      ((∀ parameter ∈ node.Parameters, IsIdentifier parameter.Name) → CallEnd r.data) := by
  unfold callEntry at h
  by_cases hparams : node.Parameters ≠ []
  · simp only [hparams, if_true, Option.bind_eq_bind, Option.bind_eq_some,
      Option.some.injEq, ne_eq, not_false_eq_true] at h
    obtain ⟨s1, hloop, s2, herase, rfl⟩ := h
    rcases List.eq_nil_or_concat node.Parameters with hnil | ⟨front, x, hlist⟩
    · exact absurd hnil hparams
    · rw [hlist, List.concat_eq_append, List.foldlM_append] at hloop
      simp only [bind, Option.bind_eq_some, List.foldlM, pure] at hloop
      obtain ⟨s0, hfront, s1', hlast, hs1⟩ := hloop
      simp only [Option.some.injEq] at hs1
      subst hs1
      have efront := foldlM_extends _
        (fun s y r hr => by
          obtain ⟨a, rfl, -⟩ := callArgument_end shadertype s y r hr
          exact ((Extends.reflexive s).append_right a).append_right ", ") _ _ _ hfront
      obtain ⟨a, rfl, ha⟩ := callArgument_end shadertype s0 x s1' hlast
      rw [eraseLastTwo_append] at herase
      simp only [Option.some.injEq] at herase
      subst herase
      refine ⟨((Extends.transitive ((Extends.reflexive source).append_right _) efront).append_right a).append_right _,
        fun hnames => ?_⟩
      obtain ⟨u, c, d, hu, hcd⟩ := ha (hnames x (by rw [hlist]; simp))
      refine ⟨s0.data ++ u ++ [c], d, ?_, ?_⟩
      · simp only [String.data_append, hu]
        simp
      · rcases hcd with hd | hc
        · exact Or.inl hd
        · exact Or.inr ⟨s0.data ++ u, c, rfl, hc⟩
  · simp only [hparams, if_false, Option.bind_eq_bind, Option.some_bind,
      Option.some.injEq] at h
    rw [← h]
    refine ⟨((Extends.reflexive source).append_right _).append_right _, fun _ => ?_⟩
    refine ⟨source.data ++ (FixName node.Name node.Namespace).data, '(', ?_, Or.inl (by decide)⟩
    have h3 : ");\n".data = [')', ';', '\n'] := rfl
    simp only [String.data_append, h3, String.push]
    simp

/-- The start of the call statement extends the text. -/
theorem beginReturn_extends (source : String) (node : FunctionNode) (r : String)
    (h : beginReturn source node = some r) : Extends source r := by
  unfold beginReturn at h
  have hrest : ∀ s1 : String, Extends source s1 →
      (if (!node.ReturnType.IsVoid) = true then
        if isTargetSemantic node.ReturnSemantic = true ∧ node.ReturnType.Rows < 4 then
          Option.map (fun letters =>
            s1 ++ "_return = " ++ ("vec4(0, 0, 0, 1);\n_return." ++ letters ++ " = "))
            (swizzleOfRows node.ReturnType.Rows)
        else some (s1 ++ "_return = ")
      else some s1) = some r → Extends source r := by
    intro s1 e1 h2
    by_cases hvoid : (!node.ReturnType.IsVoid) = true
    · simp only [hvoid, if_true] at h2
      by_cases hswizzle :
          isTargetSemantic node.ReturnSemantic = true ∧ node.ReturnType.Rows < 4
      · simp only [hswizzle, and_self, if_true, Option.map_eq_some'] at h2
        obtain ⟨letters, -, rfl⟩ := h2
        exact (e1.append_right _).append_right _
      · simp only [hswizzle, if_false, Option.some.injEq] at h2
        rw [← h2]
        exact e1.append_right _
    · simp only [hvoid, if_false, Option.some.injEq, Bool.false_eq_true] at h2
      rw [← h2]
      exact e1
  by_cases hstruct : node.ReturnType.IsStruct = true
  · simp only [hstruct, if_true, Option.bind_eq_bind, Option.bind_eq_some,
      Option.map_eq_some'] at h
    obtain ⟨s1, ⟨s0, h0, rfl⟩, h2⟩ := h
    exact hrest _ ((VisitTypeClass_extends _ _ _ h0).push ' ') h2
  · simp only [hstruct, if_false, Option.bind_eq_bind, Option.some_bind,
      Bool.false_eq_true] at h
    exact hrest _ (Extends.reflexive _) h

/-- The copies of an `out` parameter extend the text. -/
theorem copyOutParameter_extends (source : String) (parameter : ParameterNode) (r : String)
    (h : copyOutParameter source parameter = some r) : Extends source r := by
  unfold copyOutParameter at h
  by_cases hout : (!parameter.Type_.HasQualifier Qualifier.Out) = true
  · simp only [hout, if_true, Option.some.injEq] at h
    rw [← h]
    exact Extends.reflexive _
  · simp only [hout, if_false, Option.bind_eq_bind, Bool.false_eq_true] at h
    refine Extends.transitive ?_ (foldlM_extends _ ?_ _ _ _ h)
    · exact Extends.ite _ (foldl_extends _ _ _) (Extends.reflexive _)
    · intro s i r2 hr2
      by_cases hstruct : parameter.Type_.IsStruct = true
      · simp only [hstruct, if_true] at hr2
        cases hdef : parameter.Type_.Definition with
        | none => rw [hdef] at hr2; simp at hr2
        | some d =>
          rw [hdef] at hr2
          simp only [Option.some.injEq] at hr2
          rw [← hr2]
          exact foldl_extends _ _ _
      · simp only [hstruct, if_false, Option.some.injEq, Bool.false_eq_true] at hr2
        rw [← hr2]
        exact Extends.reflexive _

/-- The copies of the fields of the return value extend the text. -/
theorem copyReturn_extends (shadertype : Nat) (source : String) (node : FunctionNode)
    (r : String) (h : copyReturn shadertype source node = some r) : Extends source r := by
  unfold copyReturn at h
  by_cases hstruct : node.ReturnType.IsStruct = true
  · simp only [hstruct, if_true] at h
    cases hdef : node.ReturnType.Definition with
    | none => rw [hdef] at h; simp at h
    | some d =>
      rw [hdef] at h
      simp only [Option.some.injEq] at h
      rw [← h]
      exact foldl_extends _ _ _
  · simp only [hstruct, if_false, Option.some.injEq, Bool.false_eq_true] at h
    rw [← h]
    exact Extends.reflexive _

/-- The parts of the stage source: it extends the prelude, and it is the text up to the
copies behind the call, the remap statement in the vertex stage only, and the closing
brace; with identifiers as names, the text up to the copies does not end with the remap
statement. -/
theorem shaderSource_parts (texts : CompilerTexts) (node : FunctionNode) (shadertype : Nat)
    (source : String) (h : shaderSource texts node shadertype = some source) :
    Extends shaderPrelude source ∧
    ∃ body : String,
      source = (if shadertype = GL_VERTEX_SHADER then body ++ depthRemapStatement
        else body) ++ "\x7d\n" ∧
      ((∀ parameter ∈ node.Parameters, IsIdentifier parameter.Name ∧
          ∀ field ∈ parameter.Fields, IsIdentifier field.Name) →
        (∀ field ∈ node.ReturnFields, IsIdentifier field.Name) →
        ¬ depthRemapStatement.data <:+ body.data) := by
  unfold shaderSource at h
  simp only [Option.bind_eq_bind, Option.bind_eq_some, Option.some.injEq] at h
  obtain ⟨s1, h1, s2, h2, s3, h3, s4, h4, s5, h5, s6, h6, s7, h7, s8, h8, rfl⟩ := h
  have e1 := shaderSourceHead_prelude _ _ _ _ h1
  have e2 := foldlM_extends _ (declareParameter_extends shadertype) _ _ _ h2
  have e3 := declareReturn_extends _ _ _ _ h3
  have e4 := foldlM_extends _ (initParameter_extends shadertype) _ _ _ h4
  have e5 := beginReturn_extends _ _ _ h5
  obtain ⟨e6, hcall⟩ := callEntry_end _ _ _ _ h6
  have e7 := foldlM_extends _ copyOutParameter_extends _ _ _ h7
  have e8 := copyReturn_extends _ _ _ _ h8
  have ebody : Extends shaderPrelude s8 :=
    Extends.transitive (Extends.transitive (Extends.transitive (Extends.transitive (Extends.transitive
      (Extends.transitive (Extends.transitive e1 e2) (e3.append_right _)) e4) e5) e6) e7) e8
  refine ⟨(Extends.ite _ (ebody.append_right _) ebody).append_right _, s8, rfl, ?_⟩
  intro hparams hreturn
  have hout := foldlM_statements copyOutParameter node.Parameters
    (fun s x r hx hr => copyOutParameter_end s x (hparams x hx).2 r hr) _ _ h7
  have hret := copyReturn_end shadertype s7 node hreturn s8 h8
  have hs6 := hcall (fun parameter hp => (hparams parameter hp).1)
  rcases hret with h9 | h9
  · rw [h9]
    rcases hout with h10 | h10
    · rw [h10]
      exact hs6.call_not_remap
    · exact h10.not_remap
  · exact h9.not_remap

end ReShade

namespace ReShade

/-! ## Modulo: theorems -/

set_option maxRecDepth 100000 in
/-- The prelude starts with the version line and the definitions of `_fmod` for `float`,
`vec2`, `vec3` and `vec4`. -/
theorem shaderPrelude_defines_fmod :
    ("#version 430\n" ++
      "float _fmod(float x, float y) \x7b return x - y * trunc(x / y); \x7d" ++
      "vec2 _fmod(vec2 x, vec2 y) \x7b return x - y * trunc(x / y); \x7d" ++
      "vec3 _fmod(vec3 x, vec3 y) \x7b return x - y * trunc(x / y); \x7d" ++
      "vec4 _fmod(vec4 x, vec4 y) \x7b return x - y * trunc(x / y); \x7d").data <+:
      shaderPrelude.data :=
  List.isPrefixOf_iff_prefix.mp (by decide)

/-- Claim C21.  For a Binary node with the operator Modulo (operand types well formed, at
most four rows), the emitted text is the call `_fmod(<lhs>, <rhs>)` when the type of the
node is floating point, and the infix `(<lhs> % <rhs>)` otherwise, where `<lhs>` and
`<rhs>` are the operands inside their casts to the type of the node; and every stage
source that `VisitTechniquePassShader` assembles starts with the prelude, which defines
`_fmod` as `x - y * trunc(x / y)`. -/
theorem VisitBinary_modulo (output : String) (type : FXType) (lhs rhs : Expression)
    (hwf : type.WellFormed)
    (hlhs : lhs.Type_.WellFormed ∧ lhs.Type_.Rows ≤ 4)
    (hrhs : rhs.Type_.WellFormed ∧ rhs.Type_.Rows ≤ 4) :
    ∃ cast1 cast2 : String × String,
      PrintCast lhs.Type_ type = some cast1 ∧ PrintCast rhs.Type_ type = some cast2 ∧
      (type.IsFloatingPoint = true →
        VisitBinary output type BinaryOp.Modulo lhs rhs =
          some (output ++ "_fmod(" ++ cast1.1 ++ lhs.Code ++ cast1.2 ++ ", " ++
            cast2.1 ++ rhs.Code ++ cast2.2 ++ ")")) ∧
      (type.IsFloatingPoint = false →
        VisitBinary output type BinaryOp.Modulo lhs rhs =
          some (output ++ "(" ++ cast1.1 ++ lhs.Code ++ cast1.2 ++ " % " ++
            cast2.1 ++ rhs.Code ++ cast2.2 ++ ")")) ∧
      (∀ (texts : CompilerTexts) (node : FunctionNode) (shadertype : Nat) (source : String),
        shaderSource texts node shadertype = some source → Extends shaderPrelude source) ∧
      ("#version 430\n" ++
        "float _fmod(float x, float y) \x7b return x - y * trunc(x / y); \x7d" ++
        "vec2 _fmod(vec2 x, vec2 y) \x7b return x - y * trunc(x / y); \x7d" ++
        "vec3 _fmod(vec3 x, vec3 y) \x7b return x - y * trunc(x / y); \x7d" ++
        "vec4 _fmod(vec4 x, vec4 y) \x7b return x - y * trunc(x / y); \x7d").data <+:
        shaderPrelude.data := by
  obtain ⟨cast1, h1⟩ := PrintCast_isSome lhs.Type_ type hwf (Or.inl hlhs.2)
  obtain ⟨cast2, h2⟩ := PrintCast_isSome rhs.Type_ type hwf (Or.inl hrhs.2)
  have h12 : (if rhs.Type_.IsFloatingPoint then rhs.Type_ else lhs.Type_).WellFormed := by
    split_ifs
    · exact hrhs.1
    · exact hlhs.1
  obtain ⟨cast121, h121⟩ := PrintCast_isSome lhs.Type_
    { BaseClass := (if rhs.Type_.IsFloatingPoint then rhs.Type_ else lhs.Type_).BaseClass,
      Qualifiers := (if rhs.Type_.IsFloatingPoint then rhs.Type_ else lhs.Type_).Qualifiers,
      Rows := max lhs.Type_.Rows rhs.Type_.Rows,
      Cols := max lhs.Type_.Cols rhs.Type_.Cols,
      ArrayLength := (if rhs.Type_.IsFloatingPoint then rhs.Type_ else lhs.Type_).ArrayLength,
      Definition := (if rhs.Type_.IsFloatingPoint then rhs.Type_ else lhs.Type_).Definition }
    h12 (Or.inl hlhs.2)
  obtain ⟨cast122, h122⟩ := PrintCast_isSome rhs.Type_
    { BaseClass := (if rhs.Type_.IsFloatingPoint then rhs.Type_ else lhs.Type_).BaseClass,
      Qualifiers := (if rhs.Type_.IsFloatingPoint then rhs.Type_ else lhs.Type_).Qualifiers,
      Rows := max lhs.Type_.Rows rhs.Type_.Rows,
      Cols := max lhs.Type_.Cols rhs.Type_.Cols,
      ArrayLength := (if rhs.Type_.IsFloatingPoint then rhs.Type_ else lhs.Type_).ArrayLength,
      Definition := (if rhs.Type_.IsFloatingPoint then rhs.Type_ else lhs.Type_).Definition }
    h12 (Or.inl hrhs.2)
  refine ⟨cast1, cast2, h1, h2, ?_, ?_, ?_, ?_⟩
  · intro hfloat
    simp only [VisitBinary, h1, h2, h121, h122, binaryParts, hfloat, if_true, Visit,
      String.append_assoc]
  · intro hfloat
    simp only [VisitBinary, h1, h2, h121, h122, binaryParts, hfloat, if_false, Visit,
      String.append_assoc, Bool.false_eq_true]
  · intro texts node shadertype source h
    exact (shaderSource_parts texts node shadertype source h).1
  · exact shaderPrelude_defines_fmod

/-- Claim C21 at `a % b` with a `float` result, a `float` operand `a` and an `int`
operand `b`. -/
theorem VisitBinary_modulo_witness :
    ∃ cast1 cast2 : String × String,
      PrintCast ⟨TypeClass.Float, [], 1, 1, 0, none⟩ ⟨TypeClass.Float, [], 1, 1, 0, none⟩ =
        some cast1 ∧
      PrintCast ⟨TypeClass.Int, [], 1, 1, 0, none⟩ ⟨TypeClass.Float, [], 1, 1, 0, none⟩ =
        some cast2 ∧
      VisitBinary "" ⟨TypeClass.Float, [], 1, 1, 0, none⟩ BinaryOp.Modulo
          ⟨⟨TypeClass.Float, [], 1, 1, 0, none⟩, "a"⟩
          ⟨⟨TypeClass.Int, [], 1, 1, 0, none⟩, "b"⟩ =
        some ("" ++ "_fmod(" ++ cast1.1 ++ "a" ++ cast1.2 ++ ", " ++
          cast2.1 ++ "b" ++ cast2.2 ++ ")") := by
  obtain ⟨cast1, cast2, h1, h2, hfloat, -, -, -⟩ :=
    VisitBinary_modulo "" ⟨TypeClass.Float, [], 1, 1, 0, none⟩
      ⟨⟨TypeClass.Float, [], 1, 1, 0, none⟩, "a"⟩ ⟨⟨TypeClass.Int, [], 1, 1, 0, none⟩, "b"⟩
      (by decide) (by decide) (by decide)
  exact ⟨cast1, cast2, h1, h2, hfloat (by decide)⟩

/-- The modulo of two `float` operands, of a `float` and an `int` operand, and of two
`int` operands. -/
theorem VisitBinary_modulo_examples :
    VisitBinary "" ⟨TypeClass.Float, [], 1, 1, 0, none⟩ BinaryOp.Modulo
        ⟨⟨TypeClass.Float, [], 1, 1, 0, none⟩, "a"⟩
        ⟨⟨TypeClass.Int, [], 1, 1, 0, none⟩, "b"⟩ = some "_fmod(a, float(b))" ∧
    VisitBinary "" ⟨TypeClass.Float, [], 3, 1, 0, none⟩ BinaryOp.Modulo
        ⟨⟨TypeClass.Float, [], 3, 1, 0, none⟩, "a"⟩
        ⟨⟨TypeClass.Float, [], 1, 1, 0, none⟩, "b"⟩ = some "_fmod(a, b.xxx)" ∧
    VisitBinary "" ⟨TypeClass.Int, [], 1, 1, 0, none⟩ BinaryOp.Modulo
        ⟨⟨TypeClass.Int, [], 1, 1, 0, none⟩, "a"⟩
        ⟨⟨TypeClass.Int, [], 1, 1, 0, none⟩, "b"⟩ = some "(a % b)" := by
  decide

/-! ## Depth remap: theorems -/

/-- Claim C30, counterexample.  The clip-space depth `z = -1`, `w = 1` has `z / w = -1` in
the range [-1, 1]; the remap statement takes it to `z' = -3`, and `z' / w = -3` is not in
the range [0, 1]. -/
theorem depthRemap_range_example :
    (-1 : ℚ) ≤ (-1 : ℚ) / 1 ∧ (-1 : ℚ) / 1 ≤ 1 ∧
    depthRemap (0, 0, -1, 1) = (0, 0, -3, 1) ∧ ¬ (0 ≤ (-3 : ℚ) / 1) := by
  refine ⟨by norm_num, by norm_num, ?_, by norm_num⟩
  simp only [depthRemap]
  norm_num

/-- Claim C30, amended.  The stage source that `VisitTechniquePassShader` assembles ends
with the depth remap statement and the closing brace of `main` when the stage is the
vertex stage, and (the names of the parameters and of the fields being identifiers) does
not end so for any other stage; and the remap, read as exact arithmetic, leaves x, y and
w unchanged, sets `z' = 2 z - w`, and takes every clip-space depth with `z / w` in the
range [0, 1] to a depth with `z' / w` in the range [-1, 1]. -/
theorem shaderSource_depth_remap (texts : CompilerTexts) (node : FunctionNode)
    (shadertype : Nat) (source : String)
    (h : shaderSource texts node shadertype = some source)
    (hparameters : ∀ parameter ∈ node.Parameters, IsIdentifier parameter.Name ∧
      ∀ field ∈ parameter.Fields, IsIdentifier field.Name)
    (hreturn : ∀ field ∈ node.ReturnFields, IsIdentifier field.Name) :
    ((depthRemapStatement ++ "\x7d\n").data <:+ source.data ↔
      shadertype = GL_VERTEX_SHADER) ∧
    ∀ x y z w : ℚ, w ≠ 0 → 0 ≤ z / w → z / w ≤ 1 →
      depthRemap (x, y, z, w) = (x, y, 2 * z - w, w) ∧
      -1 ≤ (2 * z - w) / w ∧ (2 * z - w) / w ≤ 1 := by
  obtain ⟨-, body, hsource, hbody⟩ := shaderSource_parts texts node shadertype source h
  constructor
  · constructor
    · intro hsuffix
      by_contra hstage
      rw [hsource, if_neg hstage] at hsuffix
      simp only [String.data_append] at hsuffix
      obtain ⟨w, hw⟩ := hsuffix
      rw [← List.append_assoc] at hw
      have := (List.append_inj' hw rfl).1
      exact hbody hparameters hreturn ⟨w, this⟩
    · intro hstage
      rw [hsource, if_pos hstage]
      simp only [String.data_append]
      exact ⟨body.data, by simp⟩
  · intro x y z w hw h0 h1
    refine ⟨?_, ?_, ?_⟩
    · simp only [depthRemap, Prod.mk.injEq]
      exact ⟨by ring, by ring, by ring, by ring⟩
    · have : (2 * z - w) / w = 2 * (z / w) - 1 := by
        field_simp
      rw [this]
      linarith
    · have : (2 * z - w) / w = 2 * (z / w) - 1 := by
        field_simp
      rw [this]
      linarith

set_option maxRecDepth 100000 in
/-- The two example entry points have a stage source. -/
theorem shaderSource_examples :
    (shaderSource textsExample vertexEntryExample GL_VERTEX_SHADER).isSome = true ∧
    (shaderSource textsExample fragmentEntryExample GL_FRAGMENT_SHADER).isSome = true := by
  decide

/-- The amended claim C30 on a vertex entry point and a fragment entry point: both stage
sources are produced, and only the first one ends with the remap statement. -/
theorem shaderSource_depth_remap_witness :
    (∃ source, shaderSource textsExample vertexEntryExample GL_VERTEX_SHADER = some source ∧
      (depthRemapStatement ++ "\x7d\n").data <:+ source.data) ∧
    (∃ source, shaderSource textsExample fragmentEntryExample GL_FRAGMENT_SHADER =
        some source ∧
      ¬ (depthRemapStatement ++ "\x7d\n").data <:+ source.data) := by
  obtain ⟨vs, hvs⟩ := Option.isSome_iff_exists.mp shaderSource_examples.1
  obtain ⟨fs, hfs⟩ := Option.isSome_iff_exists.mp shaderSource_examples.2
  refine ⟨⟨vs, hvs, ?_⟩, ⟨fs, hfs, ?_⟩⟩
  · exact (shaderSource_depth_remap textsExample vertexEntryExample GL_VERTEX_SHADER vs hvs
      (by decide) (by decide)).1.mpr rfl
  · intro hsuffix
    exact absurd ((shaderSource_depth_remap textsExample fragmentEntryExample
      GL_FRAGMENT_SHADER fs hfs (by decide) (by decide)).1.mp hsuffix) (by decide)

end ReShade

namespace ReShade

/-! ## Resource binding: theorems -/

/-- The function `VisitTexture` registers one object behind the registered textures, with
the name and the mip-level count of the declaration, and leaves the other tables as they
are. -/
theorem VisitTexture_registers (ids : Nat × Nat) (node : TextureNode)
    (runtime : RuntimeState) (st : CompilerState) :
    ∃ obj : GLTextureObject,
      (VisitTexture ids node runtime st).1 =
        { runtime with _textures := runtime._textures ++ [obj] } ∧
      obj.Name = node.Name ∧ obj.Levels = node.MipLevels := by
  unfold VisitTexture
  simp only
  split_ifs <;> exact ⟨_, rfl, by simp [ChangeDataSource] <;> split_ifs <;> rfl,
    by simp [ChangeDataSource] <;> split_ifs <;> rfl⟩

/-- Claim C26, the code at the failing input.  For the texture declaration `t` with
`MipLevels = 0` the warning is recorded, the compilation is not marked fatal and the
images are allocated with one level, but the object registered with the runtime has
`Levels = 0`. -/
theorem VisitTexture_zero_levels_example :
    ((VisitTexture (7, 8) (textureExample "t" 0) runtimeExample ⟨"", false, []⟩).1._textures.map
        (fun obj => (obj.Name, obj.Levels)) = [("old", 1), ("t", 0)]) ∧
    (VisitTexture (7, 8) (textureExample "t" 0) runtimeExample ⟨"", false, []⟩).2 =
      ⟨"fx(1, 1): warning: a texture cannot have 0 miplevels, changed it to 1\n", false,
        [GLCall.glGenTextures 7 8, GLCall.glTexStorage2D 7 1 GL_RGBA8 16 16]⟩ := by
  decide

end ReShade

namespace ReShade

/-! ## Compilation and the tables of the runtime: theorems -/

/-- Every runtime grows to itself. -/
theorem RuntimeState.Grows.grows_refl (rt : RuntimeState) : rt.Grows rt :=
  ⟨List.prefix_refl _, List.prefix_refl _, List.prefix_refl _, List.prefix_refl _⟩

/-- Growth in two steps is growth. -/
theorem RuntimeState.Grows.grows_trans {a b c : RuntimeState} (h1 : a.Grows b) (h2 : b.Grows c) :
    a.Grows c :=
  ⟨h1.1.trans h2.1, h1.2.1.trans h2.2.1, h1.2.2.1.trans h2.2.2.1, h1.2.2.2.trans h2.2.2.2⟩

/-- The function `VisitTexture` only adds to the tables. -/
theorem VisitTexture_grows (ids : Nat × Nat) (node : TextureNode) (runtime : RuntimeState)
    (st : CompilerState) : runtime.Grows (VisitTexture ids node runtime st).1 := by
  obtain ⟨obj, h, -⟩ := VisitTexture_registers ids node runtime st
  rw [h]
  exact ⟨List.prefix_append _ _, List.prefix_refl _, List.prefix_refl _, List.prefix_refl _⟩

/-- The function `VisitSampler` only adds to the tables. -/
theorem VisitSampler_grows (id : Nat) (node : SamplerNode) (runtime : RuntimeState)
    (st : CompilerState) (code : String) :
    runtime.Grows (VisitSampler id node runtime st code).1 := by
  unfold VisitSampler
  cases node.Texture with
  | none => exact RuntimeState.Grows.grows_refl _
  | some name =>
    simp only
    cases GetTexture (runtime._textures.map GLTextureObject.toGLTexture) name with
    | none => exact RuntimeState.Grows.grows_refl _
    | some texture =>
      exact ⟨List.prefix_refl _, List.prefix_append _ _, List.prefix_refl _,
        List.prefix_refl _⟩

/-- The function `VisitUniform` only adds to the table of the constants. -/
theorem VisitUniform_grows (node : Variable) (layout : UniformLayout) :
    layout.Constants <+: (VisitUniform node layout).Constants := by
  unfold VisitUniform
  exact List.prefix_append _ _

/-- The function `VisitTechnique` only adds to the tables: it registers one technique. -/
theorem VisitTechnique_grows (env : Nat → PassEnvironment) (node : TechniqueNode)
    (runtime : RuntimeState) (st : CompilerState) :
    runtime.Grows (VisitTechnique env node runtime st).1 :=
  ⟨List.prefix_refl _, List.prefix_refl _, List.prefix_refl _, List.prefix_append _ _⟩

/-- A declaration of `_ast.Uniforms` only adds to the tables. -/
theorem visitUniformDeclaration_grows (env : CompileEnvironment) (i : Nat)
    (declaration : UniformDeclaration) (s : CompileState) :
    s.runtime.Grows (visitUniformDeclaration env i declaration s).runtime := by
  cases declaration with
  | texture node => exact VisitTexture_grows _ _ _ _
  | sampler node => exact VisitSampler_grows _ _ _ _ _
  | uniform node =>
    exact ⟨List.prefix_refl _, List.prefix_refl _,
      VisitUniform_grows node ⟨s._currentGlobalSize, s.runtime._uniforms⟩, List.prefix_refl _⟩
  | other node => exact RuntimeState.Grows.grows_refl _

/-- The loop over `_ast.Uniforms` only adds to the tables. -/
theorem visitUniformDeclarations_grows (env : CompileEnvironment)
    (declarations : List UniformDeclaration) :
    ∀ (i : Nat) (s : CompileState),
      s.runtime.Grows (visitUniformDeclarations env i declarations s).runtime := by
  induction declarations with
  | nil => intro i s; exact RuntimeState.Grows.grows_refl _
  | cons d rest ih =>
    intro i s
    rw [visitUniformDeclarations]
    exact (visitUniformDeclaration_grows env i d s).grows_trans (ih _ _)

/-- The loop over `_ast.Techniques` only adds to the tables. -/
theorem visitTechniques_grows (env : CompileEnvironment) (techniques : List TechniqueNode) :
    ∀ (i : Nat) (s : CompileState),
      s.runtime.Grows (visitTechniques env i techniques s).runtime := by
  induction techniques with
  | nil => intro i s; exact RuntimeState.Grows.grows_refl _
  | cons t rest ih =>
    intro i s
    rw [visitTechniques]
    exact RuntimeState.Grows.grows_trans
      (VisitTechnique_grows (env.passes i) t s.runtime s.diagnostics)
      (ih (i + 1)
        { s with runtime := (VisitTechnique (env.passes i) t s.runtime s.diagnostics).1,
                 diagnostics := (VisitTechnique (env.passes i) t s.runtime s.diagnostics).2 })

/-- A loop of steps that leave the runtime as it is leaves the runtime as it is. -/
theorem foldl_runtime {α : Type} (f : CompileState → α → CompileState)
    (hf : ∀ s x, (f s x).runtime = s.runtime) (l : List α) :
    ∀ s : CompileState, (l.foldl f s).runtime = s.runtime := by
  induction l with
  | nil => intro s; rfl
  | cons x rest ih => intro s; rw [List.foldl_cons, ih, hf]

/-- Claim C27, counterexample.  The compilation of an effect with a texture declaration
and a sampler declaration without the `Texture` property returns false, and the texture
`new` that it created is registered with the runtime behind the texture `old` of the
effect compiled before. -/
theorem Compile_failure_registers_example :
    (Compile environmentExample failingEffectExample runtimeExample "").1 = false ∧
    (Compile environmentExample failingEffectExample runtimeExample "").2.1._textures.map
      (fun obj => obj.Name) = ["old", "new"] ∧
    runtimeExample._textures.map (fun obj => obj.Name) = ["old"] ∧
    (Compile environmentExample failingEffectExample runtimeExample "").2.2 =
      "fx(2, 1): error: sampler 's' is missing required 'Texture' property\n" := by
  decide

/-- Claim C27, amended.  Whether or not `Compile` returns false, the entries that the
texture, sampler, uniform and technique tables of the runtime held before the call are
still registered after it, unchanged, in the same order and at the front of the tables;
what the compilation registered stands behind them. -/
theorem Compile_tables_grow (env : CompileEnvironment) (ast : NodeTree)
    (runtime : RuntimeState) (errors : String) :
    runtime.Grows (Compile env ast runtime errors).2.1 := by
  unfold Compile
  simp only
  have hite : ∀ (s : CompileState), s.runtime.Grows
      (if s._currentGlobalSize ≠ 0 then
        { s with runtime := { s.runtime with _effectUBO := env.effectUBO },
                 diagnostics := { s.diagnostics with
                   glCalls := s.diagnostics.glCalls ++ [GLCall.glGenBuffers env.effectUBO] } }
      else s).runtime := by
    intro s
    split_ifs
    · exact RuntimeState.Grows.grows_refl _
    · exact ⟨List.prefix_refl _, List.prefix_refl _, List.prefix_refl _, List.prefix_refl _⟩
  refine RuntimeState.Grows.grows_trans ?_ (hite _)
  refine RuntimeState.Grows.grows_trans ?_ (visitTechniques_grows env _ 0 _)
  rw [foldl_runtime
    (fun (s : CompileState) (node : VisitedCode) =>
      { s with diagnostics := visitCode node s.diagnostics }) (fun s x => rfl)]
  refine RuntimeState.Grows.grows_trans ?_ (visitUniformDeclarations_grows env _ 0 _)
  rw [foldl_runtime
    (fun (s : CompileState) (node : VisitedCode) =>
      { s with diagnostics := visitCode node s.diagnostics,
               _globalCode := s._globalCode ++ node.Code }) (fun s x => rfl)]
  exact RuntimeState.Grows.grows_refl _

end ReShade

namespace ReShade

/-! ## Link failures: theorems -/

/-- Claim C28, counterexample.  In the technique `T` the program of the first pass fails
to link and the program of the second pass links: the second pass is assembled all the
same, and the technique is registered with the runtime, with the descriptor of the
second pass. -/
theorem VisitTechnique_link_failure_example :
    (VisitTechnique (linkFailureEnvironment.passes 0) techniqueExample runtimeExample
        ⟨"", false, []⟩).1._techniques =
      [⟨"oldTechnique", 0, []⟩,
       ⟨"T", 2, [⟨401, 301, [2, 0, 0, 0, 0, 0, 0, 0], 1920, 1080,
         [GL_COLOR_ATTACHMENT0, 0, 0, 0, 0, 0, 0, 0], false⟩]⟩] ∧
    (VisitTechnique (linkFailureEnvironment.passes 0) techniqueExample runtimeExample
        ⟨"", false, []⟩).2._errors = "link failed\n" ∧
    (VisitTechnique (linkFailureEnvironment.passes 0) techniqueExample runtimeExample
        ⟨"", false, []⟩).2._isFatal = true := by
  decide

/-- Claim C28, amended.  If the render-target loop of a pass completes and the link of
its program fails with the log `log`, then `VisitTechniquePass` releases the program as
its last call to the graphics device, appends the log behind the errors recorded so far,
marks the compilation fatal and appends no pass descriptor; the loop of `VisitTechnique`
goes on with the next pass from these diagnostics and the same descriptors, and
`VisitTechnique` registers the technique with the descriptors of the passes that were
appended. -/
theorem VisitTechniquePass_link_failure (env : Nat → PassEnvironment)
    (runtime : RuntimeObjects) (i : Nat) (node : PassNode) (rest : List PassNode)
    (st : CompilerState) (passes : List Pass) (log : String)
    (hlink : (env i).linkLog = some log)
    (hattach : (attachRenderTargets runtime node (List.range 8)
      ⟨0, (env i).framebuffer, List.replicate 8 0, 0, 0, List.replicate 8 0,
        node.States.SRGBWriteEnable⟩ true
      { st with glCalls := st.glCalls ++ [GLCall.glGenFramebuffers (env i).framebuffer] }
      ).2.isSome = true) :
    (VisitTechniquePass (env i) runtime node st passes).2 = passes ∧
    (VisitTechniquePass (env i) runtime node st passes).1._isFatal = true ∧
    (∃ before : String,
      (VisitTechniquePass (env i) runtime node st passes).1._errors = before ++ log) ∧
    (∃ calls : List GLCall,
      (VisitTechniquePass (env i) runtime node st passes).1.glCalls =
        calls ++ [GLCall.glDeleteProgram (env i).program]) ∧
    visitPasses env runtime i (node :: rest) st passes =
      visitPasses env runtime (i + 1) rest
        (VisitTechniquePass (env i) runtime node st passes).1 passes ∧
    ∀ (technique : TechniqueNode) (state : RuntimeState) (diagnostics : CompilerState),
      (VisitTechnique env technique state diagnostics).1._techniques =
        state._techniques ++ [⟨technique.Name, technique.Passes.length,
          (visitPasses env
            ⟨state._textures.map GLTextureObject.toGLTexture, state._backbufferTexture.2⟩
            0 technique.Passes diagnostics []).2⟩] := by
  have hvisit : (VisitTechniquePass (env i) runtime node st passes).2 = passes ∧
      (VisitTechniquePass (env i) runtime node st passes).1._isFatal = true ∧
      (∃ before : String,
        (VisitTechniquePass (env i) runtime node st passes).1._errors = before ++ log) ∧
      (∃ calls : List GLCall,
        (VisitTechniquePass (env i) runtime node st passes).1.glCalls =
          calls ++ [GLCall.glDeleteProgram (env i).program]) := by
    unfold VisitTechniquePass
    simp only
    cases hloop : attachRenderTargets runtime node (List.range 8)
      ⟨0, (env i).framebuffer, List.replicate 8 0, 0, 0, List.replicate 8 0,
        node.States.SRGBWriteEnable⟩ true
      { st with glCalls := st.glCalls ++ [GLCall.glGenFramebuffers (env i).framebuffer] }
      with
    | mk st1 result =>
      rw [hloop] at hattach
      cases result with
      | none => simp at hattach
      | some r =>
        obtain ⟨pass, backbuffer⟩ := r
        simp only [hlink]
        exact ⟨trivial, trivial, ⟨_, rfl⟩, ⟨_, rfl⟩⟩
  refine ⟨hvisit.1, hvisit.2.1, hvisit.2.2.1, hvisit.2.2.2, ?_, ?_⟩
  · rw [visitPasses, hvisit.1]
  · intro technique state diagnostics
    rfl

/-- The amended claim C28 on the first pass of the technique `T`, whose program fails to
link. -/
theorem VisitTechniquePass_link_failure_witness :
    (VisitTechniquePass (linkFailureEnvironment.passes 0 0) passExampleRuntime
        (passExampleNode []) ⟨"", false, []⟩ []).2 = [] ∧
    (VisitTechniquePass (linkFailureEnvironment.passes 0 0) passExampleRuntime
        (passExampleNode []) ⟨"", false, []⟩ []).1._isFatal = true :=
  have h := VisitTechniquePass_link_failure (linkFailureEnvironment.passes 0)
    passExampleRuntime 0 (passExampleNode []) [] ⟨"", false, []⟩ [] "link failed\n"
    (by decide) (by decide)
  ⟨h.1, h.2.1⟩

end ReShade

namespace ReShade

/-! ## Compound assignment and gradient casts: theorems -/

/-- Claim C33, the code at the failing input.  The compound assignment `a %= b` of two
`float` operands is emitted with the native operator `%=`, while the binary operator
`a % b` of the same operands is emitted as a call of `_fmod`. -/
theorem VisitAssignment_modulo_native :
    VisitAssignment "" AssignmentOp.Modulo
        ⟨⟨TypeClass.Float, [], 1, 1, 0, none⟩, "a"⟩
        ⟨⟨TypeClass.Float, [], 1, 1, 0, none⟩, "b"⟩ = some "(a %= b)" ∧
    VisitBinary "" ⟨TypeClass.Float, [], 1, 1, 0, none⟩ BinaryOp.Modulo
        ⟨⟨TypeClass.Float, [], 1, 1, 0, none⟩, "a"⟩
        ⟨⟨TypeClass.Float, [], 1, 1, 0, none⟩, "b"⟩ = some "_fmod(a, b)" := by
  decide

/-- Claim C34, the code at the failing input.  In `tex2Dgrad(s, uv, ddx, ddy)` with `ddx`
of type `float2` and `ddy` of type `float4`, the type recorded for the fourth argument
is the type of the third one, so the fourth argument is emitted without the truncation
`.xy` that `PrintCast` computes from its own type. -/
theorem VisitIntrinsic_gradient_cast :
    VisitIntrinsic "" float4 IntrinsicOp.Tex2DGrad (some samplerArgument) (some coordArgument)
        (some ⟨⟨TypeClass.Float, [], 2, 1, 0, none⟩, "ddx"⟩)
        (some ⟨⟨TypeClass.Float, [], 4, 1, 0, none⟩, "ddy"⟩) =
      some "textureGrad(s, uv * vec2(1.0, -1.0) + vec2(0.0, 1.0), ddx, ddy)" ∧
    (intrinsicCasts float4 (some samplerArgument) (some coordArgument)
        (some ⟨⟨TypeClass.Float, [], 2, 1, 0, none⟩, "ddx"⟩)
        (some ⟨⟨TypeClass.Float, [], 4, 1, 0, none⟩, "ddy"⟩)).map (fun l => l.type4) =
      some (some ⟨TypeClass.Float, [], 2, 1, 0, none⟩) ∧
    PrintCast ⟨TypeClass.Float, [], 4, 1, 0, none⟩ ⟨TypeClass.Float, [], 2, 1, 0, none⟩ =
      some ("", ".xy") ∧
    VisitIntrinsic "" float4 IntrinsicOp.Tex2DGrad (some samplerArgument) (some coordArgument)
        (some ⟨⟨TypeClass.Float, [], 4, 1, 0, none⟩, "ddx"⟩)
        (some ⟨⟨TypeClass.Float, [], 2, 1, 0, none⟩, "ddy"⟩) =
      some "textureGrad(s, uv * vec2(1.0, -1.0) + vec2(0.0, 1.0), ddx.xy, ddy.xy)" := by
  decide

/-! ## Balanced text: theorems -/

/-- Claim C40, the code at the failing inputs.  The intrinsic `refract(i, n, eta)` is
emitted with one opening and two closing parentheses, and `sincos(x, s, c)` with an
`int` argument `x` with two opening and one closing parenthesis, although the texts of
the arguments are balanced; with a `float` argument the text of `sincos` is balanced. -/
theorem VisitIntrinsic_unbalanced :
    VisitIntrinsic "" ⟨TypeClass.Float, [], 3, 1, 0, none⟩ IntrinsicOp.Refract
        (some ⟨⟨TypeClass.Float, [], 3, 1, 0, none⟩, "i"⟩)
        (some ⟨⟨TypeClass.Float, [], 3, 1, 0, none⟩, "n"⟩)
        (some ⟨⟨TypeClass.Float, [], 1, 1, 0, none⟩, "eta"⟩) none =
      some "refract(i, n, floateta))" ∧
    Balanced "refract(i, n, floateta))" = false ∧
    VisitIntrinsic "" ⟨TypeClass.Void, [], 0, 0, 0, none⟩ IntrinsicOp.SinCos
        (some ⟨⟨TypeClass.Int, [], 1, 1, 0, none⟩, "x"⟩)
        (some ⟨⟨TypeClass.Float, [], 1, 1, 0, none⟩, "s"⟩)
        (some ⟨⟨TypeClass.Float, [], 1, 1, 0, none⟩, "c"⟩) none =
      some "_sincos(float(x, s, c)" ∧
    Balanced "_sincos(float(x, s, c)" = false ∧
    VisitIntrinsic "" ⟨TypeClass.Void, [], 0, 0, 0, none⟩ IntrinsicOp.SinCos
        (some ⟨⟨TypeClass.Float, [], 1, 1, 0, none⟩, "x"⟩)
        (some ⟨⟨TypeClass.Float, [], 1, 1, 0, none⟩, "s"⟩)
        (some ⟨⟨TypeClass.Float, [], 1, 1, 0, none⟩, "c"⟩) none =
      some "_sincos(x, s, c)" ∧
    Balanced "_sincos(x, s, c)" = true ∧
    Balanced "i" = true ∧ Balanced "n" = true ∧ Balanced "eta" = true ∧
    Balanced "x" = true ∧ Balanced "s" = true ∧ Balanced "c" = true := by
  decide

end ReShade

namespace ReShade

/-! ## Keys of the depth-source table: theorems -/

/-- The key of a renderbuffer has bit 31 set. -/
theorem key_and_bit31 (x : Nat) : (x ||| 0x80000000) &&& 0x80000000 = 0x80000000 := by
  apply Nat.eq_of_testBit_eq
  intro i
  have e : (0x80000000 : Nat) = 2 ^ 31 := by norm_num
  simp only [e, Nat.testBit_and, Nat.testBit_or, Nat.testBit_two_pow]
  by_cases hi : 31 = i <;> simp [hi]

/-- An object name below `2 ^ 31` has bit 31 clear. -/
theorem name_and_bit31 (x : Nat) (h : x < 2 ^ 31) : x &&& 0x80000000 = 0 := by
  apply Nat.eq_of_testBit_eq
  intro i
  have e : (0x80000000 : Nat) = 2 ^ 31 := by norm_num
  simp only [e, Nat.testBit_and, Nat.testBit_two_pow, Nat.zero_testBit]
  by_cases hi : 31 = i
  · subst hi
    simp [Nat.testBit_lt_two_pow h]
  · simp [hi]

/-- Clearing bit 31 of the key of a renderbuffer gives the object name back. -/
theorem key_xor_bit31 (x : Nat) (h : x < 2 ^ 31) : (x ||| 0x80000000) ^^^ 0x80000000 = x := by
  apply Nat.eq_of_testBit_eq
  intro i
  have e : (0x80000000 : Nat) = 2 ^ 31 := by norm_num
  simp only [e, Nat.testBit_xor, Nat.testBit_or, Nat.testBit_two_pow]
  by_cases hi : 31 = i
  · subst hi
    simp [Nat.testBit_lt_two_pow h]
  · simp [hi]

/-- The key of a renderbuffer is a value of `GLuint`. -/
theorem key_lt (x : Nat) (h : x < 2 ^ 31) : x ||| 0x80000000 < 2 ^ 32 :=
  Nat.or_lt_two_pow (by omega) (by norm_num)

/-- Claim C36.  For a renderbuffer `object` and a texture `texture` with names below
`2 ^ 31` (`objecttarget` any target other than `GL_RENDERBUFFER`), the key under which
`OnFramebufferAttachment` and `OnDrawCall` file the renderbuffer differs from the key of
the texture, both keys are values of `GLuint`, and the decoding in `DetectDepthSource`
attaches the key of the renderbuffer as the renderbuffer `object` and the key of the
texture as the texture `texture`. -/
theorem depthSourceKey_decode (object texture objecttarget : Nat) (bestInfo : DepthSourceInfo)
    (hobject : object < 2 ^ 31) (htexture : texture < 2 ^ 31)
    (htarget : objecttarget ≠ GL_RENDERBUFFER) :
    depthSourceKey object GL_RENDERBUFFER ≠ depthSourceKey texture objecttarget ∧
    depthSourceKey object GL_RENDERBUFFER < 2 ^ 32 ∧
    depthSourceKey texture objecttarget = texture ∧
    attachDepthSource (depthSourceKey object GL_RENDERBUFFER) bestInfo =
      DepthSourceCall.glFramebufferRenderbuffer object ∧
    attachDepthSource (depthSourceKey texture objecttarget) bestInfo =
      DepthSourceCall.glFramebufferTexture texture bestInfo.Level := by
  have hkey : depthSourceKey object GL_RENDERBUFFER = object ||| 0x80000000 := by
    simp [depthSourceKey]
  have hname : depthSourceKey texture objecttarget = texture := by
    simp [depthSourceKey, htarget]
  refine ⟨?_, ?_, hname, ?_, ?_⟩
  · rw [hkey, hname]
    intro h
    have h1 := key_and_bit31 object
    rw [h, name_and_bit31 texture htexture] at h1
    exact absurd h1 (by decide)
  · rw [hkey]
    exact key_lt object hobject
  · rw [hkey]
    unfold attachDepthSource
    rw [key_and_bit31, if_pos (by decide), key_xor_bit31 object hobject]
  · rw [hname]
    unfold attachDepthSource
    rw [name_and_bit31 texture htexture, if_neg (by decide)]

/-- Claim C36 at the renderbuffer 3 and the texture 3 of the target `GL_NONE + 1`: the keys
are 2147483651 and 3. -/
theorem depthSourceKey_decode_witness :
    depthSourceKey 3 GL_RENDERBUFFER = 2147483651 ∧
    depthSourceKey 3 GL_RENDERBUFFER ≠ depthSourceKey 3 1 ∧
    attachDepthSource 2147483651 ⟨100, 100, 2, GL_DEPTH24_STENCIL8, 0, 0⟩ =
      DepthSourceCall.glFramebufferRenderbuffer 3 ∧
    attachDepthSource (depthSourceKey 3 1) ⟨100, 100, 2, GL_DEPTH24_STENCIL8, 0, 0⟩ =
      DepthSourceCall.glFramebufferTexture 3 2 :=
  have h := depthSourceKey_decode 3 3 1 ⟨100, 100, 2, GL_DEPTH24_STENCIL8, 0, 0⟩
    (by decide) (by decide) (by decide)
  ⟨by decide, h.1, h.2.2.2.1, h.2.2.2.2⟩

/-! ## Lookups in the depth-source table: theorems -/

/-- Claim C39.  Every sequence of calls of `OnFramebufferAttachment`, `OnDrawCall` and
`DetectDepthSource` (and of resets of the draw-call statistics) after a successful
`OnInit` goes through and reaches a state in which the depth-source table holds the
default entry with id 0 and an entry for the selected depth source; and in every state
so reached a further call of `DetectDepthSource` returns: none of its lookups by id
fails. -/
theorem runDepthEvents_lookups (width height glTexture : Nat) (events : List DepthEvent) :
    ∃ s, runDepthEvents width height glTexture events = some s ∧
      (findDepthSource s._depthSourceTable 0).isSome = true ∧
      (findDepthSource s._depthSourceTable s._depthSource).isSome = true ∧
      s._depthSource ∈ s._depthSourceTable.map Prod.fst ∧
      ∀ (NetworkUpload : Int) (texture : Nat),
        ∃ s', DetectDepthSource NetworkUpload texture s = some s' := by
  obtain ⟨s, hrun, hs⟩ := runDepthEvents_consistent width height glTexture events
  refine ⟨s, hrun, hs.2.1, hs.2.2, (findDepthSource_isSome_iff _ _).mp hs.2.2, ?_⟩
  intro n g
  obtain ⟨s', hs', -⟩ := DetectDepthSource_consistent n g s hs
  exact ⟨s', hs'⟩

/-! ## Index rows of a BC4 block: theorems -/

/-- The digits to the base 4096 of a number of four such digits. -/
theorem row_digits (d0 d1 d2 d3 : Nat) (h0 : d0 < 4096) (h1 : d1 < 4096) (h2 : d2 < 4096)
    (h3 : d3 < 4096) (r : Nat) (hr : r < 4) :
    (d0 + 4096 * (d1 + 4096 * (d2 + 4096 * d3))) / 4096 ^ r % 4096 = [d0, d1, d2, d3].getD r 0 := by
  have e1 : (d0 + 4096 * (d1 + 4096 * (d2 + 4096 * d3))) / 4096 = d1 + 4096 * (d2 + 4096 * d3) := by
    omega
  have e2 : (d1 + 4096 * (d2 + 4096 * d3)) / 4096 = d2 + 4096 * d3 := by omega
  have e3 : (d2 + 4096 * d3) / 4096 = d3 := by omega
  have p2 : (4096 : Nat) ^ 2 = 4096 * 4096 := by norm_num
  have p3 : (4096 : Nat) ^ 3 = 4096 * 4096 * 4096 := by norm_num
  interval_cases r
  · rw [Nat.pow_zero, Nat.div_one]
    simp only [List.getD_cons_zero]
    omega
  · rw [Nat.pow_one, e1]
    simp only [List.getD_cons_succ, List.getD_cons_zero]
    omega
  · rw [p2, ← Nat.div_div_eq_div_mul, e1, e2]
    simp only [List.getD_cons_succ, List.getD_cons_zero]
    omega
  · rw [p3, ← Nat.div_div_eq_div_mul, ← Nat.div_div_eq_div_mul, e1, e2, e3]
    simp only [List.getD_cons_succ, List.getD_cons_zero]
    omega

/-- Exchanging the halves of both 24-bit fields and the fields reverses the four rows. -/
theorem rows_swap (t s : Nat) (ht : t < 2 ^ 24) (hs : s < 2 ^ 24) (r : Nat) (hr : r < 4) :
    ((s % 4096 * 4096 + s / 4096) + 16777216 * (t % 4096 * 4096 + t / 4096)) / 4096 ^ r % 4096 =
      (t + 16777216 * s) / 4096 ^ (3 - r) % 4096 := by
  have hnew : (s % 4096 * 4096 + s / 4096) + 16777216 * (t % 4096 * 4096 + t / 4096) =
      s / 4096 + 4096 * (s % 4096 + 4096 * (t / 4096 + 4096 * (t % 4096))) := by omega
  have hold : t + 16777216 * s =
      t % 4096 + 4096 * (t / 4096 + 4096 * (s % 4096 + 4096 * (s / 4096))) := by omega
  have b1 : t % 4096 < 4096 := Nat.mod_lt _ (by norm_num)
  have b2 : t / 4096 < 4096 := by omega
  have b3 : s % 4096 < 4096 := Nat.mod_lt _ (by norm_num)
  have b4 : s / 4096 < 4096 := by omega
  rw [hnew, hold, row_digits _ _ _ _ b4 b3 b2 b1 r hr,
    row_digits _ _ _ _ b1 b2 b3 b4 (3 - r) (by omega)]
  interval_cases r <;> rfl

/-- Claim C37.  On a block of eight bytes `FlipBC4Block` leaves the bytes 0 and 1 as they
are, writes bytes, and the block it writes has as row `r` of its index field the row
`3 - r` of the index field of the input, for `r = 0 .. 3`. -/
theorem FlipBC4Block_rows (block : List Nat) (hlength : block.length = 8)
    (hbytes : ∀ b ∈ block, b < 256) :
    (FlipBC4Block block).length = 8 ∧
    (FlipBC4Block block)[0]? = block[0]? ∧ (FlipBC4Block block)[1]? = block[1]? ∧
    (∀ b ∈ FlipBC4Block block, b < 256) ∧
    ∀ r, r < 4 → indexRow (FlipBC4Block block) r = indexRow block (3 - r) := by
  obtain ⟨a0, a1, a2, a3, a4, a5, a6, a7, rfl⟩ := list_length8 block hlength
  have h0 : a0 < 256 := hbytes a0 (by simp)
  have h1 : a1 < 256 := hbytes a1 (by simp)
  have h2 : a2 < 256 := hbytes a2 (by simp)
  have h3 : a3 < 256 := hbytes a3 (by simp)
  have h4 : a4 < 256 := hbytes a4 (by simp)
  have h5 : a5 < 256 := hbytes a5 (by simp)
  have h6 : a6 < 256 := hbytes a6 (by simp)
  have h7 : a7 < 256 := hbytes a7 (by simp)
  rw [FlipBC4Block_explicit a0 a1 a2 a3 a4 a5 a6 a7 h2 h3 h4 h5 h6 h7]
  generalize ht : a2 + 256 * (a3 + 256 * a4) = t
  generalize hs : a5 + 256 * (a6 + 256 * a7) = s
  have ht24 : t < 2 ^ 24 := by omega
  have hs24 : s < 2 ^ 24 := by omega
  obtain ⟨hs', -⟩ := swap12_swap12 s hs24
  obtain ⟨ht', -⟩ := swap12_swap12 t ht24
  have hold : indexField [a0, a1, a2, a3, a4, a5, a6, a7] = t + 16777216 * s := by
    simp only [indexField, List.getD_cons_succ, List.getD_cons_zero]
    omega
  have hnew : indexField [a0, a1,
      (s % 4096 * 4096 + s / 4096) % 256, (s % 4096 * 4096 + s / 4096) / 256 % 256,
      (s % 4096 * 4096 + s / 4096) / 65536 % 256,
      (t % 4096 * 4096 + t / 4096) % 256, (t % 4096 * 4096 + t / 4096) / 256 % 256,
      (t % 4096 * 4096 + t / 4096) / 65536 % 256] =
      (s % 4096 * 4096 + s / 4096) + 16777216 * (t % 4096 * 4096 + t / 4096) := by
    simp only [indexField, List.getD_cons_succ, List.getD_cons_zero]
    have e1 := bytes_recombine _ hs'
    have e2 := bytes_recombine _ ht'
    omega
  refine ⟨by simp, by simp, by simp, ?_, ?_⟩
  · intro b hb
    simp only [List.mem_cons, List.mem_singleton, List.not_mem_nil, or_false] at hb
    rcases hb with rfl | rfl | rfl | rfl | rfl | rfl | rfl | rfl
    · exact h0
    · exact h1
    all_goals exact Nat.mod_lt _ (by norm_num)
  · intro r hr
    unfold indexRow
    rw [hold, hnew]
    exact rows_swap t s ht24 hs24 r hr

/-- Claim C37 at the block with the index bytes `0x01, 0x20, 0x03, 0x40, 0x05, 0x60`: the
rows `0x001, 0x032, 0x540, 0x600` come out in the order `0x600, 0x540, 0x032, 0x001`. -/
theorem FlipBC4Block_rows_witness :
    (List.range 4).map (indexRow [255, 0, 0x01, 0x20, 0x03, 0x40, 0x05, 0x60]) =
      [0x001, 0x032, 0x540, 0x600] ∧
    (List.range 4).map (indexRow (FlipBC4Block [255, 0, 0x01, 0x20, 0x03, 0x40, 0x05, 0x60])) =
      [0x600, 0x540, 0x032, 0x001] ∧
    ∀ r, r < 4 → indexRow (FlipBC4Block [255, 0, 0x01, 0x20, 0x03, 0x40, 0x05, 0x60]) r =
      indexRow [255, 0, 0x01, 0x20, 0x03, 0x40, 0x05, 0x60] (3 - r) :=
  ⟨by decide, by decide,
    (FlipBC4Block_rows [255, 0, 0x01, 0x20, 0x03, 0x40, 0x05, 0x60] (by decide)
      (by decide)).2.2.2.2⟩

end ReShade

namespace ReShade

/-! ## Screenshot: theorems -/

/-- A read behind a write. -/
theorem getD_set (l : List Nat) (i j v : Nat) (hi : i < l.length) :
    (l.set i v).getD j 0 = if j = i then v else l.getD j 0 := by
  simp only [List.getD_eq_getElem?_getD, List.getElem?_set]
  by_cases h : i = j
  · subst h
    simp [hi]
  · have h' : ¬ j = i := fun e => h e.symm
    simp [h, h']

/-- A read behind an exchange of two bytes. -/
theorem getD_swapBytes (l : List Nat) (i j n : Nat) (hi : i < l.length) (hj : j < l.length) :
    (swapBytes l i j).getD n 0 =
      if n = j then l.getD i 0 else if n = i then l.getD j 0 else l.getD n 0 := by
  unfold swapBytes
  rw [getD_set _ _ _ _ (by rw [List.length_set]; exact hj), getD_set _ _ _ _ hi]

/-- The exchange of two bytes keeps the length of the buffer. -/
theorem length_swapBytes (l : List Nat) (i j : Nat) : (swapBytes l i j).length = l.length := by
  simp [swapBytes]

/-- One round of the inner loop exchanges the colour bytes of the two pixels and sets
their alpha bytes. -/
theorem screenshotPixel_spec (i1 i2 x : Nat) (buffer : List Nat)
    (hrows : i1 = i2 ∨ i1 + x + 4 ≤ i2) (hlen : i2 + x + 4 ≤ buffer.length)
    (hfit : buffer.length ≤ 4294967296) (hx : x % 4 = 0) :
    ∃ result, screenshotPixel i1 i2 x buffer = some result ∧
      result.length = buffer.length ∧
      ∀ n, result.getD n 0 =
        if i1 + x ≤ n ∧ n < i1 + x + 4 then
          (if (n - i1) % 4 = 3 then 255 else buffer.getD (n - i1 + i2) 0)
        else if i2 + x ≤ n ∧ n < i2 + x + 4 then
          (if (n - i2) % 4 = 3 then 255 else buffer.getD (n - i2 + i1) 0)
        else buffer.getD n 0 := by
  have h1 : i1 ≤ i2 := by omega
  have m1 : ∀ k, k < 4 → (i1 + x + k) % 4294967296 = i1 + x + k := fun k hk =>
    Nat.mod_eq_of_lt (by omega)
  have m2 : ∀ k, k < 4 → (i2 + x + k) % 4294967296 = i2 + x + k := fun k hk =>
    Nat.mod_eq_of_lt (by omega)
  have hguard : ∀ k < 4, (i1 + x + k) % 4294967296 < buffer.length ∧
      (i2 + x + k) % 4294967296 < buffer.length := by
    intro k hk
    rw [m1 k hk, m2 k hk]
    omega
  unfold screenshotPixel
  rw [if_pos hguard]
  simp only [m1 0 (by omega), m1 1 (by omega), m1 2 (by omega), m1 3 (by omega),
    m2 0 (by omega), m2 1 (by omega), m2 2 (by omega), m2 3 (by omega)]
  have e1 : ∀ n, (buffer.set (i1 + x + 3) 255).getD n 0 =
      if n = i1 + x + 3 then 255 else buffer.getD n 0 :=
    fun n => getD_set _ _ _ _ (by omega)
  generalize hb1 : buffer.set (i1 + x + 3) 255 = b1 at e1 ⊢
  have l1 : b1.length = buffer.length := by rw [← hb1, List.length_set]
  have e2 : ∀ n, (b1.set (i2 + x + 3) 255).getD n 0 =
      if n = i2 + x + 3 then 255 else b1.getD n 0 :=
    fun n => getD_set _ _ _ _ (by omega)
  generalize hb2 : b1.set (i2 + x + 3) 255 = b2 at e2 ⊢
  have l2 : b2.length = buffer.length := by rw [← hb2, List.length_set, l1]
  have e3 := fun n => getD_swapBytes b2 (i1 + x + 0) (i2 + x + 0) n (by omega) (by omega)
  generalize hb3 : swapBytes b2 (i1 + x + 0) (i2 + x + 0) = b3 at e3 ⊢
  have l3 : b3.length = buffer.length := by rw [← hb3, length_swapBytes, l2]
  have e4 := fun n => getD_swapBytes b3 (i1 + x + 1) (i2 + x + 1) n (by omega) (by omega)
  generalize hb4 : swapBytes b3 (i1 + x + 1) (i2 + x + 1) = b4 at e4 ⊢
  have l4 : b4.length = buffer.length := by rw [← hb4, length_swapBytes, l3]
  have e5 := fun n => getD_swapBytes b4 (i1 + x + 2) (i2 + x + 2) n (by omega) (by omega)
  refine ⟨_, rfl, by rw [length_swapBytes, l4], ?_⟩
  intro n
  have hn : n = i1 + x + 0 ∨ n = i1 + x + 1 ∨ n = i1 + x + 2 ∨ n = i1 + x + 3 ∨
      n = i2 + x + 0 ∨ n = i2 + x + 1 ∨ n = i2 + x + 2 ∨ n = i2 + x + 3 ∨
      ((n < i1 + x ∨ i1 + x + 4 ≤ n) ∧ (n < i2 + x ∨ i2 + x + 4 ≤ n)) := by omega
  rcases hrows with hrows | hrows <;> rcases hn with h | h | h | h | h | h | h | h | h
  all_goals
    rw [e5]
    try simp (disch := omega) only [if_pos, if_neg]
    try rw [e4]
    try simp (disch := omega) only [if_pos, if_neg]
    try rw [e3]
    try simp (disch := omega) only [if_pos, if_neg]
    try rw [e2]
    try simp (disch := omega) only [if_pos, if_neg]
    try rw [e1]
    try simp (disch := omega) only [if_pos, if_neg]
    try simp only [ite_self]
    try (congr 1; omega)

/-- The inner loop exchanges the colour bytes of the rest of the two rows and sets the
alpha bytes there. -/
theorem screenshotLine_spec (pitch i1 i2 : Nat) (hpitch : pitch % 4 = 0)
    (hsmall : pitch < 4294967296) (hrows : i1 = i2 ∨ i1 + pitch ≤ i2) :
    ∀ (fuel x : Nat) (buffer : List Nat), x % 4 = 0 → x ≤ pitch → pitch < 4 * fuel + x →
      i2 + pitch ≤ buffer.length → buffer.length ≤ 4294967296 →
      ∃ result, screenshotLine pitch i1 i2 fuel x buffer = some result ∧
        result.length = buffer.length ∧
        ∀ n, result.getD n 0 =
          if i1 + x ≤ n ∧ n < i1 + pitch then
            (if (n - i1) % 4 = 3 then 255 else buffer.getD (n - i1 + i2) 0)
          else if i2 + x ≤ n ∧ n < i2 + pitch then
            (if (n - i2) % 4 = 3 then 255 else buffer.getD (n - i2 + i1) 0)
          else buffer.getD n 0 := by
  intro fuel
  induction fuel with
  | zero => intro x buffer _ hx hfuel; omega
  | succ fuel ih =>
    intro x buffer hx4 hx hfuel hlen hfit
    unfold screenshotLine
    by_cases hlt : x < pitch
    · rw [if_pos hlt]
      obtain ⟨b1, hb1, l1, e1⟩ := screenshotPixel_spec i1 i2 x buffer (by omega) (by omega)
        hfit hx4
      rw [hb1, Option.some_bind, Nat.mod_eq_of_lt (by omega)]
      obtain ⟨result, hres, lres, eres⟩ := ih (x + 4) b1 (by omega) (by omega) (by omega)
        (by omega) (by omega)
      refine ⟨result, hres, by rw [lres, l1], ?_⟩
      intro n
      rw [eres n]
      by_cases c1 : i1 + (x + 4) ≤ n ∧ n < i1 + pitch
      · simp (disch := omega) only [e1, if_pos, if_neg]
      · by_cases c2 : i2 + (x + 4) ≤ n ∧ n < i2 + pitch
        · simp (disch := omega) only [e1, if_pos, if_neg]
        · simp (disch := omega) only [e1, if_pos, if_neg]
          split_ifs <;> first | rfl | omega
    · rw [if_neg hlt]
      refine ⟨buffer, rfl, rfl, ?_⟩
      intro n
      simp (disch := omega) only [if_neg]

/-- An index of row `r` lies in row `y` only if `r = y`. -/
theorem row_segment (r y o pitch : Nat) (ho : o < pitch) :
    (y * pitch ≤ r * pitch + o ∧ r * pitch + o < y * pitch + pitch) ↔ r = y := by
  constructor
  · intro h
    by_contra hne
    rcases Nat.lt_or_gt_of_ne hne with hlt | hgt
    · have := Nat.mul_le_mul_right pitch (Nat.succ_le_of_lt hlt)
      rw [Nat.succ_mul] at this
      omega
    · have := Nat.mul_le_mul_right pitch (Nat.succ_le_of_lt hgt)
      rw [Nat.succ_mul] at this
      omega
  · intro h
    subst h
    omega

/-- The outer loop leaves the rows in the reverse order with every alpha byte set, when it
starts from a buffer in which the first and the last `y` rows are so already and the rows
between them are as read back. -/
theorem screenshotLines_spec (_height pitch : Nat) (pixels : List Nat)
    (hpitch : pitch % 4 = 0) (hpos : 0 < pitch)
    (hlen : pixels.length = _height * pitch) (hfit : _height * pitch < 4294967296) :
    ∀ (fuel y : Nat) (buffer : List Nat), y * 2 ≤ _height + 1 →
      _height + 1 < 2 * fuel + y * 2 → buffer.length = pixels.length →
      (∀ r o, r < _height → o < pitch →
        buffer.getD (r * pitch + o) 0 =
          if r < y ∨ _height ≤ r + y then
            (if o % 4 = 3 then 255 else pixels.getD ((_height - 1 - r) * pitch + o) 0)
          else pixels.getD (r * pitch + o) 0) →
      ∃ result, screenshotLines _height pitch fuel y buffer = some result ∧
        result.length = pixels.length ∧
        ∀ r o, r < _height → o < pitch →
          result.getD (r * pitch + o) 0 =
            if o % 4 = 3 then 255 else pixels.getD ((_height - 1 - r) * pitch + o) 0 := by
  have hheight : _height * 4 ≤ _height * pitch := Nat.mul_le_mul_left _ (by omega)
  intro fuel
  induction fuel with
  | zero => intro y buffer hy hfuel; omega
  | succ fuel ih =>
    intro y buffer hy hfuel hbuffer hinv
    unfold screenshotLines
    by_cases hlt : y * 2 < _height
    · have hy1 : y * pitch ≤ _height * pitch := Nat.mul_le_mul_right pitch (by omega)
      have hy2 : (_height - 1 - y) * pitch + pitch ≤ _height * pitch := by
        have := Nat.mul_le_mul_right pitch (show _height - 1 - y + 1 ≤ _height by omega)
        rw [Nat.succ_mul] at this
        exact this
      have hrows : y * pitch = (_height - 1 - y) * pitch ∨
          y * pitch + pitch ≤ (_height - 1 - y) * pitch := by
        by_cases hmid : y = _height - 1 - y
        · left
          rw [← hmid]
        · right
          have := Nat.mul_le_mul_right pitch (show y + 1 ≤ _height - 1 - y by omega)
          rw [Nat.succ_mul] at this
          exact this
      have e0 : (y * 2) % 4294967296 = y * 2 := Nat.mod_eq_of_lt (by omega)
      have e1 : (y * pitch) % 4294967296 = y * pitch := Nat.mod_eq_of_lt (by omega)
      have e2 : (_height + 4294967296 - 1 - y) % 4294967296 = _height - 1 - y := by omega
      have e3 : ((_height - 1 - y) * pitch) % 4294967296 = (_height - 1 - y) * pitch :=
        Nat.mod_eq_of_lt (by omega)
      have e4 : (y + 1) % 4294967296 = y + 1 := Nat.mod_eq_of_lt (by omega)
      simp only [e0, e1, e2, e3, e4, if_pos hlt]
      obtain ⟨b1, hb1, l1, g1⟩ := screenshotLine_spec pitch (y * pitch)
        ((_height - 1 - y) * pitch) hpitch (by omega) hrows (pitch + 1) 0 buffer (by omega)
        (by omega) (by omega) (by omega) (by omega)
      rw [hb1, Option.some_bind]
      apply ih (y + 1) b1 (by omega) (by omega) (by rw [l1, hbuffer])
      intro r o hr ho
      rw [g1]
      have s1 := row_segment r y o pitch ho
      have s2 := row_segment r (_height - 1 - y) o pitch ho
      by_cases r1 : r = y
      · subst r1
        have a1 : r * pitch + o - r * pitch = o := by omega
        have c1 : r * pitch + 0 ≤ r * pitch + o ∧ r * pitch + o < r * pitch + pitch := by omega
        rw [if_pos c1, a1, Nat.add_comm o, hinv (_height - 1 - r) o (by omega) ho]
        have c2 : ¬ (_height - 1 - r < r ∨ _height ≤ _height - 1 - r + r) := by omega
        have c3 : r < r + 1 ∨ _height ≤ r + (r + 1) := by omega
        rw [if_neg c2, if_pos c3]
      · by_cases r2 : r = _height - 1 - y
        · subst r2
          have a0 : _height - 1 - (_height - 1 - y) = y := by omega
          have a1 : (_height - 1 - y) * pitch + o - (_height - 1 - y) * pitch = o := by omega
          have c0 : ¬ (y * pitch + 0 ≤ (_height - 1 - y) * pitch + o ∧
              (_height - 1 - y) * pitch + o < y * pitch + pitch) := by
            intro h
            exact r1 (s1.mp (by omega))
          have c1 : (_height - 1 - y) * pitch + 0 ≤ (_height - 1 - y) * pitch + o ∧
              (_height - 1 - y) * pitch + o < (_height - 1 - y) * pitch + pitch := by omega
          rw [if_neg c0, if_pos c1, a1, Nat.add_comm o, hinv y o (by omega) ho]
          have c2 : ¬ (y < y ∨ _height ≤ y + y) := by omega
          have c3 : _height - 1 - y < y + 1 ∨ _height ≤ _height - 1 - y + (y + 1) := by omega
          rw [if_neg c2, if_pos c3, a0]
        · have c0 : ¬ (y * pitch + 0 ≤ r * pitch + o ∧ r * pitch + o < y * pitch + pitch) := by
            intro h
            exact r1 (s1.mp (by omega))
          have c1 : ¬ ((_height - 1 - y) * pitch + 0 ≤ r * pitch + o ∧
              r * pitch + o < (_height - 1 - y) * pitch + pitch) := by
            intro h
            exact r2 (s2.mp (by omega))
          rw [if_neg c0, if_neg c1, hinv r o hr ho]
          by_cases c : r < y ∨ _height ≤ r + y
          · have c' : r < y + 1 ∨ _height ≤ r + (y + 1) := by omega
            rw [if_pos c, if_pos c']
          · have c' : ¬ (r < y + 1 ∨ _height ≤ r + (y + 1)) := by omega
            rw [if_neg c, if_neg c']
    · have e0 : ¬ (y * 2) % 4294967296 < _height := by omega
      rw [if_neg e0]
      refine ⟨buffer, rfl, hbuffer, ?_⟩
      intro r o hr ho
      have c : r < y ∨ _height ≤ r + y := by omega
      rw [hinv r o hr ho, if_pos c]

/-- Claim C32.  For a runtime of the size `_width` x `_height` with `_width >= 1` and
`_height >= 1` (the image of `4 * _width * _height` bytes within the range of `unsigned
int`) and every read-back buffer `pixels`, `Screenshot` returns a buffer of the same
length in which row `r` has the R, G, B bytes of the read-back row `_height - 1 - r`
and every alpha byte is 255, in every row. -/
theorem Screenshot_flips (_width _height : Nat) (pixels : List Nat)
    (hwidth : 1 ≤ _width) (hheight : 1 ≤ _height)
    (hlen : pixels.length = 4 * _width * _height)
    (hfit : 4 * _width * _height < 4294967296) :
    ∃ buffer, Screenshot _width _height pixels = some buffer ∧
      buffer.length = pixels.length ∧
      ∀ r c, r < _height → c < _width →
        (∀ k, k < 3 → buffer[(r * _width + c) * 4 + k]? =
          pixels[((_height - 1 - r) * _width + c) * 4 + k]?) ∧
        buffer[(r * _width + c) * 4 + 3]? = some 255 := by
  have hprod : _height * (_width * 4) = 4 * _width * _height := by ring
  have hle : _width * 4 ≤ _height * (_width * 4) := Nat.le_mul_of_pos_left _ (by omega)
  have hpitch : (_width * 4) % 4294967296 = _width * 4 := Nat.mod_eq_of_lt (by omega)
  obtain ⟨buffer, hbuffer, lbuffer, g⟩ := screenshotLines_spec _height (_width * 4) pixels
    (by omega) (by omega) (by omega) (by omega) (_height + 1) 0 pixels (by omega) (by omega)
    rfl (by
      intro r o hr ho
      have c : ¬ (r < 0 ∨ _height ≤ r + 0) := by omega
      rw [if_neg c])
  refine ⟨buffer, ?_, lbuffer, ?_⟩
  · unfold Screenshot
    rw [hpitch]
    exact hbuffer
  · intro r c hr hc
    have index : ∀ (q k : Nat), (q * _width + c) * 4 + k = q * (_width * 4) + (c * 4 + k) := by
      intro q k
      ring
    have inside : ∀ (q k : Nat), q < _height → k < 4 →
        q * (_width * 4) + (c * 4 + k) < 4 * _width * _height := by
      intro q k hq hk
      have := Nat.mul_le_mul_right (_width * 4) (Nat.succ_le_of_lt hq)
      rw [Nat.succ_mul] at this
      omega
    constructor
    · intro k hk
      have h1 := inside r k hr (by omega)
      have h2 := inside (_height - 1 - r) k (by omega) (by omega)
      have := g r (c * 4 + k) hr (by omega)
      have alpha : ¬ (c * 4 + k) % 4 = 3 := by omega
      rw [if_neg alpha] at this
      rw [index, index, List.getElem?_eq_getElem (by omega), List.getElem?_eq_getElem (by omega)]
      rw [List.getD_eq_getElem _ _ (by omega)] at this
      rw [this, List.getD_eq_getElem _ _ (by omega)]
    · have h1 := inside r 3 hr (by omega)
      have := g r (c * 4 + 3) hr (by omega)
      have alpha : (c * 4 + 3) % 4 = 3 := by omega
      rw [if_pos alpha] at this
      rw [index, List.getElem?_eq_getElem (by omega)]
      rw [List.getD_eq_getElem _ _ (by omega)] at this
      rw [this]

/-- Claim C32 on an image of two columns and three rows: the middle row stays in place
and its alpha bytes are set. -/
theorem Screenshot_flips_witness :
    Screenshot 2 3 (List.range 24) =
      some [16, 17, 18, 255, 20, 21, 22, 255, 8, 9, 10, 255, 12, 13, 14, 255,
        0, 1, 2, 255, 4, 5, 6, 255] ∧
    ∃ buffer, Screenshot 2 3 (List.range 24) = some buffer ∧
      buffer.length = (List.range 24).length ∧
      ∀ r c, r < 3 → c < 2 →
        (∀ k, k < 3 → buffer[(r * 2 + c) * 4 + k]? =
          (List.range 24)[((3 - 1 - r) * 2 + c) * 4 + k]?) ∧
        buffer[(r * 2 + c) * 4 + 3]? = some 255 :=
  ⟨by decide, Screenshot_flips 2 3 (List.range 24) (by decide) (by decide) (by decide)
    (by decide)⟩

end ReShade

namespace ReShade

/-! ## Collisions of lowered names: theorems -/

/-- Claim C35, counterexample.  Each of the three escapes maps two different identifiers
to one: the reserved word `input` and the name `_input`, the names `a__b` and `a_USb`,
and the name `c` of the namespace `A::B` and the global name `A_NSBc`; a namespace is
put in front of the name without a separator, so the name `b` of the namespace `A` and
the global name `Ab` collide as well. -/
theorem FixName_collisions :
    FixName "input" "" = "_input" ∧ FixName "_input" "" = "_input" ∧
    FixName "a__b" "" = "a_USb" ∧ FixName "a_USb" "" = "a_USb" ∧
    FixName "c" "A::B" = "A_NSBc" ∧ FixName "A_NSBc" "" = "A_NSBc" ∧
    FixName "b" "A" = "Ab" ∧ FixName "Ab" "" = "Ab" := by
  decide

/-- The replacement leaves a first character other than an underscore in place. -/
theorem replaceAllChars_cons (c : Char) (l : List Char) (hc : c ≠ '_') (rep : List Char) :
    replaceAllChars '_' '_' rep (c :: l) = c :: replaceAllChars '_' '_' rep l := by
  cases l with
  | nil => rfl
  | cons d rest =>
    rw [replaceAllChars, if_neg (fun h => hc h.1)]

/-- The replacement of a text is empty only for the empty text. -/
theorem replaceAllChars_eq_nil (l : List Char) (h : replaceAllChars '_' '_' "_US".data l = []) :
    l = [] := by
  cases l with
  | nil => rfl
  | cons c rest =>
    cases rest with
    | nil => simp [replaceAllChars] at h
    | cons d rest =>
      rw [replaceAllChars] at h
      split_ifs at h
      exact absurd h (by simp [show "_US".data = ['_', 'U', 'S'] from rfl])

/-- A first character of the replacement other than an underscore is the first character
of the text. -/
theorem replaceAllChars_head (c : Char) (l t : List Char) (hc : c ≠ '_')
    (h : replaceAllChars '_' '_' "_US".data l = c :: t) :
    ∃ rest, l = c :: rest ∧ replaceAllChars '_' '_' "_US".data rest = t := by
  cases l with
  | nil => simp [replaceAllChars] at h
  | cons d rest =>
    by_cases hd : d = '_'
    · subst hd
      cases rest with
      | nil =>
        simp only [replaceAllChars, List.cons.injEq] at h
        exact absurd h.1.symm hc
      | cons e rest =>
        rw [replaceAllChars] at h
        split_ifs at h
        · simp only [show "_US".data = ['_', 'U', 'S'] from rfl, List.cons_append,
            List.cons.injEq] at h
          exact absurd h.1.symm hc
        · simp only [List.cons.injEq] at h
          exact absurd h.1.symm hc
    · rw [replaceAllChars_cons d rest hd] at h
      simp only [List.cons.injEq] at h
      exact ⟨rest, by rw [h.1], h.2⟩

/-- A text that starts with an underscore, `U` and the replacement of a text that starts
with `S` comes from a text with `_US` in it. -/
theorem replaceAllChars_escape (y : Char) (rest t : List Char) (hy : y ≠ '_')
    (h : replaceAllChars '_' '_' "_US".data (y :: rest) =
      'U' :: 'S' :: t) :
    ∃ tail, y :: rest = 'U' :: 'S' :: tail ∧ replaceAllChars '_' '_' "_US".data tail = t := by
  rw [replaceAllChars_cons y rest hy] at h
  simp only [List.cons.injEq] at h
  obtain ⟨hy', h⟩ := h
  obtain ⟨tail, htail, ht⟩ := replaceAllChars_head 'S' rest t (by decide) h
  exact ⟨tail, by rw [hy', htail], ht⟩

/-- The replacement of `__` by `_US` is injective on the texts without `_US`. -/
theorem replaceAllChars_injective :
    ∀ (n : Nat) (l1 l2 : List Char), l1.length ≤ n →
      ¬ "_US".data <:+: l1 → ¬ "_US".data <:+: l2 →
      replaceAllChars '_' '_' "_US".data l1 = replaceAllChars '_' '_' "_US".data l2 →
      l1 = l2 := by
  have hUS : "_US".data = ['_', 'U', 'S'] := rfl
  have tail1 : ∀ (c : Char) (l : List Char), ¬ "_US".data <:+: c :: l → ¬ "_US".data <:+: l :=
    fun c l h h' => h (List.infix_cons h')
  have start : ∀ l : List Char, "_US".data <:+: '_' :: 'U' :: 'S' :: l := by
    intro l
    rw [hUS]
    exact (List.prefix_append ['_', 'U', 'S'] l).isInfix
  intro n
  induction n with
  | zero =>
    intro l1 l2 hlen _ _ h
    have h1 : l1 = [] := List.length_eq_zero.mp (by omega)
    subst h1
    exact (replaceAllChars_eq_nil l2 h.symm).symm
  | succ n ih =>
    intro l1 l2 hlen hn1 hn2 h
    cases l1 with
    | nil => exact (replaceAllChars_eq_nil l2 h.symm).symm
    | cons c rest1 =>
      cases l2 with
      | nil => exact replaceAllChars_eq_nil _ h
      | cons x rest2 =>
        simp only [List.length_cons] at hlen
        by_cases hc : c = '_'
        · subst hc
          by_cases hx : x = '_'
          · subst hx
            cases rest1 with
            | nil =>
              cases rest2 with
              | nil => rfl
              | cons y rest2 =>
                rw [replaceAllChars, replaceAllChars] at h
                split_ifs at h with hy
                · simp [hUS] at h
                · simp only [List.cons.injEq, true_and] at h
                  exact absurd (replaceAllChars_eq_nil _ h.symm) (by simp)
            | cons d rest1 =>
              cases rest2 with
              | nil =>
                rw [replaceAllChars, replaceAllChars] at h
                split_ifs at h with hd
                · simp [hUS] at h
                · simp only [List.cons.injEq, true_and] at h
                  exact absurd (replaceAllChars_eq_nil _ h) (by simp)
              | cons y rest2 =>
                simp only [List.length_cons] at hlen
                rw [replaceAllChars, replaceAllChars] at h
                by_cases hd : d = '_'
                · subst hd
                  by_cases hy : y = '_'
                  · subst hy
                    rw [if_pos ⟨rfl, rfl⟩, if_pos ⟨rfl, rfl⟩] at h
                    have h' := List.append_cancel_left h
                    rw [ih rest1 rest2 (by omega) (tail1 _ _ (tail1 _ _ hn1))
                      (tail1 _ _ (tail1 _ _ hn2)) h']
                  · rw [if_pos ⟨rfl, rfl⟩, if_neg (fun e => hy e.2)] at h
                    simp only [hUS, List.cons_append, List.nil_append, List.cons.injEq,
                      true_and] at h
                    obtain ⟨tail, htail, -⟩ := replaceAllChars_escape y rest2 _ hy h.symm
                    rw [htail] at hn2
                    exact absurd (start tail) hn2
                · by_cases hy : y = '_'
                  · subst hy
                    rw [if_neg (fun e => hd e.2), if_pos ⟨rfl, rfl⟩] at h
                    simp only [hUS, List.cons_append, List.nil_append, List.cons.injEq,
                      true_and] at h
                    obtain ⟨tail, htail, -⟩ := replaceAllChars_escape d rest1 _ hd h
                    rw [htail] at hn1
                    exact absurd (start tail) hn1
                  · rw [if_neg (fun e => hd e.2), if_neg (fun e => hy e.2)] at h
                    simp only [List.cons.injEq, true_and] at h
                    rw [ih (d :: rest1) (y :: rest2) (by simp only [List.length_cons]; omega)
                      (tail1 _ _ hn1) (tail1 _ _ hn2) h]
          · rw [replaceAllChars_cons x rest2 hx] at h
            cases rest1 with
            | nil =>
              simp only [replaceAllChars, List.cons.injEq] at h
              exact absurd h.1.symm hx
            | cons d rest1 =>
              rw [replaceAllChars] at h
              split_ifs at h
              · simp only [hUS, List.cons_append, List.cons.injEq] at h
                exact absurd h.1.symm hx
              · simp only [List.cons.injEq] at h
                exact absurd h.1.symm hx
        · rw [replaceAllChars_cons c rest1 hc] at h
          by_cases hx : x = '_'
          · subst hx
            cases rest2 with
            | nil =>
              simp only [replaceAllChars, List.cons.injEq] at h
              exact absurd h.1 hc
            | cons y rest2 =>
              rw [replaceAllChars] at h
              split_ifs at h
              · simp only [hUS, List.cons_append, List.cons.injEq] at h
                exact absurd h.1 hc
              · simp only [List.cons.injEq] at h
                exact absurd h.1 hc
          · rw [replaceAllChars_cons x rest2 hx] at h
            simp only [List.cons.injEq] at h
            rw [h.1, ih rest1 rest2 (by omega) (tail1 _ _ hn1) (tail1 _ _ hn2) h.2]

/-- The replacement starts with an underscore only if the text does. -/
theorem replaceAllChars_head_underscore (l : List Char)
    (h : (replaceAllChars '_' '_' "_US".data l).head? = some '_') : l.head? = some '_' := by
  cases l with
  | nil => simp [replaceAllChars] at h
  | cons c rest =>
    by_cases hc : c = '_'
    · rw [hc]
      rfl
    · rw [replaceAllChars_cons c rest hc] at h
      exact h

/-- Claim C35, amended.  Within one namespace, `FixName` maps two different names to two
different identifiers when neither name starts with an underscore or contains the text
`_US`. -/
theorem FixName_injective (ns name1 name2 : String)
    (h1 : name1.data.head? ≠ some '_' ∧ ¬ "_US".data <:+: name1.data)
    (h2 : name2.data.head? ≠ some '_' ∧ ¬ "_US".data <:+: name2.data)
    (hne : name1 ≠ name2) : FixName name1 ns ≠ FixName name2 ns := by
  intro h
  apply hne
  have hdata := congrArg String.data h
  unfold FixName replace_all_copy at hdata
  have key : ∀ (p1 p2 : Bool),
      (String.mk (replaceAllChars ':' ':' "_NS".data ns.data) ++ (if p1 then "_" else "") ++
        String.mk (replaceAllChars '_' '_' "_US".data name1.data)).data =
      (String.mk (replaceAllChars ':' ':' "_NS".data ns.data) ++ (if p2 then "_" else "") ++
        String.mk (replaceAllChars '_' '_' "_US".data name2.data)).data → name1 = name2 := by
    intro p1 p2 e
    simp only [String.data_append, List.append_assoc] at e
    have e' := List.append_cancel_left e
    have inj := replaceAllChars_injective name1.data.length name1.data name2.data
      (Nat.le_refl _) h1.2 h2.2
    cases p1 <;> cases p2
    · exact String.ext (inj (by simpa using e'))
    · have : (replaceAllChars '_' '_' "_US".data name1.data).head? = some '_' := by
        have e2 : replaceAllChars '_' '_' ['_', 'U', 'S'] name1.data =
            '_' :: replaceAllChars '_' '_' ['_', 'U', 'S'] name2.data := by simpa using e'
        rw [show "_US".data = ['_', 'U', 'S'] from rfl, e2]
        rfl
      exact absurd (replaceAllChars_head_underscore _ this) h1.1
    · have : (replaceAllChars '_' '_' "_US".data name2.data).head? = some '_' := by
        have e2 : '_' :: replaceAllChars '_' '_' ['_', 'U', 'S'] name1.data =
            replaceAllChars '_' '_' ['_', 'U', 'S'] name2.data := by simpa using e'
        rw [show "_US".data = ['_', 'U', 'S'] from rfl, ← e2]
        rfl
      exact absurd (replaceAllChars_head_underscore _ this) h2.1
    · exact String.ext (inj (by simpa using e'))
  refine key ("gl_".data.isPrefixOf name1.data || decide (name1 ∈ denyList))
    ("gl_".data.isPrefixOf name2.data || decide (name2 ∈ denyList)) ?_
  convert hdata using 2 <;> split_ifs <;> simp_all

/-- The amended claim C35 on the names `sin` and `sin2` of the namespace `A::B`. -/
theorem FixName_injective_witness :
    FixName "sin" "A::B" ≠ FixName "sin2" "A::B" :=
  FixName_injective "A::B" "sin" "sin2" (by decide) (by decide) (by decide)

end ReShade

namespace ReShade

/-! ## Function dependencies: theorems -/

/-- A lookup in a map with one more entry at the front. -/
theorem functionsAt_cons (it : Nat × Function) (rest : List (Nat × Function)) (id : Nat) :
    functionsAt (it :: rest) id = if it.1 = id then some it.2 else functionsAt rest id := by
  unfold functionsAt
  by_cases h : it.1 = id
  · rw [List.find?_cons_of_pos _ (by simpa using h), if_pos h]
    rfl
  · rw [List.find?_cons_of_neg _ (by simpa using h), if_neg h]

/-- A lookup behind the insertion of a new entry at the end. -/
theorem functionsAt_append (functions : List (Nat × Function)) (id id' : Nat)
    (record : Function) :
    functionsAt (functions ++ [(id, record)]) id' =
      match functionsAt functions id' with
      | some found => some found
      | none => if id' = id then some record else none := by
  induction functions with
  | nil =>
    rw [List.nil_append, functionsAt_cons]
    by_cases h : id = id'
    · subst h
      simp [functionsAt]
    · have h' : ¬ id' = id := fun e => h e.symm
      simp [functionsAt, h, h']
  | cons it rest ih =>
    rw [List.cons_append, functionsAt_cons, functionsAt_cons, ih]
    by_cases h : it.1 = id'
    · simp [h]
    · simp [h]

/-- A lookup behind an assignment through a reference. -/
theorem functionsAt_set (functions : List (Nat × Function)) (id id' : Nat)
    (record : Function) :
    functionsAt (functionsSet functions id record) id' =
      if id' = id then (functionsAt functions id).map (fun _ => record)
      else functionsAt functions id' := by
  induction functions with
  | nil =>
    simp [functionsSet, functionsAt]
  | cons it rest ih =>
    have step : functionsSet (it :: rest) id record =
        (if it.1 = id then (it.1, record) else it) :: functionsSet rest id record := rfl
    rw [step, functionsAt_cons, ih, functionsAt_cons, functionsAt_cons]
    by_cases h1 : it.1 = id
    · by_cases h2 : id' = id
      · subst h2
        simp [h1]
      · have h3 : ¬ it.1 = id' := fun h => h2 (h ▸ h1 ▸ rfl)
        simp [h1, h2, h3, h1 ▸ h3]
    · by_cases h2 : id' = id
      · subst h2
        simp [h1]
      · simp [h1, h2]

/-- The members of a vector after a `push_back` of a new dependency. -/
theorem addDependency_mem (l : List Nat) (x y : Nat) :
    y ∈ addDependency l x ↔ y ∈ l ∨ y = x := by
  unfold addDependency
  split_ifs with h
  · constructor
    · exact Or.inl
    · rintro (h' | rfl)
      · exact h'
      · exact h
  · simp

/-- A vector without duplicates stays so. -/
theorem addDependency_nodup (l : List Nat) (x : Nat) (h : l.Nodup) :
    (addDependency l x).Nodup := by
  unfold addDependency
  split_ifs with hx
  · exact h
  · exact List.Nodup.append h (List.nodup_singleton x) (by simpa using hx)

/-- The members of a vector after the merge of a list of dependencies. -/
theorem foldl_addDependency_mem (C : List Nat) :
    ∀ (D : List Nat) (y : Nat), y ∈ C.foldl addDependency D ↔ y ∈ D ∨ y ∈ C := by
  induction C with
  | nil => intro D y; simp
  | cons x rest ih =>
    intro D y
    rw [List.foldl_cons, ih, addDependency_mem]
    simp only [List.mem_cons]
    tauto

/-- The merge of a list of dependencies keeps a vector without duplicates so. -/
theorem foldl_addDependency_nodup (C : List Nat) :
    ∀ (D : List Nat), D.Nodup → (C.foldl addDependency D).Nodup := by
  induction C with
  | nil => intro D h; exact h
  | cons x rest ih =>
    intro D h
    rw [List.foldl_cons]
    exact ih _ (addDependency_nodup D x h)

/-- The empty list has every callee first. -/
theorem calleesFirst_nil (ast : List FunctionDeclaration) : CalleesFirst ast [] := by
  intro before x after h
  exact absurd h (by simp)

/-- A list with one more entry at its end has every callee first if the list has, and
the callees of the new entry are in the list. -/
theorem calleesFirst_concat (ast : List FunctionDeclaration) (l : List Nat) (x : Nat) :
    CalleesFirst ast (l ++ [x]) ↔ CalleesFirst ast l ∧ ∀ e, CallsIn ast x e → e ∈ l := by
  constructor
  · intro h
    constructor
    · intro before y after hl e he
      exact h before y (after ++ [x]) (by rw [hl]; simp) e he
    · intro e he
      exact h l x [] rfl e he
  · rintro ⟨h1, h2⟩ before y after hl e he
    rcases List.eq_nil_or_concat after with rfl | ⟨front, z, rfl⟩
    · have := List.append_inj' hl rfl
      obtain ⟨e1, e2⟩ := this
      simp only [List.cons.injEq, and_true] at e2
      subst e1
      subst e2
      exact h2 e he
    · rw [List.concat_eq_append, ← List.cons_append, ← List.append_assoc] at hl
      have := (List.append_inj' hl rfl).1
      exact h1 before y front this e he

/-- A `push_back` of an entry whose callees are in the vector keeps every callee first. -/
theorem addDependency_calleesFirst (ast : List FunctionDeclaration) (l : List Nat) (x : Nat)
    (h : CalleesFirst ast l) (hx : ∀ e, CallsIn ast x e → e ∈ l) :
    CalleesFirst ast (addDependency l x) := by
  unfold addDependency
  split_ifs
  · exact h
  · exact (calleesFirst_concat ast l x).mpr ⟨h, hx⟩

/-- The merge of a list that has every callee first keeps every callee first. -/
theorem foldl_addDependency_calleesFirst (ast : List FunctionDeclaration) (C : List Nat) :
    CalleesFirst ast C → ∀ (D : List Nat), CalleesFirst ast D →
      CalleesFirst ast (C.foldl addDependency D) := by
  induction C using List.reverseRecOn with
  | nil => intro _ D h; exact h
  | append_singleton front x ih =>
    intro hC D hD
    obtain ⟨h1, h2⟩ := (calleesFirst_concat ast front x).mp hC
    rw [List.foldl_append, List.foldl_cons, List.foldl_nil]
    refine addDependency_calleesFirst ast _ x (ih h1 D hD) ?_
    intro e he
    exact (foldl_addDependency_mem front D e).mpr (Or.inr (h2 e he))

/-- One call: the end of `Visit(Call)` merges what is recorded for the callee. -/
theorem mergeDependencies_spec (ast : List FunctionDeclaration)
    (functions : List (Nat × Function)) (current callee : Nat) (code : String)
    (D : List Nat) (codeCallee : String) (C : List Nat)
    (hcurrent : functionsAt functions current = some ⟨code, D⟩)
    (hcallee : Recorded ast functions callee codeCallee C) (hD : D.Nodup)
    (hfirst : CalleesFirst ast D) :
    ∃ functions' D', mergeDependencies functions current callee = some functions' ∧
      functionsAt functions' current = some ⟨code, D'⟩ ∧
      (∀ id, id ≠ current → functionsAt functions' id = functionsAt functions id) ∧
      D'.Nodup ∧ CalleesFirst ast D' ∧
      ∀ d, d ∈ D' ↔ d ∈ D ∨ d = callee ∨ Relation.TransGen (CallsIn ast) callee d := by
  obtain ⟨hat, hCnodup, hCfirst, hCmem⟩ := hcallee
  refine ⟨functionsSet functions current
    ⟨code, addDependency (C.foldl addDependency D) callee⟩,
    addDependency (C.foldl addDependency D) callee, ?_, ?_, ?_, ?_, ?_, ?_⟩
  · simp only [mergeDependencies, hcurrent, hat, Option.bind_eq_bind, Option.some_bind]
  · rw [functionsAt_set, if_pos rfl, hcurrent]
    rfl
  · intro id hid
    rw [functionsAt_set, if_neg hid]
  · exact addDependency_nodup _ _ (foldl_addDependency_nodup C D hD)
  · refine addDependency_calleesFirst ast _ callee
      (foldl_addDependency_calleesFirst ast C hCfirst D hfirst) ?_
    intro e he
    exact (foldl_addDependency_mem C D e).mpr
      (Or.inr ((hCmem e).mpr (Relation.TransGen.single he)))
  · intro d
    rw [addDependency_mem, foldl_addDependency_mem, hCmem]
    tauto

/-- The Call nodes of one function: every callee and what is recorded for it end up in
the dependencies of the function. -/
theorem foldlM_mergeDependencies (ast : List FunctionDeclaration) (current : Nat)
    (code : String) (calls : List Nat) :
    ∀ (functions : List (Nat × Function)) (D : List Nat),
      functionsAt functions current = some ⟨code, D⟩ → D.Nodup → CalleesFirst ast D →
      (∀ c ∈ calls, c ≠ current ∧ ∃ codeCallee C, Recorded ast functions c codeCallee C) →
      ∃ functions' D', calls.foldlM
          (fun functions callee => mergeDependencies functions current callee) functions =
          some functions' ∧
        functionsAt functions' current = some ⟨code, D'⟩ ∧
        (∀ id, id ≠ current → functionsAt functions' id = functionsAt functions id) ∧
        D'.Nodup ∧ CalleesFirst ast D' ∧
        ∀ d, d ∈ D' ↔ d ∈ D ∨ ∃ c ∈ calls, d = c ∨ Relation.TransGen (CallsIn ast) c d := by
  induction calls with
  | nil =>
    intro functions D hat hD hfirst _
    exact ⟨functions, D, rfl, hat, fun _ _ => rfl, hD, hfirst, by simp⟩
  | cons c rest ih =>
    intro functions D hat hD hfirst hcalls
    obtain ⟨hc, codeCallee, C, hrec⟩ := hcalls c (List.mem_cons_self _ _)
    obtain ⟨f1, D1, h1, hat1, hother1, hD1, hfirst1, hmem1⟩ :=
      mergeDependencies_spec ast functions current c code D codeCallee C hat hrec hD hfirst
    have hcalls1 : ∀ c' ∈ rest, c' ≠ current ∧
        ∃ codeCallee C, Recorded ast f1 c' codeCallee C := by
      intro c' hc'
      obtain ⟨hne, code', C', hr⟩ := hcalls c' (List.mem_cons_of_mem _ hc')
      exact ⟨hne, code', C', by rw [Recorded, hother1 c' hne]; exact hr⟩
    obtain ⟨f2, D2, h2, hat2, hother2, hD2, hfirst2, hmem2⟩ :=
      ih f1 D1 hat1 hD1 hfirst1 hcalls1
    refine ⟨f2, D2, ?_, hat2, ?_, hD2, hfirst2, ?_⟩
    · rw [List.foldlM_cons, h1]
      exact h2
    · intro id hid
      rw [hother2 id hid, hother1 id hid]
    · intro d
      rw [hmem2, hmem1]
      constructor
      · rintro ((h | h | h) | ⟨c', hc', h⟩)
        · exact Or.inl h
        · exact Or.inr ⟨c, List.mem_cons_self _ _, Or.inl h⟩
        · exact Or.inr ⟨c, List.mem_cons_self _ _, Or.inr h⟩
        · exact Or.inr ⟨c', List.mem_cons_of_mem _ hc', h⟩
      · rintro (h | ⟨c', hc', h⟩)
        · exact Or.inl (Or.inl h)
        · rcases List.mem_cons.mp hc' with rfl | hr
          · rcases h with h | h
            · exact Or.inl (Or.inr (Or.inl h))
            · exact Or.inl (Or.inr (Or.inr h))
          · exact Or.inr ⟨c', hr, h⟩

/-- Two functions of an effect with the same address are one function. -/
theorem declaration_unique (ast : List FunctionDeclaration)
    (hids : (ast.map (fun f => f.Id)).Nodup) (f g : FunctionDeclaration) (hf : f ∈ ast)
    (hg : g ∈ ast) (h : f.Id = g.Id) : f = g :=
  List.inj_on_of_nodup_map hids hf hg h

/-- The Call nodes of a function of the effect are the calls of its address. -/
theorem callsIn_iff (ast : List FunctionDeclaration)
    (hids : (ast.map (fun f => f.Id)).Nodup) (f : FunctionDeclaration) (hf : f ∈ ast)
    (c : Nat) : CallsIn ast f.Id c ↔ c ∈ f.Calls := by
  constructor
  · rintro ⟨g, hg, hid, hc⟩
    rw [← declaration_unique ast hids g f hg hf hid]
    exact hc
  · intro hc
    exact ⟨f, hf, rfl, hc⟩

/-- The loop over the functions: after the functions `done` the map holds exactly their
records, each with the text of the function and with the functions called from it
through one or more calls, all of them among `done`. -/
theorem foldlM_visitFunction (ast : List FunctionDeclaration)
    (hids : (ast.map (fun f => f.Id)).Nodup) (horder : DefinedBeforeUse ast)
    (done : List FunctionDeclaration) :
    ∀ todo, ast = done ++ todo →
      ∃ functions, done.foldlM visitFunction [] = some functions ∧
        (∀ id, id ∉ done.map (fun f => f.Id) → functionsAt functions id = none) ∧
        ∀ f ∈ done, ∃ deps, Recorded ast functions f.Id f.Code deps ∧
          ∀ d ∈ deps, d ≠ f.Id ∧ d ∈ done.map (fun f => f.Id) := by
  induction done using List.reverseRecOn with
  | nil =>
    intro todo _
    exact ⟨[], rfl, fun _ _ => rfl, fun f hf => absurd hf (List.not_mem_nil f)⟩
  | append_singleton done f ih =>
    intro todo hast
    rw [List.append_assoc, List.singleton_append] at hast
    obtain ⟨fs, hfs, hnone, hdone⟩ := ih (f :: todo) hast
    have hf : f ∈ ast := by rw [hast]; simp
    have hnew : f.Id ∉ done.map (fun f => f.Id) := by
      rw [hast, List.map_append, List.map_cons] at hids
      have := (List.nodup_append.mp hids).2.2
      intro hmem
      exact this hmem (List.mem_cons_self _ _)
    have hcalls : ∀ c ∈ f.Calls, c ∈ done.map (fun f => f.Id) := by
      intro c hc
      have hk : done.length < ast.length := by rw [hast]; simp
      have hget : ast[done.length]? = some f := by
        rw [hast, List.getElem?_append_right (Nat.le_refl _)]
        simp
      have := horder done.length hk f hget c hc
      rw [hast, List.take_left] at this
      exact this
    have hentry : functionsEntry fs f.Id = fs ++ [(f.Id, ⟨"", []⟩)] := by
      unfold functionsEntry
      rw [hnone f.Id hnew]
      rfl
    have hat1 : functionsAt (fs ++ [(f.Id, ⟨"", []⟩)]) f.Id = some ⟨"", []⟩ := by
      rw [functionsAt_append, hnone f.Id hnew, if_pos rfl]
    have hother1 : ∀ id, id ≠ f.Id →
        functionsAt (fs ++ [(f.Id, ⟨"", []⟩)]) id = functionsAt fs id := by
      intro id hid
      rw [functionsAt_append, if_neg hid]
      cases functionsAt fs id <;> rfl
    have hcallees : ∀ c ∈ f.Calls, c ≠ f.Id ∧
        ∃ codeCallee C, Recorded ast (fs ++ [(f.Id, ⟨"", []⟩)]) c codeCallee C := by
      intro c hc
      have hmem := hcalls c hc
      have hne : c ≠ f.Id := fun e => hnew (e ▸ hmem)
      obtain ⟨g, hg, hgid⟩ := List.mem_map.mp hmem
      obtain ⟨deps, hrec, -⟩ := hdone g hg
      refine ⟨hne, g.Code, deps, ?_⟩
      rw [← hgid, Recorded, hother1 g.Id (hgid ▸ hne)]
      exact hrec
    obtain ⟨f2, D, h2, hat2, hother2, hD, hfirst, hmem⟩ :=
      foldlM_mergeDependencies ast f.Id "" f.Calls _ [] hat1 List.nodup_nil
        (calleesFirst_nil ast) hcallees
    refine ⟨functionsSet f2 f.Id ⟨"" ++ f.Code, D⟩, ?_, ?_, ?_⟩
    · rw [List.foldlM_append, hfs]
      simp only [Option.bind_eq_bind, Option.some_bind, List.foldlM_cons, List.foldlM_nil,
        visitFunction, hentry, h2, hat2]
      rfl
    · intro id hid
      rw [List.map_append, List.mem_append, not_or] at hid
      have hne : id ≠ f.Id := fun e => hid.2 (by simp [e])
      rw [functionsAt_set, if_neg hne, hother2 id hne, hother1 id hne]
      exact hnone id hid.1
    · intro g hg
      rcases List.mem_append.mp hg with hg | hg
      · obtain ⟨deps, hrec, hdeps⟩ := hdone g hg
        have hne : g.Id ≠ f.Id := fun e => hnew (e ▸ List.mem_map_of_mem _ hg)
        refine ⟨deps, ?_, ?_⟩
        · rw [Recorded, functionsAt_set, if_neg hne, hother2 g.Id hne, hother1 g.Id hne]
          exact hrec
        · intro d hd
          exact ⟨(hdeps d hd).1, by
            rw [List.map_append, List.mem_append]
            exact Or.inl (hdeps d hd).2⟩
      · rw [List.mem_singleton] at hg
        subst hg
        have hreach : ∀ d, d ∈ D ↔ Relation.TransGen (CallsIn ast) g.Id d := by
          intro d
          rw [hmem, Relation.TransGen.head'_iff]
          constructor
          · rintro (h | ⟨c, hc, h⟩)
            · exact absurd h (List.not_mem_nil d)
            · refine ⟨c, (callsIn_iff ast hids g hf c).mpr hc, ?_⟩
              rcases h with rfl | h
              · exact Relation.ReflTransGen.refl
              · exact h.to_reflTransGen
          · rintro ⟨c, hc, h⟩
            refine Or.inr ⟨c, (callsIn_iff ast hids g hf c).mp hc, ?_⟩
            rcases Relation.reflTransGen_iff_eq_or_transGen.mp h with h | h
            · exact Or.inl h
            · exact Or.inr h
        have hinside : ∀ d ∈ D, d ∈ done.map (fun f => f.Id) := by
          intro d hd
          rcases (hmem d).mp hd with h | ⟨c, hc, h⟩
          · exact absurd h (List.not_mem_nil d)
          · rcases h with rfl | h
            · exact hcalls d hc
            · obtain ⟨c', hc', hcid⟩ := List.mem_map.mp (hcalls c hc)
              obtain ⟨deps, hrec, hdeps⟩ := hdone c' hc'
              rw [← hcid] at h
              exact (hdeps d ((hrec.2.2.2 d).mpr h)).2
        refine ⟨D, ⟨?_, hD, hfirst, hreach⟩, ?_⟩
        · rw [functionsAt_set, if_pos rfl, hat2]
          simp
        · intro d hd
          have := hinside d hd
          exact ⟨fun e => hnew (e ▸ this), by
            rw [List.map_append, List.mem_append]
            exact Or.inl this⟩

/-- The text of a function of the effect is found under its address. -/
theorem codeOf_declaration (ast : List FunctionDeclaration)
    (hids : (ast.map (fun f => f.Id)).Nodup) (f : FunctionDeclaration) (hf : f ∈ ast) :
    codeOf ast f.Id = f.Code := by
  unfold codeOf
  cases h : ast.find? (fun g => g.Id == f.Id) with
  | none =>
    have := List.find?_eq_none.mp h f hf
    simp at this
  | some g =>
    have hg : g ∈ ast := List.mem_of_find?_eq_some h
    have hid : g.Id = f.Id := by simpa using List.find?_some h
    rw [declaration_unique ast hids g f hg hf hid]
    rfl

/-- The loop of `VisitTechniquePassShader` over the dependencies appends their texts in
the order of the vector. -/
theorem foldlM_dependencies (functions : List (Nat × Function)) (codes : Nat → String)
    (deps : List Nat) :
    (∀ d ∈ deps, ∃ record, functionsAt functions d = some record ∧
      record.SourceCode = codes d) →
    ∀ source : String,
      deps.foldlM (fun source dependency =>
        (functionsAt functions dependency).map (fun f => source ++ f.SourceCode)) source =
        some (source ++ String.join (deps.map codes)) := by
  induction deps with
  | nil =>
    intro _ source
    simp [String.join]
  | cons d rest ih =>
    intro h source
    obtain ⟨record, hat, hcode⟩ := h d (List.mem_cons_self _ _)
    simp only [List.foldlM_cons, hat, Option.map_some', Option.bind_eq_bind, Option.some_bind]
    rw [ih (fun d' hd' => h d' (List.mem_cons_of_mem _ hd')), List.map_cons, String_join_cons,
      hcode, String.append_assoc]

/-- The start of the stage source of an entry point is the text in front of the
functions, the texts of its dependencies in the order of the vector, and its own text. -/
theorem shaderSourceHead_functions (texts : CompilerTexts) (node : FunctionNode)
    (shadertype : Nat) (code : String) (deps : List Nat) (codes : Nat → String)
    (hnode : functionsAt texts._functions node.Id = some ⟨code, deps⟩)
    (hcode : codes node.Id = code)
    (hdeps : ∀ d ∈ deps, ∃ record, functionsAt texts._functions d = some record ∧
      record.SourceCode = codes d) :
    shaderSourceHead texts node shadertype =
      some (shaderSourceStart texts shadertype ++
        String.join ((deps ++ [node.Id]).map codes)) := by
  have hjoin : String.join ((deps ++ [node.Id]).map codes) =
      String.join (deps.map codes) ++ code := by
    rw [List.map_append, List.map_singleton, hcode]
    induction deps.map codes with
    | nil => simp [String.join]
    | cons x rest ih => rw [List.cons_append, String_join_cons, String_join_cons, ih,
        String.append_assoc]
  unfold shaderSourceHead shaderSourceStart
  simp only [Option.bind_eq_bind, hnode, Option.some_bind,
    foldlM_dependencies texts._functions codes deps hdeps, hjoin, String.append_assoc]

/-- The functions with their dependencies: what the loop of `Compile` over the functions
leaves in `_functions`, for an effect in which every function is declared once and each
called function is defined before its callers. -/
theorem visitFunctions_recorded (ast : List FunctionDeclaration)
    (hids : (ast.map (fun f => f.Id)).Nodup) (horder : DefinedBeforeUse ast) :
    ∃ functions, visitFunctions ast = some functions ∧
      ∀ f ∈ ast, ∃ deps, Recorded ast functions f.Id f.Code deps ∧ f.Id ∉ deps ∧
        ∀ (globalCode globalUniforms : String) (node : FunctionNode) (shadertype : Nat),
          node.Id = f.Id →
          shaderSourceHead ⟨globalCode, globalUniforms, functions⟩ node shadertype =
            some (shaderSourceStart ⟨globalCode, globalUniforms, functions⟩ shadertype ++
              String.join ((deps ++ [f.Id]).map (codeOf ast))) := by
  obtain ⟨functions, hrun, -, hdone⟩ := foldlM_visitFunction ast hids horder ast []
    (List.append_nil ast).symm
  refine ⟨functions, hrun, ?_⟩
  intro f hf
  obtain ⟨deps, hrec, hdeps⟩ := hdone f hf
  refine ⟨deps, hrec, fun h => (hdeps f.Id h).1 rfl, ?_⟩
  intro globalCode globalUniforms node shadertype hnode
  rw [← hnode]
  refine shaderSourceHead_functions _ node shadertype f.Code deps (codeOf ast) ?_ ?_ ?_
  · rw [hnode]
    exact hrec.1
  · rw [hnode]
    exact codeOf_declaration ast hids f hf
  · intro d hd
    obtain ⟨g, hg, hgid⟩ := List.mem_map.mp (hdeps d hd).2
    obtain ⟨depsg, hrecg, -⟩ := hdone g hg
    refine ⟨⟨g.Code, depsg⟩, ?_, ?_⟩
    · rw [← hgid]
      exact hrecg.1
    · rw [← hgid]
      exact (codeOf_declaration ast hids g hg).symm

/-- Claim C31.  For an effect in which every function is declared once and each called
function is defined before its callers, the loop of `Compile` over the functions goes
through, and for every function `f` of the effect the stage source that
`VisitTechniquePassShader` assembles for the entry point `f` starts with the text in
front of the functions followed by the texts of the functions of the list `deps ++ [f]`,
where `deps` are the recorded dependencies of `f`: this list has no duplicates, and a
function is in it if and only if it is `f` or is reached from `f` through calls. -/
theorem visitFunctions_closure (ast : List FunctionDeclaration)
    (hids : (ast.map (fun f => f.Id)).Nodup) (horder : DefinedBeforeUse ast) :
    ∃ functions, visitFunctions ast = some functions ∧
      ∀ f ∈ ast, ∃ deps, functionsAt functions f.Id = some ⟨f.Code, deps⟩ ∧
        (deps ++ [f.Id]).Nodup ∧
        (∀ g, g ∈ deps ++ [f.Id] ↔ Relation.ReflTransGen (CallsIn ast) f.Id g) ∧
        ∀ (globalCode globalUniforms : String) (node : FunctionNode) (shadertype : Nat),
          node.Id = f.Id →
          shaderSourceHead ⟨globalCode, globalUniforms, functions⟩ node shadertype =
            some (shaderSourceStart ⟨globalCode, globalUniforms, functions⟩ shadertype ++
              String.join ((deps ++ [f.Id]).map (codeOf ast))) := by
  obtain ⟨functions, hrun, h⟩ := visitFunctions_recorded ast hids horder
  refine ⟨functions, hrun, ?_⟩
  intro f hf
  obtain ⟨deps, hrec, hself, hsource⟩ := h f hf
  refine ⟨deps, hrec.1, ?_, ?_, hsource⟩
  · exact List.Nodup.append hrec.2.1 (List.nodup_singleton _) (by simpa using hself)
  · intro g
    rw [List.mem_append, List.mem_singleton, hrec.2.2.2 g,
      Relation.reflTransGen_iff_eq_or_transGen]
    exact Or.comm

/-- Claim C31 on an effect of five functions: the entry point `d`, which calls `c` and
`b`, gets the functions `a`, `c`, `b` and itself, and not `e`. -/
theorem visitFunctions_closure_witness :
    (visitFunctions functionsExample).map
        (fun functions => functions.map (fun it => (it.1, it.2.FunctionDependencies))) =
      some [(1, []), (2, [1]), (3, [1]), (4, [1, 3, 2]), (5, [1, 2])] ∧
    ∃ functions, visitFunctions functionsExample = some functions ∧
      ∀ f ∈ functionsExample, ∃ deps, functionsAt functions f.Id = some ⟨f.Code, deps⟩ ∧
        (deps ++ [f.Id]).Nodup ∧
        (∀ g, g ∈ deps ++ [f.Id] ↔
          Relation.ReflTransGen (CallsIn functionsExample) f.Id g) ∧
        ∀ (globalCode globalUniforms : String) (node : FunctionNode) (shadertype : Nat),
          node.Id = f.Id →
          shaderSourceHead ⟨globalCode, globalUniforms, functions⟩ node shadertype =
            some (shaderSourceStart ⟨globalCode, globalUniforms, functions⟩ shadertype ++
              String.join ((deps ++ [f.Id]).map (codeOf functionsExample))) :=
  ⟨by decide, visitFunctions_closure functionsExample (by decide) (by decide)⟩

/-- A list with every callee first and one more entry at its end, whose callees are in
the list. -/
theorem calleesFirst_entry (ast : List FunctionDeclaration) (deps : List Nat) (id : Nat)
    (h : CalleesFirst ast deps) (hmem : ∀ d, d ∈ deps ↔ Relation.TransGen (CallsIn ast) id d) :
    CalleesFirst ast (deps ++ [id]) :=
  (calleesFirst_concat ast deps id).mpr
    ⟨h, fun e he => (hmem e).mpr (Relation.TransGen.single he)⟩

/-- Claim C38.  For an effect in which every function is declared once and each called
function is defined before its callers, the dependency list recorded for every function
`f` has no duplicates and has every callee before its callers, and so has the list
`deps ++ [f]`, with the entry point last, in whose order `VisitTechniquePassShader` puts
the texts of the functions into the stage source of the entry point `f`: the text of
every included function stands behind the texts of the functions it calls. -/
theorem visitFunctions_callees_first (ast : List FunctionDeclaration)
    (hids : (ast.map (fun f => f.Id)).Nodup) (horder : DefinedBeforeUse ast) :
    ∃ functions, visitFunctions ast = some functions ∧
      ∀ f ∈ ast, ∃ deps, functionsAt functions f.Id = some ⟨f.Code, deps⟩ ∧
        deps.Nodup ∧ CalleesFirst ast deps ∧
        (deps ++ [f.Id]).Nodup ∧ CalleesFirst ast (deps ++ [f.Id]) ∧
        ∀ (globalCode globalUniforms : String) (node : FunctionNode) (shadertype : Nat),
          node.Id = f.Id →
          shaderSourceHead ⟨globalCode, globalUniforms, functions⟩ node shadertype =
            some (shaderSourceStart ⟨globalCode, globalUniforms, functions⟩ shadertype ++
              String.join ((deps ++ [f.Id]).map (codeOf ast))) := by
  obtain ⟨functions, hrun, h⟩ := visitFunctions_recorded ast hids horder
  refine ⟨functions, hrun, ?_⟩
  intro f hf
  obtain ⟨deps, hrec, hself, hsource⟩ := h f hf
  exact ⟨deps, hrec.1, hrec.2.1, hrec.2.2.1,
    List.Nodup.append hrec.2.1 (List.nodup_singleton _) (by simpa using hself),
    calleesFirst_entry ast deps f.Id hrec.2.2.1 hrec.2.2.2, hsource⟩

/-- Claim C38 on an effect of five functions: the dependencies of `d`, which calls `c`
and then `b`, are `a`, `c`, `b` in this order, and the stage source of the entry point
`d` holds the texts `A`, `C`, `B`, `D` in this order. -/
theorem visitFunctions_callees_first_witness :
    (visitFunctions functionsExample).bind (fun functions => functionsAt functions 4) =
      some ⟨"D", [1, 3, 2]⟩ ∧
    String.join (([1, 3, 2] ++ [4]).map (codeOf functionsExample)) = "ACBD" ∧
    ∃ functions, visitFunctions functionsExample = some functions ∧
      ∀ f ∈ functionsExample, ∃ deps, functionsAt functions f.Id = some ⟨f.Code, deps⟩ ∧
        deps.Nodup ∧ CalleesFirst functionsExample deps ∧
        (deps ++ [f.Id]).Nodup ∧ CalleesFirst functionsExample (deps ++ [f.Id]) ∧
        ∀ (globalCode globalUniforms : String) (node : FunctionNode) (shadertype : Nat),
          node.Id = f.Id →
          shaderSourceHead ⟨globalCode, globalUniforms, functions⟩ node shadertype =
            some (shaderSourceStart ⟨globalCode, globalUniforms, functions⟩ shadertype ++
              String.join ((deps ++ [f.Id]).map (codeOf functionsExample))) :=
  ⟨by decide, by decide,
    visitFunctions_callees_first functionsExample (by decide) (by decide)⟩

end ReShade

namespace ReShade

/-! ## Name lowering: escaped runs -/

/-- Two more underscores in a run are one more `_US` in its escape. -/
theorem specEscapeRun_add_two (k : Nat) :
    specEscapeRun (k + 2) = ['_', 'U', 'S'] ++ specEscapeRun k := by
  unfold specEscapeRun
  rw [Nat.add_div_right k (by decide), Nat.add_mod_right, List.replicate_succ, List.flatten_cons,
    List.append_assoc]

/-- Two more underscores in front are one more `_US` in front of the escaped text. -/
theorem specEscapeFrom_add_two (l : List Char) :
    ∀ k, specEscapeFrom (k + 2) l = ['_', 'U', 'S'] ++ specEscapeFrom k l := by
  induction l with
  | nil => intro k; exact specEscapeRun_add_two k
  | cons c rest ih =>
    intro k
    simp only [specEscapeFrom]
    split_ifs with hc
    · exact ih (k + 1)
    · rw [specEscapeRun_add_two, List.append_assoc]

/-- The replacement of `__` by `_US`, scanning from the left, escapes every maximal run
of underscores, also behind one underscore. -/
theorem replaceAllChars_specEscape (l : List Char) :
    replaceAllChars '_' '_' "_US".data l = specEscapeFrom 0 l ∧
    replaceAllChars '_' '_' "_US".data ('_' :: l) = specEscapeFrom 1 l := by
  induction l with
  | nil => exact ⟨rfl, rfl⟩
  | cons c rest ih =>
    by_cases hc : c = '_'
    · subst hc
      refine ⟨?_, ?_⟩
      · rw [ih.2]; simp only [specEscapeFrom, if_true]
      · rw [replaceAllChars, if_pos ⟨rfl, rfl⟩, ih.1]
        simp only [specEscapeFrom, if_true]
        rw [specEscapeFrom_add_two]
    · have h0 : replaceAllChars '_' '_' "_US".data (c :: rest) = c :: specEscapeFrom 0 rest := by
        rw [replaceAllChars_cons c rest hc, ih.1]
      refine ⟨?_, ?_⟩
      · rw [h0]; simp only [specEscapeFrom, if_neg hc]; rfl
      · rw [replaceAllChars, if_neg (fun h => hc h.2), h0]
        simp only [specEscapeFrom, if_neg hc]
        rfl

/-- Claim C24.  For every name and an empty namespace, the text returned by `FixName` is
the name with every double-underscore sequence escaped: every maximal run of `k`
underscores of the name is replaced by `k / 2` copies of `_US` and, for an odd `k`, one
underscore, every other character is kept, and the escape prefix `_` stands in front
for a name that starts with `gl_` or is a word of the deny list; and this text contains
no two consecutive underscores, also not at the junction with the escape prefix. -/
theorem FixName_escapes_double_underscores (name : String) :
    (FixName name "").data =
      (if "gl_".data.isPrefixOf name.data || decide (name ∈ denyList) then ['_'] else []) ++
        specEscape name.data ∧
    ¬ "__".data <:+: (FixName name "").data := by
  refine ⟨?_, FixName_no_double_underscore name⟩
  unfold FixName specEscape
  simp only [replace_all_copy_empty]
  rw [← (replaceAllChars_specEscape name.data).1]
  split_ifs with hesc
  · show (("" ++ "_") ++ replace_all_copy name '_' '_' "_US").data = _
    rw [String.data_append]
    rfl
  · show ("" ++ replace_all_copy name '_' '_' "_US").data = _
    rw [String.data_append]
    rfl

/-- Examples for C24: runs of two, three, four and five underscores, a run at the end of
the name, and a name with the escape prefix in front of an underscore that follows `gl`. -/
theorem FixName_escapes_double_underscores_witness :
    FixName "a__b" "" = "a_USb" ∧ FixName "a___b" "" = "a_US_b" ∧
    FixName "a____b" "" = "a_US_USb" ∧ FixName "_____" "" = "_US_US_" ∧
    FixName "a_b__" "" = "a_b_US" ∧ FixName "gl___x" "" = "_gl_US_x" ∧
    specEscape "a___b".data = "a_US_b".data ∧
    (FixName "gl___x" "").data = ['_'] ++ specEscape "gl___x".data :=
  ⟨by decide, by decide, by decide, by decide, by decide, by decide, by decide,
   (FixName_escapes_double_underscores "gl___x").1⟩

end ReShade
